import Mathlib

/-!
# pubsub_actors: publish/subscribe dispatcher over a circular byte queue

Shallow embedding of `circular_queue.c` and `pubsub.cpp`.

Conventions of the embedding
* bytes, pointers-as-offsets, sizes and flags are natural numbers;
* `size_t` is 64 bit wide and little-endian, so the element header
  `CQ_ELEM_HEADER_S` occupies 8 bytes of the ring buffer;
* the static globals of `pubsub.cpp` are the fields of `PsState`, and every
  API function takes the state and returns the new one;
* actor callbacks are opaque to the dispatcher: `ps_loop` records each
  invocation as an `ActorCall` and threads the state through a caller-supplied
  behaviour of the callbacks;
* an array index outside its array is undefined behaviour in C; the embedding
  reads a zeroed element there and ignores the write.
-/

namespace PubSub

/-! ## Constants of `pubsub.h` and of the target -/

abbrev PS_MAX_TOPICS_COUNT : Nat := 3
abbrev PS_MAX_ACTORS_COUNT : Nat := 3
abbrev PS_MAX_TOPIC_PATH_STR_LENGTH : Nat := 64
abbrev PS_MAX_TOPIC_INFO_STR_LENGTH : Nat := 64
abbrev PS_MAX_MESSAGE_PAYLOAD_LENGTH : Nat := 64

/-- Size of `msg_queue_buf` in `pubsub.cpp`. -/
abbrev MSG_QUEUE_BUF_SIZE : Nat := 1024

/-- Number of values of `size_t` (64-bit target). -/
abbrev SIZE_T_MOD : Nat := 18446744073709551616

/-- The `sizeof(CQ_ELEM_HEADER_S)`: one `size_t`. -/
abbrev SIZEOF_CQ_ELEM_HEADER : Nat := 8

/-- The `sizeof(PsMsgStructHdr_s)`: two `uint16_t`. -/
abbrev SIZEOF_PS_MSG_HDR : Nat := 4

/-- An actor is identified by the address of its callback. -/
abbrev actor_f := Nat

/-- The null pointer. -/
abbrev NULL : actor_f := 0

/-- Type of the data carried by a message (`PsDataType_e`). -/
inductive PsDataType_e where
  | PS_DTYPE_NONE
  | PS_DTYPE_U8
  | PS_DTYPE_I8
  | PS_DTYPE_U16
  | PS_DTYPE_I16
  | PS_DTYPE_U32
  | PS_DTYPE_I32
  | PS_DTYPE_U64
  | PS_DTYPE_I64
  | PS_DTYPE_TIMESTAMP
  | PS_DTYPE_BYTEARRAY
  | PS_DTYPE_STR
  | PS_DTYPE_BOOL
  | PS_DTYPE_COUNT
  deriving DecidableEq, Repr

/-- Numeric value of a `PsDataType_e` enumerator. -/
def PsDataType_e.toNat : PsDataType_e → Nat
  | .PS_DTYPE_NONE => 0
  | .PS_DTYPE_U8 => 1
  | .PS_DTYPE_I8 => 2
  | .PS_DTYPE_U16 => 3
  | .PS_DTYPE_I16 => 4
  | .PS_DTYPE_U32 => 5
  | .PS_DTYPE_I32 => 6
  | .PS_DTYPE_U64 => 7
  | .PS_DTYPE_I64 => 8
  | .PS_DTYPE_TIMESTAMP => 9
  | .PS_DTYPE_BYTEARRAY => 10
  | .PS_DTYPE_STR => 11
  | .PS_DTYPE_BOOL => 12
  | .PS_DTYPE_COUNT => 13

/-- Result codes (`PsResultType_e`). -/
inductive PsResultType_e where
  | PS_RESULT_REDEF_CONFLICT
  | PS_RESULT_OUT_OF_MEM
  | PS_RESULT_DUPLICATED
  | PS_RESULT_NOT_FOUND
  | PS_RESULT_ERROR
  | PS_RESULT_OK
  | PS_RESULT_APPENDED
  | PS_RESULT_CREATED
  deriving DecidableEq, Repr

open PsDataType_e PsResultType_e

/-! ## Bytes, integers in memory, C strings -/

/-- Little-endian image of `n` in `k` bytes. -/
def leBytes : Nat → Nat → List Nat
  | 0, _ => []
  | k + 1, n => n % 256 :: leBytes k (n / 256)

/-- Value of a little-endian byte sequence. -/
def leDecode : List Nat → Nat
  | [] => 0
  | b :: bs => b + 256 * leDecode bs

/-- The `n` bytes of caller memory that start at a pointer whose pointee is `mem`. -/
def memBytes (mem : Nat → Nat) (n : Nat) : List Nat :=
  (List.range n).map mem

/-- The `n` bytes read through a pointer to an object whose bytes are `obj`; bytes past
the end of the object are read as zero. -/
def memRead (obj : List Nat) (n : Nat) : List Nat :=
  (List.range n).map (fun i => obj.getD i 0)

/-- The characters of a C string: everything before the first NUL. -/
def cstr (s : List Nat) : List Nat :=
  s.takeWhile (fun c => c != 0)

/-- Image of `strncpy(dst, src, n)` in `dst`: at most `n` characters, NUL padded. -/
def strncpy (src : List Nat) (n : Nat) : List Nat :=
  (cstr src).take n ++ List.replicate (n - ((cstr src).take n).length) 0

/-- Whether `strncmp(a, b, n)` is `0`. -/
def strncmp_eq (a b : List Nat) (n : Nat) : Bool :=
  (cstr a).take n == (cstr b).take n

/-- Conversion of an `int` to `int16_t`. -/
def int16_cast (x : Int) : Int :=
  (x + 32768) % 65536 - 32768

/-! ## circular_queue.c -/

/-- The queue entity `CQ_S` together with the bytes of its buffer. Pointers are
offsets from the start of the buffer. -/
structure CQ_S where
  buf : List Nat
  pDataBegin : Nat
  pDataEnd : Nat
  totalSize : Nat
  pRear : Nat
  pFront : Nat
  freeSize : Nat
  count : Int
  deriving DecidableEq, Repr

/-- The zero-initialised `CQ_S` of program start. -/
def CQ_S.zero : CQ_S :=
  { buf := [], pDataBegin := 0, pDataEnd := 0, totalSize := 0, pRear := 0, pFront := 0,
    freeSize := 0, count := 0 }

/-- Model of `cq_flush`. -/
def cq_flush (q : CQ_S) : CQ_S :=
  { q with pRear := q.pDataBegin, pFront := q.pDataBegin, count := 0, freeSize := q.totalSize }

/-- Model of `cq_init` on a buffer with contents `qBuffer`. -/
def cq_init (q : CQ_S) (qBuffer : List Nat) (qBufferSize : Nat) : CQ_S :=
  cq_flush { q with buf := qBuffer, pDataBegin := 0, pDataEnd := 0 + qBufferSize,
                    totalSize := qBufferSize }

/-- Model of `cq_hasSpace`. -/
def cq_hasSpace (q : CQ_S) (elementSize : Nat) : Bool :=
  decide (q.freeSize ≥ (elementSize + SIZEOF_CQ_ELEM_HEADER) % SIZE_T_MOD)

/-- Model of `cq_wrappedCopyToBuff`: the loop runs once per source byte. -/
def cq_wrappedCopyToBuff (q : CQ_S) (pStart : Nat) : List Nat → CQ_S × Nat
  | [] => (q, pStart)
  | b :: bs =>
    let q1 := { q with buf := q.buf.set pStart b }
    let p1 := pStart + 1
    let p2 := if p1 ≥ q.pDataEnd then q.pDataBegin else p1
    cq_wrappedCopyToBuff q1 p2 bs

/-- Model of `cq_wrappedCopyFromBuff`: the bytes copied out and the next pointer. -/
def cq_wrappedCopyFromBuff (q : CQ_S) (pStart : Nat) : Nat → List Nat × Nat
  | 0 => ([], pStart)
  | n + 1 =>
    let b := q.buf.getD pStart 0
    let p1 := pStart + 1
    let p2 := if p1 ≥ q.pDataEnd then q.pDataBegin else p1
    let r := cq_wrappedCopyFromBuff q p2 n
    (b :: r.1, r.2)

/-- Model of `cq_addTailElement`; `pNewElement` holds the bytes of the object the pointer
refers to. -/
def cq_addTailElement (q : CQ_S) (pNewElement : List Nat) (elementSize : Nat) : Bool × CQ_S :=
  if elementSize = 0 then (false, q)
  else if !cq_hasSpace q elementSize then (false, q)
  else
    let header := leBytes SIZEOF_CQ_ELEM_HEADER elementSize
    let r1 := cq_wrappedCopyToBuff q q.pRear header
    let r2 := cq_wrappedCopyToBuff r1.1 r1.2 (memRead pNewElement elementSize)
    let q2 := { r2.1 with pRear := r2.2 }
    let q3 := { q2 with count := q2.count + 1 }
    (true, { q3 with freeSize :=
      (q3.freeSize + SIZE_T_MOD - (elementSize + SIZEOF_CQ_ELEM_HEADER) % SIZE_T_MOD) % SIZE_T_MOD })

/-- Model of `cq_getFrontElement`: the returned length and the bytes written to `pDest`. -/
def cq_getFrontElement (q : CQ_S) (destMaxSize : Nat) : Nat × List Nat :=
  if q.count > 0 then
    let r1 := cq_wrappedCopyFromBuff q q.pFront SIZEOF_CQ_ELEM_HEADER
    let size := leDecode r1.1
    let bytesToRead := if destMaxSize < size then destMaxSize else size
    let r2 := cq_wrappedCopyFromBuff q r1.2 bytesToRead
    (bytesToRead, r2.1)
  else (0, [])

/-- Model of `cq_deleteFrontElement`. -/
def cq_deleteFrontElement (q : CQ_S) : Nat × CQ_S :=
  if q.count > 0 then
    let r1 := cq_wrappedCopyFromBuff q q.pFront SIZEOF_CQ_ELEM_HEADER
    let size := leDecode r1.1
    let pvTemp := q.pFront + size + SIZEOF_CQ_ELEM_HEADER
    let pvTemp := if pvTemp ≥ q.pDataEnd then pvTemp - q.totalSize else pvTemp
    let q1 := { q with pFront := pvTemp }
    let q2 := { q1 with count := q1.count - 1 }
    (size, { q2 with freeSize := (q2.freeSize + (size + SIZEOF_CQ_ELEM_HEADER) % SIZE_T_MOD) % SIZE_T_MOD })
  else (0, q)

/-- Model of `cq_count`. -/
def cq_count (q : CQ_S) : Int :=
  q.count

/-! ## pubsub.cpp: data -/

/-- The message structure `PsMsgStruct_s`: header fields and payload area. -/
structure PsMsgStruct_s where
  xTopicHash : Nat
  xMsgLen : Nat
  pu8Data : List Nat
  deriving DecidableEq, Repr

/-- The topic structure `PsTopicStruct_s`. -/
structure PsTopicStruct_s where
  u16Hash : Nat
  xDtype : PsDataType_e
  u8Sticky_flag : Nat
  pu8TopicPathStr : List Nat
  pu8TopicInfoStr : List Nat
  pxSubscribers : List actor_f
  pxPublishers : List actor_f
  u8PublishersMute : List Nat
  xLastMsg : PsMsgStruct_s
  deriving DecidableEq, Repr

/-- The timer structure `PsTimerStruct_s`. -/
structure PsTimerStruct_s where
  u16Hash : Nat
  xCreatorPublisher : actor_f
  duration_ms : Int
  time_left_ms : Int
  periodic_flag : Nat
  deriving DecidableEq, Repr

/-- A zeroed `PsMsgStruct_s`. -/
def PsMsgStruct_s.zero : PsMsgStruct_s :=
  { xTopicHash := 0, xMsgLen := 0, pu8Data := List.replicate PS_MAX_MESSAGE_PAYLOAD_LENGTH 0 }

/-- A zeroed topic slot, as left by `memset`. -/
def PsTopicStruct_s.zero : PsTopicStruct_s :=
  { u16Hash := 0, xDtype := PS_DTYPE_NONE, u8Sticky_flag := 0,
    pu8TopicPathStr := List.replicate PS_MAX_TOPIC_PATH_STR_LENGTH 0,
    pu8TopicInfoStr := List.replicate PS_MAX_TOPIC_INFO_STR_LENGTH 0,
    pxSubscribers := List.replicate PS_MAX_ACTORS_COUNT NULL,
    pxPublishers := List.replicate PS_MAX_ACTORS_COUNT NULL,
    u8PublishersMute := List.replicate PS_MAX_ACTORS_COUNT 0,
    xLastMsg := PsMsgStruct_s.zero }

/-- A zeroed timer slot. -/
def PsTimerStruct_s.zero : PsTimerStruct_s :=
  { u16Hash := 0, xCreatorPublisher := NULL, duration_ms := 0, time_left_ms := 0,
    periodic_flag := 0 }

/-- The static variables of `pubsub.cpp`; the bytes of `msg_queue_buf` are the `buf`
of `msg_queue`. -/
structure PsState where
  TopicsArray : List PsTopicStruct_s
  TimersArray : List PsTimerStruct_s
  msg_queue : CQ_S
  xTopic_tpc_cnhg : Nat
  u8Topic_tpc_cnhg_present_flag : Nat
  deriving DecidableEq, Repr

/-- The statics at program start: everything zero-initialised. -/
def PsState.static_zero : PsState :=
  { TopicsArray := List.replicate PS_MAX_TOPICS_COUNT PsTopicStruct_s.zero,
    TimersArray := List.replicate PS_MAX_TOPICS_COUNT PsTimerStruct_s.zero,
    msg_queue := { CQ_S.zero with buf := List.replicate MSG_QUEUE_BUF_SIZE 0 },
    xTopic_tpc_cnhg := 0,
    u8Topic_tpc_cnhg_present_flag := 0 }

/-- Read `TopicsArray[i]`. -/
def PsState.topic (s : PsState) (i : Nat) : PsTopicStruct_s :=
  s.TopicsArray.getD i PsTopicStruct_s.zero

/-- Write `TopicsArray[i]`. -/
def PsState.setTopic (s : PsState) (i : Nat) (t : PsTopicStruct_s) : PsState :=
  { s with TopicsArray := s.TopicsArray.set i t }

/-- The bytes of a `PsMsgStruct_s` object: the two header fields, then the payload
area. -/
def PsMsgStruct_s.bytes (m : PsMsgStruct_s) : List Nat :=
  leBytes 2 m.xTopicHash ++ leBytes 2 m.xMsgLen ++ m.pu8Data

/-- The `PsMsgStruct_s` object whose leading bytes were overwritten by `bs`, starting
from the object image `old`. -/
def PsMsgStruct_s.ofBytes (old : PsMsgStruct_s) (bs : List Nat) : PsMsgStruct_s :=
  let img := bs ++ old.bytes.drop bs.length
  { xTopicHash := leDecode (img.take 2),
    xMsgLen := leDecode ((img.drop 2).take 2),
    pu8Data := (img.drop SIZEOF_PS_MSG_HDR).take PS_MAX_MESSAGE_PAYLOAD_LENGTH }

/-- One invocation of an actor callback: the callee and the four arguments, the
message pointer being represented by the payload area it points to. -/
structure ActorCall where
  actor : actor_f
  xTopicHash : Nat
  pvMsg : List Nat
  xMsgLendth : Nat
  xMsgDataType : PsDataType_e
  deriving DecidableEq, Repr

/-! ## pubsub.cpp: functions -/

/-- Model of `ps_init`. The queue is re-initialised over `msg_queue_buf` and the topic
table is zeroed; the timer table is left as it is. -/
def ps_init (s : PsState) : PsResultType_e × PsState :=
  (PS_RESULT_OK,
    { s with msg_queue := cq_init s.msg_queue s.msg_queue.buf MSG_QUEUE_BUF_SIZE,
             TopicsArray := List.replicate PS_MAX_TOPICS_COUNT PsTopicStruct_s.zero })

/-- Loop of `ps_find_topic` over the remaining slot indices. With a path the first
occupied slot holding it is found, with a null path the first free slot. -/
def ps_find_topic_loop (topics : List PsTopicStruct_s) (pu8TopicPathStr : Option (List Nat))
    (hash0 : Nat) : List Nat → PsResultType_e × Nat
  | [] => (PS_RESULT_NOT_FOUND, hash0)
  | i :: rest =>
    let t := topics.getD i PsTopicStruct_s.zero
    match pu8TopicPathStr with
    | some path =>
      if t.pu8TopicPathStr.headD 0 = 0 then
        ps_find_topic_loop topics pu8TopicPathStr hash0 rest
      else if strncmp_eq t.pu8TopicPathStr path PS_MAX_TOPIC_PATH_STR_LENGTH then
        (PS_RESULT_OK, i)
      else ps_find_topic_loop topics pu8TopicPathStr hash0 rest
    | none =>
      if t.pu8TopicPathStr.headD 0 = 0 then (PS_RESULT_OK, i)
      else ps_find_topic_loop topics pu8TopicPathStr hash0 rest

/-- Model of `ps_find_topic`; `hash0` is the previous content of `*pxTopicHash`. -/
def ps_find_topic (s : PsState) (pu8TopicPathStr : Option (List Nat)) (hash0 : Nat) :
    PsResultType_e × Nat :=
  ps_find_topic_loop s.TopicsArray pu8TopicPathStr hash0 (List.range PS_MAX_TOPICS_COUNT)

/-- Model of `ps_is_all_zero` on an array of pointers. -/
def ps_is_all_zero : List Nat → Nat
  | [] => 1
  | a :: rest => if a ≠ 0 then 0 else ps_is_all_zero rest

/-- Loop of `ps_find_actor` over the remaining slot indices. -/
def ps_find_actor_loop (pxActors : List actor_f) (pxActorHandler : actor_f) (idx0 : Nat) :
    List Nat → PsResultType_e × Nat
  | [] => (PS_RESULT_NOT_FOUND, idx0)
  | i :: rest =>
    if pxActorHandler = pxActors.getD i NULL then (PS_RESULT_OK, i)
    else ps_find_actor_loop pxActors pxActorHandler idx0 rest

/-- Model of `ps_find_actor`; `idx0` is the previous content of `*pxActorIdx`. -/
def ps_find_actor (pxActors : List actor_f) (pxActorHandler : actor_f) (idx0 : Nat) :
    PsResultType_e × Nat :=
  ps_find_actor_loop pxActors pxActorHandler idx0 (List.range PS_MAX_ACTORS_COUNT)

/-- Model of `ps_register_actor`: result, the actor array afterwards, and the index
found. -/
def ps_register_actor (pxActors : List actor_f) (pxActorHandler : actor_f) :
    PsResultType_e × List actor_f × Nat :=
  let r1 := ps_find_actor pxActors pxActorHandler 0
  if r1.1 = PS_RESULT_OK then (PS_RESULT_DUPLICATED, pxActors, r1.2)
  else
    let r2 := ps_find_actor pxActors NULL r1.2
    if r2.1 = PS_RESULT_OK then (PS_RESULT_OK, pxActors.set r2.2 pxActorHandler, r2.2)
    else (PS_RESULT_ERROR, pxActors, r2.2)

/-- The condition `NULL == TopicsArray[xTopicHash].pu8TopicPathStr` of the source. It
compares the address of a `char` array that is a member of a static object with the
null pointer, so it is false for every topic. -/
def topicPathStr_is_NULL (_t : PsTopicStruct_s) : Bool :=
  false

/-- Model of `ps_pub_topic`. `pvData` is `none` for a null pointer and otherwise the
memory the pointer refers to. -/
def ps_pub_topic (pxActorHandler : actor_f) (xTopicHash : Nat) (xMsgLen : Nat)
    (pvData : Option (Nat → Nat)) (s : PsState) : PsResultType_e × PsState :=
  if topicPathStr_is_NULL (s.topic xTopicHash) then (PS_RESULT_NOT_FOUND, s)
  else
    let t := s.topic xTopicHash
    let m1 := { t.xLastMsg with xTopicHash := xTopicHash, xMsgLen := xMsgLen }
    let m2 := match pvData with
      | some mem => { m1 with pu8Data := memBytes mem PS_MAX_MESSAGE_PAYLOAD_LENGTH }
      | none => m1
    let t1 := { t with xLastMsg := m2 }
    let s1 := s.setTopic xTopicHash t1
    let r := ps_find_actor t1.pxPublishers pxActorHandler 0
    if r.1 ≠ PS_RESULT_OK then (r.1, s1)
    else if t1.u8PublishersMute.getD r.2 0 = 0 then
      let a := cq_addTailElement s1.msg_queue m2.bytes (SIZEOF_PS_MSG_HDR + xMsgLen)
      if a.1 = false then (PS_RESULT_OUT_OF_MEM, { s1 with msg_queue := a.2 })
      else (PS_RESULT_OK, { s1 with msg_queue := a.2 })
    else (PS_RESULT_OK, s1)

/-- Decimal digits of `n` as characters (`%u`). -/
def fmt_u (n : Nat) : List Nat :=
  (Nat.toDigits 10 n).map Char.toNat

/-- The characters `snprintf` produces for `"%s %u %s[%u]"`. A path that fills its
array without a terminator runs on into the info string stored behind it. -/
def topic_change_str (pfx : List Nat) (xTopicHash : Nat) (t : PsTopicStruct_s) : List Nat :=
  cstr pfx ++ [32] ++ fmt_u xTopicHash ++ [32]
    ++ cstr (t.pu8TopicPathStr ++ t.pu8TopicInfoStr) ++ [91] ++ fmt_u t.xDtype.toNat ++ [93]

/-- Model of `ps_report_topic_change`. The local `msg_str` receives at most
`sizeof(msg_str) - 1` characters and a terminator, `snprintf` returns the untruncated
length; the rest of `msg_str` is read as zero. -/
def ps_report_topic_change (xTopicHash : Nat) (pfx : List Nat) (s : PsState) : PsState :=
  if s.u8Topic_tpc_cnhg_present_flag ≠ 0 then
    let full := topic_change_str pfx xTopicHash (s.topic xTopicHash)
    let msg_str := full.take (PS_MAX_MESSAGE_PAYLOAD_LENGTH - 1)
    let length := full.length
    (ps_pub_topic NULL s.xTopic_tpc_cnhg (length % 65536)
      (some (fun i => msg_str.getD i 0)) s).2
  else s

/-- The string literal `"ADD"`. -/
def str_ADD : List Nat := [65, 68, 68]

/-- The string literal `"DEL"`. -/
def str_DEL : List Nat := [68, 69, 76]

/-- Model of `ps_register_topic_publisher`: result, the value stored to `*pxTopicHash`
(if any) and the new state. -/
def ps_register_topic_publisher (pxActorHandler : actor_f) (xDataType : PsDataType_e)
    (pu8TopicPathStr pu8TopicInfoStr : List Nat) (u8Sticky_flag : Nat) (s : PsState) :
    PsResultType_e × Option Nat × PsState :=
  let f := ps_find_topic s (some pu8TopicPathStr) 0
  if f.1 = PS_RESULT_OK then
    let xTopicHash := f.2
    let t := s.topic xTopicHash
    let hasPublishers := ps_is_all_zero t.pxPublishers = 0
    let t1 := if hasPublishers then { t with u8Sticky_flag := t.u8Sticky_flag ||| u8Sticky_flag }
              else t
    let s1 := if hasPublishers then s.setTopic xTopicHash t1 else s
    if hasPublishers ∧ xDataType ≠ t1.xDtype then
      (PS_RESULT_REDEF_CONFLICT, some xTopicHash, s1)
    else
      let ra := ps_register_actor t1.pxPublishers pxActorHandler
      if ra.1 ≠ PS_RESULT_ERROR then
        (PS_RESULT_OK, some xTopicHash,
          s1.setTopic xTopicHash { t1 with pxPublishers := ra.2.1 })
      else (PS_RESULT_ERROR, some xTopicHash, s1)
  else
    let g := ps_find_topic s none f.2
    if g.1 = PS_RESULT_OK then
      let xTopicHash := g.2
      let t := s.topic xTopicHash
      let t1 := { t with u8Sticky_flag := u8Sticky_flag, xDtype := xDataType }
      let s1 := s.setTopic xTopicHash t1
      let ra := ps_register_actor t1.pxPublishers pxActorHandler
      if ra.1 ≠ PS_RESULT_ERROR then
        let t2 := { t1 with
          pxPublishers := ra.2.1,
          pu8TopicInfoStr := strncpy pu8TopicInfoStr PS_MAX_TOPIC_INFO_STR_LENGTH,
          pu8TopicPathStr := strncpy pu8TopicPathStr PS_MAX_TOPIC_PATH_STR_LENGTH }
        let s2 := s1.setTopic xTopicHash t2
        (PS_RESULT_OK, some xTopicHash, ps_report_topic_change xTopicHash str_ADD s2)
      else (PS_RESULT_ERROR, some xTopicHash, s1)
    else (PS_RESULT_ERROR, none, s)

/-- Model of `ps_pub_topic_with_registration`; `pxTopicHash` tells whether the output
pointer is non-null. -/
def ps_pub_topic_with_registration (pxActorHandler : actor_f) (xDataType : PsDataType_e)
    (pu8TopicPathStr pu8TopicInfoStr : List Nat) (u8Sticky_flag : Nat) (xMsgLen : Nat)
    (pvData : Option (Nat → Nat)) (pxTopicHash : Bool) (s : PsState) :
    PsResultType_e × Option Nat × PsState :=
  let r := ps_register_topic_publisher pxActorHandler xDataType pu8TopicPathStr
    pu8TopicInfoStr u8Sticky_flag s
  if r.1 ≠ PS_RESULT_OK then (r.1, none, r.2.2)
  else
    let topic_hash := r.2.1.getD 0
    let p := ps_pub_topic pxActorHandler topic_hash xMsgLen pvData r.2.2
    (p.1, if pxTopicHash then some topic_hash else none, p.2)

/-- Whether a scan over the actor slots `0 .. PS_MAX_ACTORS_COUNT - 1` meets a
non-null entry. -/
def ps_any_actor (pxActors : List actor_f) : Bool :=
  (List.range PS_MAX_ACTORS_COUNT).any (fun i => pxActors.getD i NULL != NULL)

/-- Model of `ps_manage_topic`. Both scans of the source read `pxPublishers`. -/
def ps_manage_topic (xTopicHash : Nat) (s : PsState) : PsResultType_e × PsState :=
  if topicPathStr_is_NULL (s.topic xTopicHash) then (PS_RESULT_NOT_FOUND, s)
  else if ps_any_actor (s.topic xTopicHash).pxPublishers then (PS_RESULT_OK, s)
  else if ps_any_actor (s.topic xTopicHash).pxPublishers then (PS_RESULT_OK, s)
  else
    let s1 := ps_report_topic_change xTopicHash str_DEL s
    let s2 := if s1.xTopic_tpc_cnhg = xTopicHash then
                { s1 with u8Topic_tpc_cnhg_present_flag := 0 }
              else s1
    (PS_RESULT_OK, s2.setTopic xTopicHash PsTopicStruct_s.zero)

/-- Model of `ps_unregister_topic_publisher`. -/
def ps_unregister_topic_publisher (pxActorHandler : actor_f) (xTopicHash : Nat) (s : PsState) :
    PsResultType_e × PsState :=
  if topicPathStr_is_NULL (s.topic xTopicHash) then (PS_RESULT_NOT_FOUND, s)
  else
    let r := ps_find_actor (s.topic xTopicHash).pxPublishers pxActorHandler 0
    if r.1 ≠ PS_RESULT_ERROR then
      let t := s.topic xTopicHash
      let t1 := { t with pxPublishers := t.pxPublishers.set r.2 NULL }
      let t2 := { t1 with u8PublishersMute := t1.u8PublishersMute.set r.2 0 }
      ps_manage_topic xTopicHash (s.setTopic xTopicHash t2)
    else (PS_RESULT_ERROR, s)

/-- The sticky data handed to a subscriber through `pvMsg`, `pxMsgLendth` and
`pxMsgDataType`; the pointer is represented by the payload area it refers to. -/
structure StickySnapshot where
  pvMsg : List Nat
  xMsgLendth : Nat
  xMsgDataType : PsDataType_e
  deriving DecidableEq, Repr

/-- Model of `ps_sub_single_topic`. The four booleans tell which output pointers are
non-null. Returns the result, the value stored to `*pxTopicHash` (if any), the values
stored through the three sticky pointers (if any) and the new state. -/
def ps_sub_single_topic (pu8TopicPathStr : List Nat) (xDataType : PsDataType_e)
    (pxActorHandler : actor_f) (pxTopicHash pvMsg pxMsgLendth pxMsgDataType : Bool)
    (s : PsState) : PsResultType_e × Option Nat × Option StickySnapshot × PsState :=
  let f := ps_find_topic s (some pu8TopicPathStr) 0
  let g := if f.1 = PS_RESULT_NOT_FOUND then ps_find_topic s none f.2 else f
  if f.1 = PS_RESULT_NOT_FOUND ∧ g.1 ≠ PS_RESULT_OK then (g.1, none, none, s)
  else
    let xTopicHash := g.2
    let s1 :=
      if f.1 = PS_RESULT_NOT_FOUND then
        let t := s.topic xTopicHash
        let t1 := { t with
          pu8TopicPathStr := strncpy pu8TopicPathStr PS_MAX_TOPIC_PATH_STR_LENGTH }
        let t2 := { t1 with xDtype := xDataType }
        ps_report_topic_change xTopicHash str_ADD (s.setTopic xTopicHash t2)
      else s
    let hashOut := if pxTopicHash then some xTopicHash else none
    let ra := ps_register_actor (s1.topic xTopicHash).pxSubscribers pxActorHandler
    if ra.1 ≠ PS_RESULT_ERROR then
      let t := s1.topic xTopicHash
      let s2 := s1.setTopic xTopicHash { t with pxSubscribers := ra.2.1 }
      let snap :=
        if pvMsg ∧ pxMsgLendth ∧ pxMsgDataType ∧ t.u8Sticky_flag ≠ 0 then
          some { pvMsg := t.xLastMsg.pu8Data, xMsgLendth := t.xLastMsg.xMsgLen,
                 xMsgDataType := t.xDtype : StickySnapshot }
        else none
      (PS_RESULT_OK, hashOut, snap, s2)
    else (PS_RESULT_ERROR, hashOut, none, s1)

/-- Model of `ps_unsub_topic`. -/
def ps_unsub_topic (pu8TopicPathStr : List Nat) (pxActorHandler : actor_f) (s : PsState) :
    PsResultType_e × PsState :=
  let f := ps_find_topic s (some pu8TopicPathStr) 0
  if f.1 ≠ PS_RESULT_OK then (f.1, s)
  else
    let xTopicHash := f.2
    if topicPathStr_is_NULL (s.topic xTopicHash) then (PS_RESULT_NOT_FOUND, s)
    else
      let r := ps_find_actor (s.topic xTopicHash).pxSubscribers pxActorHandler 0
      if r.1 ≠ PS_RESULT_ERROR then
        let t := s.topic xTopicHash
        let t1 := { t with pxSubscribers := t.pxSubscribers.set r.2 NULL }
        ps_manage_topic xTopicHash (s.setTopic xTopicHash t1)
      else (PS_RESULT_ERROR, s)

/-- Model of `ps_check_topic`: the result and, when the topic is found, what is written
through `pxDataType`, `pu8TopicInfoStr` (the image of the `strncpy`) and `pxTopicHash`. -/
def ps_check_topic (pu8TopicPathStr : List Nat) (s : PsState) :
    PsResultType_e × Option (PsDataType_e × List Nat × Nat) :=
  let f := ps_find_topic s (some pu8TopicPathStr) 0
  if f.1 ≠ PS_RESULT_OK then (f.1, none)
  else
    let xTopicHash := f.2
    (PS_RESULT_OK, some ((s.topic xTopicHash).xDtype,
      strncpy (s.topic xTopicHash).pu8TopicInfoStr PS_MAX_TOPIC_INFO_STR_LENGTH, xTopicHash))

/-- Model of `ps_check_topic_by_hash`; the flags say which output pointers are non-null,
the outputs are the path array, the info array and the data type of the slot. -/
def ps_check_topic_by_hash (xTopicHash : Nat)
    (ppu8TopicPathStr ppu8TopicInfoStr pxDataType : Bool) (s : PsState) :
    PsResultType_e × Option (List Nat) × Option (List Nat) × Option PsDataType_e :=
  if topicPathStr_is_NULL (s.topic xTopicHash) then (PS_RESULT_NOT_FOUND, none, none, none)
  else
    (PS_RESULT_OK,
      if ppu8TopicPathStr then some (s.topic xTopicHash).pu8TopicPathStr else none,
      if ppu8TopicInfoStr then some (s.topic xTopicHash).pu8TopicInfoStr else none,
      if pxDataType then some (s.topic xTopicHash).xDtype else none)

/-- The fan-out loop of `ps_loop` over the remaining subscriber slot indices: every
non-null subscriber read from the current topic table is invoked with the message, the
invocation is recorded and the callback's effect `act` on the statics is applied. -/
def ps_loop_actors (act : ActorCall → PsState → PsState) (msg : PsMsgStruct_s) :
    List Nat → PsState × List ActorCall → PsState × List ActorCall
  | [], acc => acc
  | i :: rest, (s, calls) =>
    let actor := (s.topic msg.xTopicHash).pxSubscribers.getD i NULL
    if actor ≠ NULL then
      let c : ActorCall :=
        { actor := actor, xTopicHash := msg.xTopicHash, pvMsg := msg.pu8Data,
          xMsgLendth := msg.xMsgLen, xMsgDataType := (s.topic msg.xTopicHash).xDtype }
      ps_loop_actors act msg rest (act c s, calls ++ [c])
    else ps_loop_actors act msg rest (s, calls)

/-- Model of `ps_loop`: the returned count, the actor invocations made, in order, and
the new state. The local `msg` is read as zero where the queue did not fill it. -/
def ps_loop (act : ActorCall → PsState → PsState) (s : PsState) :
    Int × List ActorCall × PsState :=
  let g := cq_getFrontElement s.msg_queue (SIZEOF_PS_MSG_HDR + PS_MAX_MESSAGE_PAYLOAD_LENGTH)
  if g.1 ≠ 0 then
    let msg := PsMsgStruct_s.ofBytes PsMsgStruct_s.zero g.2
    let r := ps_loop_actors act msg (List.range PS_MAX_ACTORS_COUNT) (s, [])
    let d := cq_deleteFrontElement r.1.msg_queue
    (int16_cast 1, r.2, { r.1 with msg_queue := d.2 })
  else (int16_cast 0, [], s)

/-- Actor callbacks that leave the dispatcher alone. -/
def passive_actors : ActorCall → PsState → PsState :=
  fun _ s => s

/-- Model of `ps_get_waiting_events_count`. -/
def ps_get_waiting_events_count (s : PsState) : Int :=
  int16_cast (cq_count s.msg_queue)

/-- Model of `ps_has_enough_msg_space`. -/
def ps_has_enough_msg_space (bytes_to_publish : Nat) (s : PsState) : Nat :=
  if cq_hasSpace s.msg_queue bytes_to_publish then 1 else 0

/-- Model of `ps_pub_mute_by_hash`. -/
def ps_pub_mute_by_hash (pxActorHandler : actor_f) (xTopicHash : Nat) (u8MuteFlag : Nat)
    (s : PsState) : PsResultType_e × PsState :=
  let r := ps_find_actor (s.topic xTopicHash).pxPublishers pxActorHandler 0
  if r.1 ≠ PS_RESULT_OK then (r.1, s)
  else
    let t := s.topic xTopicHash
    (PS_RESULT_OK,
      s.setTopic xTopicHash { t with u8PublishersMute := t.u8PublishersMute.set r.2 u8MuteFlag })

/-- Model of `ps_pub_mute`. -/
def ps_pub_mute (pxActorHandler : actor_f) (pu8TopicPathStr : List Nat) (u8MuteFlag : Nat)
    (s : PsState) : PsResultType_e × PsState :=
  let f := ps_find_topic s (some pu8TopicPathStr) 0
  if f.1 ≠ PS_RESULT_OK then (f.1, s)
  else ps_pub_mute_by_hash pxActorHandler f.2 u8MuteFlag s

/-- The string `".srv.t_ms.tick"` (`PS_SYS_SERVICED_PERIODIC_MS_TIMER_TOPIC`). -/
def PS_SYS_SERVICED_PERIODIC_MS_TIMER_TOPIC : List Nat :=
  [46, 115, 114, 118, 46, 116, 95, 109, 115, 46, 116, 105, 99, 107]

/-- The string `".srv.t_ms.tout"` (`PS_SYS_SERVICED_SINGLE_MS_TIMER_TOPIC`). -/
def PS_SYS_SERVICED_SINGLE_MS_TIMER_TOPIC : List Nat :=
  [46, 115, 114, 118, 46, 116, 95, 109, 115, 46, 116, 111, 117, 116]

/-- The string `".srv.tpc.chng"` (`PS_SYS_SERVICED_TOPICS_CHANGE_TOPIC`). -/
def PS_SYS_SERVICED_TOPICS_CHANGE_TOPIC : List Nat :=
  [46, 115, 114, 118, 46, 116, 112, 99, 46, 99, 104, 110, 103]

/-- The info string of the topic-change topic: `serviced topic, prints string info about
adding/removing topics in the system, format: "ADD/DEL HASH topic_name_str"`. -/
def tpc_change_info_str : List Nat :=
  [115, 101, 114, 118, 105, 99, 101, 100, 32, 116, 111, 112, 105, 99, 44, 32, 112, 114, 105,
   110, 116, 115, 32, 115, 116, 114, 105, 110, 103, 32, 105, 110, 102, 111, 32, 97, 98, 111,
   117, 116, 32, 97, 100, 100, 105, 110, 103, 47, 114, 101, 109, 111, 118, 105, 110, 103, 32,
   116, 111, 112, 105, 99, 115, 32, 105, 110, 32, 116, 104, 101, 32, 115, 121, 115, 116, 101,
   109, 44, 32, 102, 111, 114, 109, 97, 116, 58, 32, 34, 65, 68, 68, 47, 68, 69, 76, 32, 72,
   65, 83, 72, 32, 116, 111, 112, 105, 99, 95, 110, 97, 109, 101, 95, 115, 116, 114, 34]

/-- The value of `INT32_MAX`. -/
abbrev INT32_MAX : Int := 2147483647

/-- Model of `ps_str_starts_with`. -/
def ps_str_starts_with (pfx str : List Nat) : Nat :=
  let lenprefix := (cstr pfx).length
  let lenstr := (cstr str).length
  if lenstr < lenprefix then 0
  else if (cstr pfx).take lenprefix ≠ (cstr str).take lenprefix then 0
  else 1

/-- Read `TimersArray[i]`. -/
def PsState.timer (s : PsState) (i : Nat) : PsTimerStruct_s :=
  s.TimersArray.getD i PsTimerStruct_s.zero

/-- Write `TimersArray[i]`. -/
def PsState.setTimer (s : PsState) (i : Nat) (t : PsTimerStruct_s) : PsState :=
  { s with TimersArray := s.TimersArray.set i t }

/-- One pass of the loop body of `ps_pub_timer_tout_event` for timer slot `i`: the new
state and the new value of `shortest_timer_ms`. The `long int` arithmetic is modelled
without overflow. -/
def ps_timer_slot (current_tick_ms : Int) (i : Nat) (s : PsState) (shortest_timer_ms : Int) :
    PsState × Int :=
  if (s.timer i).duration_ms = 0 then (s, shortest_timer_ms)
  else
    let s1 := s.setTimer i
      { (s.timer i) with time_left_ms := (s.timer i).time_left_ms - current_tick_ms }
    let s2 :=
      if (s1.timer i).time_left_ms ≤ 0 then
        let p := (ps_pub_topic (s1.timer i).xCreatorPublisher (s1.timer i).u16Hash
                    PS_DTYPE_NONE.toNat none s1).2
        if (p.timer i).periodic_flag ≠ 0 then
          p.setTimer i { (p.timer i) with time_left_ms := (p.timer i).duration_ms }
        else p
      else s1
    let shortest1 :=
      if (s2.timer i).time_left_ms > 0 then
        if (s2.timer i).time_left_ms < shortest_timer_ms then (s2.timer i).time_left_ms
        else shortest_timer_ms
      else shortest_timer_ms
    (s2, shortest1)

/-- Model of `ps_pub_timer_tout_event`. `current_tick_ms` is what `get_timer_tick_ms()`
returns; the first component is the argument of the call of `restart_timer`, if it is
called. -/
def ps_pub_timer_tout_event (current_tick_ms : Int) (s : PsState) : Option Int × PsState :=
  let r := (List.range PS_MAX_ACTORS_COUNT).foldl
    (fun acc i => ps_timer_slot current_tick_ms i acc.1 acc.2) (s, INT32_MAX)
  if r.2 ≠ 0 then (some r.2, r.1) else (none, r.1)

/-- Model of `ps_create_and_sub_timer_topic`. `current_tick_ms` is what
`get_timer_tick_ms()` returns if it is called; the second component is the argument of
the call of `restart_timer`, if it is called. -/
def ps_create_and_sub_timer_topic (pu8TopicPathStr : List Nat) (pxActorHandler : actor_f)
    (pu8TopicInfoStr : List Nat) (tout_ms : Int) (current_tick_ms : Int) (s : PsState) :
    PsResultType_e × Option Int × PsState :=
  let f := ps_find_topic s (some pu8TopicPathStr) 0
  if f.1 = PS_RESULT_OK then (PS_RESULT_DUPLICATED, none, s)
  else
    let periodic_flag : Int :=
      -1 + (ps_str_starts_with PS_SYS_SERVICED_PERIODIC_MS_TIMER_TOPIC pu8TopicPathStr : Int) * 2
        + (ps_str_starts_with PS_SYS_SERVICED_SINGLE_MS_TIMER_TOPIC pu8TopicPathStr : Int)
    if periodic_flag < 0 ∨ periodic_flag > 1 then (PS_RESULT_NOT_FOUND, none, s)
    else
      let r := ps_register_topic_publisher pxActorHandler PS_DTYPE_NONE pu8TopicPathStr
        pu8TopicInfoStr 0 s
      if r.1 ≠ PS_RESULT_OK then (r.1, none, r.2.2)
      else
        let xTopicHash := r.2.1.getD f.2
        let u := ps_sub_single_topic pu8TopicPathStr PS_DTYPE_NONE pxActorHandler
          false true true true r.2.2
        if u.1 ≠ PS_RESULT_OK then (u.1, none, u.2.2.2)
        else
          let s2 := u.2.2.2
          match (List.range PS_MAX_ACTORS_COUNT).find? (fun i => (s2.timer i).duration_ms == 0) with
          | some i =>
            let s3 := s2.setTimer i
              { u16Hash := xTopicHash, xCreatorPublisher := pxActorHandler,
                duration_ms := tout_ms, time_left_ms := tout_ms,
                periodic_flag := periodic_flag.toNat }
            let e := ps_pub_timer_tout_event current_tick_ms s3
            (PS_RESULT_OK, e.1, e.2)
          | none => (PS_RESULT_OUT_OF_MEM, none, s2)

/-- Model of `ps_create_and_sub_tpc_change_topic`. -/
def ps_create_and_sub_tpc_change_topic (pxActorHandler : actor_f) (s : PsState) :
    PsResultType_e × PsState :=
  let f := ps_find_topic s (some PS_SYS_SERVICED_TOPICS_CHANGE_TOPIC) 0
  let r := ps_register_topic_publisher NULL PS_DTYPE_STR PS_SYS_SERVICED_TOPICS_CHANGE_TOPIC
    tpc_change_info_str 0 s
  if f.1 = PS_RESULT_NOT_FOUND ∧ r.1 ≠ PS_RESULT_OK then (r.1, r.2.2)
  else
    let s1 :=
      if f.1 = PS_RESULT_NOT_FOUND then
        { r.2.2 with xTopic_tpc_cnhg := r.2.1.getD f.2, u8Topic_tpc_cnhg_present_flag := 1 }
      else s
    let u := ps_sub_single_topic PS_SYS_SERVICED_TOPICS_CHANGE_TOPIC PS_DTYPE_STR pxActorHandler
      false false false false s1
    if u.1 ≠ PS_RESULT_OK then (u.1, u.2.2.2) else (PS_RESULT_OK, u.2.2.2)

/-! ## Specification vocabulary -/

/-- Advance a ring offset `p` by `k` bytes in a ring of `N` bytes. -/
def wrapAdd (N p k : Nat) : Nat :=
  if p + k ≥ N then p + k - N else p + k

/-- Advance a ring offset by one byte, as the copy loops do. -/
def wrapNext (N p : Nat) : Nat :=
  if p + 1 ≥ N then 0 else p + 1

/-- Buffer contents after a wrapped write of `bs` at offset `p`. -/
def ringWrite (N : Nat) (buf : List Nat) (p : Nat) : List Nat → List Nat
  | [] => buf
  | b :: bs => ringWrite N (buf.set p b) (wrapNext N p) bs

/-- The `n` bytes read from offset `p` onwards with wrap-around. -/
def ringRead (N : Nat) (buf : List Nat) (p : Nat) : Nat → List Nat
  | 0 => []
  | n + 1 => buf.getD p 0 :: ringRead N buf (wrapNext N p) n

/-- Ring bytes taken by a queue element with body `e`: header and body. -/
def elemSpan (e : List Nat) : Nat :=
  SIZEOF_CQ_ELEM_HEADER + e.length

/-- Ring bytes taken by a sequence of queue elements. -/
def spanSum : List (List Nat) → Nat
  | [] => 0
  | e :: es => elemSpan e + spanSum es

/-- The elements `es` are laid out back to back, each behind its header, from offset `p`. -/
def framesAt (N : Nat) (buf : List Nat) : Nat → List (List Nat) → Prop
  | _, [] => True
  | p, e :: es =>
    ringRead N buf p (elemSpan e) = leBytes SIZEOF_CQ_ELEM_HEADER e.length ++ e
      ∧ framesAt N buf (wrapAdd N p (elemSpan e)) es

/-- The queue `q` is a consistent ring that holds exactly the elements `es`, oldest
first. -/
structure CQ_S.Holds (q : CQ_S) (es : List (List Nat)) : Prop where
  hbegin : q.pDataBegin = 0
  hend : q.pDataEnd = q.totalSize
  hbuf : q.buf.length = q.totalSize
  hsize : q.totalSize < SIZE_T_MOD
  hfront : q.pFront < q.totalSize
  hcount : q.count = es.length
  hfree : q.freeSize + spanSum es = q.totalSize
  hrear : q.pRear = wrapAdd q.totalSize q.pFront (spanSum es)
  hne : ∀ e ∈ es, e ≠ []
  hframes : framesAt q.totalSize q.buf q.pFront es

/-- The arrays of a topic slot have the sizes of their C declarations. -/
def PsTopicStruct_s.WF (t : PsTopicStruct_s) : Prop :=
  t.pu8TopicPathStr.length = PS_MAX_TOPIC_PATH_STR_LENGTH
    ∧ t.pu8TopicInfoStr.length = PS_MAX_TOPIC_INFO_STR_LENGTH
    ∧ t.pxSubscribers.length = PS_MAX_ACTORS_COUNT
    ∧ t.pxPublishers.length = PS_MAX_ACTORS_COUNT
    ∧ t.u8PublishersMute.length = PS_MAX_ACTORS_COUNT
    ∧ t.xLastMsg.pu8Data.length = PS_MAX_MESSAGE_PAYLOAD_LENGTH

/-- The topic table has the size of its C declaration, and so has every slot. -/
def PsState.WF (s : PsState) : Prop :=
  s.TopicsArray.length = PS_MAX_TOPICS_COUNT ∧ ∀ t ∈ s.TopicsArray, t.WF

/-- The `xLastMsg` of a topic after `ps_pub_topic` with a non-null data pointer. -/
def pubMsg (xTopicHash xMsgLen : Nat) (mem : Nat → Nat) : PsMsgStruct_s :=
  { xTopicHash := xTopicHash, xMsgLen := xMsgLen,
    pu8Data := memBytes mem PS_MAX_MESSAGE_PAYLOAD_LENGTH }

/-- The bytes `ps_pub_topic` hands to the queue. -/
def pubFrame (xTopicHash xMsgLen : Nat) (mem : Nat → Nat) : List Nat :=
  memRead (pubMsg xTopicHash xMsgLen mem).bytes (SIZEOF_PS_MSG_HDR + xMsgLen)

/-- The topic slot after `ps_pub_topic` with a non-null data pointer. -/
def pubTopic (t : PsTopicStruct_s) (xTopicHash xMsgLen : Nat) (mem : Nat → Nat) :
    PsTopicStruct_s :=
  { t with xLastMsg := pubMsg xTopicHash xMsgLen mem }

/-- The invocations the fan-out of `ps_loop` makes for the message `msg` over the topic
table of `s`: one per non-null subscriber slot of the topic, in slot order. -/
def deliveries (s : PsState) (msg : PsMsgStruct_s) : List ActorCall :=
  ((s.topic msg.xTopicHash).pxSubscribers.filter (fun a => a != NULL)).map
    (fun a => { actor := a, xTopicHash := msg.xTopicHash, pvMsg := msg.pu8Data,
                xMsgLendth := msg.xMsgLen,
                xMsgDataType := (s.topic msg.xTopicHash).xDtype })

/-- The local `msg` of `ps_loop` after the front element `e` was copied into it. -/
def loopMsg (e : List Nat) : PsMsgStruct_s :=
  PsMsgStruct_s.ofBytes PsMsgStruct_s.zero
    (e.take (SIZEOF_PS_MSG_HDR + PS_MAX_MESSAGE_PAYLOAD_LENGTH))

/-- The state `ps_pub_topic` leaves behind when it queued into `q`. -/
def pubState (s : PsState) (h len : Nat) (mem : Nat → Nat) (q : CQ_S) : PsState :=
  { s.setTopic h (pubTopic (s.topic h) h len mem) with msg_queue := q }

instance (t : PsTopicStruct_s) : Decidable t.WF := by
  unfold PsTopicStruct_s.WF; infer_instance

instance (s : PsState) : Decidable s.WF := by
  unfold PsState.WF; infer_instance

/-- The path `".demo"`. -/
def demo_path : List Nat := [46, 100, 101, 109, 111]

/-- The state after `ps_init`, the registration of actor `100` as sticky publisher of
`".demo"` with type `PS_DTYPE_BOOL`, and the subscription of actor `200` to it. -/
def demo_state : PsState :=
  (ps_sub_single_topic demo_path PS_DTYPE_BOOL 200 false false false false
    (ps_register_topic_publisher 100 PS_DTYPE_BOOL demo_path [] 1
      (ps_init PsState.static_zero).2).2.2).2.2.2

/-- Caller memory holding the byte `1` followed by bytes `7`. -/
def demo_mem : Nat → Nat :=
  fun i => if i = 0 then 1 else 7

/-- The state after `ps_init` and the registration of actor `100` as sticky publisher of
`".demo"` with type `PS_DTYPE_BOOL`; the topic has no subscriber. -/
def demo_pub_state : PsState :=
  (ps_register_topic_publisher 100 PS_DTYPE_BOOL demo_path [] 1
    (ps_init PsState.static_zero).2).2.2

/-- Caller memory holding bytes `9`. -/
def demo_mem2 : Nat → Nat :=
  fun _ => 9

/-- The state reached from `demo_state` by thirteen publishes of 64 payload bytes, which
leave 36 free bytes in the queue. -/
def demo_full_state : PsState :=
  Nat.iterate (fun s => (ps_pub_topic 100 0 64 (some demo_mem) s).2) 13 demo_state

/-- The state reached from `demo_state` by a publish without payload, thirteen publishes
of 64 payload bytes and a publish of 12 payload bytes: the 1024 bytes of the queue are
used up exactly, and the oldest element is the 4-byte frame. -/
def demo_exactly_full_state : PsState :=
  (ps_pub_topic 100 0 12 (some demo_mem)
    (Nat.iterate (fun s => (ps_pub_topic 100 0 64 (some demo_mem) s).2) 13
      (ps_pub_topic 100 0 0 (some demo_mem) demo_state).2)).2

/-- The state in which timer slot `i` has `L` milliseconds left. -/
def timerSet (s : PsState) (i : Nat) (L : Int) : PsState :=
  s.setTimer i { (s.timer i) with time_left_ms := L }

/-- A sequence of timer expiry events with the given tick readings: the arguments of the
`restart_timer` calls, in order, and the final state. -/
def tickRun : List Int → PsState → List (Option Int) × PsState
  | [], s => ([], s)
  | e :: es, s =>
    ((ps_pub_timer_tout_event e s).1 :: (tickRun es (ps_pub_timer_tout_event e s).2).1,
      (tickRun es (ps_pub_timer_tout_event e s).2).2)

/-- The times left after each of a sequence of elapsed times, starting from `L`. -/
def remainders (L : Int) : List Int → List (Option Int)
  | [] => []
  | e :: es => some (L - e) :: remainders (L - e) es

/-- The frame of a message without payload on topic `h`. -/
def emptyFrame (h : Nat) : List Nat :=
  leBytes 2 h ++ leBytes 2 0

/-- Timer slot `i` is the only occupied slot of the timer table; it holds a periodic timer
of duration `D` with `L` milliseconds left. -/
def SinglePeriodicTimer (s : PsState) (i : Nat) (D L : Int) : Prop :=
  i < PS_MAX_ACTORS_COUNT
    ∧ s.TimersArray.length = PS_MAX_TOPICS_COUNT
    ∧ (∀ j, j < PS_MAX_ACTORS_COUNT → j ≠ i → (s.timer j).duration_ms = 0)
    ∧ (s.timer i).duration_ms = D
    ∧ (s.timer i).time_left_ms = L
    ∧ (s.timer i).periodic_flag ≠ 0

instance (s : PsState) (i : Nat) (D L : Int) : Decidable (SinglePeriodicTimer s i D L) := by
  unfold SinglePeriodicTimer; infer_instance

/-- The text of a topic-change announcement: prefix, hash, path and data type. -/
def announcement (pfx : List Nat) (h : Nat) (path : List Nat) (d : PsDataType_e) : List Nat :=
  pfx ++ [32] ++ fmt_u h ++ [32] ++ path ++ [91] ++ fmt_u d.toNat ++ [93]

/-- Caller memory that starts with the bytes `l` and continues with zeros. -/
def memOf (l : List Nat) : Nat → Nat :=
  fun i => l.getD i 0

/-- The queue element that carries the text `str` on topic `c`. -/
def textFrame (c : Nat) (str : List Nat) : List Nat :=
  leBytes 2 c ++ leBytes 2 str.length ++ str

/-- Two topic slots agree in everything but `xLastMsg`. -/
def sameRegistration (t1 t : PsTopicStruct_s) : Prop :=
  t1.pxSubscribers = t.pxSubscribers ∧ t1.pxPublishers = t.pxPublishers
    ∧ t1.u8PublishersMute = t.u8PublishersMute ∧ t1.xDtype = t.xDtype
    ∧ t1.u8Sticky_flag = t.u8Sticky_flag ∧ t1.pu8TopicPathStr = t.pu8TopicPathStr
    ∧ t1.pu8TopicInfoStr = t.pu8TopicInfoStr

/-- The change topic of `s` is live at slot `c`: the announcement flag is set, the slot is
occupied, its publisher array holds only the null publisher and no mute flag is set. -/
def ChangeTopicAt (s : PsState) (c : Nat) : Prop :=
  s.u8Topic_tpc_cnhg_present_flag ≠ 0 ∧ s.xTopic_tpc_cnhg = c ∧ c < PS_MAX_TOPICS_COUNT
    ∧ (s.topic c).pu8TopicPathStr.headD 0 ≠ 0
    ∧ (∀ x ∈ (s.topic c).pxPublishers, x = NULL)
    ∧ (∀ k, k < PS_MAX_ACTORS_COUNT → (s.topic c).u8PublishersMute.getD k 0 = 0)

instance (s : PsState) (c : Nat) : Decidable (ChangeTopicAt s c) := by
  unfold ChangeTopicAt; infer_instance

/-- The slot of a topic created by `ps_register_topic_publisher` in the free slot `t`. -/
def createdTopic (t : PsTopicStruct_s) (a : actor_f) (d : PsDataType_e) (path info : List Nat)
    (sticky : Nat) : PsTopicStruct_s :=
  { t with u8Sticky_flag := sticky, xDtype := d, pxPublishers := [a, NULL, NULL],
           pu8TopicInfoStr := strncpy info PS_MAX_TOPIC_INFO_STR_LENGTH,
           pu8TopicPathStr := strncpy path PS_MAX_TOPIC_PATH_STR_LENGTH }

/-- The invocations `calls` hand the text `str` on topic `c` with data type `d` to the
non-null entries of `subs`, in slot order. -/
def DeliversText (calls : List ActorCall) (subs : List actor_f) (c : Nat) (str : List Nat)
    (d : PsDataType_e) : Prop :=
  calls.map (fun x => x.actor) = subs.filter (fun a => a != NULL)
    ∧ ∀ x ∈ calls, x.xTopicHash = c ∧ x.pvMsg.take x.xMsgLendth = str
        ∧ x.xMsgLendth = str.length ∧ x.xMsgDataType = d

/-- A sequence of publishes by `a` on topic `h` with the payload lengths `lens`, each
from the caller memory `mem`. -/
def pubRun (a : actor_f) (h : Nat) (mem : Nat → Nat) : List Nat → PsState → PsState
  | [], s => s
  | len :: lens, s => pubRun a h mem lens (ps_pub_topic a h len (some mem) s).2

/-- The state `demo_state` after actor `101` registered as second publisher of
`".demo"`. -/
def demo_two_pub_state : PsState :=
  (ps_register_topic_publisher 101 PS_DTYPE_BOOL demo_path [] 0 demo_state).2.2

/-- The state after `ps_init`. -/
def init_state : PsState :=
  (ps_init PsState.static_zero).2

/-- The path `".srv.t_ms.tick.3s"`. -/
def tick_3s_path : List Nat :=
  PS_SYS_SERVICED_PERIODIC_MS_TIMER_TOPIC ++ [46, 51, 115]

/-- The path `".srv.t_ms.tout.1"`. -/
def tout_1_path : List Nat :=
  PS_SYS_SERVICED_SINGLE_MS_TIMER_TOPIC ++ [46, 49]

/-- The state after `ps_init` and the creation by actor `300` of the periodic timer
`".srv.t_ms.tick.3s"` of 300 ms, with `get_timer_tick_ms()` returning `0`. -/
def demo_timer_state : PsState :=
  (ps_create_and_sub_timer_topic tick_3s_path 300 [] 300 0 init_state).2.2

/-- The state after `ps_init` and the creation by actor `300` of the one-shot timer
`".srv.t_ms.tout.1"` of 100 ms, with `get_timer_tick_ms()` returning `0`. -/
def demo_oneshot_state : PsState :=
  (ps_create_and_sub_timer_topic tout_1_path 300 [] 100 0 init_state).2.2

/-- The state after `ps_init` and `ps_create_and_sub_tpc_change_topic` by actor `400`. -/
def demo_chg_state : PsState :=
  (ps_create_and_sub_tpc_change_topic 400 init_state).2

/-- The state `demo_chg_state` after `ps_pub_mute` with the null handle muted the change
topic. -/
def demo_chg_muted_state : PsState :=
  (ps_pub_mute NULL PS_SYS_SERVICED_TOPICS_CHANGE_TOPIC 1 demo_chg_state).2

/-- The path `".foo"`. -/
def foo_path : List Nat := [46, 102, 111, 111]

/-- A path of 60 characters: a dot and 59 letters `a`. -/
def long_path : List Nat := 46 :: List.replicate 59 97

/-- The state after `ps_init` and the registration by actor `100` of publishers for
`".a"`, `".b"` and `".c"`, which fills the topic table. -/
def demo_table_full_state : PsState :=
  (ps_register_topic_publisher 100 PS_DTYPE_U8 [46, 99] [] 0
    (ps_register_topic_publisher 100 PS_DTYPE_U8 [46, 98] [] 0
      (ps_register_topic_publisher 100 PS_DTYPE_U8 [46, 97] [] 0 init_state).2.2).2.2).2.2

/-- The abstract queue of the specification: a capacity in bytes and the queued byte
strings, oldest first. -/
structure Fifo where
  cap : Nat
  items : List (List Nat)
  deriving DecidableEq, Repr

/-- The free bytes of the abstract queue: the capacity less body and header of every
queued element. -/
def Fifo.freeSize (f : Fifo) : Nat :=
  f.cap - spanSum f.items

/-- The operation `hasSpace(n)` of the specification. -/
def spec_hasSpace (f : Fifo) (n : Nat) : Bool :=
  decide (f.freeSize ≥ n + SIZEOF_CQ_ELEM_HEADER)

/-- The operation `pushBack(bytes, n)` of the specification: it fails for an empty `n`
or without space, and otherwise appends the `n` bytes. -/
def spec_pushBack (f : Fifo) (bytes : List Nat) (n : Nat) : Bool × Fifo :=
  if n = 0 ∨ spec_hasSpace f n = false then (false, f)
  else (true, { f with items := f.items ++ [memRead bytes n] })

/-- The operation `peekFront(dst, cap)` of the specification: the returned size and the
bytes copied to `dst`. -/
def spec_peekFront (f : Fifo) (cap : Nat) : Nat × List Nat :=
  match f.items with
  | [] => (0, [])
  | e :: _ => (e.length, e.take (min e.length cap))

/-- The operation `popFront()` of the specification. -/
def spec_popFront (f : Fifo) : Nat × Fifo :=
  match f.items with
  | [] => (0, f)
  | e :: es => (e.length, { f with items := es })

/-- The operation `flush()` of the specification. -/
def spec_flush (f : Fifo) : Fifo :=
  { f with items := [] }

/-- The abstract queue after initialisation over a buffer of `n` bytes. -/
def spec_init (n : Nat) : Fifo :=
  { cap := n, items := [] }

/-- A call of one of the queue functions of `circular_queue.c`, with its arguments. -/
inductive CqCall where
  | init (qBuffer : List Nat) (qBufferSize : Nat)
  | flush
  | addTailElement (pNewElement : List Nat) (elementSize : Nat)
  | getFrontElement (destMaxSize : Nat)
  | deleteFrontElement
  deriving DecidableEq, Repr

/-- What a queue call hands back: the boolean result of an addition, the size returned
by a read or a removal, and the bytes written to the destination of a read. -/
structure CqRet where
  ok : Bool
  size : Nat
  bytes : List Nat
  deriving DecidableEq, Repr

/-- One call on the queue of the source. -/
def cqStep : CqCall → CQ_S → CqRet × CQ_S
  | CqCall.init qBuffer qBufferSize, q =>
    ({ ok := true, size := 0, bytes := [] }, cq_init q qBuffer qBufferSize)
  | CqCall.flush, q => ({ ok := true, size := 0, bytes := [] }, cq_flush q)
  | CqCall.addTailElement src n, q =>
    ({ ok := (cq_addTailElement q src n).1, size := 0, bytes := [] },
      (cq_addTailElement q src n).2)
  | CqCall.getFrontElement cap, q =>
    ({ ok := true, size := (cq_getFrontElement q cap).1, bytes := (cq_getFrontElement q cap).2 },
      q)
  | CqCall.deleteFrontElement, q =>
    ({ ok := true, size := (cq_deleteFrontElement q).1, bytes := [] },
      (cq_deleteFrontElement q).2)

/-- One call on the abstract queue of the specification. -/
def specStep : CqCall → Fifo → CqRet × Fifo
  | CqCall.init _ qBufferSize, _ => ({ ok := true, size := 0, bytes := [] }, spec_init qBufferSize)
  | CqCall.flush, f => ({ ok := true, size := 0, bytes := [] }, spec_flush f)
  | CqCall.addTailElement src n, f =>
    ({ ok := (spec_pushBack f src n).1, size := 0, bytes := [] }, (spec_pushBack f src n).2)
  | CqCall.getFrontElement cap, f =>
    ({ ok := true, size := (spec_peekFront f cap).1, bytes := (spec_peekFront f cap).2 }, f)
  | CqCall.deleteFrontElement, f =>
    ({ ok := true, size := (spec_popFront f).1, bytes := [] }, (spec_popFront f).2)

/-- A run of calls on the queue of the source: the final queue. -/
def cqRun : List CqCall → CQ_S → CQ_S
  | [], q => q
  | c :: cs, q => cqRun cs (cqStep c q).2

/-- A run of calls on the abstract queue: the final queue. -/
def specRun : List CqCall → Fifo → Fifo
  | [], f => f
  | c :: cs, f => specRun cs (specStep c f).2

/-- The arguments of a call are what a C caller can pass: a buffer of the stated size,
and sizes for which `elementSize + sizeof(CQ_ELEM_HEADER_S)` does not overflow
`size_t`. -/
def CqCall.Valid : CqCall → Prop
  | CqCall.init qBuffer qBufferSize => qBufferSize < SIZE_T_MOD ∧ qBuffer.length = qBufferSize
  | CqCall.addTailElement _ n => n + SIZEOF_CQ_ELEM_HEADER < SIZE_T_MOD
  | _ => True

instance (c : CqCall) : Decidable c.Valid := by
  cases c <;> unfold CqCall.Valid <;> infer_instance

/-- The destination of a read is large enough for the element at the front. -/
def CqCall.LargeEnough : CqCall → Fifo → Prop
  | CqCall.getFrontElement cap, f => ∀ e ∈ f.items.head?, e.length ≤ cap
  | _, _ => True

/-- The queue `q` of the source represents the abstract queue `f`: same capacity, and
either the ring holds exactly the elements of `f` or both are the empty queue over a
buffer of no bytes. -/
def Refines (q : CQ_S) (f : Fifo) : Prop :=
  q.totalSize = f.cap
    ∧ (q.Holds f.items
        ∨ (f.cap = 0 ∧ f.items = [] ∧ q.count = 0 ∧ q.freeSize = 0))

/-- The results of a call on the source queue and on the abstract queue agree: same
boolean, same bytes copied, and the same size when the destination was large enough. -/
def RetAgree (c : CqCall) (f : Fifo) (rc ra : CqRet) : Prop :=
  rc.ok = ra.ok ∧ rc.bytes = ra.bytes ∧ (c.LargeEnough f → rc.size = ra.size)

/-- Forward simulation along a run: the queues correspond before every call and at the
end, and every call gives agreeing results. -/
def Simulates : List CqCall → CQ_S → Fifo → Prop
  | [], q, f => Refines q f
  | c :: cs, q, f =>
    Refines q f ∧ RetAgree c f (cqStep c q).1 (specStep c f).1
      ∧ Simulates cs (cqStep c q).2 (specStep c f).2

/-- A queue initialised over a buffer of 20 zero bytes. -/
def demo_queue : CQ_S :=
  cq_init CQ_S.zero (List.replicate 20 0) 20

/-- Calls that make the second element wrap: its header takes the last eight bytes of
the 20-byte buffer and its body the first five. -/
def demo_wrap_calls : List CqCall :=
  [CqCall.addTailElement [1, 2, 3, 4] 4, CqCall.getFrontElement 10, CqCall.deleteFrontElement,
   CqCall.addTailElement [5, 6, 7, 8, 9] 5, CqCall.getFrontElement 10,
   CqCall.deleteFrontElement, CqCall.deleteFrontElement, CqCall.flush]

/-- Calls on the queue of the dispatcher. -/
def demo_queue_calls : List CqCall :=
  [CqCall.addTailElement [1, 2, 3] 3, CqCall.addTailElement [4, 5] 2,
   CqCall.getFrontElement 8, CqCall.deleteFrontElement]

/-- What one pass of the loop of `ps_pub_timer_tout_event` leaves in a timer slot when
the tick reading is `e`: the subtraction and, for an expired periodic timer, the reload. -/
def timerAfter (e : Int) (t : PsTimerStruct_s) : PsTimerStruct_s :=
  if t.duration_ms = 0 then t
  else if t.time_left_ms - e ≤ 0 then
    if t.periodic_flag ≠ 0 then { t with time_left_ms := t.duration_ms }
    else { t with time_left_ms := t.time_left_ms - e }
  else { t with time_left_ms := t.time_left_ms - e }

/-- The timer slot is occupied and has time left. -/
def PsTimerStruct_s.Active (t : PsTimerStruct_s) : Prop :=
  t.duration_ms ≠ 0 ∧ 0 < t.time_left_ms

instance (t : PsTimerStruct_s) : Decidable t.Active := by
  unfold PsTimerStruct_s.Active; infer_instance

/-- The update of `shortest_timer_ms` for one timer slot. -/
def shortestStep (t : PsTimerStruct_s) (sh : Int) : Int :=
  if t.duration_ms ≠ 0 ∧ 0 < t.time_left_ms ∧ t.time_left_ms < sh then t.time_left_ms else sh

/-- A call of one of the functions of `pubsub.h` that change the dispatcher, with its
arguments; `tick` is what `get_timer_tick_ms()` returns during the call. `ps_loop` is
kept apart because of its callbacks. -/
inductive PsCall where
  | init
  | register_topic_publisher (a : actor_f) (d : PsDataType_e) (path info : List Nat)
      (sticky : Nat)
  | unregister_topic_publisher (a : actor_f) (h : Nat)
  | pub_topic_with_registration (a : actor_f) (d : PsDataType_e) (path info : List Nat)
      (sticky : Nat) (len : Nat) (pvData : Option (Nat → Nat)) (pxTopicHash : Bool)
  | pub_topic (a : actor_f) (h : Nat) (len : Nat) (pvData : Option (Nat → Nat))
  | sub_single_topic (path : List Nat) (d : PsDataType_e) (a : actor_f)
      (pxTopicHash pvMsg pxMsgLendth pxMsgDataType : Bool)
  | unsub_topic (path : List Nat) (a : actor_f)
  | create_and_sub_timer_topic (path : List Nat) (a : actor_f) (info : List Nat)
      (tout_ms : Int) (tick : Int)
  | pub_timer_tout_event (tick : Int)
  | pub_mute (a : actor_f) (path : List Nat) (flag : Nat)
  | pub_mute_by_hash (a : actor_f) (h : Nat) (flag : Nat)
  | create_and_sub_tpc_change_topic (a : actor_f)

/-- The state after one call. -/
def psStep : PsCall → PsState → PsState
  | PsCall.init, s => (ps_init s).2
  | PsCall.register_topic_publisher a d path info sticky, s =>
    (ps_register_topic_publisher a d path info sticky s).2.2
  | PsCall.unregister_topic_publisher a h, s => (ps_unregister_topic_publisher a h s).2
  | PsCall.pub_topic_with_registration a d path info sticky len pvData pxTopicHash, s =>
    (ps_pub_topic_with_registration a d path info sticky len pvData pxTopicHash s).2.2
  | PsCall.pub_topic a h len pvData, s => (ps_pub_topic a h len pvData s).2
  | PsCall.sub_single_topic path d a b1 b2 b3 b4, s =>
    (ps_sub_single_topic path d a b1 b2 b3 b4 s).2.2.2
  | PsCall.unsub_topic path a, s => (ps_unsub_topic path a s).2
  | PsCall.create_and_sub_timer_topic path a info tout_ms tick, s =>
    (ps_create_and_sub_timer_topic path a info tout_ms tick s).2.2
  | PsCall.pub_timer_tout_event tick, s => (ps_pub_timer_tout_event tick s).2
  | PsCall.pub_mute a path flag, s => (ps_pub_mute a path flag s).2
  | PsCall.pub_mute_by_hash a h flag, s => (ps_pub_mute_by_hash a h flag s).2
  | PsCall.create_and_sub_tpc_change_topic a, s => (ps_create_and_sub_tpc_change_topic a s).2

/-- The state after a run of calls. -/
def psRun : List PsCall → PsState → PsState
  | [], s => s
  | c :: cs, s => psRun cs (psStep c s)

/-- The call is a timer creation or a timer event during which `get_timer_tick_ms()`
returns a non-negative value. -/
def PsCall.IsTimerCall : PsCall → Prop
  | PsCall.create_and_sub_timer_topic _ _ _ _ tick => 0 ≤ tick
  | PsCall.pub_timer_tout_event tick => 0 ≤ tick
  | _ => False

instance (c : PsCall) : Decidable c.IsTimerCall := by
  cases c <;> unfold PsCall.IsTimerCall <;> infer_instance

/-- Every occupied timer slot has at most its duration left. -/
def TimeLeftBounded (s : PsState) : Prop :=
  ∀ j, j < PS_MAX_TOPICS_COUNT → (s.timer j).duration_ms ≠ 0 →
    (s.timer j).time_left_ms ≤ (s.timer j).duration_ms

instance (s : PsState) : Decidable (TimeLeftBounded s) := by
  unfold TimeLeftBounded; infer_instance

/-- The path `".srv.t_ms.tick.1"`. -/
def tick_1_path : List Nat :=
  PS_SYS_SERVICED_PERIODIC_MS_TIMER_TOPIC ++ [46, 49]

/-- The state `demo_timer_state` after actor `301` created a second periodic timer,
`".srv.t_ms.tick.1"` of 120 ms, with `get_timer_tick_ms()` returning `0`. -/
def demo_two_timer_state : PsState :=
  (ps_create_and_sub_timer_topic tick_1_path 301 [] 120 0 demo_timer_state).2.2

/-- Timer calls: the creation of a periodic timer of 300 ms, three events after 100 ms
each, and the creation of a one-shot timer of 100 ms followed by two events. -/
def demo_timer_calls : List PsCall :=
  [PsCall.create_and_sub_timer_topic tick_3s_path 300 [] 300 0,
   PsCall.pub_timer_tout_event 100, PsCall.pub_timer_tout_event 100,
   PsCall.pub_timer_tout_event 100,
   PsCall.create_and_sub_timer_topic tout_1_path 301 [] 100 0,
   PsCall.pub_timer_tout_event 100, PsCall.pub_timer_tout_event 100]

/-- Actor callbacks of which that of actor `A` publishes, as publisher `P`, `len` bytes
from `mem` on topic `h` each time it is invoked; the other callbacks leave the
dispatcher alone. -/
def publishing_actor (A P : actor_f) (h len : Nat) (mem : Nat → Nat) :
    ActorCall → PsState → PsState :=
  fun c s => if c.actor = A then (ps_pub_topic P h len (some mem) s).2 else s

/-- The invocations the fan-out of `ps_loop` makes for `msg` over the subscriber slots
`is` of the topic table of `s`. -/
def slotCalls (s : PsState) (msg : PsMsgStruct_s) (is : List Nat) : List ActorCall :=
  is.filterMap (fun i =>
    if (s.topic msg.xTopicHash).pxSubscribers.getD i NULL ≠ NULL then
      some { actor := (s.topic msg.xTopicHash).pxSubscribers.getD i NULL,
             xTopicHash := msg.xTopicHash, pvMsg := msg.pu8Data, xMsgLendth := msg.xMsgLen,
             xMsgDataType := (s.topic msg.xTopicHash).xDtype }
    else none)

/-- The state after `n` calls of `ps_loop` with passive actors. -/
def loopDrain : Nat → PsState → PsState
  | 0, s => s
  | n + 1, s => loopDrain n (ps_loop passive_actors s).2.2

/-- No non-null actor handle occurs in two slots of the actor array. -/
def ActorsDistinct (l : List actor_f) : Prop :=
  ∀ i, i < PS_MAX_ACTORS_COUNT → ∀ j, j < PS_MAX_ACTORS_COUNT → i ≠ j →
    l.getD i NULL ≠ NULL → l.getD i NULL ≠ l.getD j NULL

instance (l : List actor_f) : Decidable (ActorsDistinct l) := by
  unfold ActorsDistinct; infer_instance

/-- No non-null actor handle occurs twice in the publisher array or twice in the
subscriber array of any topic slot. -/
def NoDuplicateActors (s : PsState) : Prop :=
  ∀ k, k < PS_MAX_TOPICS_COUNT →
    ActorsDistinct (s.topic k).pxPublishers ∧ ActorsDistinct (s.topic k).pxSubscribers

instance (s : PsState) : Decidable (NoDuplicateActors s) := by
  unfold NoDuplicateActors; infer_instance

/-- A topic slot with arrays of the declared sizes and without duplicate actors. -/
def TopicOK (t : PsTopicStruct_s) : Prop :=
  t.WF ∧ ActorsDistinct t.pxPublishers ∧ ActorsDistinct t.pxSubscribers

/-- A topic table of the declared size whose slots are all `TopicOK`. -/
def TableOK (s : PsState) : Prop :=
  s.TopicsArray.length = PS_MAX_TOPICS_COUNT ∧ ∀ t ∈ s.TopicsArray, TopicOK t

/-- A call of the public interface: one of the calls of `PsCall`, or `ps_loop` or
`ps_check_subscriber`, whose actor callbacks may in turn make calls of `PsCall`; which
ones may depend on the arguments of the callback and on the state it is called in. -/
inductive ApiCall where
  | call (c : PsCall)
  | loop (handler : ActorCall → PsState → List PsCall)
  | check_subscriber (handler : ActorCall → PsState → List PsCall) (pxSubscriber : actor_f)

/-- The state after one call of the public interface. `ps_check_subscriber` invokes the
actor with a zero hash, a null message of length zero and `PS_DTYPE_NONE`. -/
def apiStep : ApiCall → PsState → PsState
  | ApiCall.call c, s => psStep c s
  | ApiCall.loop handler, s => (ps_loop (fun c st => psRun (handler c st) st) s).2.2
  | ApiCall.check_subscriber handler pxSubscriber, s =>
    psRun (handler { actor := pxSubscriber, xTopicHash := 0, pvMsg := [], xMsgLendth := 0,
                     xMsgDataType := PS_DTYPE_NONE } s) s

/-- The state after a run of calls of the public interface. -/
def apiRun : List ApiCall → PsState → PsState
  | [], s => s
  | c :: cs, s => apiRun cs (apiStep c s)

/-- The state after `ps_init` and the subscription of actor `200` to `".foo"` with type
`PS_DTYPE_U8`: the topic is pending, it has a subscriber and no publisher. -/
def demo_pending_state : PsState :=
  (ps_sub_single_topic foo_path PS_DTYPE_U8 200 false false false false init_state).2.2.2

/-- The info string `"temp"`. -/
def temp_info : List Nat := [116, 101, 109, 112]

/-! ## Lemmas and claims -/

theorem wrapNext_lt {N p : Nat} (hp : p < N) : wrapNext N p < N := by
  unfold wrapNext; split <;> omega

theorem wrapAdd_zero {N p : Nat} (hp : p < N) : wrapAdd N p 0 = p := by
  unfold wrapAdd; split <;> omega

theorem wrapAdd_lt {N p k : Nat} (hp : p < N) (hk : k ≤ N) : wrapAdd N p k < N := by
  unfold wrapAdd; split <;> omega

theorem wrapAdd_next {N p k : Nat} (hp : p < N) (hk : k + 1 ≤ N) :
    wrapAdd N (wrapNext N p) k = wrapAdd N p (k + 1) := by
  unfold wrapAdd wrapNext; split <;> split <;> split <;> omega

theorem wrapAdd_add {N p a b : Nat} (hp : p < N) (hab : a + b ≤ N) :
    wrapAdd N (wrapAdd N p a) b = wrapAdd N p (a + b) := by
  unfold wrapAdd; split <;> split <;> split <;> omega

theorem wrappedCopyToBuff_eq (N : Nat) (bs : List Nat) : ∀ (q : CQ_S) (p : Nat),
    q.pDataBegin = 0 → q.pDataEnd = N → p < N → bs.length ≤ N →
    cq_wrappedCopyToBuff q p bs
      = ({ q with buf := ringWrite N q.buf p bs }, wrapAdd N p bs.length) := by
  induction bs with
  | nil => intro q p _ _ hp _; simp [cq_wrappedCopyToBuff, ringWrite, wrapAdd_zero hp]
  | cons b bs ih =>
    intro q p hb he hp hl
    simp only [List.length_cons] at hl
    have h := ih { q with buf := q.buf.set p b } (wrapNext N p) hb he (wrapNext_lt hp) (by omega)
    simp only [cq_wrappedCopyToBuff, ringWrite, List.length_cons]
    rw [← wrapAdd_next hp hl]
    simp only [wrapNext, hb, he] at h ⊢
    exact h

theorem wrappedCopyFromBuff_eq (N : Nat) (q : CQ_S) (hb : q.pDataBegin = 0) (he : q.pDataEnd = N)
    (n : Nat) : ∀ (p : Nat), p < N → n ≤ N →
    cq_wrappedCopyFromBuff q p n = (ringRead N q.buf p n, wrapAdd N p n) := by
  induction n with
  | zero => intro p hp _; simp [cq_wrappedCopyFromBuff, ringRead, wrapAdd_zero hp]
  | succ n ih =>
    intro p hp hl
    have h := ih (wrapNext N p) (wrapNext_lt hp) (by omega)
    simp only [cq_wrappedCopyFromBuff, ringRead, hb, he]
    rw [← wrapAdd_next hp hl]
    unfold wrapNext at h ⊢
    rw [h]

theorem ringWrite_length (N : Nat) (bs : List Nat) : ∀ (buf : List Nat) (p : Nat),
    (ringWrite N buf p bs).length = buf.length := by
  induction bs with
  | nil => intro buf p; rfl
  | cons b bs ih => intro buf p; simp [ringWrite, ih]

theorem ringRead_length (N : Nat) (buf : List Nat) (n : Nat) : ∀ (p : Nat),
    (ringRead N buf p n).length = n := by
  induction n with
  | zero => intro p; rfl
  | succ n ih => intro p; simp [ringRead, ih]

/-- A wrapped write leaves every byte outside the written range alone. -/
theorem ringWrite_getD_outside (N : Nat) (bs : List Nat) : ∀ (buf : List Nat) (p i : Nat),
    p < N → i < N → bs.length ≤ (if p ≤ i then i - p else i + N - p) →
    (ringWrite N buf p bs).getD i 0 = buf.getD i 0 := by
  induction bs with
  | nil => intro buf p i _ _ _; rfl
  | cons b bs ih =>
    intro buf p i hp hi hd
    simp only [List.length_cons] at hd
    simp only [ringWrite]
    rw [ih _ _ _ (wrapNext_lt hp) hi
      (by unfold wrapNext; split at hd <;> split <;> split <;> omega)]
    have hne : p ≠ i := by
      intro h; subst h; simp at hd
    simp [List.getD_eq_getElem?_getD, List.getElem?_set_ne hne]

/-- Reading back what was just written. -/
theorem ringRead_ringWrite_same (N : Nat) (bs : List Nat) : ∀ (buf : List Nat) (p : Nat),
    p < N → buf.length = N → bs.length ≤ N →
    ringRead N (ringWrite N buf p bs) p bs.length = bs := by
  induction bs with
  | nil => intro buf p _ _ _; rfl
  | cons b bs ih =>
    intro buf p hp hlen hl
    simp only [List.length_cons] at hl
    simp only [ringWrite, List.length_cons, ringRead]
    rw [ih _ _ (wrapNext_lt hp) (by simpa using hlen) (by omega)]
    rw [ringWrite_getD_outside N bs _ _ p (wrapNext_lt hp) hp
      (by unfold wrapNext; split <;> split <;> omega)]
    simp [List.getD_eq_getElem?_getD, hlen, hp]

/-- A wrapped write does not disturb a wrapped read of a disjoint range: the read of `n`
bytes starts at `p1`, the write starts `d` bytes further on. -/
theorem ringRead_ringWrite_disjoint (N : Nat) (bs : List Nat) (buf : List Nat) (n : Nat) :
    ∀ (p1 d : Nat), p1 < N → n ≤ d → d + bs.length ≤ N →
    ringRead N (ringWrite N buf (wrapAdd N p1 d) bs) p1 n = ringRead N buf p1 n := by
  induction n with
  | zero => intro p1 d _ _ _; rfl
  | succ n ih =>
    intro p1 d hp hn hd
    simp only [ringRead]
    have h2 : wrapAdd N p1 d = wrapAdd N (wrapNext N p1) (d - 1) := by
      rw [wrapAdd_next hp (by omega)]; congr 1; omega
    congr 1
    · apply ringWrite_getD_outside N bs buf _ p1 (wrapAdd_lt hp (by omega)) hp
      unfold wrapAdd; split <;> split <;> omega
    · rw [h2]
      exact ih _ _ (wrapNext_lt hp) (by omega) (by omega)

theorem ringRead_add (N : Nat) (buf : List Nat) (a b : Nat) : ∀ (p : Nat), p < N → a ≤ N →
    ringRead N buf p (a + b) = ringRead N buf p a ++ ringRead N buf (wrapAdd N p a) b := by
  induction a with
  | zero => intro p hp _; simp [ringRead, wrapAdd_zero hp]
  | succ a ih =>
    intro p hp ha
    have : a + 1 + b = (a + b) + 1 := by omega
    rw [this]
    simp only [ringRead, List.cons_append]
    rw [ih _ (wrapNext_lt hp) (by omega), wrapAdd_next hp ha]

theorem ringWrite_append (N : Nat) (l1 l2 : List Nat) : ∀ (buf : List Nat) (p : Nat), p < N →
    l1.length ≤ N →
    ringWrite N buf p (l1 ++ l2) = ringWrite N (ringWrite N buf p l1) (wrapAdd N p l1.length) l2 := by
  induction l1 with
  | nil => intro buf p hp _; simp [ringWrite, wrapAdd_zero hp]
  | cons b l1 ih =>
    intro buf p hp hl
    simp only [List.length_cons] at hl
    simp only [List.cons_append, ringWrite, List.length_cons, List.append_eq]
    rw [ih _ _ (wrapNext_lt hp) (by omega), wrapAdd_next hp hl]

theorem memRead_length (obj : List Nat) (n : Nat) : (memRead obj n).length = n := by
  simp [memRead]

theorem memRead_of_le {obj : List Nat} {n : Nat} (h : n ≤ obj.length) :
    memRead obj n = obj.take n := by
  apply List.ext_getElem
  · simp [memRead, h]
  · intro i h1 h2
    simp only [memRead, List.length_map, List.length_range] at h1
    simp [memRead, List.getD_eq_getElem?_getD, List.getElem?_eq_getElem (show i < obj.length by omega)]

theorem leBytes_length (k : Nat) : ∀ n, (leBytes k n).length = k := by
  induction k with
  | zero => intro n; rfl
  | succ k ih => intro n; simp [leBytes, ih]

theorem leDecode_leBytes (k : Nat) : ∀ n, leDecode (leBytes k n) = n % 256 ^ k := by
  induction k with
  | zero => intro n; simp [leBytes, leDecode, Nat.mod_one]
  | succ k ih =>
    intro n
    simp only [leBytes, leDecode, ih]
    rw [pow_succ, Nat.mul_comm (256 ^ k) 256, Nat.mod_mul]

theorem leDecode_header {n : Nat} (h : n < SIZE_T_MOD) :
    leDecode (leBytes SIZEOF_CQ_ELEM_HEADER n) = n := by
  rw [leDecode_leBytes]
  exact Nat.mod_eq_of_lt h

theorem spanSum_append (es : List (List Nat)) (e : List Nat) :
    spanSum (es ++ [e]) = spanSum es + elemSpan e := by
  induction es with
  | nil => simp [spanSum]
  | cons a es ih => simp only [List.cons_append, spanSum, ih, List.append_eq]; omega

theorem framesAt_write_beyond (N : Nat) (buf bs : List Nat) (es : List (List Nat)) :
    ∀ p, p < N → framesAt N buf p es → spanSum es + bs.length ≤ N →
    framesAt N (ringWrite N buf (wrapAdd N p (spanSum es)) bs) p es := by
  induction es with
  | nil => intro p _ _ _; trivial
  | cons e es ih =>
    intro p hp hf hs
    simp only [spanSum] at hs ⊢
    refine ⟨?_, ?_⟩
    · rw [ringRead_ringWrite_disjoint N bs buf _ p _ hp (by omega) (by omega)]
      exact hf.1
    · rw [← wrapAdd_add hp (by omega)]
      exact ih _ (wrapAdd_lt hp (by omega)) hf.2 (by omega)

theorem framesAt_append (N : Nat) (buf : List Nat) (e : List Nat) (es : List (List Nat)) :
    ∀ p, p < N → framesAt N buf p es → spanSum es + elemSpan e ≤ N →
    ringRead N buf (wrapAdd N p (spanSum es)) (elemSpan e)
      = leBytes SIZEOF_CQ_ELEM_HEADER e.length ++ e →
    framesAt N buf p (es ++ [e]) := by
  induction es with
  | nil =>
    intro p hp _ _ hr
    simp only [spanSum, wrapAdd_zero hp] at hr
    exact ⟨hr, trivial⟩
  | cons a es ih =>
    intro p hp hf hs hr
    simp only [spanSum] at hs hr
    refine ⟨hf.1, ?_⟩
    apply ih _ (wrapAdd_lt hp (by omega)) hf.2 (by omega)
    rw [wrapAdd_add hp (by omega)]
    exact hr

/-- Adding an element that fits appends it to the held elements. -/
theorem cq_addTailElement_holds {q : CQ_S} {es : List (List Nat)} (hq : q.Holds es)
    (src : List Nat) (n : Nat) (hn : n ≠ 0)
    (hfit : n + SIZEOF_CQ_ELEM_HEADER ≤ q.freeSize) :
    (cq_addTailElement q src n).1 = true
      ∧ (cq_addTailElement q src n).2.Holds (es ++ [memRead src n]) := by
  have hN := hq.hsize
  have hfree := hq.hfree
  have h8 : SIZEOF_CQ_ELEM_HEADER = 8 := rfl
  have hM : SIZE_T_MOD = 18446744073709551616 := rfl
  have hlen : (memRead src n).length = n := memRead_length src n
  have hspan : elemSpan (memRead src n) = n + 8 := by simp [elemSpan, hlen]; omega
  have hmod : (n + 8) % SIZE_T_MOD = n + 8 := Nat.mod_eq_of_lt (by omega)
  have hsp : cq_hasSpace q n = true := by simp [cq_hasSpace, hmod]; omega
  have hrearlt : q.pRear < q.totalSize := by
    rw [hq.hrear]; exact wrapAdd_lt hq.hfront (by omega)
  have hw1 := wrappedCopyToBuff_eq q.totalSize (leBytes SIZEOF_CQ_ELEM_HEADER n) q q.pRear
    hq.hbegin hq.hend hrearlt (by rw [leBytes_length]; omega)
  have hw2 := wrappedCopyToBuff_eq q.totalSize (memRead src n)
    { q with buf := ringWrite q.totalSize q.buf q.pRear (leBytes SIZEOF_CQ_ELEM_HEADER n) }
    (wrapAdd q.totalSize q.pRear (leBytes SIZEOF_CQ_ELEM_HEADER n).length)
    hq.hbegin hq.hend (wrapAdd_lt hrearlt (by rw [leBytes_length]; omega)) (by omega)
  simp only [cq_addTailElement, hn, hsp, if_false, Bool.not_true, Bool.false_eq_true, hw1, hw2]
  refine ⟨trivial, ?_⟩
  have hwr : ringWrite q.totalSize
      (ringWrite q.totalSize q.buf q.pRear (leBytes SIZEOF_CQ_ELEM_HEADER n))
      (wrapAdd q.totalSize q.pRear (leBytes SIZEOF_CQ_ELEM_HEADER n).length) (memRead src n)
      = ringWrite q.totalSize q.buf q.pRear (leBytes SIZEOF_CQ_ELEM_HEADER n ++ memRead src n) := by
    rw [ringWrite_append _ _ _ _ _ hrearlt (by rw [leBytes_length]; omega)]
  have hfl : (leBytes SIZEOF_CQ_ELEM_HEADER n ++ memRead src n).length = n + 8 := by
    simp [leBytes_length, hlen]; omega
  constructor
  · exact hq.hbegin
  · exact hq.hend
  · simp only [ringWrite_length]; exact hq.hbuf
  · exact hN
  · exact hq.hfront
  · simp [hq.hcount]
  · simp only [spanSum_append, hspan, hmod]
    have : (q.freeSize + SIZE_T_MOD - (n + 8)) % SIZE_T_MOD = q.freeSize - (n + 8) := by
      have : q.freeSize + SIZE_T_MOD - (n + 8) = (q.freeSize - (n + 8)) + SIZE_T_MOD := by omega
      rw [this, Nat.add_mod_right]; exact Nat.mod_eq_of_lt (by omega)
    show (q.freeSize + SIZE_T_MOD - (n + 8)) % SIZE_T_MOD + _ = _
    rw [this]; omega
  · simp only [spanSum_append, hspan, leBytes_length]
    rw [hq.hrear, wrapAdd_add hq.hfront (by omega), wrapAdd_add hq.hfront (by omega)]
    congr 1
    omega
  · intro e he
    rcases List.mem_append.1 he with h | h
    · exact hq.hne e h
    · simp only [List.mem_singleton] at h
      intro h0; rw [← h, h0] at hlen; simp at hlen; exact hn hlen.symm
  · show framesAt q.totalSize _ q.pFront (es ++ [memRead src n])
    rw [hwr]
    apply framesAt_append _ _ _ _ _ hq.hfront
    · rw [hq.hrear]
      apply framesAt_write_beyond _ _ _ _ _ hq.hfront hq.hframes
      rw [hfl]; omega
    · rw [hspan]; omega
    · rw [← hq.hrear, hspan, hlen, ← hfl]
      apply ringRead_ringWrite_same _ _ _ _ hrearlt hq.hbuf
      rw [hfl]; omega

theorem wrappedCopyToBuff_totalSize (bs : List Nat) : ∀ (q : CQ_S) (p : Nat),
    (cq_wrappedCopyToBuff q p bs).1.totalSize = q.totalSize := by
  induction bs with
  | nil => intro q p; rfl
  | cons b bs ih => intro q p; simp only [cq_wrappedCopyToBuff]; rw [ih]

theorem cq_addTailElement_totalSize (q : CQ_S) (src : List Nat) (n : Nat) :
    (cq_addTailElement q src n).2.totalSize = q.totalSize := by
  simp only [cq_addTailElement]
  split
  · rfl
  · split
    · rfl
    · simp only [wrappedCopyToBuff_totalSize]

/-- An element that does not fit is refused and the queue is left as it is. -/
theorem cq_addTailElement_full (q : CQ_S) (src : List Nat) (n : Nat)
    (hn : n + SIZEOF_CQ_ELEM_HEADER < SIZE_T_MOD)
    (hfull : q.freeSize < n + SIZEOF_CQ_ELEM_HEADER) :
    cq_addTailElement q src n = (false, q) := by
  have hmod : (n + SIZEOF_CQ_ELEM_HEADER) % SIZE_T_MOD = n + SIZEOF_CQ_ELEM_HEADER :=
    Nat.mod_eq_of_lt hn
  have hsp : cq_hasSpace q n = false := by
    simp only [cq_hasSpace, hmod, decide_eq_false_iff_not]; omega
  simp [cq_addTailElement, hsp]

theorem ringRead_take (N : Nat) (buf : List Nat) (a b : Nat) : ∀ (p : Nat), p < N → a ≤ N →
    a ≤ b → (ringRead N buf p b).take a = ringRead N buf p a := by
  intro p hp ha hab
  obtain ⟨c, rfl⟩ := Nat.exists_eq_add_of_le hab
  rw [ringRead_add N buf a c p hp ha, List.take_left' (ringRead_length _ _ _ _)]

/-- Header and body of the front element as the two reads of the source see them. -/
theorem front_reads {q : CQ_S} {e : List Nat} {es : List (List Nat)} (hq : q.Holds (e :: es)) :
    cq_wrappedCopyFromBuff q q.pFront SIZEOF_CQ_ELEM_HEADER
        = (leBytes SIZEOF_CQ_ELEM_HEADER e.length,
            wrapAdd q.totalSize q.pFront SIZEOF_CQ_ELEM_HEADER)
      ∧ e.length < SIZE_T_MOD
      ∧ elemSpan e ≤ q.totalSize
      ∧ ∀ k, k ≤ e.length →
          ringRead q.totalSize q.buf (wrapAdd q.totalSize q.pFront SIZEOF_CQ_ELEM_HEADER) k
            = e.take k := by
  have hN := hq.hsize
  have hfree := hq.hfree
  have h8 : SIZEOF_CQ_ELEM_HEADER = 8 := rfl
  have hfr := hq.hframes.1
  simp only [spanSum] at hfree
  have hspan : elemSpan e = SIZEOF_CQ_ELEM_HEADER + e.length := rfl
  have hle : elemSpan e ≤ q.totalSize := by omega
  rw [hspan, ringRead_add _ _ _ _ _ hq.hfront (by omega)] at hfr
  have hl1 : (ringRead q.totalSize q.buf q.pFront SIZEOF_CQ_ELEM_HEADER).length
      = (leBytes SIZEOF_CQ_ELEM_HEADER e.length).length := by
    rw [ringRead_length, leBytes_length]
  have hpair := List.append_inj hfr hl1
  refine ⟨?_, by omega, hle, ?_⟩
  · rw [wrappedCopyFromBuff_eq q.totalSize q hq.hbegin hq.hend _ _ hq.hfront (by omega), hpair.1]
  · intro k hk
    rw [← ringRead_take _ _ k e.length _ (wrapAdd_lt hq.hfront (by omega)) (by omega) hk,
      hpair.2]

/-- With a held front element `cq_getFrontElement` copies its first `destMaxSize` bytes. -/
theorem cq_getFrontElement_holds {q : CQ_S} {e : List Nat} {es : List (List Nat)}
    (hq : q.Holds (e :: es)) (destMaxSize : Nat) :
    cq_getFrontElement q destMaxSize = (min destMaxSize e.length, e.take destMaxSize) := by
  obtain ⟨h1, h2, h3, h4⟩ := front_reads hq
  have h8 : SIZEOF_CQ_ELEM_HEADER = 8 := rfl
  have hc : q.count > 0 := by rw [hq.hcount]; simp
  have hspan : elemSpan e = SIZEOF_CQ_ELEM_HEADER + e.length := rfl
  simp only [cq_getFrontElement, hc, if_true, h1, leDecode_header h2]
  by_cases hlt : destMaxSize < e.length
  · simp only [hlt, if_true]
    rw [wrappedCopyFromBuff_eq q.totalSize q hq.hbegin hq.hend _ _
      (wrapAdd_lt hq.hfront (by omega)) (by omega)]
    simp only [h4 _ (Nat.le_of_lt hlt)]
    rw [Nat.min_eq_left (Nat.le_of_lt hlt)]
  · simp only [hlt, if_false]
    rw [wrappedCopyFromBuff_eq q.totalSize q hq.hbegin hq.hend _ _
      (wrapAdd_lt hq.hfront (by omega)) (by omega)]
    simp only [h4 _ (Nat.le_refl _)]
    rw [Nat.min_eq_right (by omega), List.take_length, List.take_of_length_le (by omega)]

/-- With a held front element `cq_deleteFrontElement` returns its size and drops it. -/
theorem cq_deleteFrontElement_holds {q : CQ_S} {e : List Nat} {es : List (List Nat)}
    (hq : q.Holds (e :: es)) :
    (cq_deleteFrontElement q).1 = e.length ∧ (cq_deleteFrontElement q).2.Holds es := by
  obtain ⟨h1, h2, h3, _⟩ := front_reads hq
  have h8 : SIZEOF_CQ_ELEM_HEADER = 8 := rfl
  have hM : SIZE_T_MOD = 18446744073709551616 := rfl
  have hN := hq.hsize
  have hfree := hq.hfree
  have hfront := hq.hfront
  have hc : q.count > 0 := by rw [hq.hcount]; simp
  have hspan : elemSpan e = SIZEOF_CQ_ELEM_HEADER + e.length := rfl
  simp only [spanSum] at hfree
  have hmod : (e.length + SIZEOF_CQ_ELEM_HEADER) % SIZE_T_MOD = e.length + 8 :=
    Nat.mod_eq_of_lt (by omega)
  have hptr : (if q.pFront + e.length + SIZEOF_CQ_ELEM_HEADER ≥ q.pDataEnd
      then q.pFront + e.length + SIZEOF_CQ_ELEM_HEADER - q.totalSize
      else q.pFront + e.length + SIZEOF_CQ_ELEM_HEADER)
      = wrapAdd q.totalSize q.pFront (elemSpan e) := by
    rw [hq.hend]; unfold wrapAdd; split <;> split <;> omega
  simp only [cq_deleteFrontElement, hc, if_true, h1, leDecode_header h2, hptr, hmod]
  refine ⟨trivial, ?_⟩
  constructor
  · exact hq.hbegin
  · exact hq.hend
  · exact hq.hbuf
  · exact hN
  · exact wrapAdd_lt hq.hfront h3
  · simp [hq.hcount]
  · show (q.freeSize + (e.length + 8)) % SIZE_T_MOD + spanSum es = q.totalSize
    rw [Nat.mod_eq_of_lt (by omega)]; omega
  · show q.pRear = wrapAdd q.totalSize (wrapAdd q.totalSize q.pFront (elemSpan e)) (spanSum es)
    rw [wrapAdd_add hq.hfront (by omega)]
    exact hq.hrear
  · intro x hx; exact hq.hne x (List.mem_cons_of_mem _ hx)
  · exact hq.hframes.2

/-- On an empty queue the front operations do nothing. -/
theorem cq_front_of_empty {q : CQ_S} (hq : q.Holds []) (destMaxSize : Nat) :
    cq_getFrontElement q destMaxSize = (0, []) ∧ cq_deleteFrontElement q = (0, q) := by
  have hc : ¬ (q.count > 0) := by rw [hq.hcount]; simp
  simp [cq_getFrontElement, cq_deleteFrontElement, hc]

/-- A freshly initialised queue over a non-empty buffer is consistent and holds nothing. -/
theorem cq_init_holds (q : CQ_S) (qBuffer : List Nat) (n : Nat) (hpos : 0 < n)
    (hlt : n < SIZE_T_MOD) (hbuf : qBuffer.length = n) : (cq_init q qBuffer n).Holds [] := by
  constructor
  · rfl
  · show 0 + n = n
    omega
  · exact hbuf
  · exact hlt
  · exact hpos
  · rfl
  · rfl
  · show 0 = wrapAdd n 0 0
    rw [wrapAdd_zero hpos]
  · intro e he; simp at he
  · trivial

theorem list_len3 {α : Type} {l : List α} (h : l.length = 3) : ∃ a b c, l = [a, b, c] := by
  match l, h with
  | [a, b, c], _ => exact ⟨a, b, c, rfl⟩

theorem zero_topic_WF : PsTopicStruct_s.zero.WF := by
  simp [PsTopicStruct_s.WF, PsTopicStruct_s.zero, PsMsgStruct_s.zero]

theorem topic_WF {s : PsState} (hwf : s.WF) (h : Nat) : (s.topic h).WF := by
  unfold PsState.topic
  by_cases hh : h < s.TopicsArray.length
  · rw [List.getD_eq_getElem _ _ hh]
    exact hwf.2 _ (List.getElem_mem _)
  · rw [List.getD_eq_default _ _ (by omega)]
    exact zero_topic_WF

theorem topic_setTopic {s : PsState} (hwf : s.WF) {h : Nat} (hh : h < PS_MAX_TOPICS_COUNT)
    (t : PsTopicStruct_s) (k : Nat) :
    (s.setTopic h t).topic k = if k = h then t else s.topic k := by
  have hl := hwf.1
  unfold PsState.topic PsState.setTopic
  simp only [List.getD_eq_getElem?_getD]
  by_cases hk : k = h
  · subst hk
    simp [List.getElem?_set_self, hl, hh]
  · simp [hk, List.getElem?_set_ne (Ne.symm hk)]

theorem setTopic_WF {s : PsState} (hwf : s.WF) (h : Nat) {t : PsTopicStruct_s} (ht : t.WF) :
    (s.setTopic h t).WF := by
  refine ⟨by simpa [PsState.setTopic] using hwf.1, ?_⟩
  intro u hu
  simp only [PsState.setTopic] at hu
  rcases List.mem_or_eq_of_mem_set hu with h1 | h1
  · exact hwf.2 _ h1
  · rw [h1]; exact ht

theorem find_actor_not_mem {arr : List actor_f} (hl : arr.length = PS_MAX_ACTORS_COUNT)
    {a : actor_f} (ha : a ∉ arr) (i0 : Nat) :
    ps_find_actor arr a i0 = (PS_RESULT_NOT_FOUND, i0) := by
  obtain ⟨x, y, z, rfl⟩ := list_len3 hl
  simp only [List.mem_cons, List.mem_singleton, not_or, List.not_mem_nil, or_false] at ha
  obtain ⟨h1, h2, h3⟩ := ha
  simp [ps_find_actor, ps_find_actor_loop, List.range, List.range.loop, h1, h2, h3]

theorem find_actor_mem {arr : List actor_f} (hl : arr.length = PS_MAX_ACTORS_COUNT)
    {a : actor_f} (ha : a ∈ arr) (i0 : Nat) :
    ∃ i, i < PS_MAX_ACTORS_COUNT ∧ ps_find_actor arr a i0 = (PS_RESULT_OK, i)
      ∧ arr.getD i NULL = a := by
  obtain ⟨x, y, z, rfl⟩ := list_len3 hl
  simp only [ps_find_actor, ps_find_actor_loop, List.range, List.range.loop]
  by_cases h1 : a = x
  · exact ⟨0, by decide, by simp [h1], by simp [h1]⟩
  by_cases h2 : a = y
  · subst h2
    exact ⟨1, by decide, by simp [h1], by simp⟩
  by_cases h3 : a = z
  · subst h3
    exact ⟨2, by decide, by simp [h1, h2], by simp⟩
  simp [h1, h2, h3] at ha

theorem memBytes_length (mem : Nat → Nat) (n : Nat) : (memBytes mem n).length = n := by
  simp [memBytes]

theorem memBytes_take (mem : Nat → Nat) {k n : Nat} (h : k ≤ n) :
    (memBytes mem n).take k = memBytes mem k := by
  simp only [memBytes, ← List.map_take]
  congr 1
  rw [List.take_range, Nat.min_eq_left h]

theorem bytes_length (m : PsMsgStruct_s)
    (hd : m.pu8Data.length = PS_MAX_MESSAGE_PAYLOAD_LENGTH) :
    m.bytes.length = SIZEOF_PS_MSG_HDR + PS_MAX_MESSAGE_PAYLOAD_LENGTH := by
  simp only [PsMsgStruct_s.bytes, List.length_append, leBytes_length, hd]

theorem pubFrame_length (h len : Nat) (mem : Nat → Nat) :
    (pubFrame h len mem).length = SIZEOF_PS_MSG_HDR + len :=
  memRead_length _ _

/-- The frame of a payload that fits the payload area: header fields and payload bytes. -/
theorem pubFrame_eq (h len : Nat) (mem : Nat → Nat) (hlen : len ≤ PS_MAX_MESSAGE_PAYLOAD_LENGTH) :
    pubFrame h len mem = leBytes 2 h ++ leBytes 2 len ++ memBytes mem len := by
  have hb := bytes_length (pubMsg h len mem) (memBytes_length _ _)
  rw [pubFrame, memRead_of_le (by rw [hb]; omega)]
  simp only [pubMsg, PsMsgStruct_s.bytes]
  have hl : (leBytes 2 h ++ leBytes 2 len).length = SIZEOF_PS_MSG_HDR := by
    simp [leBytes_length]
  rw [List.take_append_eq_append_take, hl]
  rw [List.take_of_length_le (by rw [hl]; omega)]
  congr 1
  rw [Nat.add_sub_cancel_left]
  exact memBytes_take mem hlen

theorem pubTopic_WF {t : PsTopicStruct_s} (ht : t.WF) (h len : Nat) (mem : Nat → Nat) :
    (pubTopic t h len mem).WF := by
  obtain ⟨h1, h2, h3, h4, h5, _⟩ := ht
  exact ⟨h1, h2, h3, h4, h5, memBytes_length _ _⟩

/-- The topic table after `ps_pub_topic` with a non-null data pointer, whatever the
result: only the `xLastMsg` of the addressed slot is rewritten. -/
theorem ps_pub_topic_topics (a : actor_f) (h len : Nat) (mem : Nat → Nat) (s : PsState) :
    (ps_pub_topic a h len (some mem) s).2.TopicsArray
      = (s.setTopic h (pubTopic (s.topic h) h len mem)).TopicsArray := by
  simp only [ps_pub_topic, topicPathStr_is_NULL, Bool.false_eq_true, if_false]
  split
  · rfl
  · split
    · split <;> rfl
    · rfl

/-- A publish by a registered, unmuted publisher whose frame fits is queued. -/
theorem ps_pub_topic_enqueues {s : PsState} (hwf : s.WF) {h : Nat}
    {a : actor_f} (ha : a ∈ (s.topic h).pxPublishers)
    (hmute : ∀ i, i < PS_MAX_ACTORS_COUNT → (s.topic h).pxPublishers.getD i NULL = a →
      (s.topic h).u8PublishersMute.getD i 0 = 0)
    (len : Nat) (mem : Nat → Nat) {es : List (List Nat)} (hq : s.msg_queue.Holds es)
    (hfit : len + SIZEOF_PS_MSG_HDR + SIZEOF_CQ_ELEM_HEADER ≤ s.msg_queue.freeSize) :
    ∃ q, ps_pub_topic a h len (some mem) s
        = (PS_RESULT_OK, { s.setTopic h (pubTopic (s.topic h) h len mem) with msg_queue := q })
      ∧ q.Holds (es ++ [pubFrame h len mem]) ∧ q.totalSize = s.msg_queue.totalSize := by
  obtain ⟨i, hi, hfi, hgi⟩ := find_actor_mem (topic_WF hwf h).2.2.2.1 ha 0
  have hm := hmute i hi hgi
  have h4 : SIZEOF_PS_MSG_HDR = 4 := rfl
  have hadd := cq_addTailElement_holds hq (pubMsg h len mem).bytes (SIZEOF_PS_MSG_HDR + len)
    (by omega) (by omega)
  refine ⟨(cq_addTailElement s.msg_queue (pubMsg h len mem).bytes (SIZEOF_PS_MSG_HDR + len)).2,
    ?_, hadd.2, cq_addTailElement_totalSize _ _ _⟩
  have h1 := hadd.1
  simp only [pubFrame, pubMsg] at h1
  simp only [ps_pub_topic, topicPathStr_is_NULL, Bool.false_eq_true, if_false, hfi, hm,
    ne_eq, not_true_eq_false, if_true, PsState.setTopic, h1, pubTopic, pubMsg, pubFrame,
    Bool.true_eq_false]

theorem ps_loop_actors_passive {s : PsState} (hwf : s.WF) (msg : PsMsgStruct_s) :
    ps_loop_actors passive_actors msg (List.range PS_MAX_ACTORS_COUNT) (s, [])
      = (s, deliveries s msg) := by
  obtain ⟨x, y, z, hxyz⟩ := list_len3 (topic_WF hwf msg.xTopicHash).2.2.1
  simp only [List.range, List.range.loop, ps_loop_actors, passive_actors, deliveries, hxyz]
  by_cases hx : x = 0 <;> by_cases hy : y = 0 <;> by_cases hz : z = 0 <;>
    simp [hx, hy, hz, List.filter_cons, NULL]

/-- With passive actors `ps_loop` delivers the front element to the subscribers of its
topic and removes it. -/
theorem ps_loop_front {s : PsState} (hwf : s.WF) {e : List Nat} {es : List (List Nat)}
    (hq : s.msg_queue.Holds (e :: es)) :
    ∃ q, ps_loop passive_actors s = (1, deliveries s (loopMsg e), { s with msg_queue := q })
      ∧ q.Holds es := by
  have hne : e ≠ [] := hq.hne e (List.mem_cons_self _ _)
  have hpos : 0 < e.length := List.length_pos.2 hne
  have hg := cq_getFrontElement_holds hq (SIZEOF_PS_MSG_HDR + PS_MAX_MESSAGE_PAYLOAD_LENGTH)
  have hd := cq_deleteFrontElement_holds hq
  have hnz : min (SIZEOF_PS_MSG_HDR + PS_MAX_MESSAGE_PAYLOAD_LENGTH) e.length ≠ 0 := by
    have h4 : SIZEOF_PS_MSG_HDR = 4 := rfl
    simp only [ne_eq, Nat.min_eq_zero_iff]; omega
  refine ⟨(cq_deleteFrontElement s.msg_queue).2, ?_, hd.2⟩
  simp only [ps_loop, hg, ne_eq, hnz, not_false_eq_true, if_true, ps_loop_actors_passive hwf,
    loopMsg]
  rfl

/-- On an empty queue `ps_loop` does nothing. -/
theorem ps_loop_empty {s : PsState} (hq : s.msg_queue.Holds [])
    (act : ActorCall → PsState → PsState) :
    ps_loop act s = (0, [], s) := by
  simp only [ps_loop, (cq_front_of_empty hq _).1, ne_eq, not_true_eq_false, if_false]
  rfl

/-- The message `ps_loop` decodes from a frame queued by `ps_pub_topic`. -/
theorem loopMsg_pubFrame {h len : Nat} (mem : Nat → Nat) (hh : h < 65536)
    (hlen : len ≤ PS_MAX_MESSAGE_PAYLOAD_LENGTH) :
    (loopMsg (pubFrame h len mem)).xTopicHash = h
      ∧ (loopMsg (pubFrame h len mem)).xMsgLen = len
      ∧ (loopMsg (pubFrame h len mem)).pu8Data.take len = memBytes mem len := by
  have h4 : SIZEOF_PS_MSG_HDR = 4 := rfl
  have h64 : PS_MAX_MESSAGE_PAYLOAD_LENGTH = 64 := rfl
  have hfl := pubFrame_length h len mem
  have htake : (pubFrame h len mem).take (SIZEOF_PS_MSG_HDR + PS_MAX_MESSAGE_PAYLOAD_LENGTH)
      = pubFrame h len mem := List.take_of_length_le (by omega)
  simp only [loopMsg, htake, PsMsgStruct_s.ofBytes]
  rw [pubFrame_eq h len mem hlen]
  simp only [leBytes, List.cons_append, List.nil_append, List.take_succ_cons, List.take_zero,
    List.drop_succ_cons, List.drop_zero, leDecode]
  refine ⟨by omega, by omega, ?_⟩
  rw [List.take_take, Nat.min_eq_left hlen, List.take_left' (memBytes_length _ _)]

theorem pubState_WF {s : PsState} (hwf : s.WF) (h len : Nat) (mem : Nat → Nat) (q : CQ_S) :
    (pubState s h len mem q).WF :=
  setTopic_WF hwf h (pubTopic_WF (topic_WF hwf h) h len mem)

/-- A publish rewrites nothing of the registry but the `xLastMsg` of its topic. -/
theorem pubState_topic {s : PsState} (hwf : s.WF) {h : Nat} (hh : h < PS_MAX_TOPICS_COUNT)
    (len : Nat) (mem : Nat → Nat) (q : CQ_S) (k : Nat) :
    ((pubState s h len mem q).topic k).pxSubscribers = (s.topic k).pxSubscribers
      ∧ ((pubState s h len mem q).topic k).pxPublishers = (s.topic k).pxPublishers
      ∧ ((pubState s h len mem q).topic k).u8PublishersMute = (s.topic k).u8PublishersMute
      ∧ ((pubState s h len mem q).topic k).xDtype = (s.topic k).xDtype
      ∧ ((pubState s h len mem q).topic k).u8Sticky_flag = (s.topic k).u8Sticky_flag
      ∧ ((pubState s h len mem q).topic k).pu8TopicPathStr = (s.topic k).pu8TopicPathStr := by
  have ht : (pubState s h len mem q).topic k
      = if k = h then pubTopic (s.topic h) h len mem else s.topic k :=
    topic_setTopic hwf hh _ k
  rw [ht]
  by_cases hk : k = h
  · subst hk; simp [pubTopic]
  · simp [hk]

theorem int16_cast_small : int16_cast 0 = 0 ∧ int16_cast 1 = 1 ∧ int16_cast 2 = 2 := by
  decide

/-- What the deliveries of a frame queued by `ps_pub_topic` look like. -/
theorem deliveries_pubFrame (s : PsState) {h len : Nat} (mem : Nat → Nat)
    (hh : h < PS_MAX_TOPICS_COUNT) (hlen : len ≤ PS_MAX_MESSAGE_PAYLOAD_LENGTH) :
    (deliveries s (loopMsg (pubFrame h len mem))).map (fun c => c.actor)
        = (s.topic h).pxSubscribers.filter (fun a => a != NULL)
      ∧ ∀ c ∈ deliveries s (loopMsg (pubFrame h len mem)),
          c.xTopicHash = h ∧ c.pvMsg.take len = memBytes mem len ∧ c.xMsgLendth = len
            ∧ c.xMsgDataType = (s.topic h).xDtype := by
  have h3 : PS_MAX_TOPICS_COUNT = 3 := rfl
  obtain ⟨e1, e2, e3⟩ := loopMsg_pubFrame mem (show h < 65536 by omega) hlen
  constructor
  · simp only [deliveries, List.map_map, e1]
    exact List.map_id _
  · intro c hc
    simp only [deliveries, List.mem_map] at hc
    obtain ⟨a, _, rfl⟩ := hc
    exact ⟨e1, e3, e2, by rw [e1]⟩

/-- C1: a publish of at most `PS_MAX_MESSAGE_PAYLOAD_LENGTH` payload bytes by a registered,
unmuted publisher into an empty queue returns `PS_RESULT_OK` and leaves one waiting
event; the following `ps_loop` returns `1`, invokes exactly the non-null slots of the
topic's subscriber array, once each and in slot order, every time with the topic hash, a
buffer whose first `len` bytes are the published ones, the length `len` and the topic's
data type, and leaves no waiting event. -/
theorem publish_then_loop_delivers (s : PsState) (hwf : s.WF)
    (h : Nat) (hh : h < PS_MAX_TOPICS_COUNT)
    (a : actor_f) (ha : a ∈ (s.topic h).pxPublishers)
    (hmute : ∀ i, i < PS_MAX_ACTORS_COUNT → (s.topic h).pxPublishers.getD i NULL = a →
      (s.topic h).u8PublishersMute.getD i 0 = 0)
    (len : Nat) (hlen : len ≤ PS_MAX_MESSAGE_PAYLOAD_LENGTH) (mem : Nat → Nat)
    (hq : s.msg_queue.Holds [])
    (hcap : PS_MAX_MESSAGE_PAYLOAD_LENGTH + SIZEOF_PS_MSG_HDR + SIZEOF_CQ_ELEM_HEADER
      ≤ s.msg_queue.totalSize) :
    (ps_pub_topic a h len (some mem) s).1 = PS_RESULT_OK
      ∧ ps_get_waiting_events_count (ps_pub_topic a h len (some mem) s).2 = 1
      ∧ (ps_loop passive_actors (ps_pub_topic a h len (some mem) s).2).1 = 1
      ∧ (ps_loop passive_actors (ps_pub_topic a h len (some mem) s).2).2.1.map
            (fun c => c.actor)
          = (s.topic h).pxSubscribers.filter (fun x => x != NULL)
      ∧ (∀ c ∈ (ps_loop passive_actors (ps_pub_topic a h len (some mem) s).2).2.1,
          c.xTopicHash = h ∧ c.pvMsg.take len = memBytes mem len ∧ c.xMsgLendth = len
            ∧ c.xMsgDataType = (s.topic h).xDtype)
      ∧ ps_get_waiting_events_count
          (ps_loop passive_actors (ps_pub_topic a h len (some mem) s).2).2.2 = 0 := by
  have hfree := hq.hfree
  simp only [spanSum, Nat.add_zero] at hfree
  obtain ⟨q1, hp, hq1, _⟩ := ps_pub_topic_enqueues hwf ha hmute len mem hq (by omega)
  have hwf1 : (pubState s h len mem q1).WF := pubState_WF hwf h len mem q1
  have hq1b : (pubState s h len mem q1).msg_queue.Holds [pubFrame h len mem] := hq1
  obtain ⟨q2, hl, hq2⟩ := ps_loop_front hwf1 hq1b
  obtain ⟨d1, d2⟩ := deliveries_pubFrame (pubState s h len mem q1) mem hh hlen
  obtain ⟨t1, _, _, t4, _, _⟩ := pubState_topic hwf hh len mem q1 h
  rw [hp]
  change _ ∧ _ ∧ (ps_loop passive_actors (pubState s h len mem q1)).1 = 1
    ∧ (ps_loop passive_actors (pubState s h len mem q1)).2.1.map _ = _
    ∧ (∀ c ∈ (ps_loop passive_actors (pubState s h len mem q1)).2.1, _)
    ∧ ps_get_waiting_events_count (ps_loop passive_actors (pubState s h len mem q1)).2.2 = 0
  rw [hl]
  refine ⟨rfl, ?_, rfl, ?_, ?_, ?_⟩
  · show int16_cast q1.count = 1
    rw [hq1.hcount]; exact int16_cast_small.2.1
  · rw [← t1]; exact d1
  · rw [← t4]; exact d2
  · show int16_cast q2.count = 0
    rw [hq2.hcount]; exact int16_cast_small.1

/-- The state `demo_state` is well formed. -/
theorem demo_state_WF : demo_state.WF := by decide

set_option maxRecDepth 20000 in
/-- The queue of `demo_state` is empty and consistent. -/
theorem demo_state_queue : demo_state.msg_queue.Holds [] := by
  constructor <;> first | decide | trivial

/-- C1 (witness): actor `100` publishes the byte `1` on `".demo"` from `demo_state`. -/
theorem publish_then_loop_delivers_witness :
    (ps_pub_topic 100 0 1 (some demo_mem) demo_state).1 = PS_RESULT_OK
      ∧ ps_get_waiting_events_count (ps_pub_topic 100 0 1 (some demo_mem) demo_state).2 = 1
      ∧ (ps_loop passive_actors (ps_pub_topic 100 0 1 (some demo_mem) demo_state).2).1 = 1
      ∧ (ps_loop passive_actors (ps_pub_topic 100 0 1 (some demo_mem) demo_state).2).2.1.map
            (fun c => c.actor)
          = (demo_state.topic 0).pxSubscribers.filter (fun x => x != NULL)
      ∧ (∀ c ∈ (ps_loop passive_actors (ps_pub_topic 100 0 1 (some demo_mem) demo_state).2).2.1,
          c.xTopicHash = 0 ∧ c.pvMsg.take 1 = memBytes demo_mem 1 ∧ c.xMsgLendth = 1
            ∧ c.xMsgDataType = (demo_state.topic 0).xDtype)
      ∧ ps_get_waiting_events_count
          (ps_loop passive_actors (ps_pub_topic 100 0 1 (some demo_mem) demo_state).2).2.2 = 0 :=
  publish_then_loop_delivers demo_state demo_state_WF 0 (by decide) 100 (by decide)
    (by decide) 1 (by decide) demo_mem demo_state_queue (by decide)

/-- C2: two publishes (payloads of at most `PS_MAX_MESSAGE_PAYLOAD_LENGTH` bytes, registered
unmuted publishers, any topics) into an empty queue both return `PS_RESULT_OK` and leave
two waiting events; the first `ps_loop` returns `1`, invokes the subscribers of the first
topic with the first message only and leaves one waiting event; the second `ps_loop`
returns `1` and invokes the subscribers of the second topic with the second message; a
third `ps_loop` returns `0` and invokes nobody. -/
theorem loop_is_fifo_one_per_call (s : PsState) (hwf : s.WF)
    (h1 h2 : Nat) (hh1 : h1 < PS_MAX_TOPICS_COUNT) (hh2 : h2 < PS_MAX_TOPICS_COUNT)
    (a1 a2 : actor_f)
    (ha1 : a1 ∈ (s.topic h1).pxPublishers) (ha2 : a2 ∈ (s.topic h2).pxPublishers)
    (hmute1 : ∀ i, i < PS_MAX_ACTORS_COUNT → (s.topic h1).pxPublishers.getD i NULL = a1 →
      (s.topic h1).u8PublishersMute.getD i 0 = 0)
    (hmute2 : ∀ i, i < PS_MAX_ACTORS_COUNT → (s.topic h2).pxPublishers.getD i NULL = a2 →
      (s.topic h2).u8PublishersMute.getD i 0 = 0)
    (len1 len2 : Nat) (hlen1 : len1 ≤ PS_MAX_MESSAGE_PAYLOAD_LENGTH)
    (hlen2 : len2 ≤ PS_MAX_MESSAGE_PAYLOAD_LENGTH) (mem1 mem2 : Nat → Nat)
    (hq : s.msg_queue.Holds [])
    (hcap : 2 * (PS_MAX_MESSAGE_PAYLOAD_LENGTH + SIZEOF_PS_MSG_HDR + SIZEOF_CQ_ELEM_HEADER)
      ≤ s.msg_queue.totalSize) :
    ∀ p1 p2 l1 l2 l3,
      p1 = ps_pub_topic a1 h1 len1 (some mem1) s →
      p2 = ps_pub_topic a2 h2 len2 (some mem2) p1.2 →
      l1 = ps_loop passive_actors p2.2 →
      l2 = ps_loop passive_actors l1.2.2 →
      l3 = ps_loop passive_actors l2.2.2 →
      p1.1 = PS_RESULT_OK ∧ p2.1 = PS_RESULT_OK
        ∧ ps_get_waiting_events_count p2.2 = 2
        ∧ l1.1 = 1
        ∧ l1.2.1.map (fun c => c.actor) = (s.topic h1).pxSubscribers.filter (fun x => x != NULL)
        ∧ (∀ c ∈ l1.2.1, c.xTopicHash = h1 ∧ c.pvMsg.take len1 = memBytes mem1 len1
            ∧ c.xMsgLendth = len1 ∧ c.xMsgDataType = (s.topic h1).xDtype)
        ∧ ps_get_waiting_events_count l1.2.2 = 1
        ∧ l2.1 = 1
        ∧ l2.2.1.map (fun c => c.actor) = (s.topic h2).pxSubscribers.filter (fun x => x != NULL)
        ∧ (∀ c ∈ l2.2.1, c.xTopicHash = h2 ∧ c.pvMsg.take len2 = memBytes mem2 len2
            ∧ c.xMsgLendth = len2 ∧ c.xMsgDataType = (s.topic h2).xDtype)
        ∧ ps_get_waiting_events_count l2.2.2 = 0
        ∧ l3.1 = 0 ∧ l3.2.1 = [] := by
  intro p1 p2 l1 l2 l3 e1 e2 e3 e4 e5
  have h4 : SIZEOF_PS_MSG_HDR = 4 := rfl
  have h8 : SIZEOF_CQ_ELEM_HEADER = 8 := rfl
  have h64 : PS_MAX_MESSAGE_PAYLOAD_LENGTH = 64 := rfl
  have hfree := hq.hfree
  simp only [spanSum, Nat.add_zero] at hfree
  -- first publish
  obtain ⟨q1, hp1, hq1, ht1⟩ := ps_pub_topic_enqueues hwf ha1 hmute1 len1 mem1 hq (by omega)
  have hwf1 : (pubState s h1 len1 mem1 q1).WF := pubState_WF hwf h1 len1 mem1 q1
  have hfree1 := hq1.hfree
  simp only [List.nil_append, spanSum, elemSpan, pubFrame_length, Nat.add_zero] at hfree1
  have hp1b : p1 = (PS_RESULT_OK, pubState s h1 len1 mem1 q1) := by rw [e1, hp1]; rfl
  -- second publish
  obtain ⟨u1, u2, u3, u4, _, _⟩ := pubState_topic hwf hh1 len1 mem1 q1 h2
  obtain ⟨v1, _, _, v4, _, _⟩ := pubState_topic hwf hh1 len1 mem1 q1 h1
  have hq1b : (pubState s h1 len1 mem1 q1).msg_queue.Holds ([] ++ [pubFrame h1 len1 mem1]) := hq1
  obtain ⟨q2, hp2, hq2, _⟩ := ps_pub_topic_enqueues hwf1 (a := a2) (h := h2)
    (by rw [u2]; exact ha2) (by rw [u2, u3]; exact hmute2) len2 mem2 hq1b
    (by show _ ≤ q1.freeSize; omega)
  set s1 := pubState s h1 len1 mem1 q1 with hs1
  have hwf2 : (pubState s1 h2 len2 mem2 q2).WF := pubState_WF hwf1 h2 len2 mem2 q2
  have hp2b : p2 = (PS_RESULT_OK, pubState s1 h2 len2 mem2 q2) := by
    rw [e2, hp1b]; exact hp2
  obtain ⟨w1, _, _, w4, _, _⟩ := pubState_topic hwf1 hh2 len2 mem2 q2 h1
  obtain ⟨x1, _, _, x4, _, _⟩ := pubState_topic hwf1 hh2 len2 mem2 q2 h2
  set s2 := pubState s1 h2 len2 mem2 q2 with hs2
  -- first loop
  have hq2b : s2.msg_queue.Holds [pubFrame h1 len1 mem1, pubFrame h2 len2 mem2] := hq2
  obtain ⟨q3, hl1, hq3⟩ := ps_loop_front hwf2 hq2b
  have hl1b : l1 = (1, deliveries s2 (loopMsg (pubFrame h1 len1 mem1)),
      { s2 with msg_queue := q3 }) := by rw [e3, hp2b]; exact hl1
  obtain ⟨d1, d2⟩ := deliveries_pubFrame s2 mem1 hh1 hlen1
  -- second loop
  have hwf3 : ({ s2 with msg_queue := q3 } : PsState).WF := hwf2
  have hq3b : ({ s2 with msg_queue := q3 } : PsState).msg_queue.Holds [pubFrame h2 len2 mem2] := hq3
  obtain ⟨q4, hl2, hq4⟩ := ps_loop_front hwf3 hq3b
  have hl2b : l2 = (1, deliveries { s2 with msg_queue := q3 } (loopMsg (pubFrame h2 len2 mem2)),
      { s2 with msg_queue := q4 }) := by rw [e4, hl1b]; exact hl2
  obtain ⟨d3, d4⟩ := deliveries_pubFrame { s2 with msg_queue := q3 } mem2 hh2 hlen2
  -- third loop
  have hq4b : ({ s2 with msg_queue := q4 } : PsState).msg_queue.Holds [] := hq4
  have hl3 : l3 = (0, [], { s2 with msg_queue := q4 }) := by
    rw [e5, hl2b]; exact ps_loop_empty hq4b _
  have t1 : (s2.topic h1).pxSubscribers = (s.topic h1).pxSubscribers := by rw [w1, v1]
  have t2 : (s2.topic h1).xDtype = (s.topic h1).xDtype := by rw [w4, v4]
  have t3 : (s2.topic h2).pxSubscribers = (s.topic h2).pxSubscribers := by rw [x1, u1]
  have t4 : (s2.topic h2).xDtype = (s.topic h2).xDtype := by rw [x4, u4]
  rw [hp1b, hp2b, hl1b, hl2b, hl3]
  refine ⟨rfl, rfl, ?_, rfl, ?_, ?_, ?_, rfl, ?_, ?_, ?_, rfl, rfl⟩
  · show int16_cast q2.count = 2
    rw [hq2.hcount]; exact int16_cast_small.2.2
  · rw [← t1]; exact d1
  · rw [← t2]; exact d2
  · show int16_cast q3.count = 1
    rw [hq3.hcount]; exact int16_cast_small.2.1
  · rw [← t3]; exact d3
  · rw [← t4]; exact d4
  · show int16_cast q4.count = 0
    rw [hq4.hcount]; exact int16_cast_small.1

theorem ps_is_all_zero_of_mem {l : List Nat} (h : ∃ a ∈ l, a ≠ 0) : ps_is_all_zero l = 0 := by
  induction l with
  | nil => obtain ⟨a, ha, _⟩ := h; simp at ha
  | cons b l ih =>
    obtain ⟨a, ha, hne⟩ := h
    simp only [ps_is_all_zero]
    by_cases hb : b = 0
    · simp only [hb, ne_eq, not_true_eq_false, if_false]
      rcases List.mem_cons.1 ha with h1 | h1
      · exact absurd (h1.trans hb) hne
      · exact ih ⟨a, h1, hne⟩
    · simp [hb]

/-- Registering an actor that already sits in the array reports a duplicate and leaves
the array alone. -/
theorem register_actor_of_mem {arr : List actor_f} (hl : arr.length = PS_MAX_ACTORS_COUNT)
    {a : actor_f} (ha : a ∈ arr) :
    (ps_register_actor arr a).1 = PS_RESULT_DUPLICATED ∧ (ps_register_actor arr a).2.1 = arr := by
  obtain ⟨i, _, hfi, _⟩ := find_actor_mem hl ha 0
  simp [ps_register_actor, hfi]

/-- Registering an actor succeeds whenever the array has a free slot or holds the actor
already; the actor is in the array afterwards and the array keeps its size. -/
theorem register_actor_of_free {arr : List actor_f} (hl : arr.length = PS_MAX_ACTORS_COUNT)
    {a : actor_f} (hfree : NULL ∈ arr) :
    (ps_register_actor arr a).1 ≠ PS_RESULT_ERROR
      ∧ a ∈ (ps_register_actor arr a).2.1
      ∧ (ps_register_actor arr a).2.1.length = PS_MAX_ACTORS_COUNT := by
  by_cases ha : a ∈ arr
  · obtain ⟨h1, h2⟩ := register_actor_of_mem hl ha
    rw [h1, h2]
    exact ⟨by decide, ha, hl⟩
  · have hnf := find_actor_not_mem hl ha 0
    obtain ⟨j, hj, hfj, _⟩ := find_actor_mem hl hfree 0
    have h3 : PS_MAX_ACTORS_COUNT = 3 := rfl
    simp only [ps_register_actor, hnf, hfj, reduceCtorEq, if_false, if_true]
    refine ⟨by decide, ?_, ?_⟩
    · exact List.mem_iff_getElem.2 ⟨j, by simp; omega, by simp⟩
    · simp [hl]

theorem find_topic_loop_congr (T U : List PsTopicStruct_s) (p : Option (List Nat)) (h0 : Nat)
    (hp : ∀ i, (T.getD i PsTopicStruct_s.zero).pu8TopicPathStr
      = (U.getD i PsTopicStruct_s.zero).pu8TopicPathStr) :
    ∀ idxs, ps_find_topic_loop T p h0 idxs = ps_find_topic_loop U p h0 idxs := by
  intro idxs
  induction idxs with
  | nil => rfl
  | cons i rest ih =>
    cases p with
    | none => simp only [ps_find_topic_loop, hp i, ih]
    | some path => simp only [ps_find_topic_loop, hp i, ih]

theorem find_topic_loop_mem (T : List PsTopicStruct_s) (p : Option (List Nat)) (h0 h : Nat) :
    ∀ idxs, ps_find_topic_loop T p h0 idxs = (PS_RESULT_OK, h) → h ∈ idxs := by
  intro idxs
  induction idxs with
  | nil => intro hf; simp [ps_find_topic_loop] at hf
  | cons i rest ih =>
    intro hf
    cases p with
    | none =>
      simp only [ps_find_topic_loop] at hf
      split at hf
      · simp only [Prod.mk.injEq, true_and] at hf; simp [hf]
      · exact List.mem_cons_of_mem _ (ih hf)
    | some path =>
      simp only [ps_find_topic_loop] at hf
      split at hf
      · exact List.mem_cons_of_mem _ (ih hf)
      · split at hf
        · simp only [Prod.mk.injEq, true_and] at hf; simp [hf]
        · exact List.mem_cons_of_mem _ (ih hf)

/-- A topic found by `ps_find_topic` lies inside the table. -/
theorem find_topic_lt {s : PsState} {p : Option (List Nat)} {h0 h : Nat}
    (hf : ps_find_topic s p h0 = (PS_RESULT_OK, h)) : h < PS_MAX_TOPICS_COUNT := by
  have := find_topic_loop_mem _ _ _ _ _ hf
  exact List.mem_range.1 this

/-- The lookup of a path is not affected by a publish. -/
theorem find_topic_after_pub (s : PsState) (a : actor_f) (h len : Nat)
    (mem : Nat → Nat) (p : Option (List Nat)) (h0 : Nat) :
    ps_find_topic (ps_pub_topic a h len (some mem) s).2 p h0 = ps_find_topic s p h0 := by
  unfold ps_find_topic
  rw [ps_pub_topic_topics]
  apply find_topic_loop_congr
  intro i
  simp only [PsState.setTopic, List.getD_eq_getElem?_getD]
  by_cases hi : h = i
  · subst hi
    by_cases hl : h < s.TopicsArray.length
    · simp [List.getElem?_set_self, hl, pubTopic, PsState.topic, List.getD_eq_getElem?_getD]
    · simp [List.getElem?_eq_none, Nat.le_of_not_lt hl]
  · rw [List.getElem?_set_ne hi]

/-- The topic table after a publish, whatever its result. -/
theorem topic_after_pub {s : PsState} (hwf : s.WF) (a : actor_f) {h : Nat}
    (hh : h < PS_MAX_TOPICS_COUNT) (len : Nat) (mem : Nat → Nat) (k : Nat) :
    (ps_pub_topic a h len (some mem) s).2.topic k
      = if k = h then pubTopic (s.topic h) h len mem else s.topic k := by
  have h1 : (ps_pub_topic a h len (some mem) s).2.topic k
      = (s.setTopic h (pubTopic (s.topic h) h len mem)).topic k := by
    show (ps_pub_topic a h len (some mem) s).2.TopicsArray.getD k PsTopicStruct_s.zero = _
    rw [ps_pub_topic_topics]
    rfl
  rw [h1]
  exact topic_setTopic hwf hh _ k

theorem pub_WF {s : PsState} (hwf : s.WF) (a : actor_f) (h len : Nat) (mem : Nat → Nat) :
    (ps_pub_topic a h len (some mem) s).2.WF := by
  have h2 := setTopic_WF hwf h (pubTopic_WF (topic_WF hwf h) h len mem)
  unfold PsState.WF at h2 ⊢
  rw [ps_pub_topic_topics]
  exact h2

/-- C4 (as amended): registering, under the path of a topic and with the topic's data
type, an actor that already sits in the topic's publisher array returns `PS_RESULT_OK`
with the topic's hash, and the publisher array is unchanged. -/
theorem register_publisher_again_ok (s : PsState) (hwf : s.WF) (path info : List Nat) (h : Nat)
    (hfind : ps_find_topic s (some path) 0 = (PS_RESULT_OK, h))
    (a : actor_f) (ha : a ∈ (s.topic h).pxPublishers) (sticky : Nat) :
    (ps_register_topic_publisher a (s.topic h).xDtype path info sticky s).1 = PS_RESULT_OK
      ∧ (ps_register_topic_publisher a (s.topic h).xDtype path info sticky s).2.1 = some h
      ∧ ((ps_register_topic_publisher a (s.topic h).xDtype path info sticky s).2.2.topic h).pxPublishers
          = (s.topic h).pxPublishers := by
  have hh := find_topic_lt hfind
  obtain ⟨r1, r2⟩ := register_actor_of_mem (topic_WF hwf h).2.2.2.1 ha
  simp only [ps_register_topic_publisher, hfind, if_true]
  by_cases hz : ps_is_all_zero (s.topic h).pxPublishers = 0
  · simp only [hz, if_true, ne_eq, not_true_eq_false, and_false, if_false, r1, r2,
      reduceCtorEq, not_false_eq_true]
    refine ⟨trivial, trivial, ?_⟩
    rw [topic_setTopic (setTopic_WF hwf h ?_) hh]
    · simp
    · obtain ⟨w1, w2, w3, w4, w5, w6⟩ := topic_WF hwf h
      exact ⟨w1, w2, w3, w4, w5, w6⟩
  · simp only [hz, if_false, false_and, r1, r2, reduceCtorEq, ne_eq, not_false_eq_true, if_true]
    refine ⟨trivial, trivial, ?_⟩
    rw [topic_setTopic hwf hh]
    simp

/-- C5: when the topic named by the path has a publisher, a registration with another
data type returns `PS_RESULT_REDEF_CONFLICT`, and the topic keeps its data type and its
publisher array. -/
theorem register_publisher_redef_conflict (s : PsState) (hwf : s.WF) (path info : List Nat)
    (h : Nat) (hfind : ps_find_topic s (some path) 0 = (PS_RESULT_OK, h))
    (hpub : ∃ b ∈ (s.topic h).pxPublishers, b ≠ NULL)
    (a : actor_f) (D : PsDataType_e) (hD : D ≠ (s.topic h).xDtype) (sticky : Nat) :
    (ps_register_topic_publisher a D path info sticky s).1 = PS_RESULT_REDEF_CONFLICT
      ∧ ((ps_register_topic_publisher a D path info sticky s).2.2.topic h).xDtype
          = (s.topic h).xDtype
      ∧ ((ps_register_topic_publisher a D path info sticky s).2.2.topic h).pxPublishers
          = (s.topic h).pxPublishers := by
  have hh := find_topic_lt hfind
  have hz := ps_is_all_zero_of_mem hpub
  simp only [ps_register_topic_publisher, hfind, if_true, hz, ne_eq, hD, not_false_eq_true,
    and_self]
  refine ⟨trivial, ?_, ?_⟩ <;>
  · rw [topic_setTopic hwf hh]
    simp

/-- C6: after a publish of at most `PS_MAX_MESSAGE_PAYLOAD_LENGTH` payload bytes on a sticky
topic, whatever it returned, a `ps_sub_single_topic` under the topic's path that passes all output pointers and
finds a free subscriber slot returns `PS_RESULT_OK`, the topic's hash, and a snapshot whose
first `len` bytes are the published ones, whose length is `len` and whose data type is
the topic's. -/
theorem sticky_snapshot_round_trip (s : PsState) (hwf : s.WF) (path : List Nat) (h : Nat)
    (hfind : ps_find_topic s (some path) 0 = (PS_RESULT_OK, h))
    (hsticky : (s.topic h).u8Sticky_flag ≠ 0)
    (a : actor_f) (len : Nat) (hlen : len ≤ PS_MAX_MESSAGE_PAYLOAD_LENGTH) (mem : Nat → Nat)
    (newActor : actor_f) (dtype : PsDataType_e)
    (hslot : NULL ∈ (s.topic h).pxSubscribers) :
    (ps_sub_single_topic path dtype newActor true true true true
        (ps_pub_topic a h len (some mem) s).2).1 = PS_RESULT_OK
      ∧ (ps_sub_single_topic path dtype newActor true true true true
        (ps_pub_topic a h len (some mem) s).2).2.1 = some h
      ∧ ∃ snap, (ps_sub_single_topic path dtype newActor true true true true
            (ps_pub_topic a h len (some mem) s).2).2.2.1 = some snap
          ∧ snap.pvMsg.take len = memBytes mem len
          ∧ snap.xMsgLendth = len
          ∧ snap.xMsgDataType = (s.topic h).xDtype := by
  have hh := find_topic_lt hfind
  have hf2 := find_topic_after_pub s a h len mem (some path) 0
  rw [hfind] at hf2
  have ht := topic_after_pub hwf a hh len mem h
  simp only [if_true] at ht
  have hsub : ((ps_pub_topic a h len (some mem) s).2.topic h).pxSubscribers
      = (s.topic h).pxSubscribers := by rw [ht]; rfl
  obtain ⟨r1, _, _⟩ := register_actor_of_free (a := newActor) (topic_WF hwf h).2.2.1 hslot
  have r2 : (ps_register_actor (pubTopic (s.topic h) h len mem).pxSubscribers newActor).1
      ≠ PS_RESULT_ERROR := r1
  simp only [ps_sub_single_topic, hf2, reduceCtorEq, if_false, false_and, ne_eq, ht, r2,
    not_false_eq_true, if_true]
  refine ⟨trivial, trivial, ?_⟩
  have hst : (pubTopic (s.topic h) h len mem).u8Sticky_flag ≠ 0 := hsticky
  simp only [hst, ne_eq, not_false_eq_true, and_self, if_true, decide_True]
  exact ⟨_, rfl, memBytes_take mem hlen, rfl, rfl⟩

/-- C9 (as amended): a publish with an actor handle that is stored in no slot of the
topic's publisher array returns `PS_RESULT_NOT_FOUND` and leaves the message queue as it
was; a free publisher slot stores the null handle, so on a topic with a free publisher
slot a publish with the null handle is not answered `PS_RESULT_NOT_FOUND`. -/
theorem publish_by_stranger_not_found (s : PsState) (hwf : s.WF) (h : Nat) (a : actor_f)
    (len : Nat) (pvData : Option (Nat → Nat)) :
    (a ∉ (s.topic h).pxPublishers →
        (ps_pub_topic a h len pvData s).1 = PS_RESULT_NOT_FOUND
          ∧ (ps_pub_topic a h len pvData s).2.msg_queue = s.msg_queue)
      ∧ (NULL ∈ (s.topic h).pxPublishers →
        (ps_pub_topic NULL h len pvData s).1 ≠ PS_RESULT_NOT_FOUND) := by
  constructor
  · intro ha
    have hnf := find_actor_not_mem (topic_WF hwf h).2.2.2.1 ha 0
    simp only [ps_pub_topic, topicPathStr_is_NULL, Bool.false_eq_true, if_false, hnf, ne_eq,
      reduceCtorEq, not_false_eq_true, if_true]
    exact ⟨trivial, rfl⟩
  · intro hnull
    obtain ⟨i, _, hfi, _⟩ := find_actor_mem (topic_WF hwf h).2.2.2.1 hnull 0
    simp only [ps_pub_topic, topicPathStr_is_NULL, Bool.false_eq_true, if_false, hfi, ne_eq,
      not_true_eq_false]
    split
    · split <;> simp
    · simp

/-- C10: when the free size of the queue is below `len + 4 + 8`, a publish by a registered,
unmuted publisher returns `PS_RESULT_OUT_OF_MEM` and leaves the queue as it was, while the
topic's `xLastMsg` holds the attempted length and payload. -/
theorem publish_without_space (s : PsState) (hwf : s.WF) (h : Nat)
    (hh : h < PS_MAX_TOPICS_COUNT) (a : actor_f) (ha : a ∈ (s.topic h).pxPublishers)
    (hmute : ∀ i, i < PS_MAX_ACTORS_COUNT → (s.topic h).pxPublishers.getD i NULL = a →
      (s.topic h).u8PublishersMute.getD i 0 = 0)
    (len : Nat) (hlen : len < 65536) (mem : Nat → Nat)
    (hfull : s.msg_queue.freeSize < len + SIZEOF_PS_MSG_HDR + SIZEOF_CQ_ELEM_HEADER) :
    (ps_pub_topic a h len (some mem) s).1 = PS_RESULT_OUT_OF_MEM
      ∧ (ps_pub_topic a h len (some mem) s).2.msg_queue = s.msg_queue
      ∧ ((ps_pub_topic a h len (some mem) s).2.topic h).xLastMsg.xMsgLen = len
      ∧ ((ps_pub_topic a h len (some mem) s).2.topic h).xLastMsg.pu8Data
          = memBytes mem PS_MAX_MESSAGE_PAYLOAD_LENGTH := by
  have h4 : SIZEOF_PS_MSG_HDR = 4 := rfl
  have h8 : SIZEOF_CQ_ELEM_HEADER = 8 := rfl
  have hM : SIZE_T_MOD = 18446744073709551616 := rfl
  have ht := topic_after_pub hwf a hh len mem h
  simp only [if_true] at ht
  refine ⟨?_, ?_, by rw [ht]; rfl, by rw [ht]; rfl⟩
  all_goals
    obtain ⟨i, hi, hfi, hgi⟩ := find_actor_mem (topic_WF hwf h).2.2.2.1 ha 0
    have hm := hmute i hi hgi
    have hadd : ∀ src, cq_addTailElement s.msg_queue src (SIZEOF_PS_MSG_HDR + len)
        = (false, s.msg_queue) :=
      fun src => cq_addTailElement_full s.msg_queue src _ (by omega) (by omega)
    simp only [ps_pub_topic, topicPathStr_is_NULL, Bool.false_eq_true, if_false, hfi, hm,
      ne_eq, not_true_eq_false, if_true, PsState.setTopic, hadd]

/-- Subscribing under the path of an existing topic with a free subscriber slot only
rewrites the subscriber array of that topic. -/
theorem sub_existing_topic {s : PsState} (hwf : s.WF) {path : List Nat} {h : Nat}
    (hfind : ps_find_topic s (some path) 0 = (PS_RESULT_OK, h))
    (hslot : NULL ∈ (s.topic h).pxSubscribers)
    (dtype : PsDataType_e) (a : actor_f) (b1 b2 b3 b4 : Bool) :
    (ps_sub_single_topic path dtype a b1 b2 b3 b4 s).1 = PS_RESULT_OK
      ∧ (ps_sub_single_topic path dtype a b1 b2 b3 b4 s).2.2.2
          = s.setTopic h { s.topic h with
              pxSubscribers := (ps_register_actor (s.topic h).pxSubscribers a).2.1 } := by
  obtain ⟨r1, _, _⟩ := register_actor_of_free (a := a) (topic_WF hwf h).2.2.1 hslot
  simp only [ps_sub_single_topic, hfind, reduceCtorEq, if_false, false_and, ne_eq, r1,
    not_false_eq_true, if_true, and_self]

/-- C7 (as amended): `ps_loop` hands the queued message to exactly the actors that occupy
the subscriber slots of its topic when `ps_loop` runs. An actor that subscribes, into a
free slot, after the publish and before `ps_loop` is invoked by that `ps_loop` with the
published message. -/
theorem late_subscriber_is_invoked (s : PsState) (hwf : s.WF) (path : List Nat) (h : Nat)
    (hfind : ps_find_topic s (some path) 0 = (PS_RESULT_OK, h))
    (a : actor_f) (ha : a ∈ (s.topic h).pxPublishers)
    (hmute : ∀ i, i < PS_MAX_ACTORS_COUNT → (s.topic h).pxPublishers.getD i NULL = a →
      (s.topic h).u8PublishersMute.getD i 0 = 0)
    (len : Nat) (hlen : len ≤ PS_MAX_MESSAGE_PAYLOAD_LENGTH) (mem : Nat → Nat)
    (hq : s.msg_queue.Holds [])
    (hcap : PS_MAX_MESSAGE_PAYLOAD_LENGTH + SIZEOF_PS_MSG_HDR + SIZEOF_CQ_ELEM_HEADER
      ≤ s.msg_queue.totalSize)
    (newActor : actor_f) (hnew : newActor ≠ NULL) (hslot : NULL ∈ (s.topic h).pxSubscribers)
    (dtype : PsDataType_e) (b1 b2 b3 b4 : Bool) :
    (ps_sub_single_topic path dtype newActor b1 b2 b3 b4
        (ps_pub_topic a h len (some mem) s).2).1 = PS_RESULT_OK
      ∧ (ps_loop passive_actors (ps_sub_single_topic path dtype newActor b1 b2 b3 b4
          (ps_pub_topic a h len (some mem) s).2).2.2.2).1 = 1
      ∧ (ps_loop passive_actors (ps_sub_single_topic path dtype newActor b1 b2 b3 b4
          (ps_pub_topic a h len (some mem) s).2).2.2.2).2.1.map (fun c => c.actor)
          = ((ps_sub_single_topic path dtype newActor b1 b2 b3 b4
              (ps_pub_topic a h len (some mem) s).2).2.2.2.topic h).pxSubscribers.filter
              (fun x => x != NULL)
      ∧ ∃ c ∈ (ps_loop passive_actors (ps_sub_single_topic path dtype newActor b1 b2 b3 b4
          (ps_pub_topic a h len (some mem) s).2).2.2.2).2.1,
          c.actor = newActor ∧ c.xTopicHash = h ∧ c.pvMsg.take len = memBytes mem len
            ∧ c.xMsgLendth = len := by
  have hh := find_topic_lt hfind
  have hfree := hq.hfree
  simp only [spanSum, Nat.add_zero] at hfree
  obtain ⟨q1, hp, hq1, _⟩ := ps_pub_topic_enqueues hwf ha hmute len mem hq (by omega)
  have hf2 := find_topic_after_pub s a h len mem (some path) 0
  rw [hfind, hp] at hf2
  rw [hp]
  change (ps_sub_single_topic path dtype newActor b1 b2 b3 b4 (pubState s h len mem q1)).1 = _
    ∧ (ps_loop passive_actors
        (ps_sub_single_topic path dtype newActor b1 b2 b3 b4 (pubState s h len mem q1)).2.2.2).1 = 1
    ∧ (ps_loop passive_actors
        (ps_sub_single_topic path dtype newActor b1 b2 b3 b4
          (pubState s h len mem q1)).2.2.2).2.1.map _
      = ((ps_sub_single_topic path dtype newActor b1 b2 b3 b4
          (pubState s h len mem q1)).2.2.2.topic h).pxSubscribers.filter _
    ∧ ∃ c ∈ (ps_loop passive_actors
        (ps_sub_single_topic path dtype newActor b1 b2 b3 b4 (pubState s h len mem q1)).2.2.2).2.1, _
  have hwf1 : (pubState s h len mem q1).WF := pubState_WF hwf h len mem q1
  obtain ⟨t1, _, _, _, _, _⟩ := pubState_topic hwf hh len mem q1 h
  have hslot1 : NULL ∈ ((pubState s h len mem q1).topic h).pxSubscribers := by rw [t1]; exact hslot
  obtain ⟨e1, e2⟩ := sub_existing_topic hwf1 hf2 hslot1 dtype newActor b1 b2 b3 b4
  obtain ⟨_, r2, r3⟩ := register_actor_of_free (a := newActor) (topic_WF hwf1 h).2.2.1 hslot1
  rw [e2]
  set s2 := (pubState s h len mem q1).setTopic h
    { (pubState s h len mem q1).topic h with
      pxSubscribers := (ps_register_actor ((pubState s h len mem q1).topic h).pxSubscribers
        newActor).2.1 } with hs2
  have hwf2 : s2.WF := by
    apply setTopic_WF hwf1
    obtain ⟨w1, w2, _, w4, w5, w6⟩ := topic_WF hwf1 h
    exact ⟨w1, w2, r3, w4, w5, w6⟩
  have hq2 : s2.msg_queue.Holds [pubFrame h len mem] := hq1
  obtain ⟨q3, hl, _⟩ := ps_loop_front hwf2 hq2
  obtain ⟨d1, d2⟩ := deliveries_pubFrame s2 mem hh hlen
  have hsubs : (s2.topic h).pxSubscribers
      = (ps_register_actor ((pubState s h len mem q1).topic h).pxSubscribers newActor).2.1 := by
    rw [hs2, topic_setTopic hwf1 hh]
    simp
  have hmem : newActor ∈ (deliveries s2 (loopMsg (pubFrame h len mem))).map (fun c => c.actor) := by
    rw [d1, hsubs]
    exact List.mem_filter.2 ⟨r2, by simpa using hnew⟩
  obtain ⟨c, hc, hca⟩ := List.mem_map.1 hmem
  rw [hl]
  refine ⟨e1, rfl, d1, c, hc, hca, (d2 c hc).1, (d2 c hc).2.1, (d2 c hc).2.2.1⟩

/-- The state `demo_pub_state` is well formed. -/
theorem demo_pub_state_WF : demo_pub_state.WF := by decide

set_option maxRecDepth 20000 in
/-- The queue of `demo_pub_state` is empty and consistent. -/
theorem demo_pub_state_queue : demo_pub_state.msg_queue.Holds [] := by
  constructor <;> first | decide | trivial

set_option maxRecDepth 20000 in
/-- The state `demo_full_state` is well formed. -/
theorem demo_full_state_WF : demo_full_state.WF := by decide

set_option maxRecDepth 20000 in
/-- C2 (witness): two publishes by actor `100` on `".demo"` from `demo_state`, then three
`ps_loop` calls. -/
theorem loop_is_fifo_one_per_call_witness :
    demo_state.WF ∧ demo_state.msg_queue.Holds [] ∧
    (ps_pub_topic 100 0 1 (some demo_mem) demo_state).1 = PS_RESULT_OK
      ∧ ps_get_waiting_events_count
          (ps_pub_topic 100 0 2 (some demo_mem2)
            (ps_pub_topic 100 0 1 (some demo_mem) demo_state).2).2 = 2
      ∧ (ps_loop passive_actors (ps_loop passive_actors (ps_loop passive_actors
          (ps_pub_topic 100 0 2 (some demo_mem2)
            (ps_pub_topic 100 0 1 (some demo_mem) demo_state).2).2).2.2).2.2).1 = 0 := by
  have h := loop_is_fifo_one_per_call demo_state demo_state_WF 0 0 (by decide) (by decide)
    100 100 (by decide) (by decide) (by decide) (by decide) 1 2 (by decide) (by decide)
    demo_mem demo_mem2 demo_state_queue (by decide) _ _ _ _ _ rfl rfl rfl rfl rfl
  exact ⟨demo_state_WF, demo_state_queue, h.1, h.2.2.1, h.2.2.2.2.2.2.2.2.2.2.2.1⟩

/-- C3 (failing input): in `demo_state` the topic `".demo"` has the publisher `100` and the
subscriber `200`; unregistering the publisher zeroes the whole slot although the
subscriber is still there. -/
theorem unregister_last_publisher_clears_subscribed_topic :
    (demo_state.topic 0).pxPublishers = [100, 0, 0]
      ∧ (demo_state.topic 0).pxSubscribers = [200, 0, 0]
      ∧ (ps_unregister_topic_publisher 100 0 demo_state).1 = PS_RESULT_OK
      ∧ (ps_unregister_topic_publisher 100 0 demo_state).2.topic 0 = PsTopicStruct_s.zero := by
  decide

/-- C4 (counterexample): registering publisher `100` of `".demo"` a second time with the
same data type returns `PS_RESULT_OK`, not `PS_RESULT_DUPLICATED`. -/
theorem register_publisher_again_not_duplicated :
    100 ∈ (demo_state.topic 0).pxPublishers
      ∧ (demo_state.topic 0).xDtype = PS_DTYPE_BOOL
      ∧ (ps_register_topic_publisher 100 PS_DTYPE_BOOL demo_path [] 1 demo_state).1
          = PS_RESULT_OK
      ∧ (ps_register_topic_publisher 100 PS_DTYPE_BOOL demo_path [] 1 demo_state).1
          ≠ PS_RESULT_DUPLICATED := by
  decide

/-- C4 (witness): the second registration of publisher `100` of `".demo"`. -/
theorem register_publisher_again_ok_witness :
    100 ∈ (demo_state.topic 0).pxPublishers
      ∧ (ps_register_topic_publisher 100 (demo_state.topic 0).xDtype demo_path [] 1
          demo_state).1 = PS_RESULT_OK :=
  ⟨by decide, (register_publisher_again_ok demo_state demo_state_WF demo_path [] 0 (by decide)
    100 (by decide) 1).1⟩

/-- C5 (witness): actor `101` registers for `".demo"`, a `PS_DTYPE_BOOL` topic, with
`PS_DTYPE_U8`. -/
theorem register_publisher_redef_conflict_witness :
    (demo_state.topic 0).xDtype = PS_DTYPE_BOOL
      ∧ (ps_register_topic_publisher 101 PS_DTYPE_U8 demo_path [] 0 demo_state).1
          = PS_RESULT_REDEF_CONFLICT
      ∧ ((ps_register_topic_publisher 101 PS_DTYPE_U8 demo_path [] 0 demo_state).2.2.topic
          0).xDtype = (demo_state.topic 0).xDtype :=
  ⟨by decide, (register_publisher_redef_conflict demo_state demo_state_WF demo_path [] 0
      (by decide) ⟨100, by decide, by decide⟩ 101 PS_DTYPE_U8 (by decide) 0).1,
    (register_publisher_redef_conflict demo_state demo_state_WF demo_path [] 0
      (by decide) ⟨100, by decide, by decide⟩ 101 PS_DTYPE_U8 (by decide) 0).2.1⟩

/-- C6 (witness): actor `300` subscribes to the sticky topic `".demo"` after a publish. -/
theorem sticky_snapshot_round_trip_witness :
    (demo_state.topic 0).u8Sticky_flag ≠ 0
      ∧ (ps_sub_single_topic demo_path PS_DTYPE_BOOL 300 true true true true
          (ps_pub_topic 100 0 1 (some demo_mem) demo_state).2).1 = PS_RESULT_OK
      ∧ (ps_sub_single_topic demo_path PS_DTYPE_BOOL 300 true true true true
          (ps_pub_topic 100 0 1 (some demo_mem) demo_state).2).2.1 = some 0 :=
  ⟨by decide, (sticky_snapshot_round_trip demo_state demo_state_WF demo_path 0 (by decide)
      (by decide) 100 1 (by decide) demo_mem 300 PS_DTYPE_BOOL (by decide)).1,
    (sticky_snapshot_round_trip demo_state demo_state_WF demo_path 0 (by decide)
      (by decide) 100 1 (by decide) demo_mem 300 PS_DTYPE_BOOL (by decide)).2.1⟩

set_option maxRecDepth 20000 in
/-- C7 (counterexample): actor `200` subscribes to the sticky topic `".demo"` after the
publish, receives the snapshot, and is nevertheless invoked by the next `ps_loop` with the
queued message. -/
theorem late_subscriber_gets_queued_message :
    (demo_pub_state.topic 0).pxSubscribers = [0, 0, 0]
      ∧ (ps_pub_topic 100 0 1 (some demo_mem) demo_pub_state).1 = PS_RESULT_OK
      ∧ (ps_sub_single_topic demo_path PS_DTYPE_BOOL 200 true true true true
          (ps_pub_topic 100 0 1 (some demo_mem) demo_pub_state).2).2.2.1.isSome = true
      ∧ (ps_loop passive_actors
          (ps_sub_single_topic demo_path PS_DTYPE_BOOL 200 true true true true
            (ps_pub_topic 100 0 1 (some demo_mem) demo_pub_state).2).2.2.2).2.1.map
          (fun c => (c.actor, c.xTopicHash, c.xMsgLendth, c.pvMsg.take 1)) = [(200, 0, 1, [1])] := by
  decide

/-- C7 (witness): actor `200` subscribes to `".demo"` between the publish and `ps_loop`. -/
theorem late_subscriber_is_invoked_witness :
    (200 : actor_f) ≠ NULL ∧ NULL ∈ (demo_pub_state.topic 0).pxSubscribers
      ∧ (ps_loop passive_actors
          (ps_sub_single_topic demo_path PS_DTYPE_BOOL 200 true true true true
            (ps_pub_topic 100 0 1 (some demo_mem) demo_pub_state).2).2.2.2).1 = 1 :=
  ⟨by decide, by decide, (late_subscriber_is_invoked demo_pub_state demo_pub_state_WF demo_path 0
    (by decide) 100 (by decide) (by decide) 1 (by decide) demo_mem demo_pub_state_queue
    (by decide) 200 (by decide) (by decide) PS_DTYPE_BOOL true true true true).2.1⟩

set_option maxRecDepth 20000 in
/-- C8 (failing input): slot `1` of `demo_state` is free. A publish to it by actor `100`
returns `PS_RESULT_NOT_FOUND` but has rewritten the slot's `xLastMsg`; a publish to it
with the null actor returns `PS_RESULT_OK` and queues a message. -/
theorem publish_to_free_slot_is_not_rejected :
    (demo_state.topic 1).pu8TopicPathStr.headD 0 = 0
      ∧ (ps_pub_topic 100 1 1 (some demo_mem) demo_state).1 = PS_RESULT_NOT_FOUND
      ∧ ((ps_pub_topic 100 1 1 (some demo_mem) demo_state).2.topic 1).xLastMsg
          ≠ (demo_state.topic 1).xLastMsg
      ∧ (ps_pub_topic NULL 1 1 (some demo_mem) demo_state).1 = PS_RESULT_OK
      ∧ ps_get_waiting_events_count demo_state = 0
      ∧ ps_get_waiting_events_count (ps_pub_topic NULL 1 1 (some demo_mem) demo_state).2 = 1 := by
  decide

/-- C9 (witness): actor `555` is no publisher of `".demo"`, whose publisher array has
free slots. -/
theorem publish_by_stranger_not_found_witness :
    555 ∉ (demo_state.topic 0).pxPublishers
      ∧ (ps_pub_topic 555 0 1 (some demo_mem) demo_state).1 = PS_RESULT_NOT_FOUND
      ∧ (ps_pub_topic 555 0 1 (some demo_mem) demo_state).2.msg_queue = demo_state.msg_queue
      ∧ NULL ∈ (demo_state.topic 0).pxPublishers
      ∧ (ps_pub_topic NULL 0 1 (some demo_mem) demo_state).1 ≠ PS_RESULT_NOT_FOUND :=
  have h := publish_by_stranger_not_found demo_state demo_state_WF 0 555 1 (some demo_mem)
  ⟨by decide, (h.1 (by decide)).1, (h.1 (by decide)).2, by decide, h.2 (by decide)⟩

set_option maxRecDepth 20000 in
/-- C9 (counterexample): in `demo_state` the topic `".demo"` is occupied, its only
registered publisher is actor `100` and two publisher slots are free; a publish with the
null handle, which nobody registered, returns `PS_RESULT_OK` and queues a message. -/
theorem publish_by_null_handle_is_accepted :
    cstr (demo_state.topic 0).pu8TopicPathStr = demo_path
      ∧ (demo_state.topic 0).pxPublishers = [100, NULL, NULL]
      ∧ (ps_pub_topic NULL 0 1 (some demo_mem) demo_state).1 = PS_RESULT_OK
      ∧ demo_state.msg_queue.count = 0
      ∧ (ps_pub_topic NULL 0 1 (some demo_mem) demo_state).2.msg_queue.count = 1
      ∧ (ps_pub_topic NULL 0 1 (some demo_mem) demo_state).2.msg_queue.freeSize + 13
          = demo_state.msg_queue.freeSize := by
  decide

set_option maxRecDepth 20000 in
/-- C10 (witness): a publish of 64 payload bytes into the queue of `demo_full_state`. -/
theorem publish_without_space_witness :
    demo_full_state.msg_queue.freeSize = 36
      ∧ (ps_pub_topic 100 0 64 (some demo_mem) demo_full_state).1 = PS_RESULT_OUT_OF_MEM
      ∧ (ps_pub_topic 100 0 64 (some demo_mem) demo_full_state).2.msg_queue
          = demo_full_state.msg_queue :=
  ⟨by decide, (publish_without_space demo_full_state demo_full_state_WF 0 (by decide) 100
      (by decide) (by decide) 64 (by decide) demo_mem (by decide)).1,
    (publish_without_space demo_full_state demo_full_state_WF 0 (by decide) 100
      (by decide) (by decide) 64 (by decide) demo_mem (by decide)).2.1⟩

theorem wrappedCopyToBuff_count (bs : List Nat) : ∀ (q : CQ_S) (p : Nat),
    (cq_wrappedCopyToBuff q p bs).1.count = q.count := by
  induction bs with
  | nil => intro q p; rfl
  | cons b bs ih => intro q p; simp only [cq_wrappedCopyToBuff]; rw [ih]

/-- An element that fits is accepted and counted, whatever the state of the ring. -/
theorem cq_addTailElement_count (q : CQ_S) (src : List Nat) (n : Nat) (hn : n ≠ 0)
    (hmod : n + SIZEOF_CQ_ELEM_HEADER < SIZE_T_MOD)
    (hfit : n + SIZEOF_CQ_ELEM_HEADER ≤ q.freeSize) :
    (cq_addTailElement q src n).1 = true
      ∧ (cq_addTailElement q src n).2.count = q.count + 1 := by
  have hsp : cq_hasSpace q n = true := by
    simp only [cq_hasSpace, Nat.mod_eq_of_lt hmod, decide_eq_true_eq]; omega
  simp only [cq_addTailElement, hn, hsp, if_false, Bool.not_true, Bool.false_eq_true,
    wrappedCopyToBuff_count, and_self]

/-- The statics a publish never writes. -/
theorem ps_pub_topic_rest (a : actor_f) (h len : Nat) (pv : Option (Nat → Nat)) (s : PsState) :
    (ps_pub_topic a h len pv s).2.TimersArray = s.TimersArray
      ∧ (ps_pub_topic a h len pv s).2.xTopic_tpc_cnhg = s.xTopic_tpc_cnhg
      ∧ (ps_pub_topic a h len pv s).2.u8Topic_tpc_cnhg_present_flag
          = s.u8Topic_tpc_cnhg_present_flag := by
  simp only [ps_pub_topic, topicPathStr_is_NULL, Bool.false_eq_true, if_false]
  split
  · exact ⟨rfl, rfl, rfl⟩
  · split
    · split <;> exact ⟨rfl, rfl, rfl⟩
    · exact ⟨rfl, rfl, rfl⟩

/-- Without the announcement flag `ps_report_topic_change` does nothing. -/
theorem report_of_flag_zero {s : PsState} (hflag : s.u8Topic_tpc_cnhg_present_flag = 0)
    (h : Nat) (pfx : List Nat) : ps_report_topic_change h pfx s = s := by
  simp [ps_report_topic_change, hflag]

theorem find_topic_setTopic_path (s : PsState) (h : Nat) (t : PsTopicStruct_s)
    (hp : t.pu8TopicPathStr = (s.topic h).pu8TopicPathStr) (p : Option (List Nat)) (h0 : Nat) :
    ps_find_topic (s.setTopic h t) p h0 = ps_find_topic s p h0 := by
  unfold ps_find_topic
  apply find_topic_loop_congr
  intro i
  simp only [PsState.setTopic, List.getD_eq_getElem?_getD]
  by_cases hi : h = i
  · subst hi
    by_cases hl : h < s.TopicsArray.length
    · simp [List.getElem?_set_self, hl, hp, PsState.topic, List.getD_eq_getElem?_getD]
    · simp [List.getElem?_eq_none, Nat.le_of_not_lt hl]
  · rw [List.getElem?_set_ne hi]

theorem find_topic_loop_result (T : List PsTopicStruct_s) (p : Option (List Nat)) (h0 : Nat) :
    ∀ idxs, (ps_find_topic_loop T p h0 idxs).1 = PS_RESULT_OK
      ∨ ps_find_topic_loop T p h0 idxs = (PS_RESULT_NOT_FOUND, h0) := by
  intro idxs
  induction idxs with
  | nil => right; rfl
  | cons i rest ih =>
    cases p with
    | none =>
      simp only [ps_find_topic_loop]
      split
      · left; rfl
      · exact ih
    | some path =>
      simp only [ps_find_topic_loop]
      split
      · exact ih
      · split
        · left; rfl
        · exact ih

/-- The lookup `ps_find_topic` either finds a slot or reports `PS_RESULT_NOT_FOUND` and
leaves the output variable alone. -/
theorem find_topic_result (s : PsState) (p : Option (List Nat)) (h0 : Nat) :
    (ps_find_topic s p h0).1 = PS_RESULT_OK
      ∨ ps_find_topic s p h0 = (PS_RESULT_NOT_FOUND, h0) :=
  find_topic_loop_result _ _ _ _

/-- With every slot occupied the search for a free slot fails. -/
theorem find_topic_none_full (s : PsState)
    (hfull : ∀ i, i < PS_MAX_TOPICS_COUNT → (s.topic i).pu8TopicPathStr.headD 0 ≠ 0)
    (h0 : Nat) : ps_find_topic s none h0 = (PS_RESULT_NOT_FOUND, h0) := by
  have e0 := hfull 0 (by decide)
  have e1 := hfull 1 (by decide)
  have e2 := hfull 2 (by decide)
  unfold PsState.topic at e0 e1 e2
  simp only [ps_find_topic, ps_find_topic_loop, List.range, List.range.loop, e0, e1, e2,
    if_false]

/-- C20 (as amended): when every topic slot is occupied, `ps_sub_single_topic` for a path
that names no topic returns `PS_RESULT_NOT_FOUND` and changes nothing. -/
theorem subscribe_with_full_table_not_found (s : PsState)
    (hfull : ∀ i, i < PS_MAX_TOPICS_COUNT → (s.topic i).pu8TopicPathStr.headD 0 ≠ 0)
    (path : List Nat) (hnew : (ps_find_topic s (some path) 0).1 = PS_RESULT_NOT_FOUND)
    (dtype : PsDataType_e) (a : actor_f) (b1 b2 b3 b4 : Bool) :
    (ps_sub_single_topic path dtype a b1 b2 b3 b4 s).1 = PS_RESULT_NOT_FOUND
      ∧ (ps_sub_single_topic path dtype a b1 b2 b3 b4 s).2.2.2 = s := by
  have hg := find_topic_none_full s hfull (ps_find_topic s (some path) 0).2
  simp [ps_sub_single_topic, hnew, hg]

/-- C14 (as amended): for a path that starts with neither timer prefix,
`ps_create_and_sub_timer_topic` changes nothing and does not call `restart_timer`; it
returns `PS_RESULT_NOT_FOUND` when no topic has that path and `PS_RESULT_DUPLICATED`
when one has. -/
theorem timer_path_without_timer_prefix (s : PsState) (path info : List Nat)
    (hp : (cstr path).take PS_SYS_SERVICED_PERIODIC_MS_TIMER_TOPIC.length
      ≠ PS_SYS_SERVICED_PERIODIC_MS_TIMER_TOPIC)
    (hs : (cstr path).take PS_SYS_SERVICED_SINGLE_MS_TIMER_TOPIC.length
      ≠ PS_SYS_SERVICED_SINGLE_MS_TIMER_TOPIC)
    (a : actor_f) (tout_ms current_tick_ms : Int) :
    (ps_create_and_sub_timer_topic path a info tout_ms current_tick_ms s).2.2 = s
      ∧ (ps_create_and_sub_timer_topic path a info tout_ms current_tick_ms s).2.1 = none
      ∧ ((ps_find_topic s (some path) 0).1 = PS_RESULT_NOT_FOUND →
          (ps_create_and_sub_timer_topic path a info tout_ms current_tick_ms s).1
            = PS_RESULT_NOT_FOUND)
      ∧ ((ps_find_topic s (some path) 0).1 = PS_RESULT_OK →
          (ps_create_and_sub_timer_topic path a info tout_ms current_tick_ms s).1
            = PS_RESULT_DUPLICATED) := by
  have c1 : cstr PS_SYS_SERVICED_PERIODIC_MS_TIMER_TOPIC
      = PS_SYS_SERVICED_PERIODIC_MS_TIMER_TOPIC := by decide
  have c2 : cstr PS_SYS_SERVICED_SINGLE_MS_TIMER_TOPIC
      = PS_SYS_SERVICED_SINGLE_MS_TIMER_TOPIC := by decide
  have e1 : ps_str_starts_with PS_SYS_SERVICED_PERIODIC_MS_TIMER_TOPIC path = 0 := by
    simp only [ps_str_starts_with, c1]
    split
    · rfl
    · rw [List.take_length, if_pos (fun h => hp h.symm)]
  have e2 : ps_str_starts_with PS_SYS_SERVICED_SINGLE_MS_TIMER_TOPIC path = 0 := by
    simp only [ps_str_starts_with, c2]
    split
    · rfl
    · rw [List.take_length, if_pos (fun h => hs h.symm)]
  rcases find_topic_result s (some path) 0 with hf | hf
  · simp [ps_create_and_sub_timer_topic, hf]
  · simp [ps_create_and_sub_timer_topic, hf, e1, e2]

/-- With passive actors `ps_loop` removes the front element and gives its bytes back to
the free space. -/
theorem ps_loop_front_free {s : PsState} (hwf : s.WF) {e : List Nat} {es : List (List Nat)}
    (hq : s.msg_queue.Holds (e :: es)) :
    ∃ q, ps_loop passive_actors s = (1, deliveries s (loopMsg e), { s with msg_queue := q })
      ∧ q.Holds es ∧ q.freeSize = s.msg_queue.freeSize + elemSpan e := by
  have hne : e ≠ [] := hq.hne e (List.mem_cons_self _ _)
  have hpos : 0 < e.length := List.length_pos.2 hne
  have hg := cq_getFrontElement_holds hq (SIZEOF_PS_MSG_HDR + PS_MAX_MESSAGE_PAYLOAD_LENGTH)
  have hd := cq_deleteFrontElement_holds hq
  have hnz : min (SIZEOF_PS_MSG_HDR + PS_MAX_MESSAGE_PAYLOAD_LENGTH) e.length ≠ 0 := by
    have h4 : SIZEOF_PS_MSG_HDR = 4 := rfl
    simp only [ne_eq, Nat.min_eq_zero_iff]; omega
  have hc : s.msg_queue.count > 0 := by rw [hq.hcount]; simp
  have ht : (cq_deleteFrontElement s.msg_queue).2.totalSize = s.msg_queue.totalSize := by
    simp only [cq_deleteFrontElement, hc, if_true]
  refine ⟨(cq_deleteFrontElement s.msg_queue).2, ?_, hd.2, ?_⟩
  · simp only [ps_loop, hg, ne_eq, hnz, not_false_eq_true, if_true, ps_loop_actors_passive hwf,
      loopMsg]
    rfl
  · have h1 := hd.2.hfree
    have h2 := hq.hfree
    simp only [spanSum] at h2
    omega

/-- A publish by a registered, unmuted publisher whose frame does not fit is refused; it
has rewritten `xLastMsg` all the same. -/
theorem ps_pub_topic_refused {s : PsState} (hwf : s.WF) {h : Nat}
    {a : actor_f} (ha : a ∈ (s.topic h).pxPublishers)
    (hmute : ∀ i, i < PS_MAX_ACTORS_COUNT → (s.topic h).pxPublishers.getD i NULL = a →
      (s.topic h).u8PublishersMute.getD i 0 = 0)
    (len : Nat) (hlen : len < 65536) (mem : Nat → Nat)
    (hfull : s.msg_queue.freeSize < len + SIZEOF_PS_MSG_HDR + SIZEOF_CQ_ELEM_HEADER) :
    ps_pub_topic a h len (some mem) s
      = (PS_RESULT_OUT_OF_MEM, s.setTopic h (pubTopic (s.topic h) h len mem)) := by
  have h4 : SIZEOF_PS_MSG_HDR = 4 := rfl
  have h8 : SIZEOF_CQ_ELEM_HEADER = 8 := rfl
  have hM : SIZE_T_MOD = 18446744073709551616 := rfl
  obtain ⟨i, hi, hfi, hgi⟩ := find_actor_mem (topic_WF hwf h).2.2.2.1 ha 0
  have hm := hmute i hi hgi
  have hadd : ∀ src, cq_addTailElement s.msg_queue src (SIZEOF_PS_MSG_HDR + len)
      = (false, s.msg_queue) :=
    fun src => cq_addTailElement_full s.msg_queue src _ (by omega) (by omega)
  simp only [ps_pub_topic, topicPathStr_is_NULL, Bool.false_eq_true, if_false, hfi, hm,
    ne_eq, not_true_eq_false, if_true, PsState.setTopic, hadd, pubTopic, pubMsg]

/-- C11 (as amended): when the queue is exactly full, a publish by a registered, unmuted
publisher returns `PS_RESULT_OUT_OF_MEM`; after one `ps_loop` the same publish returns
`PS_RESULT_OK` if the element that `ps_loop` removed was at least as long as the new
frame, and `PS_RESULT_OUT_OF_MEM` again if it was shorter. -/
theorem publish_into_full_queue_then_loop (s : PsState) (hwf : s.WF) (h : Nat)
    (hh : h < PS_MAX_TOPICS_COUNT) (a : actor_f) (ha : a ∈ (s.topic h).pxPublishers)
    (hmute : ∀ i, i < PS_MAX_ACTORS_COUNT → (s.topic h).pxPublishers.getD i NULL = a →
      (s.topic h).u8PublishersMute.getD i 0 = 0)
    (len : Nat) (hlen : len < 65536) (mem : Nat → Nat)
    (e : List Nat) (es : List (List Nat)) (hq : s.msg_queue.Holds (e :: es))
    (hfull : s.msg_queue.freeSize = 0) :
    (ps_pub_topic a h len (some mem) s).1 = PS_RESULT_OUT_OF_MEM
      ∧ (len + SIZEOF_PS_MSG_HDR ≤ e.length →
          (ps_pub_topic a h len (some mem)
            (ps_loop passive_actors (ps_pub_topic a h len (some mem) s).2).2.2).1
            = PS_RESULT_OK)
      ∧ (e.length < len + SIZEOF_PS_MSG_HDR →
          (ps_pub_topic a h len (some mem)
            (ps_loop passive_actors (ps_pub_topic a h len (some mem) s).2).2.2).1
            = PS_RESULT_OUT_OF_MEM) := by
  have h4 : SIZEOF_PS_MSG_HDR = 4 := rfl
  have h8 : SIZEOF_CQ_ELEM_HEADER = 8 := rfl
  have hp1 := ps_pub_topic_refused hwf ha hmute len hlen mem (by omega)
  set s1 := s.setTopic h (pubTopic (s.topic h) h len mem) with hs1
  have hwf1 : s1.WF := setTopic_WF hwf h (pubTopic_WF (topic_WF hwf h) h len mem)
  have hq1 : s1.msg_queue.Holds (e :: es) := hq
  obtain ⟨q2, hl, hq2, hfree2⟩ := ps_loop_front_free hwf1 hq1
  have hfree2b : q2.freeSize = elemSpan e := by
    rw [hfree2]; show s.msg_queue.freeSize + _ = _; omega
  have hspan : elemSpan e = 8 + e.length := rfl
  set s2 : PsState := { s1 with msg_queue := q2 } with hs2
  have hwf2 : s2.WF := hwf1
  have htop : s2.topic h = pubTopic (s.topic h) h len mem := by
    show s1.topic h = _
    rw [hs1, topic_setTopic hwf hh]; simp
  have ha2 : a ∈ (s2.topic h).pxPublishers := by rw [htop]; exact ha
  have hm2 : ∀ i, i < PS_MAX_ACTORS_COUNT → (s2.topic h).pxPublishers.getD i NULL = a →
      (s2.topic h).u8PublishersMute.getD i 0 = 0 := by rw [htop]; exact hmute
  rw [hp1]
  refine ⟨rfl, ?_, ?_⟩
  · intro hfit
    show (ps_pub_topic a h len (some mem) (ps_loop passive_actors s1).2.2).1 = _
    rw [hl]
    obtain ⟨q3, hp, _, _⟩ := ps_pub_topic_enqueues hwf2 ha2 hm2 len mem hq2
      (by show _ ≤ q2.freeSize; omega)
    show (ps_pub_topic a h len (some mem) s2).1 = _
    rw [hp]
  · intro hshort
    show (ps_pub_topic a h len (some mem) (ps_loop passive_actors s1).2.2).1 = _
    rw [hl]
    show (ps_pub_topic a h len (some mem) s2).1 = _
    rw [ps_pub_topic_refused hwf2 ha2 hm2 len hlen mem (by show q2.freeSize < _; omega)]

set_option maxRecDepth 40000 in
/-- C11 (counterexample): the queue of `demo_exactly_full_state` has no free byte; a
publish of 64 payload bytes is refused, and after one `ps_loop`, which removes a frame
of 4 bytes, the same publish is refused again. -/
theorem publish_after_one_loop_still_refused :
    demo_exactly_full_state.msg_queue.freeSize = 0
      ∧ (ps_pub_topic 100 0 64 (some demo_mem) demo_exactly_full_state).1 = PS_RESULT_OUT_OF_MEM
      ∧ (ps_loop passive_actors
          (ps_pub_topic 100 0 64 (some demo_mem) demo_exactly_full_state).2).1 = 1
      ∧ (ps_pub_topic 100 0 64 (some demo_mem)
          (ps_loop passive_actors
            (ps_pub_topic 100 0 64 (some demo_mem) demo_exactly_full_state).2).2.2).1
          = PS_RESULT_OUT_OF_MEM := by
  decide

theorem timer_setTimer {s : PsState} {i : Nat} (hi : i < s.TimersArray.length)
    (t : PsTimerStruct_s) (j : Nat) :
    (s.setTimer i t).timer j = if j = i then t else s.timer j := by
  unfold PsState.timer PsState.setTimer
  simp only [List.getD_eq_getElem?_getD]
  by_cases hj : j = i
  · subst hj; simp [List.getElem?_set_self, hi]
  · simp [hj, List.getElem?_set_ne (Ne.symm hj)]

theorem timer_after_pub (a : actor_f) (h len : Nat) (pv : Option (Nat → Nat)) (s : PsState)
    (j : Nat) : (ps_pub_topic a h len pv s).2.timer j = s.timer j := by
  unfold PsState.timer
  rw [(ps_pub_topic_rest a h len pv s).1]

theorem timerSet_timer {s : PsState} {i : Nat} (hi : i < s.TimersArray.length) (L : Int)
    (j : Nat) :
    (timerSet s i L).timer j
      = if j = i then { (s.timer i) with time_left_ms := L } else s.timer j :=
  timer_setTimer hi _ j

theorem timerSet_length (s : PsState) (i : Nat) (L : Int) :
    (timerSet s i L).TimersArray.length = s.TimersArray.length := by
  simp [timerSet, PsState.setTimer]

theorem timerSet_timerSet {s : PsState} {i : Nat} (hi : i < s.TimersArray.length) (L M : Int) :
    timerSet (timerSet s i L) i M = timerSet s i M := by
  have h1 : (timerSet s i L).timer i = { (s.timer i) with time_left_ms := L } := by
    rw [timerSet_timer hi]; simp
  unfold timerSet at h1 ⊢
  rw [h1]
  simp [PsState.setTimer, List.set_set]

theorem list_set_getElem {α : Type} (l : List α) (i : Nat) (hi : i < l.length) :
    l.set i (l.get ⟨i, hi⟩) = l := by
  apply List.ext_getElem?
  intro j
  by_cases hj : i = j
  · subst hj; simp [List.getElem?_set_self, hi]
  · simp [List.getElem?_set_ne hj]

theorem timerSet_self {s : PsState} {i : Nat} (hi : i < s.TimersArray.length) {L : Int}
    (hL : (s.timer i).time_left_ms = L) : timerSet s i L = s := by
  have h1 : ({ (s.timer i) with time_left_ms := L } : PsTimerStruct_s) = s.timer i := by
    rw [← hL]
  unfold timerSet
  rw [h1]
  unfold PsState.setTimer PsState.timer
  rw [List.getD_eq_getElem _ _ hi]
  have := list_set_getElem s.TimersArray i hi
  simp only [List.get_eq_getElem] at this
  rw [this]

/-- A free timer slot is skipped. -/
theorem timer_slot_free {s : PsState} {j : Nat} (hfree : (s.timer j).duration_ms = 0)
    (e sh : Int) : ps_timer_slot e j s sh = (s, sh) := by
  simp [ps_timer_slot, hfree]

/-- An occupied timer slot with more time left than has elapsed. -/
theorem timer_slot_running {s : PsState} {i : Nat} (hi : i < s.TimersArray.length)
    (hdur : (s.timer i).duration_ms ≠ 0) {e : Int} (he : e < (s.timer i).time_left_ms)
    (sh : Int) :
    ps_timer_slot e i s sh
      = (timerSet s i ((s.timer i).time_left_ms - e),
          if (s.timer i).time_left_ms - e < sh then (s.timer i).time_left_ms - e else sh) := by
  have h1 : ((s.setTimer i { (s.timer i) with
      time_left_ms := (s.timer i).time_left_ms - e }).timer i).time_left_ms
      = (s.timer i).time_left_ms - e := by
    rw [timer_setTimer hi]; simp
  have h2 : ¬ (s.timer i).time_left_ms - e ≤ 0 := by omega
  have h3 : (s.timer i).time_left_ms - e > 0 := by omega
  simp only [ps_timer_slot, hdur, if_false, h1, h2, h3, if_true, timerSet]

/-- An occupied periodic timer slot whose time has run out: one publish, then the
reload. -/
theorem timer_slot_expired_periodic {s : PsState} {i : Nat} (hi : i < s.TimersArray.length)
    (hdur : 0 < (s.timer i).duration_ms) (hper : (s.timer i).periodic_flag ≠ 0)
    {e : Int} (he : (s.timer i).time_left_ms ≤ e) (sh : Int) :
    ps_timer_slot e i s sh
      = (timerSet (ps_pub_topic (s.timer i).xCreatorPublisher (s.timer i).u16Hash 0 none
            (timerSet s i ((s.timer i).time_left_ms - e))).2 i (s.timer i).duration_ms,
          if (s.timer i).duration_ms < sh then (s.timer i).duration_ms else sh) := by
  have hne : (s.timer i).duration_ms ≠ 0 := by omega
  have h1 : (s.setTimer i { (s.timer i) with
      time_left_ms := (s.timer i).time_left_ms - e }).timer i
      = { (s.timer i) with time_left_ms := (s.timer i).time_left_ms - e } := by
    rw [timer_setTimer hi]; simp
  have h2 : (s.timer i).time_left_ms - e ≤ 0 := by omega
  have hlen : i < (ps_pub_topic (s.timer i).xCreatorPublisher (s.timer i).u16Hash 0 none
      (s.setTimer i { (s.timer i) with
        time_left_ms := (s.timer i).time_left_ms - e })).2.TimersArray.length := by
    rw [(ps_pub_topic_rest _ _ _ _ _).1]; simpa [PsState.setTimer] using hi
  have h0 : PS_DTYPE_NONE.toNat = 0 := rfl
  simp only [ps_timer_slot, hne, if_false, h1, h2, if_true, timer_after_pub, hper, ne_eq,
    not_false_eq_true, timer_setTimer hlen, hdur, gt_iff_lt, timerSet, h0]

/-- When slot `i` is the only occupied timer slot before and after its own pass, the
whole scan of `ps_pub_timer_tout_event` amounts to the pass for slot `i`. -/
theorem timer_scan_single {s s1 : PsState} {i : Nat} (hi : i < PS_MAX_ACTORS_COUNT) (e v : Int)
    (hbefore : ∀ j, j < PS_MAX_ACTORS_COUNT → j ≠ i → (s.timer j).duration_ms = 0)
    (hafter : ∀ j, j < PS_MAX_ACTORS_COUNT → j ≠ i → (s1.timer j).duration_ms = 0)
    (hstep : ps_timer_slot e i s INT32_MAX = (s1, v)) :
    (List.range PS_MAX_ACTORS_COUNT).foldl
      (fun acc j => ps_timer_slot e j acc.1 acc.2) (s, INT32_MAX) = (s1, v) := by
  have hr : List.range PS_MAX_ACTORS_COUNT = [0, 1, 2] := by decide
  rw [hr]
  simp only [List.foldl]
  have h3 : PS_MAX_ACTORS_COUNT = 3 := rfl
  have hcases : i = 0 ∨ i = 1 ∨ i = 2 := by omega
  rcases hcases with rfl | rfl | rfl
  · rw [hstep, timer_slot_free (hafter 1 (by decide) (by decide)),
      timer_slot_free (hafter 2 (by decide) (by decide))]
  · rw [timer_slot_free (hbefore 0 (by decide) (by decide)), hstep,
      timer_slot_free (hafter 2 (by decide) (by decide))]
  · rw [timer_slot_free (hbefore 0 (by decide) (by decide)),
      timer_slot_free (hbefore 1 (by decide) (by decide)), hstep]

/-- One expiry event for a single occupied periodic timer that has more time left than
has elapsed: nothing is published and `restart_timer` gets the time left. -/
theorem single_timer_running {s : PsState} {i : Nat} (hi : i < PS_MAX_ACTORS_COUNT)
    (hlen : s.TimersArray.length = PS_MAX_TOPICS_COUNT)
    (hothers : ∀ j, j < PS_MAX_ACTORS_COUNT → j ≠ i → (s.timer j).duration_ms = 0)
    (hdur : (s.timer i).duration_ms ≠ 0)
    (hmax : (s.timer i).time_left_ms ≤ INT32_MAX)
    {e : Int} (he0 : 0 ≤ e) (he : e < (s.timer i).time_left_ms) :
    ps_pub_timer_tout_event e s
      = (some ((s.timer i).time_left_ms - e), timerSet s i ((s.timer i).time_left_ms - e)) := by
  have hil : i < s.TimersArray.length := by rw [hlen]; exact hi
  have hM : INT32_MAX = 2147483647 := rfl
  have hstep := timer_slot_running hil hdur he INT32_MAX
  have hv : (if (s.timer i).time_left_ms - e < INT32_MAX then (s.timer i).time_left_ms - e
      else INT32_MAX) = (s.timer i).time_left_ms - e := by
    split <;> omega
  rw [hv] at hstep
  have hafter : ∀ j, j < PS_MAX_ACTORS_COUNT → j ≠ i →
      ((timerSet s i ((s.timer i).time_left_ms - e)).timer j).duration_ms = 0 := by
    intro j hj hji
    rw [timerSet_timer hil]; simp only [hji, if_false]; exact hothers j hj hji
  have hne : (s.timer i).time_left_ms - e ≠ 0 := by omega
  simp only [ps_pub_timer_tout_event, timer_scan_single hi e _ hothers hafter hstep, ne_eq, hne,
    not_false_eq_true, if_true]

/-- One expiry event for a single occupied periodic timer whose time has run out: one
publish through the creator, the reload, and `restart_timer` gets the duration. -/
theorem single_timer_expired {s : PsState} {i : Nat} (hi : i < PS_MAX_ACTORS_COUNT)
    (hlen : s.TimersArray.length = PS_MAX_TOPICS_COUNT)
    (hothers : ∀ j, j < PS_MAX_ACTORS_COUNT → j ≠ i → (s.timer j).duration_ms = 0)
    (hdur : 0 < (s.timer i).duration_ms) (hmax : (s.timer i).duration_ms ≤ INT32_MAX)
    (hper : (s.timer i).periodic_flag ≠ 0)
    {e : Int} (he : (s.timer i).time_left_ms ≤ e) :
    ps_pub_timer_tout_event e s
      = (some (s.timer i).duration_ms,
          timerSet (ps_pub_topic (s.timer i).xCreatorPublisher (s.timer i).u16Hash 0 none
            (timerSet s i ((s.timer i).time_left_ms - e))).2 i (s.timer i).duration_ms) := by
  have hil : i < s.TimersArray.length := by rw [hlen]; exact hi
  have hM : INT32_MAX = 2147483647 := rfl
  have hstep := timer_slot_expired_periodic hil hdur hper he INT32_MAX
  have hv : (if (s.timer i).duration_ms < INT32_MAX then (s.timer i).duration_ms
      else INT32_MAX) = (s.timer i).duration_ms := by
    split <;> omega
  rw [hv] at hstep
  have hil2 : i < (ps_pub_topic (s.timer i).xCreatorPublisher (s.timer i).u16Hash 0 none
      (timerSet s i ((s.timer i).time_left_ms - e))).2.TimersArray.length := by
    rw [(ps_pub_topic_rest _ _ _ _ _).1, timerSet_length]; exact hil
  have hafter : ∀ j, j < PS_MAX_ACTORS_COUNT → j ≠ i →
      ((timerSet (ps_pub_topic (s.timer i).xCreatorPublisher (s.timer i).u16Hash 0 none
        (timerSet s i ((s.timer i).time_left_ms - e))).2 i
          (s.timer i).duration_ms).timer j).duration_ms = 0 := by
    intro j hj hji
    rw [timerSet_timer hil2]; simp only [hji, if_false]
    rw [timer_after_pub, timerSet_timer hil]; simp only [hji, if_false]
    exact hothers j hj hji
  have hne : (s.timer i).duration_ms ≠ 0 := by omega
  simp only [ps_pub_timer_tout_event, timer_scan_single hi e _ hothers hafter hstep, ne_eq, hne,
    not_false_eq_true, if_true]

theorem singlePeriodicTimer_timerSet {s : PsState} {i : Nat} {D L : Int}
    (h : SinglePeriodicTimer s i D L) (M : Int) : SinglePeriodicTimer (timerSet s i M) i D M := by
  obtain ⟨h1, h2, h3, h4, _, h6⟩ := h
  have hil : i < s.TimersArray.length := by rw [h2]; exact h1
  refine ⟨h1, by rw [timerSet_length]; exact h2, ?_, ?_, ?_, ?_⟩
  · intro j hj hji
    rw [timerSet_timer hil]; simp only [hji, if_false]; exact h3 j hj hji
  · rw [timerSet_timer hil]; simpa using h4
  · rw [timerSet_timer hil]; simp
  · rw [timerSet_timer hil]; simpa using h6

theorem list_sum_nonneg (l : List Int) (h : ∀ e ∈ l, 0 ≤ e) : 0 ≤ l.sum := by
  induction l with
  | nil => simp
  | cons a l ih =>
    simp only [List.sum_cons]
    have h1 := h a (List.mem_cons_self _ _)
    have h2 := ih (fun e he => h e (List.mem_cons_of_mem _ he))
    omega

/-- While the elapsed times add up to less than the time left, every expiry event only
counts the timer down and re-arms the host timer with the time left. -/
theorem tickRun_running (i : Nat) (D : Int) (hD : D ≤ INT32_MAX) (hD0 : D ≠ 0)
    (ticks : List Int) :
    ∀ (s : PsState) (L : Int), SinglePeriodicTimer s i D L → L ≤ D →
      (∀ e ∈ ticks, 0 ≤ e) → ticks.sum < L →
      tickRun ticks s = (remainders L ticks, timerSet s i (L - ticks.sum)) := by
  induction ticks with
  | nil =>
    intro s L hs _ _ _
    obtain ⟨h1, h2, _, _, h5, _⟩ := hs
    have hil : i < s.TimersArray.length := by rw [h2]; exact h1
    simp only [tickRun, remainders, List.sum_nil, sub_zero]
    rw [timerSet_self hil h5]
  | cons e es ih =>
    intro s L hs hLD hnn hsum
    have he0 : 0 ≤ e := hnn e (List.mem_cons_self _ _)
    have hnn2 : ∀ x ∈ es, 0 ≤ x := fun x hx => hnn x (List.mem_cons_of_mem _ hx)
    have hs0 := list_sum_nonneg es hnn2
    simp only [List.sum_cons] at hsum
    obtain ⟨h1, h2, h3, h4, h5, h6⟩ := hs
    have hil : i < s.TimersArray.length := by rw [h2]; exact h1
    have hev := single_timer_running h1 h2 h3 (by rw [h4]; exact hD0) (by rw [h5]; omega)
      he0 (show e < (s.timer i).time_left_ms by rw [h5]; omega)
    rw [h5] at hev
    have hnext := ih (timerSet s i (L - e)) (L - e)
      (singlePeriodicTimer_timerSet ⟨h1, h2, h3, h4, h5, h6⟩ (L - e)) (by omega) hnn2 (by omega)
    simp only [tickRun, hev, hnext, remainders, List.sum_cons, timerSet_timerSet hil]
    congr 2
    omega

/-- A publish without data by a registered, unmuted publisher that fits is queued as a
frame of the two header fields. -/
theorem ps_pub_topic_none_enqueues {s : PsState} (hwf : s.WF) {h : Nat}
    {a : actor_f} (ha : a ∈ (s.topic h).pxPublishers)
    (hmute : ∀ i, i < PS_MAX_ACTORS_COUNT → (s.topic h).pxPublishers.getD i NULL = a →
      (s.topic h).u8PublishersMute.getD i 0 = 0)
    {es : List (List Nat)} (hq : s.msg_queue.Holds es)
    (hfit : SIZEOF_PS_MSG_HDR + SIZEOF_CQ_ELEM_HEADER ≤ s.msg_queue.freeSize) :
    (ps_pub_topic a h 0 none s).1 = PS_RESULT_OK
      ∧ (ps_pub_topic a h 0 none s).2.msg_queue.Holds (es ++ [emptyFrame h]) := by
  obtain ⟨i, hi, hfi, hgi⟩ := find_actor_mem (topic_WF hwf h).2.2.2.1 ha 0
  have hm := hmute i hi hgi
  have h4 : SIZEOF_PS_MSG_HDR = 4 := rfl
  have hd := (topic_WF hwf h).2.2.2.2.2
  set m : PsMsgStruct_s := { (s.topic h).xLastMsg with xTopicHash := h, xMsgLen := 0 } with hm0
  have hadd := cq_addTailElement_holds hq m.bytes (SIZEOF_PS_MSG_HDR + 0) (by omega) (by omega)
  have hframe : memRead m.bytes (SIZEOF_PS_MSG_HDR + 0) = emptyFrame h := by
    have hb : m.bytes = emptyFrame h ++ (s.topic h).xLastMsg.pu8Data := rfl
    have hl : (emptyFrame h).length = SIZEOF_PS_MSG_HDR + 0 := by
      simp [emptyFrame, leBytes_length]
    rw [memRead_of_le (by rw [hb, List.length_append, hl]; omega), hb,
      List.take_left' hl]
  rw [hframe] at hadd
  have h1 := hadd.1
  have h2 := hadd.2
  simp only [hm0] at h1 h2
  simp only [ps_pub_topic, topicPathStr_is_NULL, Bool.false_eq_true, if_false, hfi, hm,
    ne_eq, not_true_eq_false, if_true, PsState.setTopic, h1, Bool.true_eq_false]
  exact ⟨trivial, h2⟩

/-- C15: for a single occupied periodic timer of duration `D` (at most `INT32_MAX`) that
has its full duration left, expiry events whose non-negative tick readings add up to
less than `D` publish nothing, and each calls `restart_timer` with the time then left;
the next event, at which the sum reaches `D`, publishes once through the creator
publisher on the timer's topic with length `0` and a null data pointer, reloads the time
left to `D` and calls `restart_timer` with `D`. When the creator is a registered, unmuted
publisher and the queue has room, that publish queues one frame without payload. With
no events before, an event with a reading of at least `D` publishes, which for `D = 1` is
every event with a reading of at least `1`. -/
theorem periodic_timer_event (s : PsState) (i : Nat) (D : Int) (hD0 : 0 < D)
    (hD : D ≤ INT32_MAX) (hs : SinglePeriodicTimer s i D D)
    (ticks : List Int) (hnn : ∀ e ∈ ticks, 0 ≤ e) (hsum : ticks.sum < D) :
    tickRun ticks s = (remainders D ticks, timerSet s i (D - ticks.sum))
      ∧ (tickRun ticks s).2.msg_queue = s.msg_queue
      ∧ (tickRun ticks s).2.TopicsArray = s.TopicsArray
      ∧ ∀ e, D ≤ ticks.sum + e →
          ps_pub_timer_tout_event e (tickRun ticks s).2
              = (some D,
                  timerSet (ps_pub_topic (s.timer i).xCreatorPublisher (s.timer i).u16Hash 0 none
                    (timerSet s i (D - ticks.sum - e))).2 i D)
            ∧ (s.WF → (s.timer i).xCreatorPublisher ∈ (s.topic (s.timer i).u16Hash).pxPublishers →
                (∀ k, k < PS_MAX_ACTORS_COUNT →
                  (s.topic (s.timer i).u16Hash).pxPublishers.getD k NULL
                    = (s.timer i).xCreatorPublisher →
                  (s.topic (s.timer i).u16Hash).u8PublishersMute.getD k 0 = 0) →
                ∀ qs, s.msg_queue.Holds qs →
                  SIZEOF_PS_MSG_HDR + SIZEOF_CQ_ELEM_HEADER ≤ s.msg_queue.freeSize →
                  (ps_pub_timer_tout_event e (tickRun ticks s).2).2.msg_queue.Holds
                    (qs ++ [emptyFrame (s.timer i).u16Hash])) := by
  have hrun := tickRun_running i D hD (by omega) ticks s D hs (le_refl _) hnn hsum
  have hs1 := singlePeriodicTimer_timerSet hs (D - ticks.sum)
  obtain ⟨h1, h2, h3, h4, h5, h6⟩ := hs
  have hil : i < s.TimersArray.length := by rw [h2]; exact h1
  rw [hrun]
  refine ⟨rfl, rfl, rfl, ?_⟩
  intro e he
  obtain ⟨k1, k2, k3, k4, k5, k6⟩ := hs1
  have hev := single_timer_expired k1 k2 k3 (by rw [k4]; exact hD0) (by rw [k4]; exact hD) k6
    (show ((timerSet s i (D - ticks.sum)).timer i).time_left_ms ≤ e by rw [k5]; omega)
  have hc : ((timerSet s i (D - ticks.sum)).timer i).xCreatorPublisher
      = (s.timer i).xCreatorPublisher := by rw [timerSet_timer hil]; simp
  have hh : ((timerSet s i (D - ticks.sum)).timer i).u16Hash = (s.timer i).u16Hash := by
    rw [timerSet_timer hil]; simp
  rw [k4, k5, hc, hh, timerSet_timerSet hil] at hev
  refine ⟨hev, ?_⟩
  intro hwf hreg hmute qs hq hfit
  show (ps_pub_timer_tout_event e (timerSet s i (D - ticks.sum))).2.msg_queue.Holds _
  rw [hev]
  have hwf1 : (timerSet s i (D - ticks.sum - e)).WF := hwf
  have hq1 : (timerSet s i (D - ticks.sum - e)).msg_queue.Holds qs := hq
  exact (ps_pub_topic_none_enqueues hwf1 (h := (s.timer i).u16Hash) hreg hmute hq1 hfit).2

theorem find_actor_loop_ne_error (arr : List actor_f) (a : actor_f) (i0 : Nat) :
    ∀ idxs, (ps_find_actor_loop arr a i0 idxs).1 ≠ PS_RESULT_ERROR := by
  intro idxs
  induction idxs with
  | nil => simp [ps_find_actor_loop]
  | cons i rest ih =>
    simp only [ps_find_actor_loop]
    split
    · simp
    · exact ih

/-- The search `ps_find_actor` never returns `PS_RESULT_ERROR`. -/
theorem find_actor_ne_error (arr : List actor_f) (a : actor_f) (i0 : Nat) :
    (ps_find_actor arr a i0).1 ≠ PS_RESULT_ERROR :=
  find_actor_loop_ne_error _ _ _ _

theorem all_null_eq {arr : List actor_f} (hl : arr.length = PS_MAX_ACTORS_COUNT)
    (h : ∀ x ∈ arr, x = NULL) : arr = [NULL, NULL, NULL] := by
  obtain ⟨x, y, z, rfl⟩ := list_len3 hl
  rw [h x (by simp), h y (by simp), h z (by simp)]

theorem memBytes_memOf (l : List Nat) : memBytes (memOf l) l.length = l := by
  apply List.ext_getElem
  · simp [memBytes]
  · intro i h1 h2
    simp [memBytes, memOf, List.getD_eq_getElem?_getD, List.getElem?_eq_getElem h2]

theorem cstr_append_of_lt (a b : List Nat) (h : (cstr a).length < a.length) :
    cstr (a ++ b) = cstr a := by
  unfold cstr at h ⊢
  induction a with
  | nil => simp at h
  | cons x a ih =>
    by_cases hx : x = 0
    · simp [List.takeWhile, hx]
    · have hx' : (x != 0) = true := by simpa using hx
      simp only [List.cons_append, List.takeWhile_cons, hx', if_true, List.length_cons] at h ⊢
      rw [ih (by omega)]

theorem cstr_length_le (a : List Nat) : (cstr a).length ≤ a.length := by
  unfold cstr
  exact (List.takeWhile_sublist _).length_le

/-- What `strncpy` leaves in a path array reads back as the characters of the source,
when these leave room for the terminator. -/
theorem cstr_strncpy (src info : List Nat) (n : Nat) (h : (cstr src).length < n) :
    cstr (strncpy src n ++ info) = cstr src := by
  have ht : (cstr src).take n = cstr src := List.take_of_length_le (by omega)
  unfold strncpy
  rw [ht]
  obtain ⟨k, hk⟩ : ∃ k, n - (cstr src).length = k + 1 := ⟨n - (cstr src).length - 1, by omega⟩
  rw [hk]
  have hall : ∀ x ∈ cstr src, (x != 0) = true := by
    intro x hx
    unfold cstr at hx
    exact (List.mem_takeWhile_imp (p := fun c => c != 0) hx)
  unfold cstr at hall ⊢
  rw [List.append_assoc, List.takeWhile_append_of_pos hall]
  simp [List.replicate_succ, List.takeWhile]

theorem find_topic_loop_some_spec (T : List PsTopicStruct_s) (path : List Nat) (h0 h : Nat) :
    ∀ idxs, ps_find_topic_loop T (some path) h0 idxs = (PS_RESULT_OK, h) →
      (T.getD h PsTopicStruct_s.zero).pu8TopicPathStr.headD 0 ≠ 0
        ∧ strncmp_eq (T.getD h PsTopicStruct_s.zero).pu8TopicPathStr path
            PS_MAX_TOPIC_PATH_STR_LENGTH = true := by
  intro idxs
  induction idxs with
  | nil => intro hf; simp [ps_find_topic_loop] at hf
  | cons i rest ih =>
    intro hf
    simp only [ps_find_topic_loop] at hf
    split at hf
    · exact ih hf
    · split at hf
      · simp only [Prod.mk.injEq, true_and] at hf
        subst hf
        exact ⟨by assumption, by assumption⟩
      · exact ih hf

/-- A topic found under a path is occupied and its path array compares equal to it. -/
theorem find_topic_some_spec {s : PsState} {path : List Nat} {h0 h : Nat}
    (hf : ps_find_topic s (some path) h0 = (PS_RESULT_OK, h)) :
    (s.topic h).pu8TopicPathStr.headD 0 ≠ 0
      ∧ strncmp_eq (s.topic h).pu8TopicPathStr path PS_MAX_TOPIC_PATH_STR_LENGTH = true :=
  find_topic_loop_some_spec _ _ _ _ _ hf

theorem find_topic_loop_none_spec (T : List PsTopicStruct_s) (h0 h : Nat) :
    ∀ idxs, ps_find_topic_loop T none h0 idxs = (PS_RESULT_OK, h) →
      (T.getD h PsTopicStruct_s.zero).pu8TopicPathStr.headD 0 = 0 := by
  intro idxs
  induction idxs with
  | nil => intro hf; simp [ps_find_topic_loop] at hf
  | cons i rest ih =>
    intro hf
    simp only [ps_find_topic_loop] at hf
    split at hf
    · simp only [Prod.mk.injEq, true_and] at hf
      subst hf
      assumption
    · exact ih hf

/-- A slot found for a new topic is free. -/
theorem find_topic_none_spec {s : PsState} {h0 h : Nat}
    (hf : ps_find_topic s none h0 = (PS_RESULT_OK, h)) :
    (s.topic h).pu8TopicPathStr.headD 0 = 0 :=
  find_topic_loop_none_spec _ _ _ _ hf

theorem fmt_u_length_hash {h : Nat} (hh : h < PS_MAX_TOPICS_COUNT) : (fmt_u h).length = 1 := by
  have h3 : PS_MAX_TOPICS_COUNT = 3 := rfl
  have : h = 0 ∨ h = 1 ∨ h = 2 := by omega
  rcases this with rfl | rfl | rfl <;> decide

theorem fmt_u_length_dtype (d : PsDataType_e) : (fmt_u d.toNat).length ≤ 2 := by
  cases d <;> decide

/-- With the announcement flag set, a null-only publisher array and clear mute flags on
the change topic, `ps_report_topic_change` queues the announcement text, provided the
text has at most 63 characters and fits the queue. -/
theorem report_enqueues {s : PsState} (hwf : s.WF)
    (hflag : s.u8Topic_tpc_cnhg_present_flag ≠ 0)
    (hpubs : ∀ x ∈ (s.topic s.xTopic_tpc_cnhg).pxPublishers, x = NULL)
    (hmute : ∀ k, k < PS_MAX_ACTORS_COUNT →
      (s.topic s.xTopic_tpc_cnhg).u8PublishersMute.getD k 0 = 0)
    (h : Nat) (pfx : List Nat) {qs : List (List Nat)} (hq : s.msg_queue.Holds qs)
    (hlen : (topic_change_str pfx h (s.topic h)).length ≤ PS_MAX_MESSAGE_PAYLOAD_LENGTH - 1)
    (hfit : (topic_change_str pfx h (s.topic h)).length + SIZEOF_PS_MSG_HDR
      + SIZEOF_CQ_ELEM_HEADER ≤ s.msg_queue.freeSize) :
    ∃ q, ps_report_topic_change h pfx s
        = pubState s s.xTopic_tpc_cnhg (topic_change_str pfx h (s.topic h)).length
            (memOf (topic_change_str pfx h (s.topic h))) q
      ∧ q.Holds (qs ++ [textFrame s.xTopic_tpc_cnhg (topic_change_str pfx h (s.topic h))])
      ∧ q.totalSize = s.msg_queue.totalSize := by
  have h64 : PS_MAX_MESSAGE_PAYLOAD_LENGTH = 64 := rfl
  have hp := all_null_eq (topic_WF hwf s.xTopic_tpc_cnhg).2.2.2.1 hpubs
  have hnull : NULL ∈ (s.topic s.xTopic_tpc_cnhg).pxPublishers := by rw [hp]; simp
  obtain ⟨q, hpub, hq1, hq2⟩ := ps_pub_topic_enqueues hwf hnull (fun k hk _ => hmute k hk)
    (topic_change_str pfx h (s.topic h)).length (memOf (topic_change_str pfx h (s.topic h)))
    hq hfit
  refine ⟨q, ?_, ?_, hq2⟩
  · have ht : (topic_change_str pfx h (s.topic h)).take (PS_MAX_MESSAGE_PAYLOAD_LENGTH - 1)
        = topic_change_str pfx h (s.topic h) := List.take_of_length_le hlen
    have hm : (topic_change_str pfx h (s.topic h)).length % 65536
        = (topic_change_str pfx h (s.topic h)).length := Nat.mod_eq_of_lt (by omega)
    simp only [ps_report_topic_change, hflag, ne_eq, not_false_eq_true, if_true, ht, hm]
    show (ps_pub_topic NULL s.xTopic_tpc_cnhg (topic_change_str pfx h (s.topic h)).length
      (some (memOf (topic_change_str pfx h (s.topic h)))) s).2 = _
    rw [hpub]; rfl
  · rw [pubFrame_eq _ _ _ (by omega), memBytes_memOf] at hq1
    exact hq1

theorem report_setTopic_of_flag_zero {s : PsState}
    (hflag : s.u8Topic_tpc_cnhg_present_flag = 0) (k : Nat) (t : PsTopicStruct_s) (h : Nat)
    (pfx : List Nat) : ps_report_topic_change h pfx (s.setTopic k t) = s.setTopic k t :=
  report_of_flag_zero (s := s.setTopic k t) hflag h pfx

theorem manage_topic_queue_of_flag_zero {s : PsState}
    (hflag : s.u8Topic_tpc_cnhg_present_flag = 0) (h : Nat) :
    (ps_manage_topic h s).2.msg_queue = s.msg_queue := by
  simp only [ps_manage_topic, topicPathStr_is_NULL, Bool.false_eq_true, if_false,
    report_of_flag_zero hflag]
  repeat' split
  all_goals rfl

theorem manage_setTopic_queue_of_flag_zero {s : PsState}
    (hflag : s.u8Topic_tpc_cnhg_present_flag = 0) (k : Nat) (t : PsTopicStruct_s) (h : Nat) :
    (ps_manage_topic h (s.setTopic k t)).2.msg_queue = s.msg_queue :=
  manage_topic_queue_of_flag_zero (s := s.setTopic k t) hflag h

/-- Without the announcement flag no registry call touches the queue. -/
theorem registry_calls_queue_of_flag_zero {s : PsState}
    (hflag : s.u8Topic_tpc_cnhg_present_flag = 0) :
    (∀ a d path info sticky,
        (ps_register_topic_publisher a d path info sticky s).2.2.msg_queue = s.msg_queue)
      ∧ (∀ a h, (ps_unregister_topic_publisher a h s).2.msg_queue = s.msg_queue)
      ∧ (∀ path d a b1 b2 b3 b4,
          (ps_sub_single_topic path d a b1 b2 b3 b4 s).2.2.2.msg_queue = s.msg_queue)
      ∧ (∀ path a, (ps_unsub_topic path a s).2.msg_queue = s.msg_queue) := by
  refine ⟨?_, ?_, ?_, ?_⟩
  · intro a d path info sticky
    simp only [ps_register_topic_publisher]
    repeat' split
    all_goals first | rfl | (rw [report_of_flag_zero] <;> first | rfl | exact hflag)
  · intro a h
    simp only [ps_unregister_topic_publisher, topicPathStr_is_NULL, Bool.false_eq_true, if_false]
    split
    · exact manage_setTopic_queue_of_flag_zero hflag _ _ _
    · rfl
  · intro path d a b1 b2 b3 b4
    simp only [ps_sub_single_topic]
    repeat' split
    all_goals first | rfl | (rw [report_of_flag_zero] <;> first | rfl | exact hflag)
  · intro path a
    simp only [ps_unsub_topic, topicPathStr_is_NULL, Bool.false_eq_true, if_false]
    split
    · rfl
    · split
      · exact manage_setTopic_queue_of_flag_zero hflag _ _ _
      · rfl

theorem announcement_length (pfx : List Nat) (h : Nat) (path : List Nat) (d : PsDataType_e) :
    (announcement pfx h path d).length
      = pfx.length + (fmt_u h).length + path.length + (fmt_u d.toNat).length + 4 := by
  simp only [announcement, List.length_append, List.length_singleton]
  omega

theorem topic_change_str_eq (pfx : List Nat) (h : Nat) (t : PsTopicStruct_s) :
    topic_change_str pfx h t
      = announcement (cstr pfx) h (cstr (t.pu8TopicPathStr ++ t.pu8TopicInfoStr)) t.xDtype :=
  rfl

/-- The characters `%s` prints for the path of a topic that was found under `path`, when
`path` is shorter than the path array. -/
theorem cstr_of_found {s : PsState} (hwf : s.WF) {path : List Nat} {h0 h : Nat}
    (hf : ps_find_topic s (some path) h0 = (PS_RESULT_OK, h))
    (hshort : (cstr path).length < PS_MAX_TOPIC_PATH_STR_LENGTH) :
    cstr ((s.topic h).pu8TopicPathStr ++ (s.topic h).pu8TopicInfoStr) = cstr path := by
  have h64 : PS_MAX_TOPIC_PATH_STR_LENGTH = 64 := rfl
  have hcmp := (find_topic_some_spec hf).2
  have hl := (topic_WF hwf h).1
  have hle := cstr_length_le (s.topic h).pu8TopicPathStr
  simp only [strncmp_eq, beq_iff_eq] at hcmp
  rw [List.take_of_length_le (by omega), List.take_of_length_le (by omega)] at hcmp
  rw [cstr_append_of_lt _ _ (by rw [hcmp]; omega), hcmp]

theorem any_actor_all_null {arr : List actor_f} (hl : arr.length = PS_MAX_ACTORS_COUNT)
    (h : ∀ x ∈ arr, x = NULL) : ps_any_actor arr = false := by
  rw [all_null_eq hl h]; decide

/-- A publish whose publisher is found at slot `i` with that slot unmuted and room in the
queue: the state it produces. -/
theorem ps_pub_topic_enqueues_at {s : PsState} {h : Nat} {a : actor_f} {i : Nat}
    (hfi : ps_find_actor (s.topic h).pxPublishers a 0 = (PS_RESULT_OK, i))
    (hm : (s.topic h).u8PublishersMute.getD i 0 = 0)
    (len : Nat) (mem : Nat → Nat) {es : List (List Nat)} (hq : s.msg_queue.Holds es)
    (hfit : len + SIZEOF_PS_MSG_HDR + SIZEOF_CQ_ELEM_HEADER ≤ s.msg_queue.freeSize) :
    ∃ q, ps_pub_topic a h len (some mem) s
        = (PS_RESULT_OK, { s.setTopic h (pubTopic (s.topic h) h len mem) with msg_queue := q })
      ∧ q.Holds (es ++ [pubFrame h len mem]) ∧ q.totalSize = s.msg_queue.totalSize := by
  have h4 : SIZEOF_PS_MSG_HDR = 4 := rfl
  have hadd := cq_addTailElement_holds hq (pubMsg h len mem).bytes (SIZEOF_PS_MSG_HDR + len)
    (by omega) (by omega)
  refine ⟨(cq_addTailElement s.msg_queue (pubMsg h len mem).bytes (SIZEOF_PS_MSG_HDR + len)).2,
    ?_, hadd.2, cq_addTailElement_totalSize _ _ _⟩
  have h1 := hadd.1
  simp only [pubFrame, pubMsg] at h1
  simp only [ps_pub_topic, topicPathStr_is_NULL, Bool.false_eq_true, if_false, hfi, hm,
    ne_eq, not_true_eq_false, if_true, PsState.setTopic, h1, pubTopic, pubMsg, pubFrame,
    Bool.true_eq_false]

/-- A publish whose publisher is found at a muted slot, or for which the queue has no
room, leaves the queue as it was. -/
theorem ps_pub_topic_queue_kept {s : PsState} {h : Nat} {a : actor_f} {i : Nat}
    (hfi : ps_find_actor (s.topic h).pxPublishers a 0 = (PS_RESULT_OK, i))
    (len : Nat) (hlen : len + SIZEOF_PS_MSG_HDR + SIZEOF_CQ_ELEM_HEADER < SIZE_T_MOD)
    (mem : Nat → Nat)
    (hcase : (s.topic h).u8PublishersMute.getD i 0 ≠ 0
      ∨ s.msg_queue.freeSize < len + SIZEOF_PS_MSG_HDR + SIZEOF_CQ_ELEM_HEADER) :
    (ps_pub_topic a h len (some mem) s).2.msg_queue = s.msg_queue := by
  simp only [ps_pub_topic, topicPathStr_is_NULL, Bool.false_eq_true, if_false, hfi, ne_eq,
    not_true_eq_false]
  by_cases hm : (s.topic h).u8PublishersMute.getD i 0 = 0
  · have hfull : s.msg_queue.freeSize < len + SIZEOF_PS_MSG_HDR + SIZEOF_CQ_ELEM_HEADER := by
      rcases hcase with hc | hc
      · exact absurd hm hc
      · exact hc
    have hadd : ∀ src, cq_addTailElement s.msg_queue src (SIZEOF_PS_MSG_HDR + len)
        = (false, s.msg_queue) :=
      fun src => cq_addTailElement_full s.msg_queue src _ (by omega) (by omega)
    simp only [PsState.setTopic, hm, if_true, hadd]
  · simp only [PsState.setTopic, hm, if_false]

/-- With the announcement flag set and a text of at most 63 characters,
`ps_report_topic_change` is the publish of that text by the null publisher. -/
theorem report_eq_pub {s : PsState} (hflag : s.u8Topic_tpc_cnhg_present_flag ≠ 0)
    (h : Nat) (pfx : List Nat) {str : List Nat}
    (hstr : topic_change_str pfx h (s.topic h) = str)
    (hlen : str.length ≤ PS_MAX_MESSAGE_PAYLOAD_LENGTH - 1) :
    ps_report_topic_change h pfx s
      = (ps_pub_topic NULL s.xTopic_tpc_cnhg str.length (some (memOf str)) s).2 := by
  have h64 : PS_MAX_MESSAGE_PAYLOAD_LENGTH = 64 := rfl
  have ht : str.take (PS_MAX_MESSAGE_PAYLOAD_LENGTH - 1) = str := List.take_of_length_le hlen
  have hm : str.length % 65536 = str.length := Nat.mod_eq_of_lt (by omega)
  simp only [ps_report_topic_change, hflag, ne_eq, not_false_eq_true, if_true, hstr, ht, hm]
  rfl

/-- C19 (as amended): an unsubscribe on the live change topic at slot `c`, on which no
publisher is registered, makes `ps_manage_topic` clear it and still announces the removal
of the change topic itself. The call returns `PS_RESULT_OK`, clears the announcement flag
and zeroes the slot. When the first publisher slot of the change topic is not muted and
the queue has room for the text `DEL <c> .srv.tpc.chng[<dtype>]` with its 12 bytes of
headers, that text is queued (one more element in the queue); when that slot is muted or
the room is missing, the queue is left as it was. Afterwards no registration,
unregistration, subscription or unsubscription touches the queue. -/
theorem unsub_change_topic_announces_itself (s : PsState) (hwf : s.WF) (c : Nat)
    (hfind : ps_find_topic s (some PS_SYS_SERVICED_TOPICS_CHANGE_TOPIC) 0 = (PS_RESULT_OK, c))
    (hc : s.xTopic_tpc_cnhg = c) (hflag : s.u8Topic_tpc_cnhg_present_flag ≠ 0)
    (hpubs : ∀ x ∈ (s.topic c).pxPublishers, x = NULL)
    (a : actor_f) (qs : List (List Nat)) (hq : s.msg_queue.Holds qs) :
    (ps_unsub_topic PS_SYS_SERVICED_TOPICS_CHANGE_TOPIC a s).1 = PS_RESULT_OK
      ∧ (ps_unsub_topic PS_SYS_SERVICED_TOPICS_CHANGE_TOPIC a s).2.u8Topic_tpc_cnhg_present_flag
          = 0
      ∧ (ps_unsub_topic PS_SYS_SERVICED_TOPICS_CHANGE_TOPIC a s).2.topic c = PsTopicStruct_s.zero
      ∧ ((s.topic c).u8PublishersMute.getD 0 0 = 0 →
          (announcement str_DEL c PS_SYS_SERVICED_TOPICS_CHANGE_TOPIC (s.topic c).xDtype).length
            + SIZEOF_PS_MSG_HDR + SIZEOF_CQ_ELEM_HEADER ≤ s.msg_queue.freeSize →
          (ps_unsub_topic PS_SYS_SERVICED_TOPICS_CHANGE_TOPIC a s).2.msg_queue.Holds
              (qs ++ [textFrame c (announcement str_DEL c PS_SYS_SERVICED_TOPICS_CHANGE_TOPIC
                (s.topic c).xDtype)])
            ∧ (ps_unsub_topic PS_SYS_SERVICED_TOPICS_CHANGE_TOPIC a s).2.msg_queue.count
                = s.msg_queue.count + 1)
      ∧ ((s.topic c).u8PublishersMute.getD 0 0 ≠ 0
          ∨ s.msg_queue.freeSize
              < (announcement str_DEL c PS_SYS_SERVICED_TOPICS_CHANGE_TOPIC
                  (s.topic c).xDtype).length + SIZEOF_PS_MSG_HDR + SIZEOF_CQ_ELEM_HEADER →
          (ps_unsub_topic PS_SYS_SERVICED_TOPICS_CHANGE_TOPIC a s).2.msg_queue = s.msg_queue)
      ∧ (∀ b d path info sticky,
          (ps_register_topic_publisher b d path info sticky
            (ps_unsub_topic PS_SYS_SERVICED_TOPICS_CHANGE_TOPIC a s).2).2.2.msg_queue
            = (ps_unsub_topic PS_SYS_SERVICED_TOPICS_CHANGE_TOPIC a s).2.msg_queue)
      ∧ (∀ b h,
          (ps_unregister_topic_publisher b h
            (ps_unsub_topic PS_SYS_SERVICED_TOPICS_CHANGE_TOPIC a s).2).2.msg_queue
            = (ps_unsub_topic PS_SYS_SERVICED_TOPICS_CHANGE_TOPIC a s).2.msg_queue)
      ∧ (∀ path d b b1 b2 b3 b4,
          (ps_sub_single_topic path d b b1 b2 b3 b4
            (ps_unsub_topic PS_SYS_SERVICED_TOPICS_CHANGE_TOPIC a s).2).2.2.2.msg_queue
            = (ps_unsub_topic PS_SYS_SERVICED_TOPICS_CHANGE_TOPIC a s).2.msg_queue)
      ∧ (∀ path b,
          (ps_unsub_topic path b
            (ps_unsub_topic PS_SYS_SERVICED_TOPICS_CHANGE_TOPIC a s).2).2.msg_queue
            = (ps_unsub_topic PS_SYS_SERVICED_TOPICS_CHANGE_TOPIC a s).2.msg_queue) := by
  have h64 : PS_MAX_MESSAGE_PAYLOAD_LENGTH = 64 := rfl
  have h4 : SIZEOF_PS_MSG_HDR = 4 := rfl
  have h8 : SIZEOF_CQ_ELEM_HEADER = 8 := rfl
  have hM : SIZE_T_MOD = 18446744073709551616 := rfl
  have hh := find_topic_lt hfind
  obtain ⟨w1, w2, w3, w4, w5, w6⟩ := topic_WF hwf c
  -- the state after the subscriber slot was cleared
  set idx := (ps_find_actor (s.topic c).pxSubscribers a 0).2 with hidx
  set t1 : PsTopicStruct_s :=
    { s.topic c with pxSubscribers := (s.topic c).pxSubscribers.set idx NULL } with ht1
  have ht1wf : t1.WF := ⟨w1, w2, by simp [ht1, w3], w4, w5, w6⟩
  set s1 := s.setTopic c t1 with hs1
  have hwf1 : s1.WF := setTopic_WF hwf c ht1wf
  have htop1 : s1.topic c = t1 := by rw [hs1, topic_setTopic hwf hh]; simp
  have hx1 : s1.xTopic_tpc_cnhg = c := hc
  -- the announcement text
  have hcs : cstr PS_SYS_SERVICED_TOPICS_CHANGE_TOPIC = PS_SYS_SERVICED_TOPICS_CHANGE_TOPIC := by
    decide
  have hpath : cstr ((s.topic c).pu8TopicPathStr ++ (s.topic c).pu8TopicInfoStr)
      = PS_SYS_SERVICED_TOPICS_CHANGE_TOPIC := by
    rw [cstr_of_found hwf hfind (by rw [hcs]; decide), hcs]
  have hstr : topic_change_str str_DEL c (s1.topic c)
      = announcement str_DEL c PS_SYS_SERVICED_TOPICS_CHANGE_TOPIC (s.topic c).xDtype := by
    rw [htop1, topic_change_str_eq]
    show announcement (cstr str_DEL) c
      (cstr ((s.topic c).pu8TopicPathStr ++ (s.topic c).pu8TopicInfoStr)) (s.topic c).xDtype = _
    rw [hpath]
    rfl
  have hlen : (announcement str_DEL c PS_SYS_SERVICED_TOPICS_CHANGE_TOPIC
      (s.topic c).xDtype).length ≤ 23 := by
    rw [announcement_length, fmt_u_length_hash hh]
    have := fmt_u_length_dtype (s.topic c).xDtype
    have e1 : str_DEL.length = 3 := rfl
    have e2 : PS_SYS_SERVICED_TOPICS_CHANGE_TOPIC.length = 13 := rfl
    omega
  set D := announcement str_DEL c PS_SYS_SERVICED_TOPICS_CHANGE_TOPIC (s.topic c).xDtype
    with hD
  -- the announcement as a publish by the null publisher, found at slot 0
  have hrep : ps_report_topic_change c str_DEL s1
      = (ps_pub_topic NULL c D.length (some (memOf D)) s1).2 := by
    rw [report_eq_pub (show s1.u8Topic_tpc_cnhg_present_flag ≠ 0 from hflag) c str_DEL hstr
      (by omega), hx1]
  have hp1 : (s1.topic c).pxPublishers = [NULL, NULL, NULL] := by
    rw [htop1]; exact all_null_eq w4 hpubs
  have hfi : ps_find_actor (s1.topic c).pxPublishers NULL 0 = (PS_RESULT_OK, 0) := by
    rw [hp1]; decide
  have hmute1 : (s1.topic c).u8PublishersMute = (s.topic c).u8PublishersMute := by
    rw [htop1]
  obtain ⟨_, r2, r3⟩ := ps_pub_topic_rest NULL c D.length (some (memOf D)) s1
  -- the call
  have hany : ps_any_actor (s1.topic c).pxPublishers = false := by
    rw [hp1]; decide
  have hcall : ps_unsub_topic PS_SYS_SERVICED_TOPICS_CHANGE_TOPIC a s
      = (PS_RESULT_OK,
          ({ (ps_pub_topic NULL c D.length (some (memOf D)) s1).2 with
            u8Topic_tpc_cnhg_present_flag := 0 } : PsState).setTopic c PsTopicStruct_s.zero) := by
    have hne := find_actor_ne_error (s.topic c).pxSubscribers a 0
    simp only [ps_unsub_topic, hfind, ne_eq, not_true_eq_false, if_false, topicPathStr_is_NULL,
      Bool.false_eq_true, hne, not_false_eq_true, if_true]
    show ps_manage_topic c s1 = _
    simp only [ps_manage_topic, topicPathStr_is_NULL, Bool.false_eq_true, if_false, hany, hrep]
    have hx2 : (ps_pub_topic NULL c D.length (some (memOf D)) s1).2.xTopic_tpc_cnhg = c := by
      rw [r2]; exact hc
    simp only [hx2, if_true]
  rw [hcall]
  set s3 : PsState := ({ (ps_pub_topic NULL c D.length (some (memOf D)) s1).2 with
      u8Topic_tpc_cnhg_present_flag := 0 } : PsState).setTopic c PsTopicStruct_s.zero with hs3
  have hflag3 : s3.u8Topic_tpc_cnhg_present_flag = 0 := rfl
  have hq3 : s3.msg_queue = (ps_pub_topic NULL c D.length (some (memOf D)) s1).2.msg_queue := rfl
  have hlen3 : (ps_pub_topic NULL c D.length (some (memOf D)) s1).2.TopicsArray.length
      = PS_MAX_TOPICS_COUNT := by
    rw [ps_pub_topic_topics]
    simp only [PsState.setTopic, List.length_set, hs1]
    exact hwf.1
  obtain ⟨g1, g2, g3, g4⟩ := registry_calls_queue_of_flag_zero hflag3
  refine ⟨rfl, hflag3, ?_, ?_, ?_, ?_, ?_, ?_, ?_⟩
  · show s3.TopicsArray.getD c PsTopicStruct_s.zero = _
    simp only [hs3, PsState.setTopic, List.getD_eq_getElem?_getD]
    rw [List.getElem?_set_self (by rw [hlen3]; exact hh)]
    rfl
  · intro hm hfit
    obtain ⟨q, hpub, hq1, _⟩ := ps_pub_topic_enqueues_at hfi (by rw [hmute1]; exact hm)
      D.length (memOf D) (show s1.msg_queue.Holds qs from hq)
      (show _ ≤ s.msg_queue.freeSize from hfit)
    have hqq : s3.msg_queue = q := by rw [hq3, hpub]
    rw [pubFrame_eq _ _ _ (by omega), memBytes_memOf] at hq1
    show s3.msg_queue.Holds _ ∧ s3.msg_queue.count = _
    rw [hqq]
    refine ⟨hq1, ?_⟩
    rw [hq1.hcount, hq.hcount]; simp
  · intro hcase
    show s3.msg_queue = s.msg_queue
    rw [hq3]
    exact ps_pub_topic_queue_kept hfi D.length (by omega) (memOf D)
      (by rw [hmute1]; exact hcase)
  · intro b d path info sticky
    exact g1 b d path info sticky
  · intro b h
    exact g2 b h
  · intro path d b b1 b2 b3 b4
    exact g3 path d b b1 b2 b3 b4
  · intro path b
    dsimp only
    exact g4 path b

theorem strncpy_length (src : List Nat) (n : Nat) : (strncpy src n).length = n := by
  simp only [strncpy, List.length_append, List.length_replicate, List.length_take]
  omega

/-- Registering a non-null actor in an empty actor array puts it into slot `0`. -/
theorem register_actor_all_null {arr : List actor_f} (hl : arr.length = PS_MAX_ACTORS_COUNT)
    (h : ∀ x ∈ arr, x = NULL) {a : actor_f} (ha : a ≠ NULL) :
    ps_register_actor arr a = (PS_RESULT_OK, [a, NULL, NULL], 0) := by
  rw [all_null_eq hl h]
  have ha' : ¬ a = 0 := ha
  simp [ps_register_actor, ps_find_actor, ps_find_actor_loop, List.range, List.range.loop, ha']

theorem find_actor_first (a : actor_f) (i0 : Nat) :
    ps_find_actor [a, NULL, NULL] a i0 = (PS_RESULT_OK, 0) := by
  simp [ps_find_actor, ps_find_actor_loop, List.range, List.range.loop]

theorem textFrame_eq_pubFrame (c : Nat) (str : List Nat)
    (hlen : str.length ≤ PS_MAX_MESSAGE_PAYLOAD_LENGTH) :
    textFrame c str = pubFrame c str.length (memOf str) := by
  rw [pubFrame_eq _ _ _ hlen, memBytes_memOf]
  rfl

/-- What the deliveries of a queued announcement text look like. -/
theorem deliveries_textFrame (s : PsState) {c : Nat} (str : List Nat)
    (hc : c < PS_MAX_TOPICS_COUNT) (hlen : str.length ≤ PS_MAX_MESSAGE_PAYLOAD_LENGTH) :
    (deliveries s (loopMsg (textFrame c str))).map (fun x => x.actor)
        = (s.topic c).pxSubscribers.filter (fun a => a != NULL)
      ∧ ∀ x ∈ deliveries s (loopMsg (textFrame c str)),
          x.xTopicHash = c ∧ x.pvMsg.take x.xMsgLendth = str ∧ x.xMsgLendth = str.length
            ∧ x.xMsgDataType = (s.topic c).xDtype := by
  rw [textFrame_eq_pubFrame c str hlen]
  obtain ⟨d1, d2⟩ := deliveries_pubFrame s (memOf str) hc hlen
  refine ⟨d1, ?_⟩
  intro x hx
  obtain ⟨e1, e2, e3, e4⟩ := d2 x hx
  refine ⟨e1, ?_, e3, e4⟩
  rw [e3, e2, memBytes_memOf]

/-- Writing another slot leaves a topic slot alone. -/
theorem topic_setTopic_ne {s : PsState} (hwf : s.WF) {h c : Nat} (hh : h < PS_MAX_TOPICS_COUNT)
    (hne : c ≠ h) (t : PsTopicStruct_s) : (s.setTopic h t).topic c = s.topic c := by
  rw [topic_setTopic hwf hh]; simp [hne]

theorem topic_setTopic_self {s : PsState} (hwf : s.WF) {h : Nat} (hh : h < PS_MAX_TOPICS_COUNT)
    (t : PsTopicStruct_s) : (s.setTopic h t).topic h = t := by
  rw [topic_setTopic hwf hh]; simp

/-- A publish on topic `c` leaves every other topic slot alone. -/
theorem pubState_topic_ne {s : PsState} (hwf : s.WF) {c k : Nat} (hc : c < PS_MAX_TOPICS_COUNT)
    (hne : k ≠ c) (len : Nat) (mem : Nat → Nat) (q : CQ_S) :
    (pubState s c len mem q).topic k = s.topic k :=
  topic_setTopic_ne hwf hc hne _

theorem sameRegistration_refl (t : PsTopicStruct_s) : sameRegistration t t :=
  ⟨rfl, rfl, rfl, rfl, rfl, rfl, rfl⟩

theorem sameRegistration_trans {a b c : PsTopicStruct_s} (h1 : sameRegistration a b)
    (h2 : sameRegistration b c) : sameRegistration a c := by
  obtain ⟨a1, a2, a3, a4, a5, a6, a7⟩ := h1
  obtain ⟨b1, b2, b3, b4, b5, b6, b7⟩ := h2
  exact ⟨a1.trans b1, a2.trans b2, a3.trans b3, a4.trans b4, a5.trans b5, a6.trans b6,
    a7.trans b7⟩

theorem pubState_sameRegistration {s : PsState} (hwf : s.WF) {c : Nat}
    (hc : c < PS_MAX_TOPICS_COUNT) (len : Nat) (mem : Nat → Nat) (q : CQ_S) (k : Nat) :
    sameRegistration ((pubState s c len mem q).topic k) (s.topic k) := by
  have ht : (pubState s c len mem q).topic k
      = if k = c then pubTopic (s.topic c) c len mem else s.topic k :=
    topic_setTopic hwf hc _ k
  rw [ht]
  by_cases hk : k = c
  · subst hk; simp only [if_true]; exact ⟨rfl, rfl, rfl, rfl, rfl, rfl, rfl⟩
  · simp only [hk, if_false]; exact sameRegistration_refl _

theorem changeTopicAt_of_same {s s1 : PsState} {c : Nat} (h : ChangeTopicAt s c)
    (hflag : s1.u8Topic_tpc_cnhg_present_flag = s.u8Topic_tpc_cnhg_present_flag)
    (hx : s1.xTopic_tpc_cnhg = s.xTopic_tpc_cnhg)
    (hreg : sameRegistration (s1.topic c) (s.topic c)) : ChangeTopicAt s1 c := by
  obtain ⟨h1, h2, h3, h4, h5, h6⟩ := h
  obtain ⟨_, r2, r3, _, _, r6, _⟩ := hreg
  exact ⟨by rw [hflag]; exact h1, by rw [hx]; exact h2, h3, by rw [r6]; exact h4,
    by rw [r2]; exact h5, by rw [r3]; exact h6⟩

/-- An announcement about slot `h` made in a state with a live change topic: the text is
queued and nothing but the `xLastMsg` of the change topic changes in the registry. -/
theorem report_announces {s : PsState} (hwf : s.WF) {c : Nat} (hchg : ChangeTopicAt s c)
    (h : Nat) (pfx : List Nat) {qs : List (List Nat)} (hq : s.msg_queue.Holds qs)
    {str : List Nat} (hstr : topic_change_str pfx h (s.topic h) = str)
    (hlen : str.length ≤ PS_MAX_MESSAGE_PAYLOAD_LENGTH - 1)
    (hfit : str.length + SIZEOF_PS_MSG_HDR + SIZEOF_CQ_ELEM_HEADER ≤ s.msg_queue.freeSize) :
    (ps_report_topic_change h pfx s).WF
      ∧ (ps_report_topic_change h pfx s).msg_queue.Holds (qs ++ [textFrame c str])
      ∧ (ps_report_topic_change h pfx s).msg_queue.totalSize = s.msg_queue.totalSize
      ∧ ChangeTopicAt (ps_report_topic_change h pfx s) c
      ∧ (∀ k, sameRegistration ((ps_report_topic_change h pfx s).topic k) (s.topic k))
      ∧ (∀ k, k ≠ c → (ps_report_topic_change h pfx s).topic k = s.topic k)
      ∧ (ps_report_topic_change h pfx s).TimersArray = s.TimersArray := by
  obtain ⟨h1, h2, h3, h4, h5, h6⟩ := hchg
  obtain ⟨q, hrep, hq1, hq2⟩ := report_enqueues hwf h1 (by rw [h2]; exact h5)
    (by rw [h2]; exact h6) h pfx hq (by rw [hstr]; exact hlen) (by rw [hstr]; exact hfit)
  rw [hstr, h2] at hrep hq1
  rw [hrep]
  refine ⟨pubState_WF hwf _ _ _ _, hq1, hq2, ?_, ?_, ?_, rfl⟩
  · exact changeTopicAt_of_same ⟨h1, h2, h3, h4, h5, h6⟩ rfl rfl
      (pubState_sameRegistration hwf h3 _ _ _ c)
  · intro k; exact pubState_sameRegistration hwf h3 _ _ _ k
  · intro k hk; exact pubState_topic_ne hwf h3 hk _ _ _

theorem createdTopic_WF {t : PsTopicStruct_s} (ht : t.WF) (a : actor_f) (d : PsDataType_e)
    (path info : List Nat) (sticky : Nat) : (createdTopic t a d path info sticky).WF := by
  obtain ⟨_, _, w3, _, w5, w6⟩ := ht
  exact ⟨strncpy_length _ _, strncpy_length _ _, w3, rfl, w5, w6⟩

/-- Registering a non-null publisher under a new path, with a free slot `h` whose
publisher array is empty: the call as a sequence of slot writes and the announcement. -/
theorem register_fresh_eq {s : PsState} (hwf : s.WF) {path : List Nat}
    (hnew : (ps_find_topic s (some path) 0).1 = PS_RESULT_NOT_FOUND) {h : Nat}
    (hfree : ps_find_topic s none 0 = (PS_RESULT_OK, h))
    (hslot : ∀ x ∈ (s.topic h).pxPublishers, x = NULL) {a : actor_f} (ha : a ≠ NULL)
    (d : PsDataType_e) (info : List Nat) (sticky : Nat) :
    ps_register_topic_publisher a d path info sticky s
      = (PS_RESULT_OK, some h,
          ps_report_topic_change h str_ADD
            ((s.setTopic h { s.topic h with u8Sticky_flag := sticky, xDtype := d }).setTopic h
              (createdTopic (s.topic h) a d path info sticky))) := by
  have hf : ps_find_topic s (some path) 0 = (PS_RESULT_NOT_FOUND, 0) := by
    rcases find_topic_result s (some path) 0 with h1 | h1
    · rw [hnew] at h1; exact absurd h1 (by decide)
    · exact h1
  have hra : ps_register_actor ({ s.topic h with u8Sticky_flag := sticky, xDtype := d }
      : PsTopicStruct_s).pxPublishers a = (PS_RESULT_OK, [a, NULL, NULL], 0) :=
    register_actor_all_null (topic_WF hwf h).2.2.2.1 hslot ha
  simp only [ps_register_topic_publisher, hf, reduceCtorEq, if_false, hfree, if_true, hra,
    ne_eq, not_false_eq_true, createdTopic]

theorem register_actor_all_null_any {arr : List actor_f}
    (hl : arr.length = PS_MAX_ACTORS_COUNT) (h : ∀ x ∈ arr, x = NULL) (a : actor_f) :
    (ps_register_actor arr a).1 ≠ PS_RESULT_ERROR
      ∧ (ps_register_actor arr a).2.1 = [a, NULL, NULL] := by
  by_cases ha : a = NULL
  · rw [all_null_eq hl h, ha]; decide
  · rw [register_actor_all_null hl h ha]
    exact ⟨by simp, rfl⟩

/-- Registering a publisher, the null handle included, under a new path, with a free slot
`h` whose publisher array is empty: the call as a sequence of slot writes and the
announcement. -/
theorem register_fresh_eq_any {s : PsState} (hwf : s.WF) {path : List Nat}
    (hnew : (ps_find_topic s (some path) 0).1 = PS_RESULT_NOT_FOUND) {h : Nat}
    (hfree : ps_find_topic s none 0 = (PS_RESULT_OK, h))
    (hslot : ∀ x ∈ (s.topic h).pxPublishers, x = NULL) (a : actor_f)
    (d : PsDataType_e) (info : List Nat) (sticky : Nat) :
    ps_register_topic_publisher a d path info sticky s
      = (PS_RESULT_OK, some h,
          ps_report_topic_change h str_ADD
            ((s.setTopic h { s.topic h with u8Sticky_flag := sticky, xDtype := d }).setTopic h
              (createdTopic (s.topic h) a d path info sticky))) := by
  have hf : ps_find_topic s (some path) 0 = (PS_RESULT_NOT_FOUND, 0) := by
    rcases find_topic_result s (some path) 0 with h1 | h1
    · rw [hnew] at h1; exact absurd h1 (by decide)
    · exact h1
  obtain ⟨hra1, hra2⟩ := register_actor_all_null_any (topic_WF hwf h).2.2.2.1 hslot a
  have hra1' : (ps_register_actor ({ s.topic h with u8Sticky_flag := sticky, xDtype := d }
      : PsTopicStruct_s).pxPublishers a).1 ≠ PS_RESULT_ERROR := hra1
  have hra2' : (ps_register_actor ({ s.topic h with u8Sticky_flag := sticky, xDtype := d }
      : PsTopicStruct_s).pxPublishers a).2.1 = [a, NULL, NULL] := hra2
  simp only [ps_register_topic_publisher, hf, reduceCtorEq, if_false, hfree, if_true, hra1',
    hra2', ne_eq, not_false_eq_true, createdTopic]

/-- Registering a publisher under a new path while the change topic is live creates the
topic and queues its `ADD` announcement. -/
theorem register_fresh_announced {s : PsState} (hwf : s.WF) {c : Nat}
    (hchg : ChangeTopicAt s c) {path : List Nat}
    (hnew : (ps_find_topic s (some path) 0).1 = PS_RESULT_NOT_FOUND) {h : Nat}
    (hfree : ps_find_topic s none 0 = (PS_RESULT_OK, h))
    (hslot : ∀ x ∈ (s.topic h).pxPublishers, x = NULL) (a : actor_f)
    (d : PsDataType_e) (info : List Nat) (sticky : Nat)
    {qs : List (List Nat)} (hq : s.msg_queue.Holds qs)
    (hlen : (announcement str_ADD h (cstr path) d).length ≤ PS_MAX_MESSAGE_PAYLOAD_LENGTH - 1)
    (hfit : (announcement str_ADD h (cstr path) d).length + SIZEOF_PS_MSG_HDR
      + SIZEOF_CQ_ELEM_HEADER ≤ s.msg_queue.freeSize) :
    (ps_register_topic_publisher a d path info sticky s).1 = PS_RESULT_OK
      ∧ (ps_register_topic_publisher a d path info sticky s).2.1 = some h
      ∧ (ps_register_topic_publisher a d path info sticky s).2.2.WF
      ∧ (ps_register_topic_publisher a d path info sticky s).2.2.msg_queue.Holds
          (qs ++ [textFrame c (announcement str_ADD h (cstr path) d)])
      ∧ (ps_register_topic_publisher a d path info sticky s).2.2.msg_queue.totalSize
          = s.msg_queue.totalSize
      ∧ ChangeTopicAt (ps_register_topic_publisher a d path info sticky s).2.2 c
      ∧ sameRegistration ((ps_register_topic_publisher a d path info sticky s).2.2.topic c)
          (s.topic c)
      ∧ (ps_register_topic_publisher a d path info sticky s).2.2.topic h
          = createdTopic (s.topic h) a d path info sticky := by
  have h64 : PS_MAX_MESSAGE_PAYLOAD_LENGTH = 64 := rfl
  have hp64 : PS_MAX_TOPIC_PATH_STR_LENGTH = 64 := rfl
  have hh := find_topic_lt hfree
  have hhead := find_topic_none_spec hfree
  have hne : c ≠ h := by
    intro e; rw [e] at hchg; exact hchg.2.2.2.1 hhead
  have hwfa : (s.setTopic h { s.topic h with u8Sticky_flag := sticky, xDtype := d }).WF := by
    apply setTopic_WF hwf
    obtain ⟨w1, w2, w3, w4, w5, w6⟩ := topic_WF hwf h
    exact ⟨w1, w2, w3, w4, w5, w6⟩
  set s2 := (s.setTopic h { s.topic h with u8Sticky_flag := sticky, xDtype := d }).setTopic h
    (createdTopic (s.topic h) a d path info sticky) with hs2
  have hwf2 : s2.WF := setTopic_WF hwfa h (createdTopic_WF (topic_WF hwf h) _ _ _ _ _)
  have htoph : s2.topic h = createdTopic (s.topic h) a d path info sticky :=
    topic_setTopic_self hwfa hh _
  have htopc : s2.topic c = s.topic c := by
    rw [hs2, topic_setTopic_ne hwfa hh hne, topic_setTopic_ne hwf hh hne]
  have hchg2 : ChangeTopicAt s2 c :=
    changeTopicAt_of_same hchg rfl rfl (by rw [htopc]; exact sameRegistration_refl _)
  have hplen : (cstr path).length < PS_MAX_TOPIC_PATH_STR_LENGTH := by
    rw [announcement_length] at hlen; omega
  have hstr : topic_change_str str_ADD h (s2.topic h) = announcement str_ADD h (cstr path) d := by
    rw [htoph, topic_change_str_eq]
    show announcement (cstr str_ADD) h
      (cstr (strncpy path PS_MAX_TOPIC_PATH_STR_LENGTH
        ++ strncpy info PS_MAX_TOPIC_INFO_STR_LENGTH)) d = _
    rw [cstr_strncpy _ _ _ hplen]
    rfl
  have hq2 : s2.msg_queue.Holds qs := hq
  obtain ⟨r1, r2, r3, r4, r5, r6, _⟩ := report_announces hwf2 hchg2 h str_ADD hq2 hstr hlen hfit
  rw [register_fresh_eq_any hwf hnew hfree hslot a]
  refine ⟨rfl, rfl, r1, r2, r3, r4, ?_, ?_⟩
  · have := r5 c
    rw [htopc] at this
    exact this
  · show (ps_report_topic_change h str_ADD s2).topic h = _
    rw [r6 h (Ne.symm hne), htoph]

/-- Unregistering the only publisher, registered in slot `0`, of a topic while the change
topic is live: the `DEL` announcement is queued and the slot is zeroed. -/
theorem unregister_last_announced {s : PsState} (hwf : s.WF) {c : Nat}
    (hchg : ChangeTopicAt s c) {h : Nat} (hh : h < PS_MAX_TOPICS_COUNT) (hne : c ≠ h)
    {a : actor_f} (hpubs : (s.topic h).pxPublishers = [a, NULL, NULL])
    {qs : List (List Nat)} (hq : s.msg_queue.Holds qs) {str : List Nat}
    (hstr : topic_change_str str_DEL h (s.topic h) = str)
    (hlen : str.length ≤ PS_MAX_MESSAGE_PAYLOAD_LENGTH - 1)
    (hfit : str.length + SIZEOF_PS_MSG_HDR + SIZEOF_CQ_ELEM_HEADER ≤ s.msg_queue.freeSize) :
    (ps_unregister_topic_publisher a h s).1 = PS_RESULT_OK
      ∧ (ps_unregister_topic_publisher a h s).2.WF
      ∧ (ps_unregister_topic_publisher a h s).2.msg_queue.Holds (qs ++ [textFrame c str])
      ∧ sameRegistration ((ps_unregister_topic_publisher a h s).2.topic c) (s.topic c)
      ∧ (ps_unregister_topic_publisher a h s).2.topic h = PsTopicStruct_s.zero := by
  obtain ⟨w1, w2, w3, w4, w5, w6⟩ := topic_WF hwf h
  set t1 : PsTopicStruct_s :=
    { s.topic h with pxPublishers := [NULL, NULL, NULL],
                     u8PublishersMute := (s.topic h).u8PublishersMute.set 0 0 } with ht1
  have ht1wf : t1.WF := ⟨w1, w2, w3, rfl, by simp [ht1, w5], w6⟩
  set s1 := s.setTopic h t1 with hs1
  have hwf1 : s1.WF := setTopic_WF hwf h ht1wf
  have htoph : s1.topic h = t1 := topic_setTopic_self hwf hh _
  have htopc : s1.topic c = s.topic c := topic_setTopic_ne hwf hh hne _
  have hchg1 : ChangeTopicAt s1 c :=
    changeTopicAt_of_same hchg rfl rfl (by rw [htopc]; exact sameRegistration_refl _)
  have hstr1 : topic_change_str str_DEL h (s1.topic h) = str := by
    rw [htoph, ← hstr]; rfl
  have hq1 : s1.msg_queue.Holds qs := hq
  obtain ⟨r1, r2, _, r4, r5, _, _⟩ := report_announces hwf1 hchg1 h str_DEL hq1 hstr1 hlen hfit
  have hany : ps_any_actor (s1.topic h).pxPublishers = false := by
    rw [htoph]; rfl
  have hx : (ps_report_topic_change h str_DEL s1).xTopic_tpc_cnhg ≠ h := by
    rw [r4.2.1]; exact hne
  have hcall : ps_unregister_topic_publisher a h s
      = (PS_RESULT_OK, (ps_report_topic_change h str_DEL s1).setTopic h PsTopicStruct_s.zero) := by
    have hfa : ps_find_actor [a, NULL, NULL] a 0 = (PS_RESULT_OK, 0) := find_actor_first a 0
    have hm : ps_manage_topic h s1
        = (PS_RESULT_OK, (ps_report_topic_change h str_DEL s1).setTopic h PsTopicStruct_s.zero) := by
      simp only [ps_manage_topic, topicPathStr_is_NULL, Bool.false_eq_true, if_false, hany, hx]
    simp only [ps_unregister_topic_publisher, topicPathStr_is_NULL, Bool.false_eq_true, if_false,
      hpubs, hfa, ne_eq, reduceCtorEq, not_false_eq_true, if_true, List.set_cons_zero]
    exact hm
  rw [hcall]
  refine ⟨rfl, setTopic_WF r1 h zero_topic_WF, r2, ?_, topic_setTopic_self r1 hh _⟩
  rw [topic_setTopic_ne r1 hh hne]
  have := r5 c
  rw [htopc] at this
  exact this

theorem textFrame_span (c : Nat) (str : List Nat) :
    elemSpan (textFrame c str) = str.length + SIZEOF_PS_MSG_HDR + SIZEOF_CQ_ELEM_HEADER := by
  have h4 : SIZEOF_PS_MSG_HDR = 4 := rfl
  simp only [elemSpan, textFrame, List.length_append, leBytes_length]
  omega

/-- C18 (as amended): let the change topic be live at slot `c` as
`ps_create_and_sub_tpc_change_topic` leaves it (announcement flag set, no publisher
registered on it, no publisher slot muted, data type `PS_DTYPE_STR`), the queue empty and
large enough for two announcements. Registering a publisher, the null handle included, on
a new path creates the topic at the first free slot `h`, provided that slot holds no
publisher left behind and the text `ADD <h> <path>[<d>]` has at most
`PS_MAX_MESSAGE_PAYLOAD_LENGTH - 1` characters, and unregistering it again removes the
topic; the two calls queue exactly the two texts `ADD <h> <path>[<d>]` and
`DEL <h> <path>[<d>]` on the change topic, and two `ps_loop` calls with handlers that do
not call the dispatcher hand them, in that order and with data type `PS_DTYPE_STR`, to
the subscribers of the change topic, leaving the queue empty. -/
theorem change_topic_reports_add_then_del (s : PsState) (hwf : s.WF) (c : Nat)
    (hchg : ChangeTopicAt s c) (hstrd : (s.topic c).xDtype = PS_DTYPE_STR)
    (hempty : s.msg_queue.Holds []) (path : List Nat)
    (hnew : (ps_find_topic s (some path) 0).1 = PS_RESULT_NOT_FOUND) (h : Nat)
    (hfree : ps_find_topic s none 0 = (PS_RESULT_OK, h))
    (hslot : ∀ x ∈ (s.topic h).pxPublishers, x = NULL) (a : actor_f)
    (d : PsDataType_e) (info : List Nat) (sticky : Nat)
    (hlen : (announcement str_ADD h (cstr path) d).length ≤ PS_MAX_MESSAGE_PAYLOAD_LENGTH - 1)
    (hroom : 2 * ((announcement str_ADD h (cstr path) d).length + SIZEOF_PS_MSG_HDR
      + SIZEOF_CQ_ELEM_HEADER) ≤ s.msg_queue.totalSize) :
    (ps_register_topic_publisher a d path info sticky s).1 = PS_RESULT_OK
      ∧ (ps_register_topic_publisher a d path info sticky s).2.1 = some h
      ∧ (ps_unregister_topic_publisher a h
          (ps_register_topic_publisher a d path info sticky s).2.2).1 = PS_RESULT_OK
      ∧ (ps_unregister_topic_publisher a h
          (ps_register_topic_publisher a d path info sticky s).2.2).2.topic h
          = PsTopicStruct_s.zero
      ∧ (ps_unregister_topic_publisher a h
          (ps_register_topic_publisher a d path info sticky s).2.2).2.msg_queue.Holds
          [textFrame c (announcement str_ADD h (cstr path) d),
           textFrame c (announcement str_DEL h (cstr path) d)]
      ∧ ps_get_waiting_events_count (ps_unregister_topic_publisher a h
          (ps_register_topic_publisher a d path info sticky s).2.2).2 = 2
      ∧ (ps_loop passive_actors (ps_unregister_topic_publisher a h
          (ps_register_topic_publisher a d path info sticky s).2.2).2).1 = 1
      ∧ DeliversText (ps_loop passive_actors (ps_unregister_topic_publisher a h
          (ps_register_topic_publisher a d path info sticky s).2.2).2).2.1
          (s.topic c).pxSubscribers c (announcement str_ADD h (cstr path) d) PS_DTYPE_STR
      ∧ (ps_loop passive_actors (ps_loop passive_actors (ps_unregister_topic_publisher a h
          (ps_register_topic_publisher a d path info sticky s).2.2).2).2.2).1 = 1
      ∧ DeliversText (ps_loop passive_actors (ps_loop passive_actors
          (ps_unregister_topic_publisher a h
            (ps_register_topic_publisher a d path info sticky s).2.2).2).2.2).2.1
          (s.topic c).pxSubscribers c (announcement str_DEL h (cstr path) d) PS_DTYPE_STR
      ∧ (ps_loop passive_actors (ps_loop passive_actors (ps_unregister_topic_publisher a h
          (ps_register_topic_publisher a d path info sticky s).2.2).2).2.2).2.2.msg_queue.Holds
          []
      ∧ ps_get_waiting_events_count (ps_loop passive_actors (ps_loop passive_actors
          (ps_unregister_topic_publisher a h
            (ps_register_topic_publisher a d path info sticky s).2.2).2).2.2).2.2 = 0 := by
  have h64 : PS_MAX_MESSAGE_PAYLOAD_LENGTH = 64 := rfl
  have hp64 : PS_MAX_TOPIC_PATH_STR_LENGTH = 64 := rfl
  have h4 : SIZEOF_PS_MSG_HDR = 4 := rfl
  have h8 : SIZEOF_CQ_ELEM_HEADER = 8 := rfl
  have hh := find_topic_lt hfree
  have hc : c < PS_MAX_TOPICS_COUNT := hchg.2.2.1
  have hne : c ≠ h := by
    intro e; rw [e] at hchg; exact hchg.2.2.2.1 (find_topic_none_spec hfree)
  have hfree0 : s.msg_queue.freeSize = s.msg_queue.totalSize := by
    have := hempty.hfree
    simpa [spanSum] using this
  have hlenD : (announcement str_DEL h (cstr path) d).length
      = (announcement str_ADD h (cstr path) d).length := by
    rw [announcement_length, announcement_length]; rfl
  have hplen : (cstr path).length < PS_MAX_TOPIC_PATH_STR_LENGTH := by
    rw [announcement_length] at hlen; omega
  -- registration
  obtain ⟨a1, a2, a3, a4, a5, a6, a7, a8⟩ := register_fresh_announced hwf hchg hnew hfree hslot
    a d info sticky hempty hlen (by rw [hfree0]; omega)
  set s1 := (ps_register_topic_publisher a d path info sticky s).2.2 with hs1
  rw [List.nil_append] at a4
  have hfree1 : s1.msg_queue.freeSize + ((announcement str_ADD h (cstr path) d).length
      + SIZEOF_PS_MSG_HDR + SIZEOF_CQ_ELEM_HEADER) = s.msg_queue.totalSize := by
    have := a4.hfree
    rw [a5] at this
    simpa [spanSum, textFrame_span] using this
  have hstrD : topic_change_str str_DEL h (s1.topic h) = announcement str_DEL h (cstr path) d := by
    rw [a8, topic_change_str_eq]
    show announcement (cstr str_DEL) h
      (cstr (strncpy path PS_MAX_TOPIC_PATH_STR_LENGTH
        ++ strncpy info PS_MAX_TOPIC_INFO_STR_LENGTH)) d = _
    rw [cstr_strncpy _ _ _ hplen]
    rfl
  -- unregistration
  obtain ⟨b1, b2, b3, b4, b5⟩ := unregister_last_announced a3 a6 hh hne
    (show (s1.topic h).pxPublishers = [a, NULL, NULL] by rw [a8]; rfl) a4 hstrD
    (by rw [hlenD]; exact hlen) (by rw [hlenD]; omega)
  set s2 := (ps_unregister_topic_publisher a h s1).2 with hs2
  rw [List.singleton_append] at b3
  have hreg : sameRegistration (s2.topic c) (s.topic c) := sameRegistration_trans b4 a7
  have hlA : (announcement str_ADD h (cstr path) d).length ≤ PS_MAX_MESSAGE_PAYLOAD_LENGTH := by
    omega
  have hlD : (announcement str_DEL h (cstr path) d).length ≤ PS_MAX_MESSAGE_PAYLOAD_LENGTH := by
    omega
  -- first loop
  obtain ⟨q1, l1, hq1⟩ := ps_loop_front b2 b3
  have hcalls1 := deliveries_textFrame s2 (announcement str_ADD h (cstr path) d) hc
    hlA
  -- second loop
  have hwf3 : ({ s2 with msg_queue := q1 } : PsState).WF := b2
  obtain ⟨q2, l2, hq2⟩ := ps_loop_front hwf3 hq1
  have hcalls2 := deliveries_textFrame ({ s2 with msg_queue := q1 } : PsState)
    (announcement str_DEL h (cstr path) d) hc hlD
  have htc3 : ({ s2 with msg_queue := q1 } : PsState).topic c = s2.topic c := rfl
  rw [htc3] at hcalls2
  rw [l1, l2]
  refine ⟨a1, a2, b1, b5, b3, ?_, rfl, ?_, rfl, ?_, hq2, ?_⟩
  · simp only [ps_get_waiting_events_count, cq_count, b3.hcount, List.length_cons,
      List.length_nil]
    decide
  · refine ⟨by rw [hcalls1.1, hreg.1], fun x hx => ?_⟩
    obtain ⟨e1, e2, e3, e4⟩ := hcalls1.2 x hx
    exact ⟨e1, e2, e3, by rw [e4, hreg.2.2.2.1, hstrd]⟩
  · refine ⟨by rw [hcalls2.1, hreg.1], fun x hx => ?_⟩
    obtain ⟨e1, e2, e3, e4⟩ := hcalls2.2 x hx
    exact ⟨e1, e2, e3, by rw [e4, hreg.2.2.2.1, hstrd]⟩
  · simp only [ps_get_waiting_events_count, cq_count, hq2.hcount, List.length_nil]
    decide

/-- A sequence of publishes by a registered, unmuted publisher that fits the free space
of the queue is queued in order. -/
theorem pubRun_holds {a : actor_f} {h : Nat} (hh : h < PS_MAX_TOPICS_COUNT) (mem : Nat → Nat) :
    ∀ (lens : List Nat) (s : PsState) (es : List (List Nat)), s.WF →
      a ∈ (s.topic h).pxPublishers →
      (∀ i, i < PS_MAX_ACTORS_COUNT → (s.topic h).pxPublishers.getD i NULL = a →
        (s.topic h).u8PublishersMute.getD i 0 = 0) →
      s.msg_queue.Holds es →
      spanSum es + (lens.map (fun l => l + SIZEOF_PS_MSG_HDR + SIZEOF_CQ_ELEM_HEADER)).sum
        ≤ s.msg_queue.totalSize →
      (pubRun a h mem lens s).WF
        ∧ (pubRun a h mem lens s).msg_queue.Holds (es ++ lens.map (fun l => pubFrame h l mem))
  | [], s, es, hwf, _, _, hq, _ => by
    simp only [pubRun, List.map_nil, List.append_nil]
    exact ⟨hwf, hq⟩
  | len :: lens, s, es, hwf, ha, hmute, hq, hfit => by
    have h4 : SIZEOF_PS_MSG_HDR = 4 := rfl
    have h8 : SIZEOF_CQ_ELEM_HEADER = 8 := rfl
    have hfree := hq.hfree
    simp only [List.map_cons, List.sum_cons] at hfit
    have hnn : 0 ≤ (lens.map (fun l => l + SIZEOF_PS_MSG_HDR + SIZEOF_CQ_ELEM_HEADER)).sum :=
      Nat.zero_le _
    obtain ⟨q, hp, hq1, hts⟩ := ps_pub_topic_enqueues hwf ha hmute len mem hq (by omega)
    have htop := topic_after_pub hwf a hh len mem h
    simp only [if_true] at htop
    have hwf1 := pub_WF hwf a h len mem
    have hq1b : (ps_pub_topic a h len (some mem) s).2.msg_queue.Holds
        (es ++ [pubFrame h len mem]) := by
      rw [hp]; exact hq1
    have hts1 : (ps_pub_topic a h len (some mem) s).2.msg_queue.totalSize
        = s.msg_queue.totalSize := by
      rw [hp]; exact hts
    have ih := pubRun_holds hh mem lens (ps_pub_topic a h len (some mem) s).2
      (es ++ [pubFrame h len mem]) hwf1 (by rw [htop]; exact ha)
      (by rw [htop]; exact hmute) hq1b
      (by
        rw [spanSum_append, hts1]
        simp only [elemSpan, pubFrame_length]
        omega)
    simp only [pubRun, List.map_cons]
    rw [List.append_assoc] at ih
    exact ih

theorem report_WF {s : PsState} (hwf : s.WF) (h : Nat) (pfx : List Nat) :
    (ps_report_topic_change h pfx s).WF := by
  unfold ps_report_topic_change
  split
  · exact pub_WF hwf _ _ _ _
  · exact hwf

/-- C13: `ps_unregister_topic_publisher` called for an actor that is not a publisher of
the topic returns `PS_RESULT_OK`, not `PS_RESULT_NOT_FOUND`, and clears publisher slot
`0` of the topic. -/
theorem unregister_stranger_clears_first_publisher (s : PsState) (hwf : s.WF) (h : Nat)
    (hh : h < PS_MAX_TOPICS_COUNT) (a : actor_f) (ha : a ∉ (s.topic h).pxPublishers) :
    (ps_unregister_topic_publisher a h s).1 = PS_RESULT_OK
      ∧ ((ps_unregister_topic_publisher a h s).2.topic h).pxPublishers.getD 0 NULL = NULL := by
  obtain ⟨w1, w2, w3, w4, w5, w6⟩ := topic_WF hwf h
  have hfa := find_actor_not_mem w4 ha 0
  set t1 : PsTopicStruct_s :=
    { s.topic h with pxPublishers := (s.topic h).pxPublishers.set 0 NULL,
                     u8PublishersMute := (s.topic h).u8PublishersMute.set 0 0 } with ht1
  have ht1wf : t1.WF := ⟨w1, w2, w3, by simp [ht1, w4], by simp [ht1, w5], w6⟩
  set s1 := s.setTopic h t1 with hs1
  have hwf1 : s1.WF := setTopic_WF hwf h ht1wf
  have htoph : s1.topic h = t1 := topic_setTopic_self hwf hh _
  have hcall : ps_unregister_topic_publisher a h s = ps_manage_topic h s1 := by
    simp only [ps_unregister_topic_publisher, topicPathStr_is_NULL, Bool.false_eq_true, if_false,
      hfa, ne_eq, reduceCtorEq, not_false_eq_true, if_true]
  rw [hcall]
  have h0 : t1.pxPublishers.getD 0 NULL = NULL := by
    obtain ⟨x, y, z, hxyz⟩ := list_len3 w4
    simp [ht1, hxyz]
  simp only [ps_manage_topic, topicPathStr_is_NULL, Bool.false_eq_true, if_false]
  split
  · exact ⟨rfl, by rw [htoph]; exact h0⟩
  · refine ⟨rfl, ?_⟩
    rw [topic_setTopic_self _ hh]
    · rfl
    · split
      · exact report_WF hwf1 _ _
      · exact report_WF hwf1 _ _

/-- C13 (failing input): actor `555` is not a publisher of `".demo"` in
`demo_two_pub_state`, whose publishers are `100` and `101`; unregistering it returns
`PS_RESULT_OK` and removes publisher `100`. -/
theorem unregister_stranger_clears_first_publisher_witness :
    (demo_two_pub_state.topic 0).pxPublishers = [100, 101, 0]
      ∧ (ps_unregister_topic_publisher 555 0 demo_two_pub_state).1 = PS_RESULT_OK
      ∧ ((ps_unregister_topic_publisher 555 0 demo_two_pub_state).2.topic 0).pxPublishers.getD
          0 NULL = NULL :=
  ⟨by decide,
    unregister_stranger_clears_first_publisher demo_two_pub_state (by decide) 0 (by decide) 555
      (by decide)⟩

theorem timer_slot_shortest_pos (e : Int) (i : Nat) (s : PsState) {sh : Int} (hsh : 0 < sh) :
    0 < (ps_timer_slot e i s sh).2 := by
  unfold ps_timer_slot
  dsimp only
  split_ifs <;> first | exact hsh | assumption

/-- With an empty timer table `ps_pub_timer_tout_event` changes nothing and calls
`restart_timer(INT32_MAX)`. -/
theorem timer_event_of_empty_table {s : PsState} (h0 : ∀ j, (s.timer j).duration_ms = 0)
    (e : Int) : ps_pub_timer_tout_event e s = (some INT32_MAX, s) := by
  have hf : (List.range PS_MAX_ACTORS_COUNT).foldl
      (fun acc i => ps_timer_slot e i acc.1 acc.2) (s, INT32_MAX) = (s, INT32_MAX) := by
    show [0, 1, 2].foldl (fun acc i => ps_timer_slot e i acc.1 acc.2) (s, INT32_MAX) = _
    simp only [List.foldl_cons, List.foldl_nil, timer_slot_free (h0 _)]
  unfold ps_pub_timer_tout_event
  rw [hf]
  rfl

/-- C17: `ps_pub_timer_tout_event` calls `restart_timer` on every call, whatever the timer
table holds, with a positive argument; with an empty timer table the argument is
`INT32_MAX`. -/
theorem timer_event_always_restarts_timer (e : Int) (s : PsState) :
    (∃ v, (ps_pub_timer_tout_event e s).1 = some v ∧ 0 < v)
      ∧ (ps_pub_timer_tout_event e init_state).1 = some INT32_MAX := by
  constructor
  · have hpos : 0 < ((List.range PS_MAX_ACTORS_COUNT).foldl
        (fun acc i => ps_timer_slot e i acc.1 acc.2) (s, INT32_MAX)).2 := by
      show 0 < ([0, 1, 2].foldl (fun acc i => ps_timer_slot e i acc.1 acc.2) (s, INT32_MAX)).2
      simp only [List.foldl_cons, List.foldl_nil]
      exact timer_slot_shortest_pos _ _ _ (timer_slot_shortest_pos _ _ _
        (timer_slot_shortest_pos _ _ _ (by decide)))
    refine ⟨_, ?_, hpos⟩
    unfold ps_pub_timer_tout_event
    dsimp only
    rw [if_pos (ne_of_gt hpos)]
  · have h0 : ∀ j, (init_state.timer j).duration_ms = 0 := by
      intro j
      show (([PsTimerStruct_s.zero, PsTimerStruct_s.zero, PsTimerStruct_s.zero] : List _).getD j
        PsTimerStruct_s.zero).duration_ms = 0
      rcases j with _ | _ | _ | j <;> rfl
    rw [timer_event_of_empty_table h0]

set_option maxRecDepth 40000 in
/-- C16: the one-shot timer `".srv.t_ms.tout.1"` of `demo_oneshot_state` (100 ms, periodic
flag `0`) expires at the first timer event after 100 ms and publishes one message; it
keeps its slot, and each later timer event publishes one more message for it. -/
theorem oneshot_timer_publishes_again :
    (demo_oneshot_state.timer 0).periodic_flag = 0
      ∧ (demo_oneshot_state.timer 0).duration_ms = 100
      ∧ (demo_oneshot_state.timer 0).time_left_ms = 100
      ∧ ps_get_waiting_events_count demo_oneshot_state = 0
      ∧ ps_get_waiting_events_count (ps_pub_timer_tout_event 100 demo_oneshot_state).2 = 1
      ∧ ((ps_pub_timer_tout_event 100 demo_oneshot_state).2.timer 0).duration_ms = 100
      ∧ ps_get_waiting_events_count
          (ps_pub_timer_tout_event 100 (ps_pub_timer_tout_event 100 demo_oneshot_state).2).2 = 2
      ∧ ps_get_waiting_events_count
          (ps_pub_timer_tout_event 0 (ps_pub_timer_tout_event 100
            (ps_pub_timer_tout_event 100 demo_oneshot_state).2).2).2 = 3 := by
  decide

set_option maxRecDepth 40000 in
/-- C14 (counterexample): the path `".demo"` starts with neither timer prefix and names a
topic of `demo_state`; `ps_create_and_sub_timer_topic` returns `PS_RESULT_DUPLICATED`
for it, not `PS_RESULT_NOT_FOUND`. -/
theorem timer_on_existing_plain_path_duplicated :
    ps_str_starts_with PS_SYS_SERVICED_PERIODIC_MS_TIMER_TOPIC demo_path = 0
      ∧ ps_str_starts_with PS_SYS_SERVICED_SINGLE_MS_TIMER_TOPIC demo_path = 0
      ∧ (ps_find_topic demo_state (some demo_path) 0).1 = PS_RESULT_OK
      ∧ (ps_create_and_sub_timer_topic demo_path 300 [] 300 0 demo_state).1
          = PS_RESULT_DUPLICATED
      ∧ (ps_create_and_sub_timer_topic demo_path 300 [] 300 0 demo_state).1
          ≠ PS_RESULT_NOT_FOUND := by
  decide

set_option maxRecDepth 40000 in
/-- C14 (witness): the path `".demo"` in `demo_state`, where it names a topic. -/
theorem timer_path_without_timer_prefix_witness :
    (ps_find_topic demo_state (some demo_path) 0).1 = PS_RESULT_OK
      ∧ (ps_create_and_sub_timer_topic demo_path 300 [] 300 0 demo_state).2.2 = demo_state
      ∧ (ps_create_and_sub_timer_topic demo_path 300 [] 300 0 demo_state).1
          = PS_RESULT_DUPLICATED :=
  have h := timer_path_without_timer_prefix demo_state demo_path [] (by decide) (by decide)
    300 300 0
  ⟨by decide, h.1, h.2.2.2 (by decide)⟩

set_option maxRecDepth 40000 in
/-- C20 (counterexample): the three topic slots of `demo_table_full_state` are occupied
and none is named `".d"`; subscribing to `".d"` returns `PS_RESULT_NOT_FOUND`, not
`PS_RESULT_OUT_OF_MEM`. -/
theorem subscribe_with_full_table_not_out_of_mem :
    (∀ i, i < PS_MAX_TOPICS_COUNT →
        (demo_table_full_state.topic i).pu8TopicPathStr.headD 0 ≠ 0)
      ∧ (ps_find_topic demo_table_full_state (some [46, 100]) 0).1 = PS_RESULT_NOT_FOUND
      ∧ (ps_sub_single_topic [46, 100] PS_DTYPE_U8 200 true true true true
          demo_table_full_state).1 = PS_RESULT_NOT_FOUND
      ∧ (ps_sub_single_topic [46, 100] PS_DTYPE_U8 200 true true true true
          demo_table_full_state).1 ≠ PS_RESULT_OUT_OF_MEM := by
  decide

set_option maxRecDepth 40000 in
/-- C20 (witness): subscribing actor `200` to `".d"` in `demo_table_full_state`. -/
theorem subscribe_with_full_table_not_found_witness :
    (ps_sub_single_topic [46, 100] PS_DTYPE_U8 200 true true true true
        demo_table_full_state).1 = PS_RESULT_NOT_FOUND
      ∧ (ps_sub_single_topic [46, 100] PS_DTYPE_U8 200 true true true true
        demo_table_full_state).2.2.2 = demo_table_full_state :=
  subscribe_with_full_table_not_found demo_table_full_state (by decide) [46, 100] (by decide)
    PS_DTYPE_U8 200 true true true true

set_option maxRecDepth 20000 in
/-- The state `demo_chg_state` is well formed. -/
theorem demo_chg_state_WF : demo_chg_state.WF := by decide

set_option maxRecDepth 20000 in
/-- The queue of `demo_chg_state` is empty and consistent. -/
theorem demo_chg_state_queue : demo_chg_state.msg_queue.Holds [] := by
  constructor <;> first | decide | trivial

set_option maxRecDepth 40000 in
/-- C19 (counterexample): in `demo_chg_state` actor `400` is the only subscriber of the
change topic and no event is waiting; its `ps_unsub_topic` removes the change topic and
leaves one event waiting, the `DEL` announcement of the change topic itself. -/
theorem unsub_change_topic_enqueues_del :
    ps_get_waiting_events_count demo_chg_state = 0
      ∧ (ps_unsub_topic PS_SYS_SERVICED_TOPICS_CHANGE_TOPIC 400 demo_chg_state).1 = PS_RESULT_OK
      ∧ (ps_unsub_topic PS_SYS_SERVICED_TOPICS_CHANGE_TOPIC 400
          demo_chg_state).2.u8Topic_tpc_cnhg_present_flag = 0
      ∧ ps_get_waiting_events_count
          (ps_unsub_topic PS_SYS_SERVICED_TOPICS_CHANGE_TOPIC 400 demo_chg_state).2 = 1 := by
  decide

set_option maxRecDepth 20000 in
/-- The state `demo_chg_muted_state` is well formed. -/
theorem demo_chg_muted_state_WF : demo_chg_muted_state.WF := by decide

set_option maxRecDepth 20000 in
/-- The queue of `demo_chg_muted_state` is empty and consistent. -/
theorem demo_chg_muted_state_queue : demo_chg_muted_state.msg_queue.Holds [] := by
  constructor <;> first | decide | trivial

set_option maxRecDepth 40000 in
/-- C19 (witness): actor `400` unsubscribes from the change topic in `demo_chg_state`,
where the change topic is not muted and the queue is empty, and in
`demo_chg_muted_state`, where `ps_pub_mute` with the null handle has muted it. -/
theorem unsub_change_topic_announces_itself_witness :
    ((ps_unsub_topic PS_SYS_SERVICED_TOPICS_CHANGE_TOPIC 400 demo_chg_state).1 = PS_RESULT_OK
      ∧ (ps_unsub_topic PS_SYS_SERVICED_TOPICS_CHANGE_TOPIC 400
          demo_chg_state).2.u8Topic_tpc_cnhg_present_flag = 0
      ∧ (ps_unsub_topic PS_SYS_SERVICED_TOPICS_CHANGE_TOPIC 400 demo_chg_state).2.msg_queue.count
          = demo_chg_state.msg_queue.count + 1)
      ∧ ((demo_chg_muted_state.topic 0).u8PublishersMute = [1, 0, 0]
        ∧ (ps_unsub_topic PS_SYS_SERVICED_TOPICS_CHANGE_TOPIC 400 demo_chg_muted_state).1
            = PS_RESULT_OK
        ∧ (ps_unsub_topic PS_SYS_SERVICED_TOPICS_CHANGE_TOPIC 400
            demo_chg_muted_state).2.u8Topic_tpc_cnhg_present_flag = 0
        ∧ (ps_unsub_topic PS_SYS_SERVICED_TOPICS_CHANGE_TOPIC 400
            demo_chg_muted_state).2.msg_queue = demo_chg_muted_state.msg_queue) :=
  have h := unsub_change_topic_announces_itself demo_chg_state demo_chg_state_WF 0 (by decide)
    (by decide) (by decide) (by decide) 400 [] demo_chg_state_queue
  have g := unsub_change_topic_announces_itself demo_chg_muted_state demo_chg_muted_state_WF 0
    (by decide) (by decide) (by decide) (by decide) 400 [] demo_chg_muted_state_queue
  ⟨⟨h.1, h.2.1, (h.2.2.2.1 (by decide) (by decide)).2⟩,
    ⟨by decide, g.1, g.2.1, g.2.2.2.2.1 (Or.inl (by decide))⟩⟩

set_option maxRecDepth 40000 in
/-- C18 (counterexample): with the change topic of `demo_chg_state`, registering
publisher `100` on a new path of 60 characters returns `PS_RESULT_OK` for hash `1`; the
message `ps_loop` then hands to actor `400` has the length 69 and carries only the
first 63 characters of `ADD 1 <path>[1]` and a terminator. -/
theorem long_path_announcement_is_cut :
    (ps_register_topic_publisher 100 PS_DTYPE_U8 long_path [] 0 demo_chg_state).1 = PS_RESULT_OK
      ∧ (ps_register_topic_publisher 100 PS_DTYPE_U8 long_path [] 0 demo_chg_state).2.1 = some 1
      ∧ (announcement str_ADD 1 long_path PS_DTYPE_U8).length = 69
      ∧ (ps_loop passive_actors
          (ps_register_topic_publisher 100 PS_DTYPE_U8 long_path [] 0 demo_chg_state).2.2).2.1
          = [{ actor := 400, xTopicHash := 0,
               pvMsg := (announcement str_ADD 1 long_path PS_DTYPE_U8).take 63 ++ [0],
               xMsgLendth := 69, xMsgDataType := PS_DTYPE_STR }]
      ∧ (announcement str_ADD 1 long_path PS_DTYPE_U8).take 63 ++ [0]
          ≠ announcement str_ADD 1 long_path PS_DTYPE_U8 := by
  decide

set_option maxRecDepth 40000 in
/-- C18 (witness): publisher `100` registers `".foo"` with type `PS_DTYPE_U8` in
`demo_chg_state` and unregisters it again. -/
theorem change_topic_reports_add_then_del_witness :
    (ps_unregister_topic_publisher 100 1
        (ps_register_topic_publisher 100 PS_DTYPE_U8 foo_path [] 0
          demo_chg_state).2.2).2.msg_queue.Holds
        [textFrame 0 (announcement str_ADD 1 (cstr foo_path) PS_DTYPE_U8),
         textFrame 0 (announcement str_DEL 1 (cstr foo_path) PS_DTYPE_U8)]
      ∧ (demo_chg_state.topic 0).pxSubscribers = [400, 0, 0]
      ∧ DeliversText (ps_loop passive_actors (ps_unregister_topic_publisher 100 1
          (ps_register_topic_publisher 100 PS_DTYPE_U8 foo_path [] 0 demo_chg_state).2.2).2).2.1
          (demo_chg_state.topic 0).pxSubscribers 0
          (announcement str_ADD 1 (cstr foo_path) PS_DTYPE_U8) PS_DTYPE_STR :=
  have h := change_topic_reports_add_then_del demo_chg_state demo_chg_state_WF 0 (by decide)
    (by decide) demo_chg_state_queue foo_path (by decide) 1 (by decide) (by decide) 100
    PS_DTYPE_U8 [] 0 (by decide) (by decide)
  ⟨h.2.2.2.2.1, by decide, h.2.2.2.2.2.2.2.1⟩

set_option maxRecDepth 40000 in
/-- C15 (witness): the periodic timer of 300 ms of `demo_timer_state`, two timer events
after 100 ms each and a third one after another 100 ms. -/
theorem periodic_timer_event_witness :
    SinglePeriodicTimer demo_timer_state 0 300 300
      ∧ tickRun [100, 100] demo_timer_state
          = ([some 200, some 100], timerSet demo_timer_state 0 100)
      ∧ (tickRun [100, 100] demo_timer_state).2.msg_queue = demo_timer_state.msg_queue
      ∧ (ps_pub_timer_tout_event 100 (tickRun [100, 100] demo_timer_state).2).1 = some 300 :=
  have h := periodic_timer_event demo_timer_state 0 300 (by decide) (by decide) (by decide)
    [100, 100] (by decide) (by decide)
  ⟨by decide, h.1, h.2.1, congrArg Prod.fst (h.2.2.2 100 (by decide)).1⟩

set_option maxRecDepth 40000 in
/-- The queue of `demo_exactly_full_state` holds the fifteen published frames. -/
theorem demo_exactly_full_state_queue :
    demo_exactly_full_state.msg_queue.Holds
      (pubFrame 0 0 demo_mem :: (List.replicate 13 (pubFrame 0 64 demo_mem)
        ++ [pubFrame 0 12 demo_mem])) := by
  have h := (pubRun_holds (show 0 < PS_MAX_TOPICS_COUNT by decide) demo_mem
    (0 :: (List.replicate 13 64 ++ [12])) demo_state [] demo_state_WF
    (show 100 ∈ (demo_state.topic 0).pxPublishers by decide) (by decide) demo_state_queue
    (by decide)).2
  exact h

set_option maxRecDepth 40000 in
/-- C11 (witness): the exactly full queue of `demo_exactly_full_state`, whose oldest
element is a frame of 4 bytes, and a publish without payload by actor `100`. -/
theorem publish_into_full_queue_then_loop_witness :
    demo_exactly_full_state.msg_queue.freeSize = 0
      ∧ (ps_pub_topic 100 0 0 (some demo_mem) demo_exactly_full_state).1 = PS_RESULT_OUT_OF_MEM
      ∧ (ps_pub_topic 100 0 0 (some demo_mem)
          (ps_loop passive_actors
            (ps_pub_topic 100 0 0 (some demo_mem) demo_exactly_full_state).2).2.2).1
          = PS_RESULT_OK :=
  have h := publish_into_full_queue_then_loop demo_exactly_full_state (by decide) 0 (by decide)
    100 (by decide) (by decide) 0 (by decide) demo_mem (pubFrame 0 0 demo_mem)
    (List.replicate 13 (pubFrame 0 64 demo_mem) ++ [pubFrame 0 12 demo_mem])
    demo_exactly_full_state_queue (by decide)
  ⟨by decide, h.1, h.2.1 (by decide)⟩

theorem wrappedCopyToBuff_freeSize (bs : List Nat) : ∀ (q : CQ_S) (p : Nat),
    (cq_wrappedCopyToBuff q p bs).1.freeSize = q.freeSize := by
  induction bs with
  | nil => intro q p; rfl
  | cons b bs ih => intro q p; simp only [cq_wrappedCopyToBuff]; rw [ih]

theorem cq_deleteFrontElement_totalSize (q : CQ_S) :
    (cq_deleteFrontElement q).2.totalSize = q.totalSize := by
  unfold cq_deleteFrontElement
  split <;> rfl

theorem cq_flush_holds {q : CQ_S} {es : List (List Nat)} (hq : q.Holds es) :
    (cq_flush q).Holds [] := by
  have hpos : 0 < q.totalSize := Nat.lt_of_le_of_lt (Nat.zero_le _) hq.hfront
  constructor
  · exact hq.hbegin
  · exact hq.hend
  · exact hq.hbuf
  · exact hq.hsize
  · show q.pDataBegin < q.totalSize
    rw [hq.hbegin]; exact hpos
  · rfl
  · show q.totalSize + 0 = q.totalSize
    omega
  · show q.pDataBegin = wrapAdd q.totalSize q.pDataBegin 0
    rw [hq.hbegin, wrapAdd_zero hpos]
  · intro e he; simp at he
  · trivial

/-- C21: for an element size `n` whose sum with the header size fits `size_t`,
`cq_addTailElement` returns false exactly when `n` is `0` or the free size is less than
`n` plus the header size, and then the queue is unchanged; otherwise it returns true,
`count` grows by one and `freeSize` shrinks by `n` plus the header size. -/
theorem cq_addTailElement_result (q : CQ_S) (src : List Nat) (n : Nat)
    (hn : n + SIZEOF_CQ_ELEM_HEADER < SIZE_T_MOD) (hfree : q.freeSize < SIZE_T_MOD) :
    ((cq_addTailElement q src n).1 = false
        ↔ (n = 0 ∨ q.freeSize < n + SIZEOF_CQ_ELEM_HEADER))
      ∧ ((cq_addTailElement q src n).1 = false → (cq_addTailElement q src n).2 = q)
      ∧ ((cq_addTailElement q src n).1 = true →
          (cq_addTailElement q src n).2.count = q.count + 1
            ∧ (cq_addTailElement q src n).2.freeSize + (n + SIZEOF_CQ_ELEM_HEADER)
                = q.freeSize) := by
  have h8 : SIZEOF_CQ_ELEM_HEADER = 8 := rfl
  have hM : SIZE_T_MOD = 18446744073709551616 := rfl
  have hmod : (n + SIZEOF_CQ_ELEM_HEADER) % SIZE_T_MOD = n + SIZEOF_CQ_ELEM_HEADER :=
    Nat.mod_eq_of_lt hn
  by_cases h0 : n = 0
  · have hr : cq_addTailElement q src n = (false, q) := by simp [cq_addTailElement, h0]
    rw [hr]
    exact ⟨⟨fun _ => Or.inl h0, fun _ => rfl⟩, fun _ => rfl, fun h => by simp at h⟩
  · by_cases hfull : q.freeSize < n + SIZEOF_CQ_ELEM_HEADER
    · rw [cq_addTailElement_full q src n hn hfull]
      exact ⟨⟨fun _ => Or.inr hfull, fun _ => rfl⟩, fun _ => rfl, fun h => by simp at h⟩
    · have hsp : cq_hasSpace q n = true := by
        simp only [cq_hasSpace, hmod, decide_eq_true_eq]; omega
      have hr1 : (cq_addTailElement q src n).1 = true := by
        simp [cq_addTailElement, h0, hsp]
      have hc : (cq_addTailElement q src n).2.count = q.count + 1 := by
        simp only [cq_addTailElement, h0, hsp, if_false, Bool.not_true, Bool.false_eq_true,
          wrappedCopyToBuff_count]
      have hf : (cq_addTailElement q src n).2.freeSize
          = (q.freeSize + SIZE_T_MOD - (n + SIZEOF_CQ_ELEM_HEADER)) % SIZE_T_MOD := by
        simp only [cq_addTailElement, h0, hsp, if_false, Bool.not_true, Bool.false_eq_true,
          wrappedCopyToBuff_freeSize, hmod]
      refine ⟨⟨fun h => ?_, fun h => ?_⟩, fun h => ?_, fun _ => ⟨hc, ?_⟩⟩
      · rw [hr1] at h; simp at h
      · rcases h with h | h
        · exact absurd h h0
        · exact absurd h hfull
      · rw [hr1] at h; simp at h
      · rw [hf]
        have : q.freeSize + SIZE_T_MOD - (n + SIZEOF_CQ_ELEM_HEADER)
            = (q.freeSize - (n + SIZEOF_CQ_ELEM_HEADER)) + SIZE_T_MOD := by omega
        rw [this, Nat.add_mod_right, Nat.mod_eq_of_lt (by omega)]
        omega

/-- One call keeps the correspondence between the queue of the source and the abstract
queue and gives agreeing results. -/
theorem cqStep_refines {q : CQ_S} {f : Fifo} (hr : Refines q f) (c : CqCall) (hv : c.Valid) :
    RetAgree c f (cqStep c q).1 (specStep c f).1
      ∧ Refines (cqStep c q).2 (specStep c f).2 := by
  have h8 : SIZEOF_CQ_ELEM_HEADER = 8 := rfl
  obtain ⟨hcap, hq⟩ := hr
  cases c with
  | init qBuffer n =>
    obtain ⟨hlt, hbuf⟩ := hv
    refine ⟨⟨rfl, rfl, fun _ => rfl⟩, rfl, ?_⟩
    by_cases hn : n = 0
    · right
      subst hn
      exact ⟨rfl, rfl, rfl, rfl⟩
    · left
      exact cq_init_holds q qBuffer n (Nat.pos_of_ne_zero hn) hlt hbuf
  | flush =>
    refine ⟨⟨rfl, rfl, fun _ => rfl⟩, hcap, ?_⟩
    rcases hq with hq | ⟨h0, _, _, _⟩
    · left; exact cq_flush_holds hq
    · right
      refine ⟨h0, rfl, rfl, ?_⟩
      show q.totalSize = 0
      rw [hcap, h0]
  | addTailElement src n =>
    have hv1 : n + SIZEOF_CQ_ELEM_HEADER < SIZE_T_MOD := hv
    have hfs : f.freeSize = q.freeSize := by
      rcases hq with hq | ⟨h0, hi, _, hf⟩
      · have := hq.hfree
        unfold Fifo.freeSize; omega
      · unfold Fifo.freeSize; rw [h0, hi, hf]; rfl
    by_cases hfail : n = 0 ∨ q.freeSize < n + SIZEOF_CQ_ELEM_HEADER
    · have hc : cq_addTailElement q src n = (false, q) := by
        rcases hfail with h0 | hfull
        · simp [cq_addTailElement, h0]
        · exact cq_addTailElement_full q src n hv1 hfull
      have ha : spec_pushBack f src n = (false, f) := by
        unfold spec_pushBack spec_hasSpace
        rw [hfs, if_pos]
        rcases hfail with h0 | hfull
        · exact Or.inl h0
        · right; simp only [decide_eq_false_iff_not]; omega
      simp only [cqStep, specStep, hc, ha]
      exact ⟨⟨rfl, rfl, fun _ => rfl⟩, hcap, hq⟩
    · simp only [not_or, Nat.not_lt] at hfail
      obtain ⟨hn0, hfit⟩ := hfail
      have hq1 : q.Holds f.items := by
        rcases hq with hq | ⟨_, _, _, hf⟩
        · exact hq
        · omega
      obtain ⟨c1, c2⟩ := cq_addTailElement_holds hq1 src n hn0 hfit
      have ha : spec_pushBack f src n
          = (true, { f with items := f.items ++ [memRead src n] }) := by
        unfold spec_pushBack spec_hasSpace
        rw [hfs, if_neg]
        simp only [not_or, decide_eq_false_iff_not, Nat.not_lt, not_not]
        exact ⟨hn0, by omega⟩
      simp only [cqStep, specStep, ha]
      refine ⟨⟨c1, rfl, fun _ => rfl⟩, ?_, Or.inl c2⟩
      rw [cq_addTailElement_totalSize]; exact hcap
  | getFrontElement cap =>
    refine ⟨?_, hcap, hq⟩
    rcases hq with hq | ⟨_, hi, hc, _⟩
    · cases hitems : f.items with
      | nil =>
        rw [hitems] at hq
        simp only [cqStep, specStep, spec_peekFront, hitems, (cq_front_of_empty hq cap).1]
        exact ⟨rfl, rfl, fun _ => rfl⟩
      | cons e es =>
        rw [hitems] at hq
        simp only [cqStep, specStep, spec_peekFront, hitems, cq_getFrontElement_holds hq cap]
        refine ⟨rfl, ?_, fun hl => ?_⟩
        · show e.take cap = e.take (min e.length cap)
          rw [List.take_eq_take]
          omega
        · have hle : e.length ≤ cap := hl e (by simp [hitems])
          show min cap e.length = e.length
          omega
    · have hg : cq_getFrontElement q cap = (0, []) := by
        simp [cq_getFrontElement, hc]
      simp only [cqStep, specStep, spec_peekFront, hi, hg]
      exact ⟨rfl, rfl, fun _ => rfl⟩
  | deleteFrontElement =>
    rcases hq with hq | ⟨h0, hi, hc, hf⟩
    · cases hitems : f.items with
      | nil =>
        rw [hitems] at hq
        simp only [cqStep, specStep, spec_popFront, hitems, (cq_front_of_empty hq 0).2]
        exact ⟨⟨rfl, rfl, fun _ => rfl⟩, hcap, Or.inl (by rw [hitems]; exact hq)⟩
      | cons e es =>
        rw [hitems] at hq
        obtain ⟨d1, d2⟩ := cq_deleteFrontElement_holds hq
        simp only [cqStep, specStep, spec_popFront, hitems]
        refine ⟨⟨rfl, rfl, fun _ => d1⟩, ?_, Or.inl d2⟩
        rw [cq_deleteFrontElement_totalSize]; exact hcap
    · have hd : cq_deleteFrontElement q = (0, q) := by
        simp [cq_deleteFrontElement, hc]
      simp only [cqStep, specStep, spec_popFront, hi, hd]
      exact ⟨⟨rfl, rfl, fun _ => rfl⟩, hcap, Or.inr ⟨h0, hi, hc, hf⟩⟩

theorem refines_init (q : CQ_S) (qBuffer : List Nat) (n : Nat) (hlt : n < SIZE_T_MOD)
    (hbuf : qBuffer.length = n) : Refines (cq_init q qBuffer n) (spec_init n) := by
  refine ⟨rfl, ?_⟩
  by_cases hn : n = 0
  · right
    subst hn
    exact ⟨rfl, rfl, rfl, rfl⟩
  · left
    exact cq_init_holds q qBuffer n (Nat.pos_of_ne_zero hn) hlt hbuf

/-- A run of valid calls keeps the correspondence. -/
theorem cqRun_refines : ∀ (calls : List CqCall) (q : CQ_S) (f : Fifo), Refines q f →
    (∀ c ∈ calls, c.Valid) → Refines (cqRun calls q) (specRun calls f)
  | [], _, _, hr, _ => hr
  | c :: cs, _, _, hr, hv =>
    cqRun_refines cs _ _ (cqStep_refines hr c (hv c (List.mem_cons_self _ _))).2
      (fun x hx => hv x (List.mem_cons_of_mem _ hx))

/-- C22: the ring buffer refines the abstract queue of the specification. From
`cq_init` over a buffer of any size, every run of `cq_init`, `cq_flush`,
`cq_addTailElement`, `cq_getFrontElement` and `cq_deleteFrontElement` calls is simulated
by the abstract queue: before each call the ring holds exactly the byte strings of the
abstract queue, each addition succeeds on both or fails on both, each read copies the
bytes of the oldest element without changing the queue and, when the destination is
large enough, returns its size, and each removal drops the oldest element and returns
its size, or returns 0 and changes nothing on an empty queue. -/
theorem ring_buffer_refines_fifo (q0 : CQ_S) (qBuffer : List Nat) (n : Nat)
    (hlt : n < SIZE_T_MOD) (hbuf : qBuffer.length = n) (calls : List CqCall)
    (hv : ∀ c ∈ calls, c.Valid) :
    Simulates calls (cq_init q0 qBuffer n) (spec_init n) := by
  have key : ∀ (calls : List CqCall) (q : CQ_S) (f : Fifo), Refines q f →
      (∀ c ∈ calls, c.Valid) → Simulates calls q f := by
    intro calls
    induction calls with
    | nil => intro q f hr _; exact hr
    | cons c cs ih =>
      intro q f hr hv
      obtain ⟨s1, s2⟩ := cqStep_refines hr c (hv c (List.mem_cons_self _ _))
      exact ⟨hr, s1, ih _ _ s2 (fun x hx => hv x (List.mem_cons_of_mem _ hx))⟩
  exact key calls _ _ (refines_init q0 qBuffer n hlt hbuf) hv

/-- C23: in every queue state reached from `cq_init` by a run of queue calls, `freeSize`
plus the bytes of the queued elements, each counted with its header, equals `totalSize`,
`count` is the number of queued elements, and `totalSize` is the size of the buffer last
given to `cq_init`; the queued elements are those of the abstract queue after the same
calls. -/
theorem queue_counters_balance (q0 : CQ_S) (qBuffer : List Nat) (n : Nat)
    (hlt : n < SIZE_T_MOD) (hbuf : qBuffer.length = n) (calls : List CqCall)
    (hv : ∀ c ∈ calls, c.Valid) :
    (cqRun calls (cq_init q0 qBuffer n)).freeSize
        + spanSum (specRun calls (spec_init n)).items
        = (cqRun calls (cq_init q0 qBuffer n)).totalSize
      ∧ (cqRun calls (cq_init q0 qBuffer n)).count
        = (specRun calls (spec_init n)).items.length
      ∧ (cqRun calls (cq_init q0 qBuffer n)).totalSize = (specRun calls (spec_init n)).cap := by
  obtain ⟨hcap, hq⟩ := cqRun_refines calls _ _ (refines_init q0 qBuffer n hlt hbuf) hv
  rcases hq with hq | ⟨h0, hi, hc, hf⟩
  · exact ⟨hq.hfree, hq.hcount, hcap⟩
  · rw [hi, hc, hf, hcap, h0]
    exact ⟨rfl, rfl, rfl⟩

/-- C24 (as amended): for a queue whose front element is `e`, `cq_getFrontElement` with
a destination of `cap` bytes copies the first `min e.length cap` bytes of `e` and returns
that number, while the size stored in the header, which `cq_deleteFrontElement` returns,
is `e.length`; so with `cap` smaller than the element the returned value is `cap`, not
the stored size. For an empty queue it returns 0. -/
theorem cq_getFrontElement_returns_copied_length (q : CQ_S) (e : List Nat)
    (es : List (List Nat)) (hq : q.Holds (e :: es)) (cap : Nat) :
    (cq_getFrontElement q cap).1 = min e.length cap
      ∧ (cq_getFrontElement q cap).2 = e.take (min e.length cap)
      ∧ (cq_deleteFrontElement q).1 = e.length
      ∧ (cap < e.length → (cq_getFrontElement q cap).1 = cap
          ∧ (cq_getFrontElement q cap).1 ≠ e.length)
      ∧ (∀ q0 : CQ_S, q0.count = 0 → cq_getFrontElement q0 cap = (0, [])) := by
  rw [cq_getFrontElement_holds hq cap]
  refine ⟨Nat.min_comm _ _, ?_, (cq_deleteFrontElement_holds hq).1, fun h => ?_, fun q0 h0 => ?_⟩
  · show e.take cap = e.take (min e.length cap)
    rw [List.take_eq_take]
    omega
  · show min cap e.length = cap ∧ min cap e.length ≠ e.length
    omega
  · simp [cq_getFrontElement, h0]

/-- C21 (witness): additions of four bytes, of no bytes and of thirteen bytes to the
empty queue over 20 bytes. -/
theorem cq_addTailElement_result_witness :
    (cq_addTailElement demo_queue [1, 2, 3, 4] 4).1 = true
      ∧ (cq_addTailElement demo_queue [1, 2, 3, 4] 4).2.count = demo_queue.count + 1
      ∧ (cq_addTailElement demo_queue [1, 2, 3, 4] 4).2.freeSize + (4 + SIZEOF_CQ_ELEM_HEADER)
          = demo_queue.freeSize
      ∧ (cq_addTailElement demo_queue [] 0).2 = demo_queue
      ∧ (cq_addTailElement demo_queue [] 13).2 = demo_queue :=
  have h4 := cq_addTailElement_result demo_queue [1, 2, 3, 4] 4 (by decide) (by decide)
  have h0 := cq_addTailElement_result demo_queue [] 0 (by decide) (by decide)
  have h13 := cq_addTailElement_result demo_queue [] 13 (by decide) (by decide)
  ⟨by decide, (h4.2.2 (by decide)).1, (h4.2.2 (by decide)).2, h0.2.1 (by decide),
    h13.2.1 (by decide)⟩

/-- C22 (witness): the calls `demo_wrap_calls` on the queue over 20 bytes; the second
element wraps around the end of the buffer and is read back whole. -/
theorem ring_buffer_refines_fifo_witness :
    Simulates demo_wrap_calls demo_queue (spec_init 20)
      ∧ (cqRun (demo_wrap_calls.take 4) demo_queue).pFront = 12
      ∧ (cqRun (demo_wrap_calls.take 4) demo_queue).pRear = 5
      ∧ (cqStep (CqCall.getFrontElement 10) (cqRun (demo_wrap_calls.take 4) demo_queue)).1
          = { ok := true, size := 5, bytes := [5, 6, 7, 8, 9] } :=
  ⟨ring_buffer_refines_fifo CQ_S.zero (List.replicate 20 0) 20 (by decide) (by decide)
      demo_wrap_calls (by decide),
    by decide, by decide, by decide⟩

set_option maxRecDepth 20000 in
/-- C23 (witness): the queue of the dispatcher as `ps_init` leaves it, two additions, a
read and a removal. -/
theorem queue_counters_balance_witness :
    (ps_init PsState.static_zero).2.msg_queue
        = cq_init PsState.static_zero.msg_queue PsState.static_zero.msg_queue.buf
            MSG_QUEUE_BUF_SIZE
      ∧ (specRun demo_queue_calls (spec_init MSG_QUEUE_BUF_SIZE)).items = [[4, 5]]
      ∧ (cqRun demo_queue_calls (ps_init PsState.static_zero).2.msg_queue).freeSize
          + spanSum (specRun demo_queue_calls (spec_init MSG_QUEUE_BUF_SIZE)).items
          = (cqRun demo_queue_calls (ps_init PsState.static_zero).2.msg_queue).totalSize
      ∧ (cqRun demo_queue_calls (ps_init PsState.static_zero).2.msg_queue).totalSize = 1024 :=
  have h := queue_counters_balance PsState.static_zero.msg_queue
    PsState.static_zero.msg_queue.buf MSG_QUEUE_BUF_SIZE (by decide) (by decide)
    demo_queue_calls (by decide)
  ⟨rfl, by decide, h.1, h.2.2.trans (by decide)⟩

/-- C24 (counterexample): the queue over 20 bytes holds one element of four bytes; a read
with a destination of two bytes copies two bytes and returns 2, not the stored size 4,
which the removal returns. -/
theorem cq_getFrontElement_short_destination :
    cq_getFrontElement (cq_addTailElement demo_queue [1, 2, 3, 4] 4).2 2 = (2, [1, 2])
      ∧ (cq_deleteFrontElement (cq_addTailElement demo_queue [1, 2, 3, 4] 4).2).1 = 4 := by
  decide

/-- The queue over 20 bytes after the addition of the four bytes `1, 2, 3, 4`. -/
theorem demo_queue_holds :
    (cq_addTailElement demo_queue [1, 2, 3, 4] 4).2.Holds [[1, 2, 3, 4]] :=
  (cq_addTailElement_holds
    (cq_init_holds CQ_S.zero (List.replicate 20 0) 20 (by decide) (by decide) (by decide))
    [1, 2, 3, 4] 4 (by decide) (by decide)).2

/-- C24 (witness): reads with destinations of two and of ten bytes from the queue that
holds the four bytes `1, 2, 3, 4`. -/
theorem cq_getFrontElement_returns_copied_length_witness :
    (cq_getFrontElement (cq_addTailElement demo_queue [1, 2, 3, 4] 4).2 2).1 = 2
      ∧ (cq_getFrontElement (cq_addTailElement demo_queue [1, 2, 3, 4] 4).2 10).1 = 4
      ∧ (cq_getFrontElement (cq_addTailElement demo_queue [1, 2, 3, 4] 4).2 10).2
          = [1, 2, 3, 4] :=
  have h2 := cq_getFrontElement_returns_copied_length _ _ _ demo_queue_holds 2
  have h10 := cq_getFrontElement_returns_copied_length _ _ _ demo_queue_holds 10
  ⟨h2.1, h10.1, h10.2.1⟩

theorem timer_self_set (s : PsState) (i : Nat) : s.setTimer i (s.timer i) = s := by
  unfold PsState.setTimer PsState.timer
  by_cases hi : i < s.TimersArray.length
  · rw [List.getD_eq_getElem _ _ hi]
    have := list_set_getElem s.TimersArray i hi
    simp only [List.get_eq_getElem] at this
    rw [this]
  · rw [List.set_eq_of_length_le (Nat.le_of_not_lt hi)]

/-- One pass of the loop of `ps_pub_timer_tout_event`: the slot afterwards, the other
slots and the new value of `shortest_timer_ms`. -/
theorem timer_slot_spec {s : PsState} {i : Nat} (hi : i < s.TimersArray.length) (e sh : Int) :
    (ps_timer_slot e i s sh).1.TimersArray.length = s.TimersArray.length
      ∧ (∀ j, (ps_timer_slot e i s sh).1.timer j
            = if j = i then timerAfter e (s.timer i) else s.timer j)
      ∧ (ps_timer_slot e i s sh).2 = shortestStep (timerAfter e (s.timer i)) sh := by
  by_cases hdur : (s.timer i).duration_ms = 0
  · rw [timer_slot_free hdur]
    refine ⟨rfl, fun j => ?_, ?_⟩
    · by_cases hj : j = i
      · subst hj; simp [timerAfter, hdur]
      · simp [hj]
    · simp [shortestStep, timerAfter, hdur]
  · have h1 : (s.setTimer i { (s.timer i) with
        time_left_ms := (s.timer i).time_left_ms - e }).timer i
        = { (s.timer i) with time_left_ms := (s.timer i).time_left_ms - e } := by
      rw [timer_setTimer hi]; simp
    have hlen1 : (s.setTimer i { (s.timer i) with
        time_left_ms := (s.timer i).time_left_ms - e }).TimersArray.length
        = s.TimersArray.length := by simp [PsState.setTimer]
    by_cases hexp : (s.timer i).time_left_ms - e ≤ 0
    · have hlenp : (ps_pub_topic (s.timer i).xCreatorPublisher (s.timer i).u16Hash
          PS_DTYPE_NONE.toNat none (s.setTimer i { (s.timer i) with
            time_left_ms := (s.timer i).time_left_ms - e })).2.TimersArray.length
          = s.TimersArray.length := by
        rw [(ps_pub_topic_rest _ _ _ _ _).1, hlen1]
      by_cases hper : (s.timer i).periodic_flag = 0
      · have hT : timerAfter e (s.timer i)
            = { (s.timer i) with time_left_ms := (s.timer i).time_left_ms - e } := by
          simp [timerAfter, hdur, hexp, hper]
        have hstate : (ps_timer_slot e i s sh).1
            = (ps_pub_topic (s.timer i).xCreatorPublisher (s.timer i).u16Hash
                PS_DTYPE_NONE.toNat none (s.setTimer i { (s.timer i) with
                  time_left_ms := (s.timer i).time_left_ms - e })).2 := by
          simp only [ps_timer_slot, h1, timer_after_pub, if_neg hdur, if_pos hexp,
            if_neg (not_not.2 hper)]
        refine ⟨by rw [hstate, hlenp], fun j => ?_, ?_⟩
        · rw [hstate, timer_after_pub, timer_setTimer hi, hT]
        · have hn : ¬ ((s.timer i).time_left_ms - e > 0) := by omega
          have hn2 : ¬ ((s.timer i).duration_ms ≠ 0 ∧ 0 < (s.timer i).time_left_ms - e
              ∧ (s.timer i).time_left_ms - e < sh) := by omega
          simp only [ps_timer_slot, h1, timer_after_pub, if_neg hdur, if_pos hexp,
            if_neg (not_not.2 hper), if_neg hn, shortestStep, hT, if_neg hn2]
      · have hT : timerAfter e (s.timer i)
            = { (s.timer i) with time_left_ms := (s.timer i).duration_ms } := by
          simp [timerAfter, hdur, hexp, hper]
        have hstate : (ps_timer_slot e i s sh).1
            = (ps_pub_topic (s.timer i).xCreatorPublisher (s.timer i).u16Hash
                PS_DTYPE_NONE.toNat none (s.setTimer i { (s.timer i) with
                  time_left_ms := (s.timer i).time_left_ms - e })).2.setTimer i
                { (s.timer i) with time_left_ms := (s.timer i).duration_ms } := by
          simp only [ps_timer_slot, h1, timer_after_pub, if_neg hdur, if_pos hexp,
            if_pos (show (s.timer i).periodic_flag ≠ 0 from hper)]
        have hi2 : i < (ps_pub_topic (s.timer i).xCreatorPublisher (s.timer i).u16Hash
            PS_DTYPE_NONE.toNat none (s.setTimer i { (s.timer i) with
              time_left_ms := (s.timer i).time_left_ms - e })).2.TimersArray.length := by
          rw [hlenp]; exact hi
        refine ⟨?_, fun j => ?_, ?_⟩
        · rw [hstate]
          show (List.set _ _ _).length = _
          rw [List.length_set, hlenp]
        · rw [hstate, timer_setTimer hi2, hT]
          by_cases hj : j = i
          · simp [hj]
          · simp only [hj, if_false]
            rw [timer_after_pub, timer_setTimer hi]; simp [hj]
        · have hv : ((ps_timer_slot e i s sh).1.timer i)
              = { (s.timer i) with time_left_ms := (s.timer i).duration_ms } := by
            rw [hstate, timer_setTimer hi2]; simp
          simp only [ps_timer_slot, h1, timer_after_pub, if_neg hdur, if_pos hexp,
            if_pos (show (s.timer i).periodic_flag ≠ 0 from hper), timer_setTimer hi2, if_true,
            shortestStep, hT, gt_iff_lt]
          split_ifs <;> first | rfl | omega
    · have hT : timerAfter e (s.timer i)
          = { (s.timer i) with time_left_ms := (s.timer i).time_left_ms - e } := by
        simp [timerAfter, hdur, hexp]
      have hstate : (ps_timer_slot e i s sh).1
          = s.setTimer i { (s.timer i) with
              time_left_ms := (s.timer i).time_left_ms - e } := by
        simp only [ps_timer_slot, h1, if_neg hdur, if_neg hexp]
      refine ⟨by rw [hstate, hlen1], fun j => ?_, ?_⟩
      · rw [hstate, timer_setTimer hi, hT]
      · simp only [ps_timer_slot, h1, if_neg hdur, if_neg hexp, shortestStep, hT, gt_iff_lt]
        split_ifs <;> first | rfl | omega

theorem shortestStep_pos (t : PsTimerStruct_s) {sh : Int} (h : 0 < sh) :
    0 < shortestStep t sh := by
  unfold shortestStep
  split_ifs with hc
  · exact hc.2.1
  · exact h

theorem shortestStep_le (t : PsTimerStruct_s) (sh : Int) : shortestStep t sh ≤ sh := by
  unfold shortestStep
  split_ifs with hc
  · exact le_of_lt hc.2.2
  · exact le_refl _

theorem shortestStep_le_active {t : PsTimerStruct_s} (ht : t.Active) (sh : Int)
    (hle : t.time_left_ms ≤ sh) : shortestStep t sh ≤ t.time_left_ms := by
  unfold shortestStep
  split_ifs with hc
  · exact le_refl _
  · have : ¬ t.time_left_ms < sh := fun h => hc ⟨ht.1, ht.2, h⟩
    omega

theorem shortestStep_cases (t : PsTimerStruct_s) (sh : Int) :
    shortestStep t sh = sh ∨ (t.Active ∧ shortestStep t sh = t.time_left_ms) := by
  unfold shortestStep
  split_ifs with hc
  · exact Or.inr ⟨⟨hc.1, hc.2.1⟩, rfl⟩
  · exact Or.inl rfl

/-- The whole scan of `ps_pub_timer_tout_event` over a timer table of three slots: each
slot gets its subtraction and reload, and `restart_timer` is called with the value the
three updates of `shortest_timer_ms` give from `INT32_MAX`. -/
theorem timer_event_spec {s : PsState} (hlen : s.TimersArray.length = PS_MAX_TOPICS_COUNT)
    (e : Int) :
    (ps_pub_timer_tout_event e s).2.TimersArray.length = PS_MAX_TOPICS_COUNT
      ∧ (∀ j, (ps_pub_timer_tout_event e s).2.timer j = timerAfter e (s.timer j))
      ∧ (ps_pub_timer_tout_event e s).1
          = some (shortestStep (timerAfter e (s.timer 2))
              (shortestStep (timerAfter e (s.timer 1))
                (shortestStep (timerAfter e (s.timer 0)) INT32_MAX))) := by
  have h3 : PS_MAX_TOPICS_COUNT = 3 := rfl
  obtain ⟨a1, a2, a3⟩ := timer_slot_spec (s := s) (i := 0) (by omega) e INT32_MAX
  set s1 := (ps_timer_slot e 0 s INT32_MAX).1 with hs1
  obtain ⟨b1, b2, b3⟩ := timer_slot_spec (s := s1) (i := 1) (by omega) e
    (ps_timer_slot e 0 s INT32_MAX).2
  set s2 := (ps_timer_slot e 1 s1 (ps_timer_slot e 0 s INT32_MAX).2).1 with hs2
  obtain ⟨c1, c2, c3⟩ := timer_slot_spec (s := s2) (i := 2) (by omega) e
    (ps_timer_slot e 1 s1 (ps_timer_slot e 0 s INT32_MAX).2).2
  have hfold : (List.range PS_MAX_ACTORS_COUNT).foldl
      (fun acc i => ps_timer_slot e i acc.1 acc.2) (s, INT32_MAX)
      = ps_timer_slot e 2 s2 (ps_timer_slot e 1 s1 (ps_timer_slot e 0 s INT32_MAX).2).2 := by
    show [0, 1, 2].foldl (fun acc i => ps_timer_slot e i acc.1 acc.2) (s, INT32_MAX) = _
    rfl
  have ht1 : s1.timer 1 = s.timer 1 := by rw [a2]; simp
  have ht2 : s2.timer 2 = s.timer 2 := by
    rw [b2]; simp only [show (2 : Nat) ≠ 1 by decide, if_false]
    rw [a2]; simp
  rw [ht1] at b2 b3
  rw [ht2] at c2 c3
  have c3 : (ps_timer_slot e 2 s2
      (ps_timer_slot e 1 s1 (ps_timer_slot e 0 s INT32_MAX).2).2).2
      = shortestStep (timerAfter e (s.timer 2))
          (shortestStep (timerAfter e (s.timer 1))
            (shortestStep (timerAfter e (s.timer 0)) INT32_MAX)) := by
    rw [c3, b3, a3]
  have hpos : 0 < shortestStep (timerAfter e (s.timer 2))
      (shortestStep (timerAfter e (s.timer 1))
        (shortestStep (timerAfter e (s.timer 0)) INT32_MAX)) :=
    shortestStep_pos _ (shortestStep_pos _ (shortestStep_pos _ (by decide)))
  have hev : ps_pub_timer_tout_event e s
      = (some (ps_timer_slot e 2 s2
            (ps_timer_slot e 1 s1 (ps_timer_slot e 0 s INT32_MAX).2).2).2,
          (ps_timer_slot e 2 s2
            (ps_timer_slot e 1 s1 (ps_timer_slot e 0 s INT32_MAX).2).2).1) := by
    unfold ps_pub_timer_tout_event
    rw [hfold]
    dsimp only
    rw [if_pos]
    rw [c3]; exact ne_of_gt hpos
  rw [hev]
  refine ⟨by rw [c1, b1, a1, hlen], fun j => ?_, by rw [c3]⟩
  show (ps_timer_slot e 2 s2 _).1.timer j = _
  rw [c2]
  by_cases hj2 : j = 2
  · simp [hj2]
  · simp only [hj2, if_false]
    rw [b2]
    by_cases hj1 : j = 1
    · simp [hj1]
    · simp only [hj1, if_false]
      rw [a2]
      by_cases hj0 : j = 0
      · simp [hj0]
      · simp only [hj0, if_false]
        have hz : s.timer j = PsTimerStruct_s.zero := by
          unfold PsState.timer
          rw [List.getD_eq_default _ _ (by omega)]
        rw [hz]
        rfl

/-- C27: `ps_pub_timer_tout_event` calls `restart_timer`, and when, after the
subtraction and the periodic reload of this call, some occupied timer has time left and
the times left are in the range of 32-bit signed values, the argument is the smallest
time left among the occupied timers with time left; free slots and timers without time
left do not count. -/
theorem restart_argument_is_shortest_time_left (s : PsState)
    (hlen : s.TimersArray.length = PS_MAX_TOPICS_COUNT) (e : Int)
    (hrange : ∀ j, j < PS_MAX_TOPICS_COUNT →
      ((ps_pub_timer_tout_event e s).2.timer j).time_left_ms ≤ INT32_MAX)
    (hsome : ∃ j, j < PS_MAX_TOPICS_COUNT ∧ ((ps_pub_timer_tout_event e s).2.timer j).Active) :
    ∃ i, i < PS_MAX_TOPICS_COUNT
      ∧ ((ps_pub_timer_tout_event e s).2.timer i).Active
      ∧ (ps_pub_timer_tout_event e s).1
          = some ((ps_pub_timer_tout_event e s).2.timer i).time_left_ms
      ∧ ∀ j, j < PS_MAX_TOPICS_COUNT → ((ps_pub_timer_tout_event e s).2.timer j).Active →
          ((ps_pub_timer_tout_event e s).2.timer i).time_left_ms
            ≤ ((ps_pub_timer_tout_event e s).2.timer j).time_left_ms := by
  obtain ⟨_, ht, hv⟩ := timer_event_spec hlen e
  have h3 : PS_MAX_TOPICS_COUNT = 3 := rfl
  simp only [ht] at hrange hsome ⊢
  rw [hv]
  set T0 := timerAfter e (s.timer 0)
  set T1 := timerAfter e (s.timer 1)
  set T2 := timerAfter e (s.timer 2)
  set v := shortestStep T2 (shortestStep T1 (shortestStep T0 INT32_MAX)) with hvdef
  have r0 := hrange 0 (by decide)
  have r1 := hrange 1 (by decide)
  have r2 := hrange 2 (by decide)
  have hT : ∀ j, j < 3 → timerAfter e (s.timer j) = T0 ∨ timerAfter e (s.timer j) = T1
      ∨ timerAfter e (s.timer j) = T2 := by
    intro j hj
    have : j = 0 ∨ j = 1 ∨ j = 2 := by omega
    rcases this with rfl | rfl | rfl
    · exact Or.inl rfl
    · exact Or.inr (Or.inl rfl)
    · exact Or.inr (Or.inr rfl)
  -- lower bound
  have l0 : shortestStep T0 INT32_MAX ≤ INT32_MAX := shortestStep_le _ _
  have l1 : shortestStep T1 (shortestStep T0 INT32_MAX) ≤ shortestStep T0 INT32_MAX :=
    shortestStep_le _ _
  have l2 : v ≤ shortestStep T1 (shortestStep T0 INT32_MAX) := shortestStep_le _ _
  have a0 : T0.Active → v ≤ T0.time_left_ms := fun h =>
    le_trans (le_trans l2 l1) (shortestStep_le_active h _ r0)
  have a1 : T1.Active → v ≤ T1.time_left_ms := by
    intro h
    by_cases hle : T1.time_left_ms ≤ shortestStep T0 INT32_MAX
    · exact le_trans l2 (shortestStep_le_active h _ hle)
    · exact le_trans (le_trans l2 l1) (le_of_lt (not_le.1 hle))
  have a2 : T2.Active → v ≤ T2.time_left_ms := by
    intro h
    by_cases hle : T2.time_left_ms ≤ shortestStep T1 (shortestStep T0 INT32_MAX)
    · exact shortestStep_le_active h _ hle
    · exact le_trans l2 (le_of_lt (not_le.1 hle))
  have hlow : ∀ j, j < 3 → (timerAfter e (s.timer j)).Active →
      v ≤ (timerAfter e (s.timer j)).time_left_ms := by
    intro j hj hact
    rcases hT j hj with h | h | h <;> rw [h] at hact ⊢
    · exact a0 hact
    · exact a1 hact
    · exact a2 hact
  -- attained
  have hatt : v = INT32_MAX ∨ ∃ i, i < 3 ∧ (timerAfter e (s.timer i)).Active
      ∧ v = (timerAfter e (s.timer i)).time_left_ms := by
    rcases shortestStep_cases T2 (shortestStep T1 (shortestStep T0 INT32_MAX)) with c | c
    · rcases shortestStep_cases T1 (shortestStep T0 INT32_MAX) with d | d
      · rcases shortestStep_cases T0 INT32_MAX with f | f
        · left; rw [hvdef, c, d, f]
        · right; exact ⟨0, by decide, f.1, by rw [hvdef, c, d, f.2]⟩
      · right; exact ⟨1, by decide, d.1, by rw [hvdef, c, d.2]⟩
    · right; exact ⟨2, by decide, c.1, c.2⟩
  rcases hatt with hmax | ⟨i, hi, hact, hvi⟩
  · obtain ⟨j, hj, hact⟩ := hsome
    have hjl := hlow j hj hact
    have hjr := hrange j hj
    have hveq : v = (timerAfter e (s.timer j)).time_left_ms := by omega
    refine ⟨j, hj, hact, by rw [hveq], fun k hk hka => ?_⟩
    rw [← hveq]; exact hlow k hk hka
  · refine ⟨i, hi, hact, by rw [hvi], fun k hk hka => ?_⟩
    rw [← hvi]; exact hlow k hk hka

theorem report_rest (h : Nat) (pfx : List Nat) (s : PsState) :
    (ps_report_topic_change h pfx s).TimersArray = s.TimersArray
      ∧ (ps_report_topic_change h pfx s).xTopic_tpc_cnhg = s.xTopic_tpc_cnhg
      ∧ (ps_report_topic_change h pfx s).u8Topic_tpc_cnhg_present_flag
          = s.u8Topic_tpc_cnhg_present_flag := by
  unfold ps_report_topic_change
  split
  · exact ps_pub_topic_rest _ _ _ _ _
  · exact ⟨rfl, rfl, rfl⟩

theorem report_timers (h : Nat) (pfx : List Nat) (s : PsState) :
    (ps_report_topic_change h pfx s).TimersArray = s.TimersArray :=
  (report_rest h pfx s).1

theorem register_timers (a : actor_f) (d : PsDataType_e) (path info : List Nat) (sticky : Nat)
    (s : PsState) :
    (ps_register_topic_publisher a d path info sticky s).2.2.TimersArray = s.TimersArray := by
  unfold ps_register_topic_publisher
  dsimp only
  split_ifs <;> first | rfl | (rw [(report_rest _ _ _).1]; rfl)

theorem sub_timers (path : List Nat) (d : PsDataType_e) (a : actor_f) (b1 b2 b3 b4 : Bool)
    (s : PsState) :
    (ps_sub_single_topic path d a b1 b2 b3 b4 s).2.2.2.TimersArray = s.TimersArray := by
  unfold ps_sub_single_topic
  dsimp only
  split_ifs <;> simp only [PsState.setTopic, report_timers]

theorem timeLeftBounded_congr {s s1 : PsState} (h : s1.TimersArray = s.TimersArray)
    (hb : TimeLeftBounded s) : TimeLeftBounded s1 := by
  intro j hj
  have : s1.timer j = s.timer j := by unfold PsState.timer; rw [h]
  rw [this]; exact hb j hj

theorem timerAfter_bounded {e : Int} (he : 0 ≤ e) {t : PsTimerStruct_s}
    (ht : t.duration_ms ≠ 0 → t.time_left_ms ≤ t.duration_ms) :
    (timerAfter e t).duration_ms ≠ 0 →
      (timerAfter e t).time_left_ms ≤ (timerAfter e t).duration_ms := by
  unfold timerAfter
  split_ifs with h1 h2 h3
  · exact ht
  · intro _; exact le_refl _
  · intro hd
    have := ht hd
    show t.time_left_ms - e ≤ t.duration_ms
    omega
  · intro hd
    have := ht hd
    show t.time_left_ms - e ≤ t.duration_ms
    omega

theorem timer_event_bounded {s : PsState} (hlen : s.TimersArray.length = PS_MAX_TOPICS_COUNT)
    (hb : TimeLeftBounded s) {e : Int} (he : 0 ≤ e) :
    (ps_pub_timer_tout_event e s).2.TimersArray.length = PS_MAX_TOPICS_COUNT
      ∧ TimeLeftBounded (ps_pub_timer_tout_event e s).2 := by
  obtain ⟨h1, h2, _⟩ := timer_event_spec hlen e
  refine ⟨h1, fun j hj => ?_⟩
  rw [h2]
  exact timerAfter_bounded he (hb j hj)

theorem timer_alloc_bounded {s2 : PsState}
    (hlen2 : s2.TimersArray.length = PS_MAX_TOPICS_COUNT) (hb2 : TimeLeftBounded s2)
    {i : Nat} (hi : i < PS_MAX_ACTORS_COUNT)
    (t : PsTimerStruct_s) (ht : t.time_left_ms ≤ t.duration_ms) {tick : Int} (he : 0 ≤ tick) :
    (ps_pub_timer_tout_event tick (s2.setTimer i t)).2.TimersArray.length = PS_MAX_TOPICS_COUNT
      ∧ TimeLeftBounded (ps_pub_timer_tout_event tick (s2.setTimer i t)).2 := by
  refine timer_event_bounded ?_ ?_ he
  · show (List.set _ _ _).length = _
    rw [List.length_set]; exact hlen2
  · intro j hj
    rw [timer_setTimer (by rw [hlen2]; exact hi)]
    split_ifs
    · intro _; exact ht
    · exact hb2 j hj

/-- The states `ps_create_and_sub_timer_topic` can return: the one it was called in, the
one after the registration, the one after the subscription, or the one after the timer
event that follows the allocation of a free timer slot. -/
theorem create_timer_state_cases (path : List Nat) (a : actor_f) (info : List Nat)
    (tout_ms tick : Int) (s : PsState) :
    (ps_create_and_sub_timer_topic path a info tout_ms tick s).2.2 = s
      ∨ (ps_create_and_sub_timer_topic path a info tout_ms tick s).2.2
          = (ps_register_topic_publisher a PS_DTYPE_NONE path info 0 s).2.2
      ∨ (ps_create_and_sub_timer_topic path a info tout_ms tick s).2.2
          = (ps_sub_single_topic path PS_DTYPE_NONE a false true true true
              (ps_register_topic_publisher a PS_DTYPE_NONE path info 0 s).2.2).2.2.2
      ∨ ∃ i h p, i < PS_MAX_ACTORS_COUNT
          ∧ (ps_create_and_sub_timer_topic path a info tout_ms tick s).2.2
              = (ps_pub_timer_tout_event tick
                  ((ps_sub_single_topic path PS_DTYPE_NONE a false true true true
                    (ps_register_topic_publisher a PS_DTYPE_NONE path info 0 s).2.2).2.2.2.setTimer
                      i { u16Hash := h, xCreatorPublisher := a, duration_ms := tout_ms,
                          time_left_ms := tout_ms, periodic_flag := p })).2 := by
  unfold ps_create_and_sub_timer_topic
  dsimp only
  split_ifs with c1 c2 c3 c4
  · exact Or.inl rfl
  · exact Or.inl rfl
  · exact Or.inr (Or.inl rfl)
  · exact Or.inr (Or.inr (Or.inl rfl))
  · split
    · rename_i i hfind
      dsimp only
      exact Or.inr (Or.inr (Or.inr ⟨i, _, _, List.mem_range.1 (List.mem_of_find?_eq_some hfind),
        rfl⟩))
    · dsimp only
      exact Or.inr (Or.inr (Or.inl rfl))

theorem create_timer_bounded {s : PsState} (hlen : s.TimersArray.length = PS_MAX_TOPICS_COUNT)
    (hb : TimeLeftBounded s) (path : List Nat) (a : actor_f) (info : List Nat) (tout_ms : Int)
    {tick : Int} (he : 0 ≤ tick) :
    (ps_create_and_sub_timer_topic path a info tout_ms tick s).2.2.TimersArray.length
        = PS_MAX_TOPICS_COUNT
      ∧ TimeLeftBounded (ps_create_and_sub_timer_topic path a info tout_ms tick s).2.2 := by
  have ht : (ps_sub_single_topic path PS_DTYPE_NONE a false true true true
      (ps_register_topic_publisher a PS_DTYPE_NONE path info 0 s).2.2).2.2.2.TimersArray
      = s.TimersArray := by rw [sub_timers, register_timers]
  have hb2 := timeLeftBounded_congr ht hb
  have hlen2 : (ps_sub_single_topic path PS_DTYPE_NONE a false true true true
      (ps_register_topic_publisher a PS_DTYPE_NONE path info 0 s).2.2).2.2.2.TimersArray.length
      = PS_MAX_TOPICS_COUNT := by rw [ht]; exact hlen
  rcases create_timer_state_cases path a info tout_ms tick s with h | h | h | ⟨i, x, p, hi, h⟩
  · rw [h]; exact ⟨hlen, hb⟩
  · rw [h]
    exact ⟨by rw [register_timers]; exact hlen,
      timeLeftBounded_congr (register_timers _ _ _ _ _ _) hb⟩
  · rw [h]; exact ⟨hlen2, hb2⟩
  · rw [h]
    exact timer_alloc_bounded hlen2 hb2 hi _ (le_refl _) he

theorem psRun_timers : ∀ (calls : List PsCall) (s : PsState),
    s.TimersArray.length = PS_MAX_TOPICS_COUNT → TimeLeftBounded s →
    (∀ c ∈ calls, c.IsTimerCall) →
    (psRun calls s).TimersArray.length = PS_MAX_TOPICS_COUNT ∧ TimeLeftBounded (psRun calls s)
  | [], _, hlen, hb, _ => ⟨hlen, hb⟩
  | c :: cs, s, hlen, hb, hc => by
    have hc1 := hc c (List.mem_cons_self _ _)
    have hrest : ∀ x ∈ cs, x.IsTimerCall := fun x hx => hc x (List.mem_cons_of_mem _ hx)
    cases c with
    | create_and_sub_timer_topic path a info tout_ms tick =>
      obtain ⟨h1, h2⟩ := create_timer_bounded hlen hb path a info tout_ms
        (show 0 ≤ tick from hc1)
      exact psRun_timers cs _ h1 h2 hrest
    | pub_timer_tout_event tick =>
      obtain ⟨h1, h2⟩ := timer_event_bounded hlen hb (show 0 ≤ tick from hc1)
      exact psRun_timers cs _ h1 h2 hrest
    | _ => exact absurd hc1 (by simp [PsCall.IsTimerCall])

/-- C28: from a state in which every occupied timer slot has at most its duration left,
as at program start, `ps_init` followed by any run of `ps_create_and_sub_timer_topic`
and `ps_pub_timer_tout_event` calls during which `get_timer_tick_ms()` returns
non-negative values leads to a state in which every occupied timer slot has at most its
duration left. -/
theorem time_left_never_exceeds_duration (s0 : PsState)
    (hlen : s0.TimersArray.length = PS_MAX_TOPICS_COUNT) (h0 : TimeLeftBounded s0)
    (calls : List PsCall) (hcalls : ∀ c ∈ calls, c.IsTimerCall) :
    TimeLeftBounded (psRun calls (ps_init s0).2) :=
  (psRun_timers calls (ps_init s0).2 hlen h0 hcalls).2

set_option maxRecDepth 40000 in
/-- C28 (witness): the calls `demo_timer_calls` from program start; afterwards the
periodic timer has its whole duration left and the one-shot timer none. -/
theorem time_left_never_exceeds_duration_witness :
    TimeLeftBounded (psRun demo_timer_calls (ps_init PsState.static_zero).2)
      ∧ ((psRun demo_timer_calls (ps_init PsState.static_zero).2).timer 0).duration_ms = 300
      ∧ ((psRun demo_timer_calls (ps_init PsState.static_zero).2).timer 0).time_left_ms = 100
      ∧ ((psRun demo_timer_calls (ps_init PsState.static_zero).2).timer 1).duration_ms = 100
      ∧ ((psRun demo_timer_calls (ps_init PsState.static_zero).2).timer 1).time_left_ms
          = -100 :=
  ⟨time_left_never_exceeds_duration PsState.static_zero (by decide) (by decide)
      demo_timer_calls (by decide),
    by decide, by decide, by decide, by decide⟩

set_option maxRecDepth 40000 in
/-- C27 (witness): the two periodic timers of `demo_two_timer_state` have 300 ms and
120 ms left; an event after 50 ms leaves 250 ms and 70 ms and calls `restart_timer(70)`. -/
theorem restart_argument_is_shortest_time_left_witness :
    (ps_pub_timer_tout_event 50 demo_two_timer_state).1 = some 70
      ∧ ((ps_pub_timer_tout_event 50 demo_two_timer_state).2.timer 0).time_left_ms = 250
      ∧ ((ps_pub_timer_tout_event 50 demo_two_timer_state).2.timer 1).time_left_ms = 70
      ∧ ∃ i, i < PS_MAX_TOPICS_COUNT
          ∧ ((ps_pub_timer_tout_event 50 demo_two_timer_state).2.timer i).Active
          ∧ (ps_pub_timer_tout_event 50 demo_two_timer_state).1
              = some ((ps_pub_timer_tout_event 50 demo_two_timer_state).2.timer i).time_left_ms
          ∧ ∀ j, j < PS_MAX_TOPICS_COUNT →
              ((ps_pub_timer_tout_event 50 demo_two_timer_state).2.timer j).Active →
              ((ps_pub_timer_tout_event 50 demo_two_timer_state).2.timer i).time_left_ms
                ≤ ((ps_pub_timer_tout_event 50 demo_two_timer_state).2.timer j).time_left_ms :=
  ⟨by decide, by decide, by decide,
    restart_argument_is_shortest_time_left demo_two_timer_state (by decide) 50 (by decide)
      ⟨0, by decide, by decide⟩⟩

set_option maxRecDepth 40000 in
/-- C26: in `demo_timer_state` timer slot `0` belongs to the topic
`".srv.t_ms.tick.3s"` at hash `0`, created and subscribed by actor `300`. After the actor
has unsubscribed and unregistered as publisher the topic slot is free again, but the
timer slot is still occupied and still names hash `0`; the next timer events keep
counting it. -/
theorem timer_outlives_its_topic :
    (demo_timer_state.timer 0).duration_ms = 300
      ∧ (demo_timer_state.timer 0).u16Hash = 0
      ∧ (demo_timer_state.topic 0).pu8TopicPathStr.headD 0 ≠ 0
      ∧ (ps_unsub_topic tick_3s_path 300 demo_timer_state).1 = PS_RESULT_OK
      ∧ (ps_unregister_topic_publisher 300 0
          (ps_unsub_topic tick_3s_path 300 demo_timer_state).2).1 = PS_RESULT_OK
      ∧ ((ps_unregister_topic_publisher 300 0
          (ps_unsub_topic tick_3s_path 300 demo_timer_state).2).2.topic 0)
          = PsTopicStruct_s.zero
      ∧ ((ps_unregister_topic_publisher 300 0
          (ps_unsub_topic tick_3s_path 300 demo_timer_state).2).2.timer 0).duration_ms = 300
      ∧ ((ps_unregister_topic_publisher 300 0
          (ps_unsub_topic tick_3s_path 300 demo_timer_state).2).2.timer 0).u16Hash = 0
      ∧ (ps_pub_timer_tout_event 100 (ps_unregister_topic_publisher 300 0
          (ps_unsub_topic tick_3s_path 300 demo_timer_state).2).2).1 = some 200 := by
  decide

set_option maxRecDepth 40000 in
/-- C29: after `ps_init`, registering publisher `100` under the empty path returns
`PS_RESULT_OK` for hash `0` and leaves slot `0` with an empty path and the publisher
`100`; subscribing actor `200` to the empty path does the same with a subscriber. The
slot still counts as free: a registration of publisher `101` under `".foo"` takes it,
and the topic `".foo"` then has the publishers `100` and `101`. -/
theorem empty_path_leaves_actor_in_free_slot :
    (ps_register_topic_publisher 100 PS_DTYPE_U8 [] [] 0 init_state).1 = PS_RESULT_OK
      ∧ (ps_register_topic_publisher 100 PS_DTYPE_U8 [] [] 0 init_state).2.1 = some 0
      ∧ ((ps_register_topic_publisher 100 PS_DTYPE_U8 [] [] 0
          init_state).2.2.topic 0).pu8TopicPathStr.headD 0 = 0
      ∧ ((ps_register_topic_publisher 100 PS_DTYPE_U8 [] [] 0
          init_state).2.2.topic 0).pxPublishers = [100, 0, 0]
      ∧ (ps_sub_single_topic [] PS_DTYPE_U8 200 false false false false init_state).1
          = PS_RESULT_OK
      ∧ ((ps_sub_single_topic [] PS_DTYPE_U8 200 false false false false
          init_state).2.2.2.topic 0).pu8TopicPathStr.headD 0 = 0
      ∧ ((ps_sub_single_topic [] PS_DTYPE_U8 200 false false false false
          init_state).2.2.2.topic 0).pxSubscribers = [200, 0, 0]
      ∧ (ps_find_topic (ps_register_topic_publisher 100 PS_DTYPE_U8 [] [] 0 init_state).2.2
          none 0) = (PS_RESULT_OK, 0)
      ∧ ((ps_register_topic_publisher 101 PS_DTYPE_U8 foo_path [] 0
          (ps_register_topic_publisher 100 PS_DTYPE_U8 [] [] 0
            init_state).2.2).2.2.topic 0).pxPublishers = [100, 101, 0] := by
  decide

theorem slotCalls_range {s : PsState} (hwf : s.WF) (msg : PsMsgStruct_s) :
    slotCalls s msg (List.range PS_MAX_ACTORS_COUNT) = deliveries s msg := by
  obtain ⟨x, y, z, hxyz⟩ := list_len3 (topic_WF hwf msg.xTopicHash).2.2.1
  simp only [List.range, List.range.loop, slotCalls, deliveries, hxyz]
  by_cases hx : x = 0 <;> by_cases hy : y = 0 <;> by_cases hz : z = 0 <;>
    simp [hx, hy, hz, List.filter_cons, NULL]

theorem deliveries_count (s : PsState) (msg : PsMsgStruct_s) {A : actor_f} (hA : A ≠ NULL) :
    (deliveries s msg).countP (fun c => c.actor == A)
      = (s.topic msg.xTopicHash).pxSubscribers.count A := by
  unfold deliveries
  rw [List.countP_map]
  generalize (s.topic msg.xTopicHash).pxSubscribers = l
  induction l with
  | nil => rfl
  | cons x l ih =>
    by_cases hx : x = NULL
    · have hxa : ¬ x = A := fun h => hA (h ▸ hx)
      simp only [List.filter_cons, hx, bne_self_eq_false, Bool.false_eq_true, if_false]
      rw [ih, List.count_cons]
      have : (NULL == A) = false := by
        rw [beq_eq_false_iff_ne]; exact fun h => hA h.symm
      simp [this]
    · have hb : (x != NULL) = true := by simpa using hx
      simp only [List.filter_cons, hb, if_true, List.countP_cons, Function.comp, List.count_cons]
      rw [ih]

/-- The fan-out of `ps_loop` with a publishing actor: the invocations are those for the
topic table at the start, and every invocation of `A` appends one frame to the queue. -/
theorem loop_actors_publishing {s : PsState} {A P : actor_f} {h len : Nat} {mem : Nat → Nat}
    (hh : h < PS_MAX_TOPICS_COUNT) (hP : P ∈ (s.topic h).pxPublishers)
    (hmute : ∀ i, i < PS_MAX_ACTORS_COUNT → (s.topic h).pxPublishers.getD i NULL = P →
      (s.topic h).u8PublishersMute.getD i 0 = 0)
    (msg : PsMsgStruct_s) :
    ∀ (is : List Nat) (st : PsState) (calls : List ActorCall) (qs : List (List Nat)),
      st.WF → (∀ k, sameRegistration (st.topic k) (s.topic k)) → st.msg_queue.Holds qs →
      spanSum qs + (slotCalls s msg is).countP (fun c => c.actor == A)
        * (len + SIZEOF_PS_MSG_HDR + SIZEOF_CQ_ELEM_HEADER) ≤ st.msg_queue.totalSize →
      (ps_loop_actors (publishing_actor A P h len mem) msg is (st, calls)).2
          = calls ++ slotCalls s msg is
        ∧ (ps_loop_actors (publishing_actor A P h len mem) msg is (st, calls)).1.WF
        ∧ (∀ k, sameRegistration
            ((ps_loop_actors (publishing_actor A P h len mem) msg is (st, calls)).1.topic k)
            (s.topic k))
        ∧ (ps_loop_actors (publishing_actor A P h len mem) msg is (st, calls)).1.msg_queue.Holds
            (qs ++ List.replicate ((slotCalls s msg is).countP (fun c => c.actor == A))
              (pubFrame h len mem)) := by
  intro is
  induction is with
  | nil =>
    intro st calls qs hwf hreg hq _
    simp only [ps_loop_actors, slotCalls, List.filterMap_nil, List.append_nil, List.countP_nil,
      List.replicate_zero]
    exact ⟨trivial, hwf, hreg, hq⟩
  | cons i rest ih =>
    intro st calls qs hwf hreg hq hfit
    have hsub : (st.topic msg.xTopicHash).pxSubscribers = (s.topic msg.xTopicHash).pxSubscribers :=
      (hreg msg.xTopicHash).1
    have hdt : (st.topic msg.xTopicHash).xDtype = (s.topic msg.xTopicHash).xDtype :=
      (hreg msg.xTopicHash).2.2.2.1
    by_cases hnull : (s.topic msg.xTopicHash).pxSubscribers.getD i NULL = NULL
    · have hsc : slotCalls s msg (i :: rest) = slotCalls s msg rest := by
        simp only [slotCalls, List.filterMap_cons, hnull, ne_eq, not_true_eq_false, if_false]
      rw [hsc] at hfit ⊢
      have hstep : ps_loop_actors (publishing_actor A P h len mem) msg (i :: rest) (st, calls)
          = ps_loop_actors (publishing_actor A P h len mem) msg rest (st, calls) := by
        simp only [ps_loop_actors, hsub, hnull, ne_eq, not_true_eq_false, if_false]
      rw [hstep]
      exact ih st calls qs hwf hreg hq hfit
    · set c : ActorCall :=
        { actor := (s.topic msg.xTopicHash).pxSubscribers.getD i NULL,
          xTopicHash := msg.xTopicHash, pvMsg := msg.pu8Data, xMsgLendth := msg.xMsgLen,
          xMsgDataType := (s.topic msg.xTopicHash).xDtype } with hc
      have hsc : slotCalls s msg (i :: rest) = c :: slotCalls s msg rest := by
        simp only [slotCalls, List.filterMap_cons, hnull, ne_eq, not_false_eq_true, if_true, hc]
      have hstep : ps_loop_actors (publishing_actor A P h len mem) msg (i :: rest) (st, calls)
          = ps_loop_actors (publishing_actor A P h len mem) msg rest
              (publishing_actor A P h len mem c st, calls ++ [c]) := by
        simp only [ps_loop_actors, hsub, hdt, hnull, ne_eq, not_false_eq_true, if_true, hc]
      rw [hstep, hsc]
      rw [hsc] at hfit
      clear hstep hsc
      clear_value c
      by_cases hA : c.actor = A
      · have hcnt : (c :: slotCalls s msg rest).countP (fun c => c.actor == A)
            = (slotCalls s msg rest).countP (fun c => c.actor == A) + 1 := by
          have hb : (c.actor == A) = true := by rw [hA]; exact beq_self_eq_true A
          rw [List.countP_cons, hb, if_pos rfl]
        rw [hcnt] at hfit ⊢
        have hPst : P ∈ (st.topic h).pxPublishers := by rw [(hreg h).2.1]; exact hP
        have hmst : ∀ i, i < PS_MAX_ACTORS_COUNT → (st.topic h).pxPublishers.getD i NULL = P →
            (st.topic h).u8PublishersMute.getD i 0 = 0 := by
          rw [(hreg h).2.1, (hreg h).2.2.1]; exact hmute
        have hfree := hq.hfree
        obtain ⟨q, hp, hq1, hts⟩ := ps_pub_topic_enqueues hwf hPst hmst len mem hq (by
          have := Nat.succ_mul ((slotCalls s msg rest).countP (fun c => c.actor == A))
            (len + SIZEOF_PS_MSG_HDR + SIZEOF_CQ_ELEM_HEADER)
          rw [Nat.succ_eq_add_one] at this
          omega)
        have hact : publishing_actor A P h len mem c st = pubState st h len mem q := by
          unfold publishing_actor
          rw [if_pos hA, hp]
          rfl
        rw [hact]
        have h4 : SIZEOF_PS_MSG_HDR = 4 := rfl
        have h8 : SIZEOF_CQ_ELEM_HEADER = 8 := rfl
        obtain ⟨r1, r2, r3, r4⟩ := ih (pubState st h len mem q) (calls ++ [c])
          (qs ++ [pubFrame h len mem]) (pubState_WF hwf h len mem q)
          (fun k => sameRegistration_trans (pubState_sameRegistration hwf hh len mem q k) (hreg k))
          hq1 (by
            rw [spanSum_append]
            show _ ≤ q.totalSize
            rw [hts]
            simp only [elemSpan, pubFrame_length]
            have := Nat.succ_mul ((slotCalls s msg rest).countP (fun c => c.actor == A))
              (len + SIZEOF_PS_MSG_HDR + SIZEOF_CQ_ELEM_HEADER)
            rw [Nat.succ_eq_add_one] at this
            omega)
        refine ⟨by rw [r1, List.append_assoc]; rfl, r2, r3, ?_⟩
        rw [List.append_assoc] at r4
        rw [List.replicate_succ]
        exact r4
      · have hcnt : (c :: slotCalls s msg rest).countP (fun c => c.actor == A)
            = (slotCalls s msg rest).countP (fun c => c.actor == A) := by
          have hb : (c.actor == A) = false := by rw [beq_eq_false_iff_ne]; exact hA
          rw [List.countP_cons, hb]
          rfl
        rw [hcnt] at hfit ⊢
        have hact : publishing_actor A P h len mem c st = st := by
          unfold publishing_actor
          rw [if_neg hA]
        rw [hact]
        obtain ⟨r1, r2, r3, r4⟩ := ih st (calls ++ [c]) qs hwf hreg hq hfit
        exact ⟨by rw [r1, List.append_assoc]; rfl, r2, r3, r4⟩

/-- Passive `ps_loop` calls remove the queued elements one by one and leave the topic
table alone. -/
theorem loopDrain_holds : ∀ (es : List (List Nat)) (st : PsState) (rest : List (List Nat)),
    st.WF → st.msg_queue.Holds (es ++ rest) →
    (loopDrain es.length st).WF ∧ (loopDrain es.length st).msg_queue.Holds rest
      ∧ (loopDrain es.length st).TopicsArray = st.TopicsArray
  | [], _, _, hwf, hq => ⟨hwf, hq, rfl⟩
  | e :: es, st, rest, hwf, hq => by
    obtain ⟨q, hl, hq1⟩ := ps_loop_front hwf (show st.msg_queue.Holds (e :: (es ++ rest)) from hq)
    have hstep : loopDrain (e :: es).length st
        = loopDrain es.length ({ st with msg_queue := q } : PsState) := by
      show loopDrain es.length (ps_loop passive_actors st).2.2 = _
      rw [hl]
    rw [hstep]
    exact loopDrain_holds es ({ st with msg_queue := q } : PsState) rest hwf hq1

/-- C30: the front message of the queue is being delivered by `ps_loop`, and the callback
of one of its subscribers, `A`, publishes a message of `len` bytes on topic `h` through
the registered, unmuted publisher `P`, for which the queue has room. Then this `ps_loop`
returns `1` and its invocations are exactly those for the front message; when it returns
the front message is removed and the queue holds the messages that were waiting behind
it followed by the new one; after as many further `ps_loop` calls as messages were
waiting, the next `ps_loop` hands the new message to the subscribers of topic `h` and
leaves the queue empty. -/
theorem handler_publish_is_delivered_by_later_loop (s : PsState) (hwf : s.WF)
    (e : List Nat) (es : List (List Nat)) (hq : s.msg_queue.Holds (e :: es))
    (A : actor_f) (hA : A ≠ NULL)
    (hcount : (s.topic (loopMsg e).xTopicHash).pxSubscribers.count A = 1)
    (P : actor_f) (h : Nat) (hh : h < PS_MAX_TOPICS_COUNT)
    (hP : P ∈ (s.topic h).pxPublishers)
    (hmute : ∀ i, i < PS_MAX_ACTORS_COUNT → (s.topic h).pxPublishers.getD i NULL = P →
      (s.topic h).u8PublishersMute.getD i 0 = 0)
    (len : Nat) (hlen : len ≤ PS_MAX_MESSAGE_PAYLOAD_LENGTH) (mem : Nat → Nat)
    (hfit : len + SIZEOF_PS_MSG_HDR + SIZEOF_CQ_ELEM_HEADER ≤ s.msg_queue.freeSize) :
    (ps_loop (publishing_actor A P h len mem) s).1 = 1
      ∧ (ps_loop (publishing_actor A P h len mem) s).2.1 = deliveries s (loopMsg e)
      ∧ (ps_loop (publishing_actor A P h len mem) s).2.2.msg_queue.Holds
          (es ++ [pubFrame h len mem])
      ∧ (ps_loop passive_actors
          (loopDrain es.length (ps_loop (publishing_actor A P h len mem) s).2.2)).1 = 1
      ∧ (ps_loop passive_actors
          (loopDrain es.length (ps_loop (publishing_actor A P h len mem) s).2.2)).2.1.map
            (fun c => c.actor)
          = (s.topic h).pxSubscribers.filter (fun x => x != NULL)
      ∧ (∀ c ∈ (ps_loop passive_actors
          (loopDrain es.length (ps_loop (publishing_actor A P h len mem) s).2.2)).2.1,
          c.xTopicHash = h ∧ c.pvMsg.take len = memBytes mem len ∧ c.xMsgLendth = len
            ∧ c.xMsgDataType = (s.topic h).xDtype)
      ∧ (ps_loop passive_actors
          (loopDrain es.length (ps_loop (publishing_actor A P h len mem) s).2.2)).2.2.msg_queue.Holds
          [] := by
  have h4 : SIZEOF_PS_MSG_HDR = 4 := rfl
  have h8 : SIZEOF_CQ_ELEM_HEADER = 8 := rfl
  have hne : e ≠ [] := hq.hne e (List.mem_cons_self _ _)
  have hpos : 0 < e.length := List.length_pos.2 hne
  have hg := cq_getFrontElement_holds hq (SIZEOF_PS_MSG_HDR + PS_MAX_MESSAGE_PAYLOAD_LENGTH)
  have hnz : min (SIZEOF_PS_MSG_HDR + PS_MAX_MESSAGE_PAYLOAD_LENGTH) e.length ≠ 0 := by
    simp only [ne_eq, Nat.min_eq_zero_iff]; omega
  have hcnt : (slotCalls s (loopMsg e) (List.range PS_MAX_ACTORS_COUNT)).countP
      (fun c => c.actor == A) = 1 := by
    rw [slotCalls_range hwf, deliveries_count s _ hA, hcount]
  have hfree := hq.hfree
  obtain ⟨r1, r2, r3, r4⟩ := @loop_actors_publishing s A P h len mem hh hP hmute (loopMsg e)
    (List.range PS_MAX_ACTORS_COUNT) s [] (e :: es) hwf (fun k => sameRegistration_refl _) hq
    (by rw [hcnt]; omega)
  rw [slotCalls_range hwf, List.nil_append] at r1
  rw [hcnt] at r4
  set st := (ps_loop_actors (publishing_actor A P h len mem) (loopMsg e)
    (List.range PS_MAX_ACTORS_COUNT) (s, [])).1 with hst
  have hloop : ps_loop (publishing_actor A P h len mem) s
      = (1, deliveries s (loopMsg e),
          { st with msg_queue := (cq_deleteFrontElement st.msg_queue).2 }) := by
    simp only [ps_loop, hg, ne_eq, hnz, not_false_eq_true, if_true]
    show ((1 : Int), (ps_loop_actors (publishing_actor A P h len mem) (loopMsg e)
      (List.range PS_MAX_ACTORS_COUNT) (s, [])).2, _) = _
    rw [r1]
    rfl
  have hd := (cq_deleteFrontElement_holds
    (show st.msg_queue.Holds (e :: (es ++ [pubFrame h len mem])) from r4)).2
  rw [hloop]
  set R : PsState := { st with msg_queue := (cq_deleteFrontElement st.msg_queue).2 } with hR
  have hwfR : R.WF := r2
  obtain ⟨d1, d2, d3⟩ := loopDrain_holds es R [pubFrame h len mem] hwfR hd
  obtain ⟨q, hl, hq2⟩ := ps_loop_front d1 d2
  have htop : (loopDrain es.length R).topic h = st.topic h := by
    unfold PsState.topic; rw [d3]
  obtain ⟨c1, c2⟩ := deliveries_pubFrame (loopDrain es.length R) mem hh hlen
  rw [htop, (r3 h).1] at c1
  refine ⟨rfl, rfl, hd, ?_, ?_, ?_, ?_⟩
  · show (ps_loop passive_actors (loopDrain es.length R)).1 = 1
    rw [hl]
  · show (ps_loop passive_actors (loopDrain es.length R)).2.1.map _ = _
    rw [hl]; exact c1
  · intro c hc
    have hc' : c ∈ deliveries (loopDrain es.length R) (loopMsg (pubFrame h len mem)) := by
      have : (ps_loop passive_actors (loopDrain es.length R)).2.1
          = deliveries (loopDrain es.length R) (loopMsg (pubFrame h len mem)) := by rw [hl]
      rw [← this]; exact hc
    obtain ⟨e1, e2, e3, e4⟩ := c2 c hc'
    exact ⟨e1, e2, e3, by rw [e4, htop, (r3 h).2.2.2.1]⟩
  · show (ps_loop passive_actors (loopDrain es.length R)).2.2.msg_queue.Holds []
    rw [hl]; exact hq2

set_option maxRecDepth 40000 in
/-- The queue of `demo_state` after actor `100` published one byte on `".demo"`. -/
theorem demo_one_message_queue :
    (ps_pub_topic 100 0 1 (some demo_mem) demo_state).2.msg_queue.Holds
      [pubFrame 0 1 demo_mem] :=
  (pubRun_holds (show 0 < PS_MAX_TOPICS_COUNT by decide) demo_mem [1] demo_state []
    demo_state_WF (show 100 ∈ (demo_state.topic 0).pxPublishers by decide) (by decide)
    demo_state_queue (by decide)).2

set_option maxRecDepth 40000 in
/-- C30 (witness): one message is waiting on `".demo"`; the callback of its subscriber
`200` publishes two bytes on `".demo"` through publisher `100` while `ps_loop` delivers
the first message. -/
theorem handler_publish_is_delivered_by_later_loop_witness :
    (ps_loop (publishing_actor 200 100 0 2 demo_mem2)
        (ps_pub_topic 100 0 1 (some demo_mem) demo_state).2).2.1.map (fun c => c.xMsgLendth) = [1]
      ∧ (ps_loop (publishing_actor 200 100 0 2 demo_mem2)
        (ps_pub_topic 100 0 1 (some demo_mem) demo_state).2).2.2.msg_queue.Holds
          [pubFrame 0 2 demo_mem2]
      ∧ (ps_loop passive_actors (ps_loop (publishing_actor 200 100 0 2 demo_mem2)
        (ps_pub_topic 100 0 1 (some demo_mem) demo_state).2).2.2).2.1.map (fun c => c.actor)
          = [200] :=
  have h := handler_publish_is_delivered_by_later_loop
    (ps_pub_topic 100 0 1 (some demo_mem) demo_state).2 (by decide) (pubFrame 0 1 demo_mem) []
    demo_one_message_queue 200 (by decide) (by decide) 100 0 (by decide) (by decide) (by decide)
    2 (by decide) demo_mem2 (by decide)
  ⟨by decide, h.2.2.1, h.2.2.2.2.1.trans (by decide)⟩

theorem actorsDistinct_three (x y z : actor_f) :
    ActorsDistinct [x, y, z]
      ↔ (x ≠ NULL → x ≠ y ∧ x ≠ z) ∧ (y ≠ NULL → y ≠ x ∧ y ≠ z)
          ∧ (z ≠ NULL → z ≠ x ∧ z ≠ y) := by
  unfold ActorsDistinct
  constructor
  · intro h
    exact ⟨fun hx => ⟨h 0 (by decide) 1 (by decide) (by decide) hx,
              h 0 (by decide) 2 (by decide) (by decide) hx⟩,
           fun hy => ⟨h 1 (by decide) 0 (by decide) (by decide) hy,
              h 1 (by decide) 2 (by decide) (by decide) hy⟩,
           fun hz => ⟨h 2 (by decide) 0 (by decide) (by decide) hz,
              h 2 (by decide) 1 (by decide) (by decide) hz⟩⟩
  · rintro ⟨h1, h2, h3⟩ i hi j hj hij hn
    have h3c : PS_MAX_ACTORS_COUNT = 3 := rfl
    have hi3 : i = 0 ∨ i = 1 ∨ i = 2 := by omega
    have hj3 : j = 0 ∨ j = 1 ∨ j = 2 := by omega
    rcases hi3 with rfl | rfl | rfl <;> rcases hj3 with rfl | rfl | rfl <;>
      first
        | exact absurd rfl hij
        | exact (h1 hn).1 | exact (h1 hn).2 | exact (h2 hn).1 | exact (h2 hn).2
        | exact (h3 hn).1 | exact (h3 hn).2

theorem actorsDistinct_zero : ActorsDistinct (List.replicate PS_MAX_ACTORS_COUNT NULL) := by
  decide

theorem zero_topicOK : TopicOK PsTopicStruct_s.zero :=
  ⟨zero_topic_WF, actorsDistinct_zero, actorsDistinct_zero⟩

/-- The array `ps_register_actor` leaves behind has the same size and no duplicates. -/
theorem register_actor_distinct {l : List actor_f} (hl : l.length = PS_MAX_ACTORS_COUNT)
    (hd : ActorsDistinct l) (a : actor_f) :
    (ps_register_actor l a).2.1.length = PS_MAX_ACTORS_COUNT
      ∧ ActorsDistinct (ps_register_actor l a).2.1 := by
  by_cases ha : a ∈ l
  · rw [(register_actor_of_mem hl ha).2]; exact ⟨hl, hd⟩
  · obtain ⟨x, y, z, rfl⟩ := list_len3 hl
    simp only [List.mem_cons, List.mem_singleton, not_or, List.not_mem_nil, or_false] at ha
    obtain ⟨a1, a2, a3⟩ := ha
    rw [actorsDistinct_three] at hd
    obtain ⟨d1, d2, d3⟩ := hd
    have hn : a ≠ NULL ∨ a = NULL := by
      by_cases h : a = NULL
      · exact Or.inr h
      · exact Or.inl h
    have e1 : ps_find_actor [x, y, z] a 0 = (PS_RESULT_NOT_FOUND, 0) :=
      find_actor_not_mem hl (by simp [a1, a2, a3]) 0
    simp only [ps_register_actor, e1, reduceCtorEq, if_false]
    by_cases hx : x = NULL
    · have e2 : ps_find_actor [x, y, z] NULL 0 = (PS_RESULT_OK, 0) := by
        simp [ps_find_actor, ps_find_actor_loop, List.range, List.range.loop, hx]
      simp only [e2, if_true, List.set_cons_zero]
      refine ⟨rfl, ?_⟩
      rw [actorsDistinct_three]
      exact ⟨fun _ => ⟨a2, a3⟩, fun hy => ⟨fun h => a2 h.symm, (d2 hy).2⟩,
        fun hz => ⟨fun h => a3 h.symm, (d3 hz).2⟩⟩
    · by_cases hy : y = NULL
      · have e2 : ps_find_actor [x, y, z] NULL 0 = (PS_RESULT_OK, 1) := by
          have hx' : ¬ NULL = x := fun h => hx h.symm
          simp [ps_find_actor, ps_find_actor_loop, List.range, List.range.loop, hx', hy]
        simp only [e2, if_true, List.set_cons_succ, List.set_cons_zero]
        refine ⟨rfl, ?_⟩
        rw [actorsDistinct_three]
        exact ⟨fun hx => ⟨fun h => a1 h.symm, (d1 hx).2⟩, fun _ => ⟨a1, a3⟩,
          fun hz => ⟨(d3 hz).1, fun h => a3 h.symm⟩⟩
      · by_cases hz : z = NULL
        · have e2 : ps_find_actor [x, y, z] NULL 0 = (PS_RESULT_OK, 2) := by
            have hx' : ¬ NULL = x := fun h => hx h.symm
            have hy' : ¬ NULL = y := fun h => hy h.symm
            simp [ps_find_actor, ps_find_actor_loop, List.range, List.range.loop, hx', hy', hz]
          simp only [e2, if_true, List.set_cons_succ, List.set_cons_zero]
          refine ⟨rfl, ?_⟩
          rw [actorsDistinct_three]
          exact ⟨fun hx => ⟨(d1 hx).1, fun h => a1 h.symm⟩,
            fun hy => ⟨(d2 hy).1, fun h => a2 h.symm⟩, fun _ => ⟨a1, a2⟩⟩
        · have e2 : ps_find_actor [x, y, z] NULL 0 = (PS_RESULT_NOT_FOUND, 0) :=
            find_actor_not_mem hl (by
              simp only [List.mem_cons, List.mem_singleton, List.not_mem_nil, or_false, not_or]
              exact ⟨fun h => hx h.symm, fun h => hy h.symm, fun h => hz h.symm⟩) 0
          simp only [e2, reduceCtorEq, if_false]
          refine ⟨rfl, ?_⟩
          rw [actorsDistinct_three]
          exact ⟨d1, d2, d3⟩

/-- Clearing a slot keeps the size and introduces no duplicate. -/
theorem set_null_distinct {l : List actor_f} (hl : l.length = PS_MAX_ACTORS_COUNT)
    (hd : ActorsDistinct l) (i : Nat) :
    (l.set i NULL).length = PS_MAX_ACTORS_COUNT ∧ ActorsDistinct (l.set i NULL) := by
  refine ⟨by rw [List.length_set]; exact hl, ?_⟩
  obtain ⟨x, y, z, rfl⟩ := list_len3 hl
  rw [actorsDistinct_three] at hd
  obtain ⟨d1, d2, d3⟩ := hd
  rcases i with _ | _ | _ | i
  · simp only [List.set_cons_zero]
    rw [actorsDistinct_three]
    exact ⟨fun h => absurd rfl h, fun hy => ⟨fun h => hy h, (d2 hy).2⟩,
      fun hz => ⟨fun h => hz h, (d3 hz).2⟩⟩
  · simp only [List.set_cons_succ, List.set_cons_zero]
    rw [actorsDistinct_three]
    exact ⟨fun hx => ⟨fun h => hx h, (d1 hx).2⟩, fun h => absurd rfl h,
      fun hz => ⟨(d3 hz).1, fun h => hz h⟩⟩
  · simp only [List.set_cons_succ, List.set_cons_zero]
    rw [actorsDistinct_three]
    exact ⟨fun hx => ⟨(d1 hx).1, fun h => hx h⟩, fun hy => ⟨(d2 hy).1, fun h => hy h⟩,
      fun h => absurd rfl h⟩
  · simp only [List.set_cons_succ, List.set_nil]
    rw [actorsDistinct_three]
    exact ⟨d1, d2, d3⟩

theorem tableOK_WF {s : PsState} (hs : TableOK s) : s.WF :=
  ⟨hs.1, fun t ht => (hs.2 t ht).1⟩

theorem topicOK_topic {s : PsState} (hs : TableOK s) (h : Nat) : TopicOK (s.topic h) := by
  unfold PsState.topic
  by_cases hh : h < s.TopicsArray.length
  · rw [List.getD_eq_getElem _ _ hh]
    exact hs.2 _ (List.getElem_mem _)
  · rw [List.getD_eq_default _ _ (by omega)]
    exact zero_topicOK

theorem tableOK_setTopic {s : PsState} (hs : TableOK s) (h : Nat) {t : PsTopicStruct_s}
    (ht : TopicOK t) : TableOK (s.setTopic h t) := by
  refine ⟨by simpa [PsState.setTopic] using hs.1, ?_⟩
  intro u hu
  simp only [PsState.setTopic] at hu
  rcases List.mem_or_eq_of_mem_set hu with h1 | h1
  · exact hs.2 _ h1
  · rw [h1]; exact ht

theorem tableOK_congr {s s1 : PsState} (h : s1.TopicsArray = s.TopicsArray) (hs : TableOK s) :
    TableOK s1 := by
  unfold TableOK; rw [h]; exact hs

theorem tableOK_noDuplicate {s : PsState} (hs : TableOK s) : NoDuplicateActors s :=
  fun k _ => (topicOK_topic hs k).2

theorem tableOK_pub {s : PsState} (hs : TableOK s) (a : actor_f) (h len : Nat)
    (pv : Option (Nat → Nat)) : TableOK (ps_pub_topic a h len pv s).2 := by
  obtain ⟨⟨w1, w2, w3, w4, w5, w6⟩, d1, d2⟩ := topicOK_topic hs h
  have ht : TopicOK { s.topic h with xLastMsg :=
      (match pv with
        | some mem => { { (s.topic h).xLastMsg with xTopicHash := h, xMsgLen := len } with
            pu8Data := memBytes mem PS_MAX_MESSAGE_PAYLOAD_LENGTH }
        | none => { (s.topic h).xLastMsg with xTopicHash := h, xMsgLen := len }) } := by
    refine ⟨⟨w1, w2, w3, w4, w5, ?_⟩, d1, d2⟩
    cases pv with
    | some mem => exact memBytes_length _ _
    | none => exact w6
  have hs1 := tableOK_setTopic hs h ht
  simp only [ps_pub_topic, topicPathStr_is_NULL, Bool.false_eq_true, if_false]
  split
  · exact hs1
  · split
    · split <;> exact hs1
    · exact hs1

theorem tableOK_report {s : PsState} (hs : TableOK s) (h : Nat) (pfx : List Nat) :
    TableOK (ps_report_topic_change h pfx s) := by
  unfold ps_report_topic_change
  split
  · exact tableOK_pub hs _ _ _ _
  · exact hs

theorem tableOK_init (s : PsState) : TableOK (ps_init s).2 := by
  refine ⟨by simp [ps_init], ?_⟩
  intro t ht
  have : t = PsTopicStruct_s.zero := by
    simp only [ps_init] at ht
    exact List.eq_of_mem_replicate ht
  rw [this]; exact zero_topicOK

theorem tableOK_register {s : PsState} (hs : TableOK s) (a : actor_f) (d : PsDataType_e)
    (path info : List Nat) (sticky : Nat) :
    TableOK (ps_register_topic_publisher a d path info sticky s).2.2 := by
  unfold ps_register_topic_publisher
  dsimp only
  split
  · -- the topic exists
    obtain ⟨⟨w1, w2, w3, w4, w5, w6⟩, d1, d2⟩ :=
      topicOK_topic hs (ps_find_topic s (some path) 0).2
    by_cases hp : ps_is_all_zero (s.topic (ps_find_topic s (some path) 0).2).pxPublishers = 0
    · simp only [hp, if_true, true_and]
      have hs1 : TableOK (s.setTopic (ps_find_topic s (some path) 0).2
          { s.topic (ps_find_topic s (some path) 0).2 with
            u8Sticky_flag :=
              (s.topic (ps_find_topic s (some path) 0).2).u8Sticky_flag ||| sticky }) :=
        tableOK_setTopic hs _ ⟨⟨w1, w2, w3, w4, w5, w6⟩, d1, d2⟩
      obtain ⟨r1, r2⟩ := register_actor_distinct w4 d1 a
      split
      · exact hs1
      · split
        · refine tableOK_setTopic hs1 _ ?_
          exact ⟨⟨w1, w2, w3, r1, w5, w6⟩, r2, d2⟩
        · exact hs1
    · simp only [hp, if_false, false_and]
      obtain ⟨r1, r2⟩ := register_actor_distinct w4 d1 a
      split
      · refine tableOK_setTopic hs _ ?_
        exact ⟨⟨w1, w2, w3, r1, w5, w6⟩, r2, d2⟩
      · exact hs
  · -- the topic is created
    obtain ⟨⟨w1, w2, w3, w4, w5, w6⟩, d1, d2⟩ :=
      topicOK_topic hs (ps_find_topic s none (ps_find_topic s (some path) 0).2).2
    have hs1 : TableOK (s.setTopic (ps_find_topic s none (ps_find_topic s (some path) 0).2).2
        { s.topic (ps_find_topic s none (ps_find_topic s (some path) 0).2).2 with
          u8Sticky_flag := sticky, xDtype := d }) :=
      tableOK_setTopic hs _ ⟨⟨w1, w2, w3, w4, w5, w6⟩, d1, d2⟩
    obtain ⟨r1, r2⟩ := register_actor_distinct w4 d1 a
    split
    · split
      · refine tableOK_report (tableOK_setTopic hs1 _ ?_) _ _
        exact ⟨⟨strncpy_length _ _, strncpy_length _ _, w3, r1, w5, w6⟩, r2, d2⟩
      · exact hs1
    · exact hs

theorem tableOK_manage {s : PsState} (hs : TableOK s) (h : Nat) :
    TableOK (ps_manage_topic h s).2 := by
  simp only [ps_manage_topic, topicPathStr_is_NULL, Bool.false_eq_true, if_false]
  split
  · exact hs
  · apply tableOK_setTopic _ _ zero_topicOK
    split
    · exact tableOK_report hs _ _
    · exact tableOK_report hs _ _

theorem tableOK_unregister {s : PsState} (hs : TableOK s) (a : actor_f) (h : Nat) :
    TableOK (ps_unregister_topic_publisher a h s).2 := by
  obtain ⟨⟨w1, w2, w3, w4, w5, w6⟩, d1, d2⟩ := topicOK_topic hs h
  simp only [ps_unregister_topic_publisher, topicPathStr_is_NULL, Bool.false_eq_true, if_false]
  split
  · obtain ⟨r1, r2⟩ := set_null_distinct w4 d1 (ps_find_actor (s.topic h).pxPublishers a 0).2
    refine tableOK_manage (tableOK_setTopic hs _ ?_) _
    exact ⟨⟨w1, w2, w3, r1, by rw [List.length_set]; exact w5, w6⟩, r2, d2⟩
  · exact hs

theorem tableOK_pub_with_registration {s : PsState} (hs : TableOK s) (a : actor_f)
    (d : PsDataType_e) (path info : List Nat) (sticky len : Nat) (pv : Option (Nat → Nat))
    (b : Bool) :
    TableOK (ps_pub_topic_with_registration a d path info sticky len pv b s).2.2 := by
  unfold ps_pub_topic_with_registration
  dsimp only
  split
  · exact tableOK_register hs _ _ _ _ _
  · exact tableOK_pub (tableOK_register hs _ _ _ _ _) _ _ _ _

theorem tableOK_sub_actor {s1 : PsState} (hs1 : TableOK s1) (h : Nat) (a : actor_f) :
    TableOK (s1.setTopic h { s1.topic h with
      pxSubscribers := (ps_register_actor (s1.topic h).pxSubscribers a).2.1 }) := by
  obtain ⟨⟨w1, w2, w3, w4, w5, w6⟩, d1, d2⟩ := topicOK_topic hs1 h
  obtain ⟨r1, r2⟩ := register_actor_distinct w3 d2 a
  refine tableOK_setTopic hs1 _ ?_
  exact ⟨⟨w1, w2, r1, w4, w5, w6⟩, d1, r2⟩

theorem tableOK_sub {s : PsState} (hs : TableOK s) (path : List Nat) (d : PsDataType_e)
    (a : actor_f) (b1 b2 b3 b4 : Bool) :
    TableOK (ps_sub_single_topic path d a b1 b2 b3 b4 s).2.2.2 := by
  unfold ps_sub_single_topic
  dsimp only
  by_cases hf : (ps_find_topic s (some path) 0).1 = PS_RESULT_NOT_FOUND
  · simp only [hf, if_true, true_and]
    obtain ⟨⟨w1, w2, w3, w4, w5, w6⟩, d1, d2⟩ := topicOK_topic hs
      (ps_find_topic s none (ps_find_topic s (some path) 0).2).2
    have hs1 : TableOK (ps_report_topic_change
        (ps_find_topic s none (ps_find_topic s (some path) 0).2).2 str_ADD
        (s.setTopic (ps_find_topic s none (ps_find_topic s (some path) 0).2).2
          { s.topic (ps_find_topic s none (ps_find_topic s (some path) 0).2).2 with
            pu8TopicPathStr := strncpy path PS_MAX_TOPIC_PATH_STR_LENGTH, xDtype := d })) := by
      refine tableOK_report (tableOK_setTopic hs _ ?_) _ _
      exact ⟨⟨strncpy_length _ _, w2, w3, w4, w5, w6⟩, d1, d2⟩
    split
    · exact hs
    · split
      · exact tableOK_sub_actor hs1 _ _
      · exact hs1
  · simp only [hf, if_false, false_and]
    split
    · exact tableOK_sub_actor hs _ _
    · exact hs

theorem tableOK_unsub {s : PsState} (hs : TableOK s) (path : List Nat) (a : actor_f) :
    TableOK (ps_unsub_topic path a s).2 := by
  simp only [ps_unsub_topic, topicPathStr_is_NULL, Bool.false_eq_true, if_false]
  split
  · exact hs
  · obtain ⟨⟨w1, w2, w3, w4, w5, w6⟩, d1, d2⟩ :=
      topicOK_topic hs (ps_find_topic s (some path) 0).2
    split
    · obtain ⟨r1, r2⟩ := set_null_distinct w3 d2
        (ps_find_actor (s.topic (ps_find_topic s (some path) 0).2).pxSubscribers a 0).2
      refine tableOK_manage (tableOK_setTopic hs _ ?_) _
      exact ⟨⟨w1, w2, r1, w4, w5, w6⟩, d1, r2⟩
    · exact hs

theorem tableOK_mute_by_hash {s : PsState} (hs : TableOK s) (a : actor_f) (h flag : Nat) :
    TableOK (ps_pub_mute_by_hash a h flag s).2 := by
  obtain ⟨⟨w1, w2, w3, w4, w5, w6⟩, d1, d2⟩ := topicOK_topic hs h
  unfold ps_pub_mute_by_hash
  dsimp only
  split
  · exact hs
  · refine tableOK_setTopic hs _ ?_
    exact ⟨⟨w1, w2, w3, w4, by rw [List.length_set]; exact w5, w6⟩, d1, d2⟩

theorem tableOK_mute {s : PsState} (hs : TableOK s) (a : actor_f) (path : List Nat)
    (flag : Nat) : TableOK (ps_pub_mute a path flag s).2 := by
  unfold ps_pub_mute
  dsimp only
  split
  · exact hs
  · exact tableOK_mute_by_hash hs _ _ _

theorem tableOK_timer_slot {s : PsState} (hs : TableOK s) (e : Int) (i : Nat) (sh : Int) :
    TableOK (ps_timer_slot e i s sh).1 := by
  unfold ps_timer_slot
  dsimp only
  have hs1 : TableOK (s.setTimer i
      { s.timer i with time_left_ms := (s.timer i).time_left_ms - e }) := hs
  split
  · exact hs
  · split
    · split
      · exact tableOK_congr rfl (tableOK_pub hs1 _ _ _ _)
      · exact tableOK_pub hs1 _ _ _ _
    · exact hs1

theorem tableOK_timer_event {s : PsState} (hs : TableOK s) (e : Int) :
    TableOK (ps_pub_timer_tout_event e s).2 := by
  have hf : TableOK ((List.range PS_MAX_ACTORS_COUNT).foldl
      (fun acc i => ps_timer_slot e i acc.1 acc.2) (s, INT32_MAX)).1 := by
    show TableOK ([0, 1, 2].foldl (fun acc i => ps_timer_slot e i acc.1 acc.2) (s, INT32_MAX)).1
    simp only [List.foldl_cons, List.foldl_nil]
    exact tableOK_timer_slot (tableOK_timer_slot (tableOK_timer_slot hs _ _ _) _ _ _) _ _ _
  unfold ps_pub_timer_tout_event
  dsimp only
  split
  · exact hf
  · exact hf

theorem tableOK_setTimer {s : PsState} (hs : TableOK s) (i : Nat) (t : PsTimerStruct_s) :
    TableOK (s.setTimer i t) := hs

theorem tableOK_create_timer {s : PsState} (hs : TableOK s) (path : List Nat) (a : actor_f)
    (info : List Nat) (tout_ms tick : Int) :
    TableOK (ps_create_and_sub_timer_topic path a info tout_ms tick s).2.2 := by
  have h1 := tableOK_register hs a PS_DTYPE_NONE path info 0
  have h2 := tableOK_sub h1 path PS_DTYPE_NONE a false true true true
  rcases create_timer_state_cases path a info tout_ms tick s with h | h | h | ⟨i, x, p, _, h⟩
  · rw [h]; exact hs
  · rw [h]; exact h1
  · rw [h]; exact h2
  · rw [h]; exact tableOK_timer_event (tableOK_setTimer h2 _ _) _

theorem tableOK_create_tpc_change {s : PsState} (hs : TableOK s) (a : actor_f) :
    TableOK (ps_create_and_sub_tpc_change_topic a s).2 := by
  have h1 := tableOK_register hs NULL PS_DTYPE_STR PS_SYS_SERVICED_TOPICS_CHANGE_TOPIC
    tpc_change_info_str 0
  unfold ps_create_and_sub_tpc_change_topic
  dsimp only
  by_cases hf : (ps_find_topic s (some PS_SYS_SERVICED_TOPICS_CHANGE_TOPIC) 0).1
      = PS_RESULT_NOT_FOUND
  · simp only [hf, if_true, true_and]
    have hs1 : TableOK
        { (ps_register_topic_publisher NULL PS_DTYPE_STR PS_SYS_SERVICED_TOPICS_CHANGE_TOPIC
            tpc_change_info_str 0 s).2.2 with
          xTopic_tpc_cnhg := (ps_register_topic_publisher NULL PS_DTYPE_STR
            PS_SYS_SERVICED_TOPICS_CHANGE_TOPIC tpc_change_info_str 0 s).2.1.getD
              (ps_find_topic s (some PS_SYS_SERVICED_TOPICS_CHANGE_TOPIC) 0).2,
          u8Topic_tpc_cnhg_present_flag := 1 } := h1
    split
    · exact h1
    · split
      · exact tableOK_sub hs1 _ _ _ _ _ _ _
      · exact tableOK_sub hs1 _ _ _ _ _ _ _
  · simp only [hf, if_false, false_and]
    split
    · exact tableOK_sub hs _ _ _ _ _ _ _
    · exact tableOK_sub hs _ _ _ _ _ _ _

/-- Every call that is not `ps_loop` keeps the topic table free of duplicate actors. -/
theorem tableOK_psStep {s : PsState} (hs : TableOK s) (c : PsCall) : TableOK (psStep c s) := by
  cases c with
  | init => exact tableOK_init s
  | register_topic_publisher a d path info sticky => exact tableOK_register hs _ _ _ _ _
  | unregister_topic_publisher a h => exact tableOK_unregister hs _ _
  | pub_topic_with_registration a d path info sticky len pv b =>
    exact tableOK_pub_with_registration hs _ _ _ _ _ _ _ _
  | pub_topic a h len pv => exact tableOK_pub hs _ _ _ _
  | sub_single_topic path d a b1 b2 b3 b4 => exact tableOK_sub hs _ _ _ _ _ _ _
  | unsub_topic path a => exact tableOK_unsub hs _ _
  | create_and_sub_timer_topic path a info tout_ms tick =>
    exact tableOK_create_timer hs _ _ _ _ _
  | pub_timer_tout_event tick => exact tableOK_timer_event hs _
  | pub_mute a path flag => exact tableOK_mute hs _ _ _
  | pub_mute_by_hash a h flag => exact tableOK_mute_by_hash hs _ _ _
  | create_and_sub_tpc_change_topic a => exact tableOK_create_tpc_change hs _

theorem tableOK_psRun : ∀ (calls : List PsCall) {s : PsState}, TableOK s →
    TableOK (psRun calls s)
  | [], _, hs => hs
  | c :: cs, _, hs => tableOK_psRun cs (tableOK_psStep hs c)

theorem tableOK_loop_actors {act : ActorCall → PsState → PsState}
    (hact : ∀ c s, TableOK s → TableOK (act c s)) (msg : PsMsgStruct_s) :
    ∀ (is : List Nat) (s : PsState) (calls : List ActorCall), TableOK s →
      TableOK (ps_loop_actors act msg is (s, calls)).1 := by
  intro is
  induction is with
  | nil => intro s calls hs; exact hs
  | cons i rest ih =>
    intro s calls hs
    simp only [ps_loop_actors]
    split
    · exact ih _ _ (hact _ _ hs)
    · exact ih _ _ hs

theorem tableOK_loop {act : ActorCall → PsState → PsState}
    (hact : ∀ c s, TableOK s → TableOK (act c s)) {s : PsState} (hs : TableOK s) :
    TableOK (ps_loop act s).2.2 := by
  unfold ps_loop
  dsimp only
  split
  · exact tableOK_loop_actors hact _ _ _ _ hs
  · exact hs

theorem tableOK_apiStep {s : PsState} (hs : TableOK s) (c : ApiCall) :
    TableOK (apiStep c s) := by
  cases c with
  | call c => exact tableOK_psStep hs c
  | loop handler =>
    exact tableOK_loop (fun c st hst => tableOK_psRun (handler c st) hst) hs
  | check_subscriber handler a => exact tableOK_psRun _ hs

theorem tableOK_apiRun : ∀ (calls : List ApiCall) {s : PsState}, TableOK s →
    TableOK (apiRun calls s)
  | [], _, hs => hs
  | c :: cs, _, hs => tableOK_apiRun cs (tableOK_apiStep hs c)

/-- C25: in every state reached from `ps_init` by calls of the public interface,
including calls made by actor callbacks during `ps_loop`, no non-null actor handle
occurs in two slots of the publisher array or in two slots of the subscriber array of a
topic. -/
theorem no_duplicate_actors_reachable (s0 : PsState) (calls : List ApiCall) :
    NoDuplicateActors (apiRun calls (ps_init s0).2) :=
  tableOK_noDuplicate (tableOK_apiRun calls (tableOK_init s0))

theorem ps_pub_topic_result {s : PsState} (hwf : s.WF) {h : Nat}
    {a : actor_f} (ha : a ∈ (s.topic h).pxPublishers)
    (hmute : ∀ i, i < PS_MAX_ACTORS_COUNT → (s.topic h).pxPublishers.getD i NULL = a →
      (s.topic h).u8PublishersMute.getD i 0 = 0)
    (len : Nat) (mem : Nat → Nat) :
    (ps_pub_topic a h len (some mem) s).1
      = if (cq_addTailElement s.msg_queue (pubMsg h len mem).bytes
            (SIZEOF_PS_MSG_HDR + len)).1 = false
        then PS_RESULT_OUT_OF_MEM else PS_RESULT_OK := by
  obtain ⟨i, hi, hfi, hgi⟩ := find_actor_mem (topic_WF hwf h).2.2.2.1 ha 0
  have hm := hmute i hi hgi
  simp only [ps_pub_topic, topicPathStr_is_NULL, Bool.false_eq_true, if_false, hfi, hm,
    ne_eq, not_true_eq_false, if_true, PsState.setTopic, pubMsg]
  split <;> rfl

theorem has_enough_msg_space_iff (n : Nat) (hn : n + SIZEOF_CQ_ELEM_HEADER < SIZE_T_MOD)
    (s : PsState) :
    ps_has_enough_msg_space n s = 1 ↔ n + SIZEOF_CQ_ELEM_HEADER ≤ s.msg_queue.freeSize := by
  simp only [ps_has_enough_msg_space, cq_hasSpace, Nat.mod_eq_of_lt hn, ge_iff_le,
    decide_eq_true_eq]
  split
  · simp [*]
  · simp [*]

/-- C31 (amended): for a registered, unmuted publisher and a payload of at most
`PS_MAX_MESSAGE_PAYLOAD_LENGTH` bytes, `ps_pub_topic` returns `PS_RESULT_OK` when
`ps_has_enough_msg_space` accepts the payload length plus the 4 bytes of the message
header and `PS_RESULT_OUT_OF_MEM` when it does not; asking for the payload length alone
is accepted while the publish is refused exactly when the free size is at least
`len + 8` and less than `len + 12`. -/
theorem has_enough_space_counts_message_header {s : PsState} (hwf : s.WF) {h : Nat}
    {a : actor_f} (ha : a ∈ (s.topic h).pxPublishers)
    (hmute : ∀ i, i < PS_MAX_ACTORS_COUNT → (s.topic h).pxPublishers.getD i NULL = a →
      (s.topic h).u8PublishersMute.getD i 0 = 0)
    (len : Nat) (hlen : len ≤ PS_MAX_MESSAGE_PAYLOAD_LENGTH) (mem : Nat → Nat) :
    (ps_has_enough_msg_space (len + SIZEOF_PS_MSG_HDR) s = 1 →
        (ps_pub_topic a h len (some mem) s).1 = PS_RESULT_OK)
      ∧ (ps_has_enough_msg_space (len + SIZEOF_PS_MSG_HDR) s ≠ 1 →
        (ps_pub_topic a h len (some mem) s).1 = PS_RESULT_OUT_OF_MEM)
      ∧ ((ps_has_enough_msg_space len s = 1
            ∧ (ps_pub_topic a h len (some mem) s).1 = PS_RESULT_OUT_OF_MEM)
          ↔ (len + SIZEOF_CQ_ELEM_HEADER ≤ s.msg_queue.freeSize
            ∧ s.msg_queue.freeSize < len + SIZEOF_PS_MSG_HDR + SIZEOF_CQ_ELEM_HEADER)) := by
  have h4 : SIZEOF_PS_MSG_HDR = 4 := rfl
  have h8 : SIZEOF_CQ_ELEM_HEADER = 8 := rfl
  have h64 : PS_MAX_MESSAGE_PAYLOAD_LENGTH = 64 := rfl
  have hM : SIZE_T_MOD = 18446744073709551616 := rfl
  have hres := ps_pub_topic_result hwf ha hmute len mem
  have hsp := has_enough_msg_space_iff (len + SIZEOF_PS_MSG_HDR) (by omega) s
  have hsp0 := has_enough_msg_space_iff len (by omega) s
  have hok : len + SIZEOF_PS_MSG_HDR + SIZEOF_CQ_ELEM_HEADER ≤ s.msg_queue.freeSize →
      (ps_pub_topic a h len (some mem) s).1 = PS_RESULT_OK := by
    intro hfit
    have hc := (cq_addTailElement_count s.msg_queue (pubMsg h len mem).bytes
      (SIZEOF_PS_MSG_HDR + len) (by omega) (by omega) (by omega)).1
    rw [hres, hc]; rfl
  have hno : s.msg_queue.freeSize < len + SIZEOF_PS_MSG_HDR + SIZEOF_CQ_ELEM_HEADER →
      (ps_pub_topic a h len (some mem) s).1 = PS_RESULT_OUT_OF_MEM := by
    intro hfull
    have hc := cq_addTailElement_full s.msg_queue (pubMsg h len mem).bytes
      (SIZEOF_PS_MSG_HDR + len) (by omega) (by omega)
    rw [hres, hc]; rfl
  refine ⟨fun h1 => hok (hsp.1 h1), fun h1 => hno ?_, ?_⟩
  · by_contra hcon
    exact h1 (hsp.2 (by omega))
  · constructor
    · rintro ⟨h1, h2⟩
      refine ⟨hsp0.1 h1, ?_⟩
      by_contra hcon
      rw [hok (by omega)] at h2
      exact absurd h2 (by decide)
    · rintro ⟨h1, h2⟩
      exact ⟨hsp0.2 h1, hno h2⟩

set_option maxRecDepth 20000 in
/-- C31 (witness): in `demo_state` actor `100` is the unmuted publisher of `".demo"` and
the queue is empty. -/
theorem has_enough_space_counts_message_header_witness :
    ps_has_enough_msg_space (1 + SIZEOF_PS_MSG_HDR) demo_state = 1
      ∧ (ps_pub_topic 100 0 1 (some demo_mem) demo_state).1 = PS_RESULT_OK :=
  ⟨by decide,
    (has_enough_space_counts_message_header demo_state_WF (show (100 : actor_f) ∈ _ by decide)
      (by decide) 1 (by decide) demo_mem).1 (by decide)⟩

set_option maxRecDepth 40000 in
/-- C31 (counterexample): in `demo_full_state` the queue has 36 free bytes; actor `100` is
the registered, unmuted publisher of the occupied topic `".demo"`,
`ps_has_enough_msg_space 28` answers `1`, and the publish of a 28-byte payload returns
`PS_RESULT_OUT_OF_MEM`. -/
theorem has_enough_space_then_publish_refused :
    demo_full_state.msg_queue.freeSize = 36
      ∧ (100 : actor_f) ∈ (demo_full_state.topic 0).pxPublishers
      ∧ (demo_full_state.topic 0).u8PublishersMute = [0, 0, 0]
      ∧ cstr (demo_full_state.topic 0).pu8TopicPathStr = demo_path
      ∧ ps_has_enough_msg_space 28 demo_full_state = 1
      ∧ (ps_pub_topic 100 0 28 (some demo_mem) demo_full_state).1 = PS_RESULT_OUT_OF_MEM := by
  decide

theorem cq_addTailElement_freeSize (q : CQ_S) (src : List Nat) (n : Nat) (hn : n ≠ 0)
    (hfit : n + SIZEOF_CQ_ELEM_HEADER ≤ q.freeSize) (hfree : q.freeSize < SIZE_T_MOD) :
    (cq_addTailElement q src n).2.freeSize + (n + SIZEOF_CQ_ELEM_HEADER) = q.freeSize := by
  have hmod : n + SIZEOF_CQ_ELEM_HEADER < SIZE_T_MOD := by omega
  have hsp : cq_hasSpace q n = true := by
    simp only [cq_hasSpace, Nat.mod_eq_of_lt hmod, decide_eq_true_eq]; omega
  simp only [cq_addTailElement, hn, hsp, if_false, Bool.not_true, Bool.false_eq_true,
    wrappedCopyToBuff_freeSize, Nat.mod_eq_of_lt hmod]
  have e : q.freeSize + SIZE_T_MOD - (n + SIZEOF_CQ_ELEM_HEADER)
      = (q.freeSize - (n + SIZEOF_CQ_ELEM_HEADER)) + SIZE_T_MOD := by omega
  rw [e, Nat.add_mod_right, Nat.mod_eq_of_lt (by omega)]
  omega

theorem ps_pub_topic_ok_eq {s : PsState} (hwf : s.WF) {h : Nat}
    {a : actor_f} (ha : a ∈ (s.topic h).pxPublishers)
    (hmute : ∀ i, i < PS_MAX_ACTORS_COUNT → (s.topic h).pxPublishers.getD i NULL = a →
      (s.topic h).u8PublishersMute.getD i 0 = 0)
    (len : Nat) (mem : Nat → Nat)
    (hmod : len + SIZEOF_PS_MSG_HDR + SIZEOF_CQ_ELEM_HEADER < SIZE_T_MOD)
    (hfit : len + SIZEOF_PS_MSG_HDR + SIZEOF_CQ_ELEM_HEADER ≤ s.msg_queue.freeSize) :
    ps_pub_topic a h len (some mem) s
      = (PS_RESULT_OK, pubState s h len mem
          (cq_addTailElement s.msg_queue (pubMsg h len mem).bytes
            (SIZEOF_PS_MSG_HDR + len)).2) := by
  obtain ⟨i, hi, hfi, hgi⟩ := find_actor_mem (topic_WF hwf h).2.2.2.1 ha 0
  have hm := hmute i hi hgi
  have h4 : SIZEOF_PS_MSG_HDR = 4 := rfl
  have hc := (cq_addTailElement_count s.msg_queue (pubMsg h len mem).bytes
    (SIZEOF_PS_MSG_HDR + len) (by omega) (by omega) (by omega)).1
  simp only [pubMsg] at hc
  simp only [ps_pub_topic, topicPathStr_is_NULL, Bool.false_eq_true, if_false, hfi, hm,
    ne_eq, not_true_eq_false, if_true, PsState.setTopic, hc, pubTopic, pubMsg, pubState,
    Bool.true_eq_false]

theorem memBytes_memOf_pad (l : List Nat) (n : Nat) (h : l.length ≤ n) :
    memBytes (memOf l) n = l ++ List.replicate (n - l.length) 0 := by
  apply List.ext_getElem
  · simp [memBytes]; omega
  · intro i h1 h2
    simp only [memBytes, memOf, List.getElem_map, List.getElem_range]
    by_cases hi : i < l.length
    · rw [List.getD_eq_getElem _ _ hi, List.getElem_append_left hi]
    · rw [List.getD_eq_default _ _ (by omega), List.getElem_append_right (by omega)]
      simp

theorem cstr_append_zero_length_le (l : List Nat) : (cstr (l ++ [0])).length ≤ l.length := by
  unfold cstr
  induction l with
  | nil => simp
  | cons x xs ih =>
    simp only [List.cons_append, List.takeWhile_cons]
    split
    · simp only [List.length_cons]; omega
    · simp

/-- The announcement published by `ps_report_topic_change` when the formatted text has
more than 63 characters: the message length is the length of the whole text, the
message buffer holds its first 63 characters and a terminator, and the queue element is
sized by the length of the whole text. -/
theorem report_long_text {s : PsState} (hwf : s.WF) {c : Nat} (hchg : ChangeTopicAt s c)
    (h : Nat) (pfx : List Nat) {str : List Nat}
    (hstr : topic_change_str pfx h (s.topic h) = str)
    (hlong : PS_MAX_MESSAGE_PAYLOAD_LENGTH - 1 < str.length) (h16 : str.length < 65536)
    (hfree : s.msg_queue.freeSize < SIZE_T_MOD)
    (hfit : str.length + SIZEOF_PS_MSG_HDR + SIZEOF_CQ_ELEM_HEADER ≤ s.msg_queue.freeSize) :
    ((ps_report_topic_change h pfx s).topic c).xLastMsg
        = { xTopicHash := c, xMsgLen := str.length,
            pu8Data := str.take (PS_MAX_MESSAGE_PAYLOAD_LENGTH - 1) ++ [0] }
      ∧ (ps_report_topic_change h pfx s).msg_queue.count = s.msg_queue.count + 1
      ∧ (ps_report_topic_change h pfx s).msg_queue.freeSize
          + (str.length + SIZEOF_PS_MSG_HDR + SIZEOF_CQ_ELEM_HEADER) = s.msg_queue.freeSize := by
  have h64 : PS_MAX_MESSAGE_PAYLOAD_LENGTH = 64 := rfl
  have h4 : SIZEOF_PS_MSG_HDR = 4 := rfl
  have h8 : SIZEOF_CQ_ELEM_HEADER = 8 := rfl
  have hM : SIZE_T_MOD = 18446744073709551616 := rfl
  obtain ⟨h1, h2, h3, h4', h5, h6⟩ := hchg
  have hp := all_null_eq (topic_WF hwf c).2.2.2.1 h5
  have hnull : NULL ∈ (s.topic c).pxPublishers := by rw [hp]; simp
  have hpub := ps_pub_topic_ok_eq hwf hnull (fun k hk _ => h6 k hk) str.length
    (memOf (str.take (PS_MAX_MESSAGE_PAYLOAD_LENGTH - 1))) (by omega) hfit
  have hm : str.length % 65536 = str.length := Nat.mod_eq_of_lt h16
  have hrep : ps_report_topic_change h pfx s
      = pubState s c str.length (memOf (str.take (PS_MAX_MESSAGE_PAYLOAD_LENGTH - 1)))
          (cq_addTailElement s.msg_queue
            (pubMsg c str.length (memOf (str.take (PS_MAX_MESSAGE_PAYLOAD_LENGTH - 1)))).bytes
            (SIZEOF_PS_MSG_HDR + str.length)).2 := by
    simp only [ps_report_topic_change, h1, ne_eq, not_false_eq_true, if_true, hstr, hm, h2]
    show (ps_pub_topic NULL c str.length
      (some (memOf (str.take (PS_MAX_MESSAGE_PAYLOAD_LENGTH - 1)))) s).2 = _
    rw [hpub]
  rw [hrep]
  refine ⟨?_, ?_, ?_⟩
  · have ht : (pubState s c str.length (memOf (str.take (PS_MAX_MESSAGE_PAYLOAD_LENGTH - 1)))
        (cq_addTailElement s.msg_queue
          (pubMsg c str.length (memOf (str.take (PS_MAX_MESSAGE_PAYLOAD_LENGTH - 1)))).bytes
          (SIZEOF_PS_MSG_HDR + str.length)).2).topic c
        = pubTopic (s.topic c) c str.length
            (memOf (str.take (PS_MAX_MESSAGE_PAYLOAD_LENGTH - 1))) :=
      topic_setTopic_self hwf h3 _
    rw [ht]
    have hl : (str.take (PS_MAX_MESSAGE_PAYLOAD_LENGTH - 1)).length = 63 := by
      rw [List.length_take]; omega
    simp only [pubTopic, pubMsg]
    rw [memBytes_memOf_pad _ _ (by omega), hl]
    rfl
  · exact (cq_addTailElement_count s.msg_queue _ _ (by omega) (by omega) (by omega)).2
  · have := cq_addTailElement_freeSize s.msg_queue
      (pubMsg c str.length (memOf (str.take (PS_MAX_MESSAGE_PAYLOAD_LENGTH - 1)))).bytes
      (SIZEOF_PS_MSG_HDR + str.length) (by omega) (by omega) hfree
    show (cq_addTailElement s.msg_queue _ _).2.freeSize + _ = _
    omega

/-- C32: when a change topic exists and a publisher registers a new topic whose path has
fewer than `PS_MAX_TOPIC_PATH_STR_LENGTH` characters but whose announcement
`ADD <hash> <path>[<type>]` has more than 63 characters, the registration returns
`PS_RESULT_OK` and the announcement message on the change topic has `xMsgLen` equal to
the length of the whole announcement, while its buffer holds only the first 63
characters and a terminator; the queue element takes the whole length plus 12 bytes. -/
theorem change_announcement_msgLen_is_untruncated {s : PsState} (hwf : s.WF) {c : Nat}
    (hchg : ChangeTopicAt s c) {path : List Nat}
    (hnew : (ps_find_topic s (some path) 0).1 = PS_RESULT_NOT_FOUND) {h : Nat}
    (hfree : ps_find_topic s none 0 = (PS_RESULT_OK, h))
    (hslot : ∀ x ∈ (s.topic h).pxPublishers, x = NULL) {a : actor_f} (ha : a ≠ NULL)
    (d : PsDataType_e) (info : List Nat) (sticky : Nat)
    (hplen : (cstr path).length < PS_MAX_TOPIC_PATH_STR_LENGTH)
    (hlong : PS_MAX_MESSAGE_PAYLOAD_LENGTH - 1 < (announcement str_ADD h (cstr path) d).length)
    (hq : s.msg_queue.freeSize < SIZE_T_MOD)
    (hfit : (announcement str_ADD h (cstr path) d).length + SIZEOF_PS_MSG_HDR
      + SIZEOF_CQ_ELEM_HEADER ≤ s.msg_queue.freeSize) :
    (ps_register_topic_publisher a d path info sticky s).1 = PS_RESULT_OK
      ∧ ((ps_register_topic_publisher a d path info sticky s).2.2.topic c).xLastMsg.xMsgLen
          = (announcement str_ADD h (cstr path) d).length
      ∧ ((ps_register_topic_publisher a d path info sticky s).2.2.topic c).xLastMsg.pu8Data
          = (announcement str_ADD h (cstr path) d).take (PS_MAX_MESSAGE_PAYLOAD_LENGTH - 1)
              ++ [0]
      ∧ (cstr ((ps_register_topic_publisher a d path info sticky s).2.2.topic c
            ).xLastMsg.pu8Data).length
          < ((ps_register_topic_publisher a d path info sticky s).2.2.topic c).xLastMsg.xMsgLen
      ∧ (ps_register_topic_publisher a d path info sticky s).2.2.msg_queue.count
          = s.msg_queue.count + 1
      ∧ (ps_register_topic_publisher a d path info sticky s).2.2.msg_queue.freeSize
          + ((announcement str_ADD h (cstr path) d).length + SIZEOF_PS_MSG_HDR
            + SIZEOF_CQ_ELEM_HEADER) = s.msg_queue.freeSize := by
  have h64 : PS_MAX_MESSAGE_PAYLOAD_LENGTH = 64 := rfl
  have hp64 : PS_MAX_TOPIC_PATH_STR_LENGTH = 64 := rfl
  have hh := find_topic_lt hfree
  have hhead := find_topic_none_spec hfree
  have hne : c ≠ h := by
    intro e; rw [e] at hchg; exact hchg.2.2.2.1 hhead
  have hwfa : (s.setTopic h { s.topic h with u8Sticky_flag := sticky, xDtype := d }).WF := by
    apply setTopic_WF hwf
    obtain ⟨w1, w2, w3, w4, w5, w6⟩ := topic_WF hwf h
    exact ⟨w1, w2, w3, w4, w5, w6⟩
  set s2 := (s.setTopic h { s.topic h with u8Sticky_flag := sticky, xDtype := d }).setTopic h
    (createdTopic (s.topic h) a d path info sticky) with hs2
  have hwf2 : s2.WF := setTopic_WF hwfa h (createdTopic_WF (topic_WF hwf h) _ _ _ _ _)
  have htoph : s2.topic h = createdTopic (s.topic h) a d path info sticky :=
    topic_setTopic_self hwfa hh _
  have htopc : s2.topic c = s.topic c := by
    rw [hs2, topic_setTopic_ne hwfa hh hne, topic_setTopic_ne hwf hh hne]
  have hchg2 : ChangeTopicAt s2 c :=
    changeTopicAt_of_same hchg rfl rfl (by rw [htopc]; exact sameRegistration_refl _)
  have hstr : topic_change_str str_ADD h (s2.topic h) = announcement str_ADD h (cstr path) d := by
    rw [htoph, topic_change_str_eq]
    show announcement (cstr str_ADD) h
      (cstr (strncpy path PS_MAX_TOPIC_PATH_STR_LENGTH
        ++ strncpy info PS_MAX_TOPIC_INFO_STR_LENGTH)) d = _
    rw [cstr_strncpy _ _ _ hplen]
    rfl
  have h16 : (announcement str_ADD h (cstr path) d).length < 65536 := by
    rw [announcement_length]
    have e1 := fmt_u_length_hash hh
    have e2 := fmt_u_length_dtype d
    have e3 : str_ADD.length = 3 := rfl
    omega
  have hq2 : s2.msg_queue.freeSize < SIZE_T_MOD := hq
  have hfit2 : (announcement str_ADD h (cstr path) d).length + SIZEOF_PS_MSG_HDR
      + SIZEOF_CQ_ELEM_HEADER ≤ s2.msg_queue.freeSize := hfit
  obtain ⟨r1, r2, r3⟩ := report_long_text hwf2 hchg2 h str_ADD hstr hlong h16 hq2 hfit2
  rw [register_fresh_eq hwf hnew hfree hslot ha]
  refine ⟨rfl, ?_, ?_, ?_, r2, r3⟩
  · show ((ps_report_topic_change h str_ADD s2).topic c).xLastMsg.xMsgLen = _
    rw [r1]
  · show ((ps_report_topic_change h str_ADD s2).topic c).xLastMsg.pu8Data = _
    rw [r1]
  · show (cstr ((ps_report_topic_change h str_ADD s2).topic c).xLastMsg.pu8Data).length
      < ((ps_report_topic_change h str_ADD s2).topic c).xLastMsg.xMsgLen
    rw [r1]
    have hle := cstr_append_zero_length_le ((announcement str_ADD h (cstr path) d).take
      (PS_MAX_MESSAGE_PAYLOAD_LENGTH - 1))
    have hl : ((announcement str_ADD h (cstr path) d).take
        (PS_MAX_MESSAGE_PAYLOAD_LENGTH - 1)).length ≤ 63 := by
      rw [List.length_take]; omega
    show (cstr ((announcement str_ADD h (cstr path) d).take
      (PS_MAX_MESSAGE_PAYLOAD_LENGTH - 1) ++ [0])).length
        < (announcement str_ADD h (cstr path) d).length
    omega

set_option maxRecDepth 40000 in
/-- C32 (witness): in `demo_chg_state` actor `100` registers a publisher for a new path of
60 characters; the announcement `ADD 1 <path>[1]` has 69 characters. -/
theorem change_announcement_msgLen_is_untruncated_witness :
    (cstr long_path).length = 60
      ∧ (ps_register_topic_publisher 100 PS_DTYPE_U8 long_path [] 0 demo_chg_state).1
          = PS_RESULT_OK
      ∧ ((ps_register_topic_publisher 100 PS_DTYPE_U8 long_path [] 0
          demo_chg_state).2.2.topic 0).xLastMsg.xMsgLen = 69
      ∧ (cstr ((ps_register_topic_publisher 100 PS_DTYPE_U8 long_path [] 0
          demo_chg_state).2.2.topic 0).xLastMsg.pu8Data).length = 63
      ∧ (ps_register_topic_publisher 100 PS_DTYPE_U8 long_path [] 0
          demo_chg_state).2.2.msg_queue.freeSize + 81 = demo_chg_state.msg_queue.freeSize :=
  have h := @change_announcement_msgLen_is_untruncated demo_chg_state demo_chg_state_WF 0
    (by decide) long_path (by decide) 1 (by decide) (by decide) 100 (by decide) PS_DTYPE_U8 [] 0
    (by decide) (by decide) (by decide) (by decide)
  ⟨by decide, h.1, h.2.1.trans (by decide), by rw [h.2.2.1]; decide, h.2.2.2.2.2⟩

theorem demo_pending_state_WF : demo_pending_state.WF := by decide

theorem check_topic_of_found {s : PsState} {path : List Nat} {h : Nat}
    (hfind : ps_find_topic s (some path) 0 = (PS_RESULT_OK, h)) :
    ps_check_topic path s
      = (PS_RESULT_OK, some ((s.topic h).xDtype,
          strncpy (s.topic h).pu8TopicInfoStr PS_MAX_TOPIC_INFO_STR_LENGTH, h)) := by
  simp only [ps_check_topic, hfind, ne_eq, not_true_eq_false, if_false]

/-- C33: when the path is found at a slot that has no publisher (a pending topic created
by a subscriber), `ps_register_topic_publisher` returns `PS_RESULT_OK` and the hash of
the slot for every data type, and it stores neither the data type nor the sticky flag
nor the info string of the publisher: the slot keeps what it had, and `ps_check_topic`
reports the data type the slot had before. -/
theorem register_on_pending_topic_keeps_old_type {s : PsState} (hwf : s.WF)
    {path : List Nat} {h : Nat}
    (hfind : ps_find_topic s (some path) 0 = (PS_RESULT_OK, h))
    (hpend : ∀ x ∈ (s.topic h).pxPublishers, x = NULL)
    (a : actor_f) (d : PsDataType_e) (info : List Nat) (sticky : Nat) :
    (ps_register_topic_publisher a d path info sticky s).1 = PS_RESULT_OK
      ∧ (ps_register_topic_publisher a d path info sticky s).2.1 = some h
      ∧ ((ps_register_topic_publisher a d path info sticky s).2.2.topic h).xDtype
          = (s.topic h).xDtype
      ∧ ((ps_register_topic_publisher a d path info sticky s).2.2.topic h).u8Sticky_flag
          = (s.topic h).u8Sticky_flag
      ∧ ((ps_register_topic_publisher a d path info sticky s).2.2.topic h).pu8TopicInfoStr
          = (s.topic h).pu8TopicInfoStr
      ∧ ps_check_topic path (ps_register_topic_publisher a d path info sticky s).2.2
          = (PS_RESULT_OK, some ((s.topic h).xDtype,
              strncpy (s.topic h).pu8TopicInfoStr PS_MAX_TOPIC_INFO_STR_LENGTH, h)) := by
  have hh := find_topic_lt hfind
  have hl := (topic_WF hwf h).2.2.2.1
  have hp := all_null_eq hl hpend
  have hz : ps_is_all_zero (s.topic h).pxPublishers ≠ 0 := by rw [hp]; decide
  have hnull : NULL ∈ (s.topic h).pxPublishers := by rw [hp]; simp
  have hra := (register_actor_of_free hl (a := a) hnull).1
  have hreg : ps_register_topic_publisher a d path info sticky s
      = (PS_RESULT_OK, some h, s.setTopic h
          { s.topic h with pxPublishers := (ps_register_actor (s.topic h).pxPublishers a).2.1 }) := by
    simp only [ps_register_topic_publisher, hfind, if_true, hz, if_false, false_and, hra,
      ne_eq, not_false_eq_true]
  rw [hreg]
  have ht : (s.setTopic h
      { s.topic h with pxPublishers := (ps_register_actor (s.topic h).pxPublishers a).2.1 }).topic h
      = { s.topic h with pxPublishers := (ps_register_actor (s.topic h).pxPublishers a).2.1 } :=
    topic_setTopic_self hwf hh _
  have hf2 : ps_find_topic (s.setTopic h
      { s.topic h with pxPublishers := (ps_register_actor (s.topic h).pxPublishers a).2.1 })
      (some path) 0 = (PS_RESULT_OK, h) := by
    exact (find_topic_setTopic_path s h
      { s.topic h with pxPublishers := (ps_register_actor (s.topic h).pxPublishers a).2.1 }
      rfl (some path) 0).trans hfind
  refine ⟨rfl, rfl, ?_, ?_, ?_, ?_⟩
  · show (PsState.topic _ h).xDtype = _
    rw [ht]
  · show (PsState.topic _ h).u8Sticky_flag = _
    rw [ht]
  · show (PsState.topic _ h).pu8TopicInfoStr = _
    rw [ht]
  · show ps_check_topic path (s.setTopic h _) = _
    rw [check_topic_of_found hf2, ht]

set_option maxRecDepth 40000 in
/-- C33 (witness): in `demo_pending_state` the topic `".foo"` was created by subscriber
`200` with type `PS_DTYPE_U8`; actor `100` registers as sticky publisher of `".foo"` with
type `PS_DTYPE_STR` and the info string `"temp"`. -/
theorem register_on_pending_topic_keeps_old_type_witness :
    (demo_pending_state.topic 0).pxSubscribers = [200, 0, 0]
      ∧ (demo_pending_state.topic 0).pxPublishers = [0, 0, 0]
      ∧ (ps_register_topic_publisher 100 PS_DTYPE_STR foo_path temp_info 1
          demo_pending_state).1 = PS_RESULT_OK
      ∧ (ps_register_topic_publisher 100 PS_DTYPE_STR foo_path temp_info 1
          demo_pending_state).2.1 = some 0
      ∧ ((ps_register_topic_publisher 100 PS_DTYPE_STR foo_path temp_info 1
          demo_pending_state).2.2.topic 0).pxPublishers = [100, 0, 0]
      ∧ ((ps_register_topic_publisher 100 PS_DTYPE_STR foo_path temp_info 1
          demo_pending_state).2.2.topic 0).u8Sticky_flag = 0
      ∧ ps_check_topic foo_path (ps_register_topic_publisher 100 PS_DTYPE_STR foo_path
          temp_info 1 demo_pending_state).2.2
          = (PS_RESULT_OK, some (PS_DTYPE_U8, List.replicate 64 0, 0)) :=
  have h := @register_on_pending_topic_keeps_old_type demo_pending_state demo_pending_state_WF
    foo_path 0 (by decide) (by decide) 100 PS_DTYPE_STR temp_info 1
  ⟨by decide, by decide, h.1, h.2.1, by decide, h.2.2.2.1.trans (by decide),
    h.2.2.2.2.2.trans (by decide)⟩

end PubSub
